import Mathlib

/-!
Kinetic shape reconstruction (CGAL `KSR_3`): a verification development.

Shallow embedding of parts of `CGAL/KSR_3/Event.h` and `CGAL/KSR_3/Data_structure.h`,
followed by theorems about them.

Conventions of the embedding.
* Scalars of the kernel (`FT`) are exact rationals; the rounding of `double` is not modelled.
* `std::size_t` indices and descriptors are natural numbers.
* A function that can trip a `CGAL_assertion` (or index a vector out of range) returns an
  `Option`; `none` is the failed assertion.
* `std::vector` is `List`; a `std::set<std::size_t>` is the list of its elements in
  iteration (ascending) order.
-/

namespace KSR_3

/-! ## Definitions -/

/-- Modelled from the spec: `KSR::no_element()` of `CGAL/KSR/utils.h` (that header is not
among the sources) is the "no element" sentinel of type `std::size_t`, i.e.
`std::size_t(-1)` on a 64-bit platform. -/
def no_element : Nat := 2 ^ 64 - 1

/-- Index of a vertex in the planar mesh of one support plane (`Mesh::Vertex_index`). -/
abbrev Vertex_index := Nat

/-- Index of an edge in the planar mesh of one support plane (`Mesh::Edge_index`). -/
abbrev Edge_index := Nat

/-- Index of a face in the planar mesh of one support plane (`Mesh::Face_index`). -/
abbrev Face_index := Nat

/-- The default constructed (invalid) mesh index, `Vertex_index()`. -/
def null_index : Nat := 2 ^ 32 - 1

/-- Embeds `using PVertex = std::pair<std::size_t, Vertex_index>`. -/
abbrev PVertex := Nat × Vertex_index

/-- Embeds `using PEdge = std::pair<std::size_t, Edge_index>`. -/
abbrev PEdge := Nat × Edge_index

/-- Embeds `using PFace = std::pair<std::size_t, Face_index>`. -/
abbrev PFace := Nat × Face_index

/-- Modelled from the spec: `Intersection_graph::Vertex_descriptor` (the header
`Intersection_graph.h` is not among the sources), a stable integer descriptor. -/
abbrev IVertex := Nat

/-- Modelled from the spec: `Intersection_graph::Edge_descriptor` (the header
`Intersection_graph.h` is not among the sources), a stable integer descriptor. -/
abbrev IEdge := Nat

/-- Embeds `Data_structure::null_pvertex()`. -/
def null_pvertex : PVertex := (no_element, null_index)

/-- Embeds `Data_structure::null_ivertex()`. -/
def null_ivertex : IVertex := no_element

/-- Embeds `Data_structure::null_iedge()`. -/
def null_iedge : IEdge := no_element

/-! ### `Event.h` -/

/-- Embeds `Event::ETime`: the time of an event together with the two members of the event that
decide whether it is a pvertex-to-ivertex event. -/
structure ETime where
  time : ℚ
  m_pother : PVertex
  m_ivertex : IVertex
deriving DecidableEq

/-- Embeds `ETime::is_pvertex_to_ivertex`. -/
def ETime.is_pvertex_to_ivertex (t : ETime) : Bool :=
  t.m_pother == null_pvertex && t.m_ivertex != null_ivertex

/-- Embeds `ETime::operator<`; `tol` is `KSR::tolerance<FT>()`, whose header is not among the
sources. -/
def ETime.lt (tol : ℚ) (a e : ETime) : Bool :=
  let time_diff : ℚ := |a.time - e.time|
  if time_diff < tol then
    let la : Nat := if a.is_pvertex_to_ivertex then 1 else 0
    let lb : Nat := if e.is_pvertex_to_ivertex then 1 else 0
    decide (la < lb)
  else
    decide (a.time < e.time)

/-- Embeds `Event`: the members of the class. -/
structure Event where
  m_is_constrained : Bool
  m_pvertex : PVertex
  m_pother : PVertex
  m_ivertex : IVertex
  m_iedge : IEdge
  m_time : ETime
  m_support_plane_idx : Nat
deriving DecidableEq

/-- The constructor `Event(is_constrained, pvertex, pother, time)`: an event between two
polygon vertices. It asserts `is_constrained`. -/
def Event.pvertex_to_pvertex (is_constrained : Bool) (pvertex pother : PVertex) (time : ℚ) :
    Option Event :=
  if is_constrained then
    some { m_is_constrained := is_constrained, m_pvertex := pvertex, m_pother := pother,
           m_ivertex := null_ivertex, m_iedge := null_iedge,
           m_time := ⟨time, pother, null_ivertex⟩, m_support_plane_idx := pvertex.1 }
  else none

/-- The constructor `Event(is_constrained, pvertex, iedge, time)`: an event between a
polygon vertex and an intersection graph edge. It asserts `!is_constrained`. -/
def Event.pvertex_to_iedge (is_constrained : Bool) (pvertex : PVertex) (iedge : IEdge)
    (time : ℚ) : Option Event :=
  if !is_constrained then
    some { m_is_constrained := is_constrained, m_pvertex := pvertex, m_pother := null_pvertex,
           m_ivertex := null_ivertex, m_iedge := iedge,
           m_time := ⟨time, null_pvertex, null_ivertex⟩, m_support_plane_idx := pvertex.1 }
  else none

/-- The constructor `Event(is_constrained, pvertex, ivertex, time)`: an event between a
polygon vertex and an intersection graph vertex. It has no assertion. -/
def Event.pvertex_to_ivertex (is_constrained : Bool) (pvertex : PVertex) (ivertex : IVertex)
    (time : ℚ) : Event :=
  { m_is_constrained := is_constrained, m_pvertex := pvertex, m_pother := null_pvertex,
    m_ivertex := ivertex, m_iedge := null_iedge,
    m_time := ⟨time, null_pvertex, ivertex⟩, m_support_plane_idx := pvertex.1 }

/-- The constructor `Event(is_constrained, pvertex, pother, ivertex, time)`: an event
between two polygon vertices and an intersection graph vertex. It asserts
`is_constrained`. -/
def Event.pvertices_to_ivertex (is_constrained : Bool) (pvertex pother : PVertex)
    (ivertex : IVertex) (time : ℚ) : Option Event :=
  if is_constrained then
    some { m_is_constrained := is_constrained, m_pvertex := pvertex, m_pother := pother,
           m_ivertex := ivertex, m_iedge := null_iedge,
           m_time := ⟨time, pother, ivertex⟩, m_support_plane_idx := pvertex.1 }
  else none

/-- Embeds `Event::is_pvertex_to_pvertex`. -/
def Event.is_pvertex_to_pvertex (e : Event) : Bool := e.m_pother != null_pvertex

/-- Embeds `Event::is_pvertex_to_iedge`. -/
def Event.is_pvertex_to_iedge (e : Event) : Bool := e.m_iedge != null_iedge

/-- Embeds `Event::is_pvertex_to_ivertex`. -/
def Event.is_pvertex_to_ivertex (e : Event) : Bool :=
  e.m_pother == null_pvertex && e.m_ivertex != null_ivertex

/-- Embeds `Event::is_pvertices_to_ivertex`. -/
def Event.is_pvertices_to_ivertex (e : Event) : Bool :=
  e.m_pother != null_pvertex && e.m_ivertex != null_ivertex

/-- Two event times are separated by the tolerance: they are equal or at least `tol`
apart, so that no two different times fall into one tolerance band. -/
def ETime.separated (tol : ℚ) (a b : ETime) : Prop :=
  a.time = b.time ∨ tol ≤ |a.time - b.time|

instance (tol : ℚ) (a b : ETime) : Decidable (ETime.separated tol a b) := by
  unfold ETime.separated; infer_instance

/-! ### The geometry kernel and the intersection graph -/

/-- The field type `FT` of the kernel, taken exact. -/
abbrev FT := ℚ

/-- Embeds `Kernel::Point_2`. -/
abbrev Point_2 := FT × FT

/-- Embeds `Kernel::Point_3`. -/
abbrev Point_3 := FT × FT × FT

/-- Modelled from the spec: the attributes of an IVertex of `Intersection_graph` (header not
among the sources): "a 3D point, ..., an `active` flag". -/
structure Vertex_property where
  point : Point_3
  active : Bool
deriving DecidableEq

/-- Modelled from the spec: the attributes of an IEdge of `Intersection_graph` (header not
among the sources): its two endpoints, "the set of support-plane indices incident to this
arc", "a `line_id` identifying the supporting infinite line" (`no_element` until
`set_line`), "and an `active` flag". `planes` is a `std::set<std::size_t>`, listed in
iteration order. -/
structure Edge_property where
  source : IVertex
  target : IVertex
  planes : List Nat
  line : Nat
  active : Bool
deriving DecidableEq

/-- Modelled from the spec: the state of `Intersection_graph` (header not among the
sources): the vertices (the descriptor of a vertex is its position), the edges with their
descriptors in container order, the next unused edge descriptor, and the number of lines
allocated by `add_line`. -/
structure Intersection_graph where
  vertices : List Vertex_property
  edges : List (IEdge × Edge_property)
  next_edge : IEdge
  m_nb_lines : Nat
deriving DecidableEq

/-- Modelled from the spec: `Intersection_graph::intersected_planes(edge)`; `none` for a
descriptor that is not an edge of the graph. -/
def Intersection_graph.intersected_planes (g : Intersection_graph) (e : IEdge) :
    Option (List Nat) :=
  (g.edges.lookup e).map (fun p => p.planes)

/-- Modelled from the spec: `Intersection_graph::line(edge)`; `none` for a descriptor
that is not an edge of the graph. -/
def Intersection_graph.line (g : Intersection_graph) (e : IEdge) : Option Nat :=
  (g.edges.lookup e).map (fun p => p.line)

/-- Modelled from the spec: `Intersection_graph::nb_lines()`. -/
def Intersection_graph.nb_lines (g : Intersection_graph) : Nat := g.m_nb_lines

/-! ### Support planes -/

/-- Modelled from the spec: an edge of the planar mesh `M_i` of a support plane
(`Support_plane.h` and the mesh container are not among the sources), with the optional
binding `iedge_of(edge)` and the faces of its two halfedges (`m.face(he)`,
`m.face(m.opposite(he))`; `none` is `Mesh::null_face()`). -/
structure Mesh_edge where
  iedge : Option IEdge
  face1 : Option Face_index
  face2 : Option Face_index
deriving DecidableEq

/-- Modelled from the spec: a face of the planar mesh `M_i`: its outline and the indices
of the input polygons it comes from. -/
structure Mesh_face where
  points : List Point_2
  input : List Nat
deriving DecidableEq

/-- Modelled from the spec: the state of a `Support_plane` (`Support_plane.h` is not among
the sources): the plane equation `a x + b y + c z + d = 0` as `(a, b, c, d)`, the scalar
`k` (an `unsigned int`), the edges and faces of the planar mesh in index order, and the
set `unique_iedges` of IEdges crossing the plane (a `std::set`, in iteration order). -/
structure Support_plane where
  plane : FT × FT × FT × FT
  k : Nat
  mesh_edges : List Mesh_edge
  mesh_faces : List Mesh_face
  unique_iedges : List IEdge
deriving DecidableEq

/-! ### `Data_structure.h`: the members -/

/-- Embeds `using Limit_line = std::vector<std::pair<std::pair<std::size_t, std::size_t>, bool>>`. -/
abbrev Limit_line := List ((Nat × Nat) × Bool)

/-- The members of `Data_structure` that the functions below read or write.
`m_input_polygon_map` is a `std::map`, listed as key/value pairs in key order. -/
structure Data_structure where
  m_support_planes : List Support_plane
  m_intersection_graph : Intersection_graph
  m_limit_lines : List Limit_line
  m_input_polygon_map : List (Nat × Nat)
  m_previous_time : FT
  m_current_time : FT
  m_verbose : Bool
deriving DecidableEq

/-- Embeds `Data_structure::number_of_support_planes`. -/
def Data_structure.number_of_support_planes (d : Data_structure) : Nat :=
  d.m_support_planes.length

/-- Embeds `Data_structure::support_plane(idx)`, i.e. `m_support_planes[idx]`; `none` when the
index is out of range. -/
def Data_structure.support_plane (d : Data_structure) (idx : Nat) : Option Support_plane :=
  d.m_support_planes[idx]?

/-- Embeds `Data_structure::k(support_plane_idx)`. -/
def Data_structure.k (d : Data_structure) (support_plane_idx : Nat) : Option Nat :=
  (d.support_plane support_plane_idx).map (fun sp => sp.k)

/-- Embeds `Data_structure::nb_intersection_lines`. -/
def Data_structure.nb_intersection_lines (d : Data_structure) : Nat :=
  d.m_intersection_graph.nb_lines

/-- Embeds `Data_structure::line_idx(iedge)`. -/
def Data_structure.line_idx (d : Data_structure) (iedge : IEdge) : Option Nat :=
  d.m_intersection_graph.line iedge

/-- Embeds `Data_structure::intersected_planes(iedge)`. -/
def Data_structure.intersected_planes (d : Data_structure) (iedge : IEdge) :
    Option (List Nat) :=
  d.m_intersection_graph.intersected_planes iedge

/-- Embeds `Data_structure::iedges()`. -/
def Data_structure.iedges (d : Data_structure) : List IEdge :=
  d.m_intersection_graph.edges.map (fun p => p.1)

/-- Embeds `Data_structure::pedges(support_plane_idx)` together with the mesh data of each edge. -/
def Data_structure.pedges (d : Data_structure) (support_plane_idx : Nat) :
    Option (List (PEdge × Mesh_edge)) :=
  (d.support_plane support_plane_idx).map
    (fun sp => sp.mesh_edges.enum.map (fun p => ((support_plane_idx, p.1), p.2)))

/-! ### `Data_structure::update_limit_lines_and_k` -/

/-- The outcome of the first loop of `update_limit_lines_and_k` over the planes of the
iedge. -/
inductive Plane_scan where
  /-- A plane other than the current one is a bbox plane: `return true`. -/
  | bbox_plane
  /-- The loop left by `break` with `sp_idx_2` set. -/
  | found (sp_idx_2 : Nat)
  /-- The loop ran to its end: `sp_idx_2` is still `KSR::no_element()`. -/
  | not_found
deriving DecidableEq

/-- The first loop of `update_limit_lines_and_k`. -/
def scan_intersected_planes (sp_idx_1 : Nat) : List Nat → Plane_scan
  | [] => Plane_scan.not_found
  | plane_idx :: rest =>
    if plane_idx = sp_idx_1 then scan_intersected_planes sp_idx_1 rest
    else if plane_idx < 6 then Plane_scan.bbox_plane
    else Plane_scan.found plane_idx

/-- The second loop of `update_limit_lines_and_k`: the flag of the first item of `pairs`
whose pair is `(sp_idx_1, sp_idx_2)`. -/
def find_limit_pair (sp_idx_1 sp_idx_2 : Nat) : Limit_line → Option Bool
  | [] => none
  | item :: rest =>
    if item.1.1 = sp_idx_1 ∧ item.1.2 = sp_idx_2 then some item.2
    else find_limit_pair sp_idx_1 sp_idx_2 rest

/-- Embeds `pairs.push_back(item)` on `pairs = m_limit_lines[line_idx]`. -/
def Data_structure.push_limit (d : Data_structure) (line_idx : Nat)
    (item : (Nat × Nat) × Bool) : Data_structure :=
  { d with m_limit_lines :=
      d.m_limit_lines.set line_idx ((d.m_limit_lines.getD line_idx []) ++ [item]) }

/-- The postfix decrement `k--` of an `unsigned int`. -/
def decrement_unsigned (k : Nat) : Nat := (k + 4294967295) % 4294967296

/-- Embeds `this->k(support_plane_idx)--`. -/
def Data_structure.decrement_k (d : Data_structure) (support_plane_idx : Nat) :
    Data_structure :=
  match d.m_support_planes[support_plane_idx]? with
  | some sp =>
    { d with m_support_planes :=
        d.m_support_planes.set support_plane_idx { sp with k := decrement_unsigned sp.k } }
  | none => d

/-- Embeds `Data_structure::update_limit_lines_and_k(pvertex, iedge, is_occupied_iedge)`: the
returned flag and the data structure after the call, `none` when an assertion fails. -/
def Data_structure.update_limit_lines_and_k (d : Data_structure) (pvertex : PVertex)
    (iedge : IEdge) (is_occupied_iedge : Bool) : Option (Bool × Data_structure) :=
  let sp_idx_1 := pvertex.1
  match d.intersected_planes iedge with
  | none => none
  | some intersected_planes =>
    match scan_intersected_planes sp_idx_1 intersected_planes with
    | Plane_scan.bbox_plane => some (true, d)
    | Plane_scan.not_found => none
    | Plane_scan.found sp_idx_2 =>
      if sp_idx_2 = no_element then none
      else if ¬ (6 ≤ sp_idx_1 ∧ 6 ≤ sp_idx_2) then none
      else if d.m_limit_lines.length ≠ d.nb_intersection_lines then none
      else
        match d.line_idx iedge with
        | none => none
        | some line_idx =>
          if line_idx = no_element then none
          else if ¬ line_idx < d.m_limit_lines.length then none
          else
            let pairs := d.m_limit_lines.getD line_idx []
            if ¬ pairs.length ≤ 2 then none
            else
              match find_limit_pair sp_idx_1 sp_idx_2 pairs with
              | some is_limit_line => some (is_limit_line, d)
              | none =>
                if ¬ pairs.length < 2 then none
                else if is_occupied_iedge then
                  match d.k sp_idx_1 with
                  | none => none
                  | some k =>
                    if k = 1 then
                      some (true, d.push_limit line_idx ((sp_idx_1, sp_idx_2), true))
                    else
                      some (false,
                        (d.push_limit line_idx ((sp_idx_1, sp_idx_2), false)).decrement_k
                          sp_idx_1)
                else
                  some (false, d.push_limit line_idx ((sp_idx_1, sp_idx_2), false))

/-- The memo invariant of the specification: every `limit_lines[l]` has at most two
entries and the two plane indices of each entry are different. -/
def limit_lines_ok (d : Data_structure) : Prop :=
  ∀ pairs ∈ d.m_limit_lines, pairs.length ≤ 2 ∧ ∀ item ∈ pairs, item.1.1 ≠ item.1.2

/-- The assertions that `update_limit_lines_and_k` checks, once its first loop has found
the plane `sp_idx_2`, before it looks into the memo `m_limit_lines[line_idx]`. -/
def update_context (d : Data_structure) (pvertex : PVertex) (iedge : IEdge)
    (sp_idx_2 line_idx : Nat) : Prop :=
  (∃ planes, d.intersected_planes iedge = some planes ∧
    scan_intersected_planes pvertex.1 planes = Plane_scan.found sp_idx_2) ∧
  sp_idx_2 ≠ no_element ∧ (6 ≤ pvertex.1 ∧ 6 ≤ sp_idx_2) ∧
  d.m_limit_lines.length = d.nb_intersection_lines ∧
  d.line_idx iedge = some line_idx ∧ line_idx ≠ no_element ∧
  line_idx < d.m_limit_lines.length ∧ (d.m_limit_lines.getD line_idx []).length ≤ 2

/-- What `update_limit_lines_and_k` does after its assertions on the context, from the
memo `pairs = m_limit_lines[line_idx]` on. -/
def update_tail (d : Data_structure) (sp_idx_1 sp_idx_2 line_idx : Nat)
    (is_occupied_iedge : Bool) : Option (Bool × Data_structure) :=
  match find_limit_pair sp_idx_1 sp_idx_2 (d.m_limit_lines.getD line_idx []) with
  | some is_limit_line => some (is_limit_line, d)
  | none =>
    if ¬ (d.m_limit_lines.getD line_idx []).length < 2 then none
    else if is_occupied_iedge then
      match d.k sp_idx_1 with
      | none => none
      | some k =>
        if k = 1 then
          some (true, d.push_limit line_idx ((sp_idx_1, sp_idx_2), true))
        else
          some (false,
            (d.push_limit line_idx ((sp_idx_1, sp_idx_2), false)).decrement_k sp_idx_1)
    else
      some (false, d.push_limit line_idx ((sp_idx_1, sp_idx_2), false))

/-- A sample intersection graph: IEdge 0 lies on the planes 6 and 7 and on line 0, IEdge 1
on the planes 2 and 7 and on line 1. -/
def sample_graph : Intersection_graph :=
  { vertices := [⟨(0, 0, 0), true⟩, ⟨(1, 0, 0), true⟩, ⟨(1, 1, 0), true⟩],
    edges := [(0, ⟨0, 1, [6, 7], 0, true⟩), (1, ⟨1, 2, [2, 7], 1, true⟩)],
    next_edge := 2, m_nb_lines := 2 }

/-- A sample support plane with budget `k` and the given mesh edges. -/
def sample_plane (k : Nat) (mesh_edges : List Mesh_edge) : Support_plane :=
  { plane := (0, 0, 1, 0), k := k, mesh_edges := mesh_edges, mesh_faces := [],
    unique_iedges := [] }

/-- A sample data structure: eight support planes, the planes 6 and 7 with budget `k`,
the sample graph and two empty memos. -/
def sample_data (k : Nat) : Data_structure :=
  { m_support_planes :=
      List.replicate 6 (sample_plane 0 []) ++ [sample_plane k [], sample_plane k []],
    m_intersection_graph := sample_graph,
    m_limit_lines := [[], []],
    m_input_polygon_map := [],
    m_previous_time := 0, m_current_time := 0, m_verbose := false }

/-! ### `Data_structure::is_occupied` -/

/-- The inner loop of `is_occupied` over the pedges of one plane: `num_adjacent_faces`
after the loop. -/
def count_adjacent_faces (query_iedge : IEdge) : List (PEdge × Mesh_edge) → Nat → Nat
  | [], num_adjacent_faces => num_adjacent_faces
  | pe :: rest, num_adjacent_faces =>
    if ¬ pe.2.iedge.isSome then count_adjacent_faces query_iedge rest num_adjacent_faces
    else if pe.2.iedge = some query_iedge then
      let num1 := if pe.2.face1 ≠ none then num_adjacent_faces + 1 else num_adjacent_faces
      let num2 := if pe.2.face2 ≠ none then num1 + 1 else num1
      count_adjacent_faces query_iedge rest num2
    else count_adjacent_faces query_iedge rest num_adjacent_faces

/-- How the outer loop of `is_occupied` ends. -/
inductive Occupied_scan where
  /-- A plane other than the current one is a bbox plane: `return (true, true)`. -/
  | bbox_reached
  /-- The loop ran to its end with this value of `num_adjacent_faces`. -/
  | counted (num_adjacent_faces : Nat)
deriving DecidableEq

/-- The outer loop of `is_occupied` over the planes of the query iedge. -/
def Data_structure.is_occupied_loop (d : Data_structure) (pvertex : PVertex)
    (query_iedge : IEdge) : List Nat → Nat → Option Occupied_scan
  | [], num_adjacent_faces => some (Occupied_scan.counted num_adjacent_faces)
  | plane_idx :: rest, num_adjacent_faces =>
    if plane_idx = pvertex.1 then
      d.is_occupied_loop pvertex query_iedge rest num_adjacent_faces
    else if plane_idx < 6 then some Occupied_scan.bbox_reached
    else
      match d.pedges plane_idx with
      | none => none
      | some es =>
        d.is_occupied_loop pvertex query_iedge rest
          (count_adjacent_faces query_iedge es num_adjacent_faces)

/-- Embeds `Data_structure::is_occupied(pvertex, query_iedge)`: the pair (occupied, bbox
reached), `none` when the assertion fails or a plane index is out of range. -/
def Data_structure.is_occupied (d : Data_structure) (pvertex : PVertex)
    (query_iedge : IEdge) : Option (Bool × Bool) :=
  if ¬ query_iedge ≠ null_iedge then none
  else
    match d.intersected_planes query_iedge with
    | none => none
    | some planes =>
      match d.is_occupied_loop pvertex query_iedge planes 0 with
      | none => none
      | some Occupied_scan.bbox_reached => some (true, true)
      | some (Occupied_scan.counted num_adjacent_faces) =>
        if num_adjacent_faces ≤ 1 then some (false, false) else some (true, false)

/-- The property of the specification: some plane of `planes` other than `sp_idx` has a
mesh edge that is bound to the iedge `e` and has a PFace on one of its sides. -/
def has_face_on_other_plane (d : Data_structure) (sp_idx : Nat) (e : IEdge)
    (planes : List Nat) : Prop :=
  ∃ plane ∈ planes, plane ≠ sp_idx ∧
    ∃ es, d.pedges plane = some es ∧
      ∃ pe ∈ es, pe.2.iedge = some e ∧ (pe.2.face1 ≠ none ∨ pe.2.face2 ≠ none)

/-- The number of sides with a PFace of a mesh edge (0, 1 or 2). -/
def Mesh_edge.face_count (m : Mesh_edge) : Nat :=
  (if m.face1 ≠ none then 1 else 0) + (if m.face2 ≠ none then 1 else 0)

/-- The number of pairs (mesh edge bound to `e`, side of it with a PFace) on the planes of
`planes` other than `sp_idx`. -/
def adjacent_face_count (d : Data_structure) (sp_idx : Nat) (e : IEdge)
    (planes : List Nat) : Nat :=
  ((planes.filter (fun plane => plane ≠ sp_idx)).map (fun plane =>
    ((((d.pedges plane).getD []).filter (fun pe => pe.2.iedge = some e)).map
      (fun pe => pe.2.face_count)).sum)).sum

/-! ### Sequences of calls of `update_limit_lines_and_k` -/

/-- The arguments of one call of `update_limit_lines_and_k`. -/
structure Update_call where
  pvertex : PVertex
  iedge : IEdge
  is_occupied_iedge : Bool
deriving DecidableEq

/-- The call `c`, made on `d` with result `r`, newly recorded an occupied crossing of the
plane `p` that is not a limit line: the pvertex lies on `p`, the iedge was occupied, the
memo changed (an entry was appended) and the flag of the entry is false. -/
def is_free_crossing (p : Nat) (d : Data_structure) (c : Update_call)
    (r : Bool × Data_structure) : Bool :=
  decide (c.pvertex.1 = p) && c.is_occupied_iedge && !r.1 &&
    decide (r.2.m_limit_lines ≠ d.m_limit_lines)

/-- A sequence of calls of `update_limit_lines_and_k`, one after the other: the number of
free crossings of the plane `p` that they recorded and the data structure after the last
call, `none` when a call trips an assertion. -/
def run_updates (p : Nat) (d : Data_structure) : List Update_call → Option (Nat × Data_structure)
  | [] => some (0, d)
  | c :: rest =>
    match d.update_limit_lines_and_k c.pvertex c.iedge c.is_occupied_iedge with
    | none => none
    | some r =>
      match run_updates p r.2 rest with
      | none => none
      | some (n, d2) => some ((if is_free_crossing p d c r then 1 else 0) + n, d2)

/-! ### `Data_structure::get_occupied_pedges` and `Data_structure::set_limit_lines` -/

/-- Embeds `std::set<std::size_t>::insert`, on the ascending list of the elements. -/
def set_insert (x : Nat) : List Nat → List Nat
  | [] => [x]
  | y :: ys =>
    if x < y then x :: y :: ys
    else if x = y then y :: ys
    else y :: set_insert x ys

/-- Embeds `pedges.insert(pedge)` on a `std::set<PEdge>`. The elements are listed in the order of
their first insertion: the callers use the size of the set and the planes of its
elements, not their order. -/
def pedge_insert (pedge : PEdge) (pedges : List PEdge) : List PEdge :=
  if pedge ∈ pedges then pedges else pedges ++ [pedge]

/-- The inner loop of `get_occupied_pedges` over the pedges of one plane. -/
def occupied_pedges_of_plane (query_iedge : IEdge) :
    List (PEdge × Mesh_edge) → List PEdge → List PEdge
  | [], pedges => pedges
  | pe :: rest, pedges =>
    if pe.2.iedge = some query_iedge then
      occupied_pedges_of_plane query_iedge rest (pedge_insert pe.1 pedges)
    else occupied_pedges_of_plane query_iedge rest pedges

/-- The outer loop of `get_occupied_pedges` over the planes of the query iedge. -/
def Data_structure.get_occupied_pedges_loop (d : Data_structure) (pvertex : PVertex)
    (query_iedge : IEdge) : List Nat → List PEdge → Option (List PEdge)
  | [], pedges => some pedges
  | plane_idx :: rest, pedges =>
    if plane_idx = pvertex.1 then d.get_occupied_pedges_loop pvertex query_iedge rest pedges
    else if plane_idx < 6 then d.get_occupied_pedges_loop pvertex query_iedge rest pedges
    else
      match d.pedges plane_idx with
      | none => none
      | some es =>
        d.get_occupied_pedges_loop pvertex query_iedge rest
          (occupied_pedges_of_plane query_iedge es pedges)

/-- Embeds `Data_structure::get_occupied_pedges(pvertex, query_iedge, pedges)`: the set `pedges`
after the call. -/
def Data_structure.get_occupied_pedges (d : Data_structure) (pvertex : PVertex)
    (query_iedge : IEdge) (pedges : List PEdge) : Option (List PEdge) :=
  match d.intersected_planes query_iedge with
  | none => none
  | some planes => d.get_occupied_pedges_loop pvertex query_iedge planes pedges

/-- The first inner loop of `set_limit_lines`: the iedges of the graph whose line is `i`,
in container order, with the two assertions on the line index of every iedge. -/
def Data_structure.iedges_of_line (d : Data_structure) (i : Nat) :
    List IEdge → Option (List IEdge)
  | [] => some []
  | iedge :: rest =>
    match d.line_idx iedge with
    | none => none
    | some line_idx =>
      if line_idx = no_element then none
      else if ¬ line_idx < d.m_limit_lines.length then none
      else
        match d.iedges_of_line i rest with
        | none => none
        | some iedges => if line_idx = i then some (iedge :: iedges) else some iedges

/-- The second inner loop of `set_limit_lines`: `get_occupied_pedges(null_pvertex(), iedge,
unique_pedges)` for every iedge of the line. -/
def Data_structure.occupied_pedges_of_line (d : Data_structure) :
    List IEdge → List PEdge → Option (List PEdge)
  | [], unique_pedges => some unique_pedges
  | iedge :: rest, unique_pedges =>
    match d.get_occupied_pedges null_pvertex iedge unique_pedges with
    | none => none
    | some pedges => d.occupied_pedges_of_line rest pedges

/-- The third inner loop of `set_limit_lines`: the planes of the pedges, as a
`std::set<std::size_t>`. -/
def unique_planes_of (unique_pedges : List PEdge) : List Nat :=
  unique_pedges.foldl (fun unique_sps pedge => set_insert pedge.1 unique_sps) []

/-- The loop of the case `sps.size() == 1` of `set_limit_lines` over the planes of the
first iedge of the line, with its assertion `plane_idx >= 6`. -/
def potential_planes (sp_idx_1 : Nat) : List Nat → Option (List Nat)
  | [] => some []
  | plane_idx :: rest =>
    if plane_idx = sp_idx_1 then potential_planes sp_idx_1 rest
    else if ¬ 6 ≤ plane_idx then none
    else (potential_planes sp_idx_1 rest).map (fun ps => plane_idx :: ps)

/-- The branches `sps.size() == 0`, `== 1`, `== 2` and `> 2` at the end of the body of
the loop of `set_limit_lines`: the items that are pushed to `pairs`, in order, `none` when
an assertion fails. `planes` are the planes of `iedges[0]`. -/
def new_limit_pairs (planes : Option (List Nat)) : List Nat → Option Limit_line
  | [] => some []
  | [sp_idx_1] =>
    match planes.bind (potential_planes sp_idx_1) with
    | none => none
    | some potential_sps =>
      if ¬ potential_sps.length = 1 then none
      else
        let sp_idx_2 := potential_sps.getD 0 no_element
        if ¬ sp_idx_2 ≠ sp_idx_1 then none
        else if ¬ sp_idx_1 ≠ no_element then none
        else if ¬ sp_idx_2 ≠ no_element then none
        else some [((sp_idx_1, sp_idx_2), false)]
  | [sp_idx_1, sp_idx_2] =>
    if ¬ sp_idx_2 ≠ sp_idx_1 then none
    else if ¬ sp_idx_1 ≠ no_element then none
    else if ¬ sp_idx_2 ≠ no_element then none
    else some [((sp_idx_1, sp_idx_2), false), ((sp_idx_2, sp_idx_1), false)]
  | _ :: _ :: _ :: _ => none

/-- The successive `pairs.push_back(item)` on `pairs = m_limit_lines[i]`. -/
def Data_structure.push_limits (d : Data_structure) (i : Nat) :
    Limit_line → Data_structure
  | [] => d
  | item :: rest => (d.push_limit i item).push_limits i rest

/-- The body of the loop of `set_limit_lines` for the line `i`. -/
def Data_structure.set_limit_line (d : Data_structure) (i : Nat) : Option Data_structure :=
  match d.iedges_of_line i d.iedges with
  | none => none
  | some iedges =>
    if ¬ 0 < iedges.length then none
    else
      match d.occupied_pedges_of_line iedges [] with
      | none => none
      | some unique_pedges =>
        if unique_pedges.length = 0 then some d
        else
          let sps := unique_planes_of unique_pedges
          if ¬ 0 < sps.length then none
          else if ¬ sps.length ≤ 2 then none
          else if ¬ (d.m_limit_lines.getD i []).length = 0 then none
          else
            match new_limit_pairs (d.intersected_planes (iedges.getD 0 null_iedge)) sps with
            | none => none
            | some items => some (d.push_limits i items)

/-- The loop `for (i = 0; i < m_limit_lines.size(); ++i)` of `set_limit_lines`, over the
list of the indices still to visit. -/
def Data_structure.set_limit_lines_loop (d : Data_structure) : List Nat → Option Data_structure
  | [] => some d
  | i :: rest =>
    match d.set_limit_line i with
    | none => none
    | some d1 => d1.set_limit_lines_loop rest

/-- Embeds `Data_structure::set_limit_lines`: the data structure after the call, `none` when an
assertion fails. -/
def Data_structure.set_limit_lines (d : Data_structure) : Option Data_structure :=
  let d0 := { d with m_limit_lines := List.replicate d.nb_intersection_lines [] }
  d0.set_limit_lines_loop (List.range d0.m_limit_lines.length)

/-- A sample data structure for `set_limit_lines` and `is_occupied`: plane 6 has the given
mesh edges, plane 7 has one mesh edge bound to IEdge 0 with a face on one side, and one
unbound mesh edge. -/
def sample_data_meshes (mesh_edges_6 : List Mesh_edge) : Data_structure :=
  { sample_data 2 with
    m_support_planes :=
      List.replicate 6 (sample_plane 0 []) ++
        [sample_plane 2 mesh_edges_6,
         sample_plane 2 [⟨some 0, some 0, none⟩, ⟨none, some 0, none⟩]],
    m_limit_lines := [] }

/-! ### Graph construction: `add_support_plane`, `intersect_with_bbox`, `add_input_polygon` -/

/-- Embeds `Kernel::Plane_3`: the coefficients `(a, b, c, d)` of `a x + b y + c z + d = 0`. -/
abbrev Plane_3 := FT × FT × FT × FT

/-- The functions of the geometry kernel, of `KSR/utils.h` and of `Support_plane.h` that
the graph construction calls and whose code is not among the sources; the construction is
modelled for any choice of them.
* `make_support_plane polygon` is the constructor `Support_plane(polygon)`;
* `intersection plane segment` is `KSR::intersection(plane, segment, point)`: the point, if
  the call returns true;
* `barycenter p w1 q w2` is `CGAL::barycenter(p, w1, q, w2)`;
* `to_2d plane point` is `Support_plane::to_2d(point)` on a plane with this equation;
* `direction_less c a b` is `Direction_2(Segment_2(c, a)) < Direction_2(Segment_2(c, b))`;
* `preprocess points` is the polygon after `Data_structure::preprocess(points)` (over
  `KSR::distance` and `KSR::angle_2`), `none` when it trips its assertion;
* `sort_points_by_direction points` is the sorted polygon and the centroid returned by
  `Data_structure::sort_points_by_direction(points)` (over `CGAL::Delaunay_triangulation_2`). -/
structure Geometry where
  make_support_plane : List Point_3 → Support_plane
  intersection : Plane_3 → Point_3 × Point_3 → Option Point_3
  barycenter : Point_3 → FT → Point_3 → FT → Point_3
  to_2d : Plane_3 → Point_3 → Point_2
  direction_less : Point_2 → Point_2 → Point_2 → Bool
  preprocess : List Point_2 → Option (List Point_2)
  sort_points_by_direction : List Point_2 → List Point_2 × Point_2

/-- Modelled from the spec: `operator==` of `Support_plane` (`Support_plane.h` is not among
the sources): "two `SP_i` are the same plane iff their plane normals and signed offsets
agree under the kernel's exact equality". -/
def Support_plane.same (a b : Support_plane) : Bool := a.plane == b.plane

/-- Modelled from the spec: `Intersection_graph::edges()`, the edge descriptors in
container order. -/
def Intersection_graph.edge_list (g : Intersection_graph) : List IEdge :=
  g.edges.map (fun p => p.1)

/-- Modelled from the spec: `Intersection_graph::segment_3(edge)`, the points of the two
endpoints of the edge. -/
def Intersection_graph.segment_3 (g : Intersection_graph) (e : IEdge) :
    Option (Point_3 × Point_3) :=
  (g.edges.lookup e).bind fun p =>
    (g.vertices[p.source]?).bind fun s =>
      (g.vertices[p.target]?).map fun t => (s.point, t.point)

/-- Modelled from the spec: `Intersection_graph::add_line()`, "allocates a fresh
`line_id`": the new line and the graph after the call. -/
def Intersection_graph.add_line (g : Intersection_graph) : Nat × Intersection_graph :=
  (g.m_nb_lines, { g with m_nb_lines := g.m_nb_lines + 1 })

/-- Modelled from the spec: `Intersection_graph::add_vertex(point)`, which returns a pair
of a vertex and an inserted flag: the vertex that has this point if there is one,
otherwise a new vertex. -/
def Intersection_graph.add_vertex (g : Intersection_graph) (point : Point_3) :
    (IVertex × Bool) × Intersection_graph :=
  match g.vertices.findIdx? (fun v => v.point = point) with
  | some v => ((v, false), g)
  | none =>
    ((g.vertices.length, true), { g with vertices := g.vertices ++ [⟨point, true⟩] })

/-- Replaces the property of the edge `e`. -/
def Intersection_graph.modify_edge (g : Intersection_graph) (e : IEdge)
    (f : Edge_property → Edge_property) : Intersection_graph :=
  { g with edges := g.edges.map (fun p => if p.1 = e then (p.1, f p.2) else p) }

/-- Modelled from the spec: `Intersection_graph::add_edge(u, v, plane)`, "idempotent on
(u, v); adds plane indices to the existing arc if one exists": the edge with its inserted
flag and the graph after the call. The arc between `u` and `v` is found in either
direction. -/
def Intersection_graph.add_edge (g : Intersection_graph) (u v : IVertex) (plane : Nat) :
    (IEdge × Bool) × Intersection_graph :=
  match g.edges.find? (fun p =>
      (p.2.source = u ∧ p.2.target = v) ∨ (p.2.source = v ∧ p.2.target = u)) with
  | some p =>
    ((p.1, false), g.modify_edge p.1 (fun q => { q with planes := set_insert plane q.planes }))
  | none =>
    ((g.next_edge, true),
      { g with edges := g.edges ++ [(g.next_edge, ⟨u, v, [plane], no_element, true⟩)],
               next_edge := g.next_edge + 1 })

/-- Modelled from the spec: `Intersection_graph::split_edge(e, w)`: "both halves inherit
`e`'s `line_id` and plane set. `e` is removed." `none` when `e` is not an edge. -/
def Intersection_graph.split_edge (g : Intersection_graph) (e : IEdge) (w : IVertex) :
    Option ((IEdge × IEdge) × Intersection_graph) :=
  (g.edges.lookup e).map fun p =>
    ((g.next_edge, g.next_edge + 1),
      { g with edges := g.edges.filter (fun q => q.1 ≠ e) ++
                 [(g.next_edge, { p with target := w }),
                  (g.next_edge + 1, { p with source := w })],
               next_edge := g.next_edge + 2 })

/-- Modelled from the spec: `Intersection_graph::set_line(e, line_id)`. -/
def Intersection_graph.set_line (g : Intersection_graph) (e : IEdge) (line : Nat) :
    Intersection_graph :=
  g.modify_edge e (fun q => { q with line := line })

/-- Embeds `support_plane(sp_idx).unique_iedges()` changed by `f` (an `insert` or an `erase`);
`none` when the index is out of range. -/
def Data_structure.modify_unique_iedges (d : Data_structure) (sp_idx : Nat)
    (f : List IEdge → List IEdge) : Option Data_structure :=
  match d.m_support_planes[sp_idx]? with
  | none => none
  | some sp =>
    some { d with m_support_planes :=
      d.m_support_planes.set sp_idx { sp with unique_iedges := f sp.unique_iedges } }

/-- The loops `for (sp_idx : iplanes) support_plane(sp_idx).unique_iedges().erase/insert`
of `intersect_with_bbox`. -/
def Data_structure.modify_unique_iedges_all (d : Data_structure)
    (f : List IEdge → List IEdge) : List Nat → Option Data_structure
  | [] => some d
  | sp_idx :: rest =>
    match d.modify_unique_iedges sp_idx f with
    | none => none
    | some d1 => d1.modify_unique_iedges_all f rest

/-- The first loop of `intersect_with_bbox`: the graph edges that the plane hits, with the
hit points, and the running centroid. -/
def collect_intersections (G : Geometry) (plane : Plane_3) (g : Intersection_graph) :
    List IEdge → Point_3 → List (IEdge × Point_3) → Option (Point_3 × List (IEdge × Point_3))
  | [], centroid_3, intersections => some (centroid_3, intersections)
  | iedge :: rest, centroid_3, intersections =>
    match g.segment_3 iedge with
    | none => none
    | some segment =>
      match G.intersection plane segment with
      | none => collect_intersections G plane g rest centroid_3 intersections
      | some point =>
        collect_intersections G plane g rest
          (G.barycenter centroid_3 intersections.length point 1)
          (intersections ++ [(iedge, point)])

/-- Insertion of one element into a list sorted by `less`. -/
def insert_sorted {α : Type} (less : α → α → Bool) (a : α) : List α → List α
  | [] => [a]
  | b :: rest => if less a b then a :: b :: rest else b :: insert_sorted less a rest

/-- Embeds `std::sort(first, last, less)`, as an insertion sort. -/
def sort_by {α : Type} (less : α → α → Bool) : List α → List α
  | [] => []
  | a :: rest => insert_sorted less a (sort_by less rest)

/-- The output iterator of the `std::set_intersection` in `intersect_with_bbox`, run over
the common planes of the two iedges in ascending order: the bbox plane among them, with
the assertion that there is at most one. -/
def common_bbox_plane : List Nat → Nat → Option Nat
  | [], common_plane_idx => some common_plane_idx
  | idx :: rest, common_plane_idx =>
    if idx < 6 then
      if ¬ common_plane_idx = no_element then none
      else common_bbox_plane rest idx
    else common_bbox_plane rest common_plane_idx

/-- The state of the second loop of `intersect_with_bbox`. -/
structure Bbox_scan where
  graph : Intersection_graph
  common_planes_idx : List Nat
  map_lines_idx : List (Nat × Nat)
  vertices : List IVertex

/-- The second loop of `intersect_with_bbox`, over `i = 0, ..., n - 1`. -/
def bbox_scan_loop (intersections : List (IEdge × Point_3)) :
    List Nat → Bbox_scan → Option Bbox_scan
  | [], st => some st
  | i :: rest, st =>
    let n := intersections.length
    match intersections[i]?, intersections[(i + 1) % n]? with
    | some (iedge0, point), some (iedge1, _) =>
      match st.graph.intersected_planes iedge0, st.graph.intersected_planes iedge1 with
      | some planes0, some planes1 =>
        match common_bbox_plane (planes0.filter (fun q => q ∈ planes1)) no_element with
        | none => none
        | some common_plane_idx =>
          if ¬ common_plane_idx ≠ no_element then none
          else
            let st1 : Bbox_scan :=
              match st.map_lines_idx.lookup common_plane_idx with
              | some _ => st
              | none =>
                { st with graph := st.graph.add_line.2,
                          map_lines_idx :=
                            st.map_lines_idx ++ [(common_plane_idx, st.graph.add_line.1)] }
            let added := st1.graph.add_vertex point
            bbox_scan_loop intersections rest
              { st1 with graph := added.2,
                         common_planes_idx := st1.common_planes_idx ++ [common_plane_idx],
                         vertices := st1.vertices ++ [added.1.1] }
      | _, _ => none
    | _, _ => none

/-- The third loop of `intersect_with_bbox`, over `i = 0, ..., n - 1`. -/
def Data_structure.bbox_split_loop (support_plane_idx : Nat)
    (intersections : List (IEdge × Point_3)) (common_planes_idx : List Nat)
    (map_lines_idx : List (Nat × Nat)) (vertices : List IVertex) :
    List Nat → Data_structure → Option Data_structure
  | [], d => some d
  | i :: rest, d =>
    let n := intersections.length
    match intersections[i]?, vertices[i]?, vertices[(i + 1) % n]?, common_planes_idx[i]? with
    | some (iedge, _), some vertex, some next_vertex, some common_plane_idx =>
      (d.m_intersection_graph.intersected_planes iedge).bind fun iplanes =>
      (d.modify_unique_iedges_all (fun s => s.erase iedge) iplanes).bind fun d1 =>
      (d1.m_intersection_graph.split_edge iedge vertex).bind fun split =>
      let d2 := { d1 with m_intersection_graph := split.2 }
      (d2.m_intersection_graph.intersected_planes split.1.1).bind fun iplanes_1 =>
      (d2.modify_unique_iedges_all (set_insert split.1.1) iplanes_1).bind fun d3 =>
      (d3.m_intersection_graph.intersected_planes split.1.2).bind fun iplanes_2 =>
      (d3.modify_unique_iedges_all (set_insert split.1.2) iplanes_2).bind fun d4 =>
      let added := d4.m_intersection_graph.add_edge vertex next_vertex support_plane_idx
      let new_edge := added.1.1
      let g1 := added.2.modify_edge new_edge
        (fun q => { q with planes := set_insert common_plane_idx q.planes })
      let g2 := g1.set_line new_edge ((map_lines_idx.lookup common_plane_idx).getD 0)
      let d5 := { d4 with m_intersection_graph := g2 }
      (d5.modify_unique_iedges support_plane_idx (set_insert new_edge)).bind fun d6 =>
      (d6.modify_unique_iedges common_plane_idx (set_insert new_edge)).bind fun d7 =>
      Data_structure.bbox_split_loop support_plane_idx intersections common_planes_idx
        map_lines_idx vertices rest d7
    | _, _, _, _ => none

/-- Embeds `Data_structure::intersect_with_bbox(support_plane_idx)`: the data structure after the
call, `none` when an assertion fails or an index is out of range. -/
def Data_structure.intersect_with_bbox (G : Geometry) (d : Data_structure)
    (support_plane_idx : Nat) : Option Data_structure :=
  if support_plane_idx < 6 then some d
  else
    (d.support_plane support_plane_idx).bind fun sp =>
    (collect_intersections G sp.plane d.m_intersection_graph d.m_intersection_graph.edge_list
      (0, 0, 0) []).bind fun collected =>
    let centroid_2 := G.to_2d sp.plane collected.1
    let intersections := sort_by
      (fun a b => G.direction_less centroid_2 (G.to_2d sp.plane a.2) (G.to_2d sp.plane b.2))
      collected.2
    let n := intersections.length
    (bbox_scan_loop intersections (List.range n)
      ⟨d.m_intersection_graph, [], [], []⟩).bind fun st =>
    if ¬ st.vertices.length = n then none
    else
      Data_structure.bbox_split_loop support_plane_idx intersections st.common_planes_idx
        st.map_lines_idx st.vertices (List.range n)
        { d with m_intersection_graph := st.graph }

/-- The loop of `add_support_plane` over `i`, from `i` on with `planes` the support
planes still to compare: the index at which the loop returns, if it does. -/
def find_same_plane (new_support_plane : Support_plane) : List Support_plane → Nat → Option Nat
  | [], _ => none
  | sp :: rest, i =>
    if new_support_plane.same sp then some i
    else find_same_plane new_support_plane rest (i + 1)

/-- Embeds `Data_structure::add_support_plane(polygon)`: the returned index and the data
structure after the call, `none` when an assertion fails. When the loop ends without
`return`, `found_coplanar_polygons` is false and `support_plane_idx` is
`KSR::no_element()`, so the assertion passes and the plane is pushed. -/
def Data_structure.add_support_plane (G : Geometry) (d : Data_structure)
    (polygon : List Point_3) : Option (Nat × Data_structure) :=
  let new_support_plane := G.make_support_plane polygon
  match find_same_plane new_support_plane d.m_support_planes 0 with
  | some support_plane_idx => some (support_plane_idx, d)
  | none =>
    let support_plane_idx := d.number_of_support_planes
    let d1 := { d with m_support_planes := d.m_support_planes ++ [new_support_plane] }
    (d1.intersect_with_bbox G support_plane_idx).map fun d2 => (support_plane_idx, d2)

/-- Modelled from the spec: `Support_plane::add_input_polygon(points, centroid,
input_indices)` (`Support_plane.h` is not among the sources), which "installs the initial
face": one new face with its input indices and one new unbound mesh edge per side, with
the new face on one side. -/
def Support_plane.add_input_polygon (sp : Support_plane) (points : List Point_2)
    (input_indices : List Nat) : Support_plane :=
  { sp with
    mesh_faces := sp.mesh_faces ++ [⟨points, input_indices⟩],
    mesh_edges := sp.mesh_edges ++
      List.replicate points.length ⟨none, some sp.mesh_faces.length, none⟩ }

/-- Embeds `m_input_polygon_map[key] = value` on a `std::map`, listed in key order. -/
def map_assign (key value : Nat) : List (Nat × Nat) → List (Nat × Nat)
  | [] => [(key, value)]
  | kv :: rest =>
    if key < kv.1 then (key, value) :: kv :: rest
    else if key = kv.1 then (key, value) :: rest
    else kv :: map_assign key value rest

/-- Embeds `Data_structure::add_input_polygon(polygon, input_index)`: the data structure after
the call, `none` when an assertion fails. -/
def Data_structure.add_input_polygon (G : Geometry) (d : Data_structure)
    (polygon : List Point_3) (input_index : Nat) : Option Data_structure :=
  (d.add_support_plane G polygon).bind fun added =>
  let support_plane_idx := added.1
  let d1 := added.2
  (d1.support_plane support_plane_idx).bind fun sp =>
  let points := polygon.map (fun point => G.to_2d sp.plane point)
  (G.preprocess points).bind fun preprocessed =>
  let sorted := G.sort_points_by_direction preprocessed
  some { d1 with
    m_support_planes :=
      d1.m_support_planes.set support_plane_idx (sp.add_input_polygon sorted.1 [input_index]),
    m_input_polygon_map := map_assign input_index support_plane_idx d1.m_input_polygon_map }

/-- A support plane without its set `unique_iedges`: what `intersect_with_bbox` does not
touch. -/
def Support_plane.strip (sp : Support_plane) : Support_plane :=
  { sp with unique_iedges := [] }

/-- A sample kernel: the plane of a polygon is the horizontal plane through its first
point, `to_2d` drops the third coordinate, no segment is hit, and preprocessing and
sorting leave a polygon as it is. -/
def sample_geometry : Geometry :=
  { make_support_plane := fun polygon =>
      { plane := (0, 0, 1, -(polygon.headD (0, 0, 0)).2.2), k := 0, mesh_edges := [],
        mesh_faces := [], unique_iedges := [] },
    intersection := fun _ _ => none,
    barycenter := fun p _ _ _ => p,
    to_2d := fun _ point => (point.1, point.2.1),
    direction_less := fun _ a b => decide (a.1 < b.1),
    preprocess := fun points => some points,
    sort_points_by_direction := fun points => (points, (0, 0)) }

/-- A sample data structure with six bbox planes and, as plane 6, the plane `z = 0` of a
first input polygon (input index 0) with one face. -/
def sample_data_polygon : Data_structure :=
  { m_support_planes :=
      [⟨(0, 0, 1, 2), 0, [], [], []⟩, ⟨(0, 1, 0, 2), 0, [], [], []⟩,
       ⟨(1, 0, 0, -2), 0, [], [], []⟩, ⟨(0, 1, 0, -2), 0, [], [], []⟩,
       ⟨(1, 0, 0, 2), 0, [], [], []⟩, ⟨(0, 0, 1, -2), 0, [], [], []⟩,
       ⟨(0, 0, 1, 0), 0, List.replicate 3 ⟨none, some 0, none⟩,
         [⟨[(0, 0), (1, 0), (0, 1)], [0]⟩], []⟩],
    m_intersection_graph := ⟨[], [], 0, 0⟩,
    m_limit_lines := [],
    m_input_polygon_map := [(0, 6)],
    m_previous_time := 0, m_current_time := 0, m_verbose := false }

/-- A second input polygon in the plane `z = 0`. -/
def sample_coplanar_polygon : List Point_3 :=
  [(-1, -1, 0), (0, -1, 0), (-1, 0, 0)]

/-- The sample data structure with budget 2 after
`update_limit_lines_and_k((6, 0), 0, true)`. -/
def sample_data_after : Data_structure :=
  { sample_data 2 with
    m_support_planes :=
      List.replicate 6 (sample_plane 0 []) ++ [sample_plane 1 [], sample_plane 2 []],
    m_limit_lines := [[((6, 7), false)], []] }

/-- The frame of `update_limit_lines_and_k(pvertex, iedge, _)` between the data structure
`d` before and `d2` after the call: only the memo of the line of `iedge` may grow, by one
entry at its end, and only `k` of the plane of `pvertex` may change, by one decrement. -/
def update_frame (d : Data_structure) (pvertex : PVertex) (iedge : IEdge)
    (d2 : Data_structure) : Prop :=
  d2.m_intersection_graph = d.m_intersection_graph ∧
  d2.m_input_polygon_map = d.m_input_polygon_map ∧
  d2.m_previous_time = d.m_previous_time ∧
  d2.m_current_time = d.m_current_time ∧
  d2.m_verbose = d.m_verbose ∧
  d2.m_limit_lines.length = d.m_limit_lines.length ∧
  (∀ l : Nat, d.line_idx iedge ≠ some l → d2.m_limit_lines[l]? = d.m_limit_lines[l]?) ∧
  (∀ (l : Nat) (pairs : Limit_line), d.m_limit_lines[l]? = some pairs →
    d2.m_limit_lines[l]? = some pairs ∨
    ∃ item : (Nat × Nat) × Bool, d2.m_limit_lines[l]? = some (pairs ++ [item])) ∧
  d2.m_support_planes.length = d.m_support_planes.length ∧
  (∀ i, i ≠ pvertex.1 → d2.m_support_planes[i]? = d.m_support_planes[i]?) ∧
  (∀ sp, d.m_support_planes[pvertex.1]? = some sp →
    d2.m_support_planes[pvertex.1]? = some sp ∨
    d2.m_support_planes[pvertex.1]? = some { sp with k := decrement_unsigned sp.k })

/-! ### `Initializer.h`: the bounding box -/

/-- Embeds `CGAL::Bbox_3` with finite bounds. The default constructed box, whose bounds are
infinite (it is the neutral element of `+=`), is `none` of `Option Bbox_3`. -/
structure Bbox_3 where
  xmin : FT
  ymin : FT
  zmin : FT
  xmax : FT
  ymax : FT
  zmax : FT
deriving DecidableEq

/-- Modelled from the spec: `box += point.bbox()` of `CGAL::Bbox_3` (kernel code, not among
the sources), the smallest box that contains the box and the point. -/
def add_point_to_bbox (box : Option Bbox_3) (p : Point_3) : Option Bbox_3 :=
  match box with
  | none => some ⟨p.1, p.2.1, p.2.2, p.1, p.2.1, p.2.2⟩
  | some b =>
    some ⟨min b.xmin p.1, min b.ymin p.2.1, min b.zmin p.2.2,
          max b.xmax p.1, max b.ymax p.2.1, max b.zmax p.2.2⟩

/-- The loop `box += CGAL::bbox_3(polygon.begin(), polygon.end())` of
`initialize_axis_aligned_box` over the polygons of the input range: "the axis-aligned box
of all input points". -/
def input_bbox : List (List Point_3) → Option Bbox_3 → Option Bbox_3
  | [], box => box
  | polygon :: rest, box => input_bbox rest (polygon.foldl add_point_to_bbox box)

/-- Modelled from the spec: `CGAL::squared_distance` of two points (kernel code, not among
the sources). -/
def squared_distance_3 (p q : Point_3) : FT :=
  (q.1 - p.1) * (q.1 - p.1) + (q.2.1 - p.2.1) * (q.2.1 - p.2.1) +
    (q.2.2 - p.2.2) * (q.2.2 - p.2.2)

/-- The eight corners `bbox = { ... }` that `initialize_axis_aligned_box` builds from the
box, in the order of the source. -/
def bbox_corners (box : Bbox_3) : List Point_3 :=
  [(box.xmin, box.ymin, box.zmin), (box.xmax, box.ymin, box.zmin),
   (box.xmax, box.ymax, box.zmin), (box.xmin, box.ymax, box.zmin),
   (box.xmin, box.ymax, box.zmax), (box.xmin, box.ymin, box.zmax),
   (box.xmax, box.ymin, box.zmax), (box.xmax, box.ymax, box.zmax)]

/-- The point `Point_3(p.x() + dx, p.y() + dy, p.z() + dz)`. -/
def shift_point (p : Point_3) (dx dy dz : FT) : Point_3 :=
  (p.1 + dx, p.2.1 + dy, p.2.2 + dz)

/-- The part of `initialize_axis_aligned_box` after the corners are set: the three lengths,
their assertions and the shifts of the degenerate case. `tol` is `KSR::tolerance<FT>()`;
a `std::array<Point_3, 8>` is the list of its eight entries; `none` is a failed
assertion. -/
def shift_degenerate_bbox (tol : FT) : List Point_3 → Option (List Point_3)
  | [b0, b1, b2, b3, b4, b5, b6, b7] =>
    let bbox_length_1 := squared_distance_3 b0 b1
    let bbox_length_2 := squared_distance_3 b0 b3
    let bbox_length_3 := squared_distance_3 b0 b5
    if ¬ 0 ≤ bbox_length_1 then none
    else if ¬ 0 ≤ bbox_length_2 then none
    else if ¬ 0 ≤ bbox_length_3 then none
    else if bbox_length_1 < tol ∨ bbox_length_2 < tol ∨ bbox_length_3 < tol then
      if bbox_length_1 < tol then
        if ¬ tol ≤ bbox_length_2 then none
        else if ¬ tol ≤ bbox_length_3 then none
        else
          let x := 2 * tol
          some [shift_point b0 (-x) 0 0, shift_point b1 x 0 0, shift_point b2 x 0 0,
                shift_point b3 (-x) 0 0, shift_point b4 (-x) 0 0, shift_point b5 (-x) 0 0,
                shift_point b6 x 0 0, shift_point b7 x 0 0]
      else if bbox_length_2 < tol then
        if ¬ tol ≤ bbox_length_3 then none
        else if ¬ tol ≤ bbox_length_1 then none
        else
          let y := 2 * tol
          some [shift_point b0 0 (-y) 0, shift_point b1 0 (-y) 0, shift_point b2 0 y 0,
                shift_point b3 0 y 0, shift_point b4 0 y 0, shift_point b5 0 (-y) 0,
                shift_point b6 0 (-y) 0, shift_point b7 0 y 0]
      else if bbox_length_3 < tol then
        if ¬ tol ≤ bbox_length_1 then none
        else if ¬ tol ≤ bbox_length_2 then none
        else
          let z := 2 * tol
          some [shift_point b0 0 0 (-z), shift_point b1 0 0 (-z), shift_point b2 0 0 (-z),
                shift_point b3 0 0 (-z), shift_point b4 0 0 z, shift_point b5 0 0 z,
                shift_point b6 0 0 z, shift_point b7 0 0 z]
      else none
    else some [b0, b1, b2, b3, b4, b5, b6, b7]
  | _ => none

/-- Embeds `Initializer::initialize_axis_aligned_box(input_range, polygon_map, bbox)`: the
array `bbox` after the call, `none` when an assertion fails. With no input point at all the
box keeps its infinite default bounds, whose differences are not numbers, so that the
assertion `bbox_length_1 >= FT(0)` cannot pass: this case is `none` as well. -/
def initialize_axis_aligned_box (tol : FT) (input_range : List (List Point_3)) :
    Option (List Point_3) :=
  match input_bbox input_range none with
  | none => none
  | some box => shift_degenerate_bbox tol (bbox_corners box)

/-- Modelled from the spec: `CGAL::centroid` of a range of points (kernel code, not among
the sources): "the centroid of the 8 corners", their arithmetic mean. -/
def centroid_3 (points : List Point_3) : Point_3 :=
  ((points.map (fun p => p.1)).sum / points.length,
   (points.map (fun p => p.2.1)).sum / points.length,
   (points.map (fun p => p.2.2)).sum / points.length)

/-- Modelled from the spec: `Transform_3(CGAL::Scaling(), s).transform(p)` (kernel code,
not among the sources), the scaling about the origin. -/
def scale_point (s : FT) (p : Point_3) : Point_3 := (s * p.1, s * p.2.1, s * p.2.2)

/-- Modelled from the spec: `Transform_3(CGAL::Translation(), a - b).transform(p)` (kernel
code, not among the sources), the translation by the vector from `b` to `a`. -/
def translate_point (a b p : Point_3) : Point_3 :=
  (p.1 + (a.1 - b.1), p.2.1 + (a.2.1 - b.2.1), p.2.2 + (a.2.2 - b.2.2))

/-- Embeds `Initializer::enlarge_bounding_box(enlarge_bbox_ratio, bbox)`: the array `bbox`
after the call. -/
def enlarge_bounding_box (tol : FT) (enlarge_bbox_ratio : FT) (bbox : List Point_3) :
    List Point_3 :=
  let enlarge_ratio :=
    if enlarge_bbox_ratio = 1 then enlarge_bbox_ratio + 2 * tol else enlarge_bbox_ratio
  let a := centroid_3 bbox
  let scaled := bbox.map (scale_point enlarge_ratio)
  let b := centroid_3 scaled
  scaled.map (translate_point a b)

/-- The ratio that `enlarge_bounding_box` scales with. -/
def enlarge_ratio (tol : FT) (r : FT) : FT := if r = 1 then 1 + 2 * tol else r

/-- Embeds `Initializer::bounding_box_to_polygons(bbox, bbox_faces)`: the six faces. -/
def bounding_box_to_polygons : List Point_3 → List (List Point_3)
  | [b0, b1, b2, b3, b4, b5, b6, b7] =>
    [[b0, b1, b2, b3], [b0, b1, b6, b5], [b1, b2, b7, b6],
     [b2, b3, b4, b7], [b3, b0, b5, b4], [b5, b6, b7, b4]]
  | _ => []

/-! ### `Data_structure.h`: future points and directions -/

/-- Embeds `Kernel::Vector_2`. -/
abbrev Vector_2 := FT × FT

/-- Modelled from the spec: `Kernel::Line_2` (kernel code, not among the sources), the line
through the two points it is constructed from. -/
structure Line_2 where
  p : Point_2
  q : Point_2
deriving DecidableEq

/-- The vector `Vector_2(p, q)` from `p` to `q`. -/
def vector_2 (p q : Point_2) : Vector_2 := (q.1 - p.1, q.2 - p.2)

/-- The scalar product `v * w` of two vectors. -/
def dot_2 (v w : Vector_2) : FT := v.1 * w.1 + v.2 * w.2

/-- The determinant of two vectors; it is zero exactly when they are parallel. -/
def cross_2 (v w : Vector_2) : FT := v.1 * w.2 - v.2 * w.1

/-- Modelled from the spec: `Line_2::projection(x)` (kernel code, not among the sources),
"the 2D projection of `v`'s current position onto `L(e)`": the orthogonal projection of
`x` onto the line. -/
def Line_2.projection (l : Line_2) (x : Point_2) : Point_2 :=
  let v := vector_2 l.p l.q
  let t := dot_2 (vector_2 l.p x) v / dot_2 v v
  (l.p.1 + t * v.1, l.p.2 + t * v.2)

/-- Modelled from the spec: the point of `KSR::intersection(line1, line2, point)` and of
`KSR::intersection<Point_2>(line1, line2)` (`KSR/utils.h` is not among the sources): the
common point of two lines that are not parallel, `none` when they are parallel. -/
def line_intersection (l1 l2 : Line_2) : Option Point_2 :=
  let d1 := vector_2 l1.p l1.q
  let d2 := vector_2 l2.p l2.q
  let det := cross_2 d1 d2
  if det = 0 then none
  else
    let t := cross_2 (vector_2 l1.p l2.p) d2 / det
    some (l1.p.1 + t * d1.1, l1.p.2 + t * d1.2)

/-- The slope `m` of the source: `100000` unless `|d| > tol`, and then `dy / d`. -/
def slope_or_default (tol dy d : FT) : FT := if |d| > tol then dy / d else 100000

/-- The end of each future-point routine, from the point found on the iedge line on: the
two assertions, the direction `Vector_2(pinit, future_point)` and the point
`pinit - m_current_time * future_direction`; `none` when an assertion fails. -/
def finish_future_point (m_current_time : FT) (pinit future_point : Point_2) :
    Option (Point_2 × Vector_2) :=
  if ¬ pinit ≠ future_point then none
  else
    let future_direction := vector_2 pinit future_point
    if ¬ future_direction ≠ (0, 0) then none
    else
      some ((pinit.1 - m_current_time * future_direction.1,
             pinit.2 - m_current_time * future_direction.2), future_direction)

/-- The values that `compute_future_points_and_directions` reads: the points of the source
and the target of the iedge on the plane, the current points of the pvertex, of its
previous and of its next vertex, their points at time `m_current_time + 1`, the current
time, and the values that the two output points hold when the routine is called. -/
structure Future_input where
  source_p : Point_2
  target_p : Point_2
  curr_p : Point_2
  prev_p : Point_2
  next_p : Point_2
  curr_future : Point_2
  prev_future : Point_2
  next_future : Point_2
  m_current_time : FT
  future_point_a : Point_2
  future_point_b : Point_2

/-- The result of `compute_future_points_and_directions`: the returned pair of flags and
the four output parameters. -/
structure Future_output where
  is_parallel_prev : Bool
  is_parallel_next : Bool
  future_point_a : Point_2
  future_point_b : Point_2
  future_direction_a : Vector_2
  future_direction_b : Vector_2

/-- Embeds `Data_structure::compute_future_points_and_directions(pvertex, iedge,
future_point_a, future_point_b, future_direction_a, future_direction_b)`, as a function of
the values it reads; `none` when an assertion fails. -/
def compute_future_points_and_directions (tol : FT) (i : Future_input) :
    Option Future_output :=
  if ¬ i.source_p ≠ i.target_p then none
  else
    let iedge_vec := vector_2 i.source_p i.target_p
    let iedge_line : Line_2 := ⟨i.source_p, i.target_p⟩
    let pinit := iedge_line.projection i.curr_p
    let future_line_prev : Line_2 := ⟨i.prev_future, i.curr_future⟩
    let future_line_next : Line_2 := ⟨i.next_future, i.curr_future⟩
    let current_vec_prev := vector_2 i.prev_p i.curr_p
    let current_vec_next := vector_2 i.next_p i.curr_p
    let m1 := slope_or_default tol (i.curr_p.2 - i.prev_p.2) (i.curr_p.1 - i.prev_p.1)
    let m2 := slope_or_default tol (i.curr_p.2 - i.next_p.2) (i.curr_p.1 - i.next_p.1)
    let m3 := slope_or_default tol (i.target_p.2 - i.source_p.2) (i.target_p.1 - i.source_p.1)
    let is_parallel_prev := decide (|m1 - m3| < tol)
    let a_b : Point_2 × Point_2 :=
      if is_parallel_prev then
        if dot_2 current_vec_prev iedge_vec < 0 then (i.target_p, i.future_point_b)
        else (i.source_p, i.future_point_b)
      else
        match line_intersection future_line_prev iedge_line with
        | some point => (point, i.future_point_b)
        | none =>
          (i.future_point_a,
            (pinit.1 + (pinit.1 - i.future_point_a.1), pinit.2 + (pinit.2 - i.future_point_a.2)))
    match finish_future_point i.m_current_time pinit a_b.1 with
    | none => none
    | some (future_point_a, future_direction_a) =>
      let is_parallel_next := decide (|m2 - m3| < tol)
      let a_b2 : Point_2 × Point_2 :=
        if is_parallel_next then
          if dot_2 current_vec_next iedge_vec < 0 then (future_point_a, i.target_p)
          else (future_point_a, i.source_p)
        else
          match line_intersection future_line_next iedge_line with
          | some point => (future_point_a, point)
          | none =>
            ((pinit.1 + (pinit.1 - a_b.2.1), pinit.2 + (pinit.2 - a_b.2.2)), a_b.2)
      match finish_future_point i.m_current_time pinit a_b2.2 with
      | none => none
      | some (future_point_b, future_direction_b) =>
        some ⟨is_parallel_prev, is_parallel_next, a_b2.1, future_point_b,
          future_direction_a, future_direction_b⟩

/-- Embeds `Data_structure::compute_future_point_and_direction(idx, pvertex, pother, iedge,
future_point, future_direction)` (the routine for one neighbour, back or front), as a
function of the values it reads: the points of the source and the target of the iedge, the
current points of `pvertex` (`curr`) and of `pother` (`next`), their points at time
`m_current_time + 1` and the current time. The result is the returned flag, the future
point and the future direction; `none` when an assertion fails or the lines that
`KSR::intersection<Point_2>` is asked for have no common point. -/
def compute_future_point_and_direction_1 (tol : FT) (source_p target_p curr_p next_p
    curr_future next_future : Point_2) (m_current_time : FT) :
    Option (Bool × Point_2 × Vector_2) :=
  if ¬ source_p ≠ target_p then none
  else
    let iedge_vec := vector_2 source_p target_p
    let iedge_line : Line_2 := ⟨source_p, target_p⟩
    let pinit := iedge_line.projection curr_p
    let future_line_next : Line_2 := ⟨next_future, curr_future⟩
    let current_vec_next := vector_2 next_p curr_p
    let m2 := slope_or_default tol (curr_p.2 - next_p.2) (curr_p.1 - next_p.1)
    let m3 := slope_or_default tol (target_p.2 - source_p.2) (target_p.1 - source_p.1)
    let is_parallel := decide (|m2 - m3| < tol)
    let found : Option Point_2 :=
      if is_parallel then
        if dot_2 current_vec_next iedge_vec < 0 then some target_p else some source_p
      else line_intersection future_line_next iedge_line
    match found with
    | none => none
    | some future_point =>
      (finish_future_point m_current_time pinit future_point).map
        (fun r => (is_parallel, r.1, r.2))

/-- Embeds `Data_structure::compute_future_point_and_direction(pvertex, prev, next, iedge,
future_point, future_direction)` (the routine for an open pvertex), as a function of the
values it reads: the points of the source and the target of the iedge, the current point
of `pvertex` (`pv_point`), the current points of `prev` (`curr`) and of `next`, their
points at time `m_current_time + 1` and the current time. The result is the returned flag,
the future point and the future direction; `none` when an assertion fails or the lines
that `KSR::intersection<Point_2>` is asked for have no common point. -/
def compute_future_point_and_direction_2 (tol : FT) (source_p target_p pv_point curr_p next_p
    curr_future next_future : Point_2) (m_current_time : FT) :
    Option (Bool × Point_2 × Vector_2) :=
  if ¬ source_p ≠ target_p then none
  else
    let iedge_line : Line_2 := ⟨source_p, target_p⟩
    let pinit := iedge_line.projection pv_point
    let future_line_next : Line_2 := ⟨next_future, curr_future⟩
    let m2 := slope_or_default tol (curr_p.2 - next_p.2) (curr_p.1 - next_p.1)
    let m3 := slope_or_default tol (target_p.2 - source_p.2) (target_p.1 - source_p.1)
    let is_parallel := decide (|m2 - m3| < tol)
    let found : Option Point_2 :=
      if is_parallel then
        if source_p = pv_point then some target_p else some source_p
      else line_intersection future_line_next iedge_line
    match found with
    | none => none
    | some future_point =>
      (finish_future_point m_current_time pinit future_point).map
        (fun r => (is_parallel, r.1, r.2))

/-- The property of a future point and a future direction that the specification states:
at the current time the vertex is at `pinit`, the orthogonal projection of the point `x`
onto the line of the iedge (`future_point + m_current_time * future_direction = pinit`),
and `future_direction` is parallel to that line. -/
def constrained_to_iedge (source_p target_p x : Point_2) (m_current_time : FT)
    (future_point : Point_2) (future_direction : Vector_2) : Prop :=
  future_point + m_current_time • future_direction =
      (⟨source_p, target_p⟩ : Line_2).projection x ∧
    cross_2 future_direction (vector_2 source_p target_p) = 0

/-- A sample input of `compute_future_points_and_directions`: the iedge runs from `(0, 0)`
to `(4, 0)`, the pvertex is at `(1, 2)` and moves down, its previous vertex is at
`(0, 4)` and its next vertex at `(3, 4)`. -/
def sample_future_input : Future_input :=
  { source_p := (0, 0), target_p := (4, 0), curr_p := (1, 2), prev_p := (0, 4),
    next_p := (3, 4), curr_future := (1, 1), prev_future := (-1, 3), next_future := (3, 3),
    m_current_time := 1, future_point_a := (0, 0), future_point_b := (0, 0) }

/-! ### `Data_structure.h`: cleaning an input polygon -/

/-- The squared distance of two points of the plane. -/
def squared_distance_2 (p q : Point_2) : FT :=
  (q.1 - p.1) * (q.1 - p.1) + (q.2 - p.2) * (q.2 - p.2)

/-- Modelled from the spec: the test `KSR::distance(p, q) < min_dist` (`KSR/utils.h` is not
among the sources; the distance is the square root of the squared distance, which is not a
rational number in general). The test is made on the squares: a distance is less than
`min_dist` exactly when `min_dist` is positive and the squared distance is less than its
square. -/
def distance_less (p q : Point_2) (min_dist : FT) : Bool :=
  decide (0 < min_dist ∧ squared_distance_2 p q < min_dist * min_dist)

/-- The inner `while (true)` loop of `remove_equal_points`, entered with the index `i`:
the value of `i` when the loop is left. The first argument bounds the number of rounds;
`none` when it is used up or an index is out of range. -/
def remove_equal_while (points : List Point_2) (min_dist : FT) : Nat → Nat → Option Nat
  | 0, _ => none
  | fuel + 1, i =>
    let n := points.length
    let ip := (i + 1) % n
    match points[i]?, points[ip]? with
    | some p, some q =>
      let is_small := distance_less p q min_dist
      if ip = 0 ∧ is_small = true then some i
      else if is_small = true then remove_equal_while points min_dist fuel ip
      else some i
    | _, _ => none

/-- The `for` loop of `remove_equal_points`, entered with the index `i` and the points
pushed so far: the polygon when the loop is left. The first argument bounds the number of
rounds; `none` when it is used up. -/
def remove_equal_for (points : List Point_2) (min_dist : FT) :
    Nat → Nat → List Point_2 → Option (List Point_2)
  | 0, _, _ => none
  | fuel + 1, i, polygon =>
    if i < points.length then
      match points[i]? with
      | none => none
      | some first =>
        match remove_equal_while points min_dist points.length i with
        | none => none
        | some j => remove_equal_for points min_dist fuel (j + 1) (polygon ++ [first])
    else some polygon

/-- Embeds `Data_structure::remove_equal_points(points, min_dist)`: the new value of
`points`; `none` when the assertion `polygon.size() >= 3` fails. Each round of either loop
moves the index forward, so `points.size()` rounds of the inner loop and one more of the
outer loop always suffice. -/
def remove_equal_points (points : List Point_2) (min_dist : FT) : Option (List Point_2) :=
  match remove_equal_for points min_dist (points.length + 1) 0 [] with
  | none => none
  | some polygon => if 3 ≤ polygon.length then some polygon else none

/-- The points of `rest` that are not at a distance less than `min_dist` from the point
just before them, where `p` is the point before the first one. -/
def far_from_predecessor (min_dist : FT) : Point_2 → List Point_2 → List Point_2
  | _, [] => []
  | p, q :: rest =>
    if distance_less p q min_dist = true then far_from_predecessor min_dist q rest
    else q :: far_from_predecessor min_dist q rest

/-- The first point of the list, and every later point that is not at a distance less than
`min_dist` from the point just before it in the list. -/
def far_from_input_predecessor (min_dist : FT) : List Point_2 → List Point_2
  | [] => []
  | p :: rest => p :: far_from_predecessor min_dist p rest

/-- The number of points at the head of `rest` that the inner loop of
`remove_equal_points` steps over after `p`: each is at a distance less than `min_dist`
from the point just before it. -/
def chain_length (min_dist : FT) : Point_2 → List Point_2 → Nat
  | _, [] => 0
  | p, q :: rest =>
    if distance_less p q min_dist = true then chain_length min_dist q rest + 1 else 0

/-- The angle that `remove_collinear_points` computes at the index `i`: with `p`, `q`, `r`
the points at `(i + n - 1) % n`, `i` and `(i + 1) % n`, the value of `KSR::angle_2` on the
directions of the normalized vectors `Vector_2(q, r)` and `Vector_2(q, p)`. The functions
`KSR::normalize` and `KSR::angle_2` (`KSR/utils.h` is not among the sources) are the
parameters `normalize` and `angle_2`. -/
def collinear_angle (normalize : Vector_2 → Vector_2) (angle_2 : Vector_2 → Vector_2 → FT)
    (points : List Point_2) (i : Nat) : Option FT :=
  let n := points.length
  let im := (i + n - 1) % n
  let ip := (i + 1) % n
  match points[im]?, points[i]?, points[ip]? with
  | some p, some q, some r =>
    let vec1 := normalize (vector_2 q r)
    let vec2 := normalize (vector_2 q p)
    some (angle_2 vec1 vec2)
  | _, _, _ => none

/-- One round of the `for` loop of `remove_collinear_points` at the index `i`: the point
`q` is pushed when `angle > min_angle`; `none` when an index is out of range. -/
def remove_collinear_step (normalize : Vector_2 → Vector_2)
    (angle_2 : Vector_2 → Vector_2 → FT) (points : List Point_2) (min_angle : FT)
    (polygon : List Point_2) (i : Nat) : Option (List Point_2) :=
  match collinear_angle normalize angle_2 points i, points[i]? with
  | some angle, some q => some (if angle > min_angle then polygon ++ [q] else polygon)
  | _, _ => none

/-- The `for` loop of `remove_collinear_points`: the polygon after the rounds
`i = 0, ..., n - 1`. -/
def remove_collinear_for (normalize : Vector_2 → Vector_2)
    (angle_2 : Vector_2 → Vector_2 → FT) (points : List Point_2) (min_angle : FT) :
    Option (List Point_2) :=
  (List.range points.length).foldlM
    (remove_collinear_step normalize angle_2 points min_angle) []

/-- Embeds `Data_structure::remove_collinear_points(points, min_angle)`: the new value of
`points`. The first argument bounds the number of calls (the call itself and the recursive
calls with half the angle); `none` when the function has not returned within that many
calls. -/
def remove_collinear_points (normalize : Vector_2 → Vector_2)
    (angle_2 : Vector_2 → Vector_2 → FT) :
    Nat → List Point_2 → FT → Option (List Point_2)
  | 0, _, _ => none
  | fuel + 1, points, min_angle =>
    match remove_collinear_for normalize angle_2 points min_angle with
    | none => none
    | some polygon =>
      if 3 ≤ polygon.length then some polygon
      else remove_collinear_points normalize angle_2 fuel points (min_angle / 2)

/-- The test of `remove_collinear_points` at the index `i`: the computed angle is greater
than `min_angle`. -/
def angle_exceeds (normalize : Vector_2 → Vector_2) (angle_2 : Vector_2 → Vector_2 → FT)
    (points : List Point_2) (min_angle : FT) (i : Nat) : Bool :=
  match collinear_angle normalize angle_2 points i with
  | some angle => decide (angle > min_angle)
  | none => false

/-- The indices of `points` at which the computed angle is greater than `min_angle`, in
ascending order. -/
def kept_indices (normalize : Vector_2 → Vector_2) (angle_2 : Vector_2 → Vector_2 → FT)
    (points : List Point_2) (min_angle : FT) : List Nat :=
  (List.range points.length).filter (angle_exceeds normalize angle_2 points min_angle)

/-- A stand-in for `KSR::normalize` on the sample polygons: the vector divided by the sum
of the absolute values of its coordinates, which is its length when the vector is parallel
to a coordinate axis. -/
def sample_normalize (v : Vector_2) : Vector_2 :=
  (v.1 / (|v.1| + |v.2|), v.2 / (|v.1| + |v.2|))

/-- A stand-in for `KSR::angle_2` on the sample polygons: the signed angle in degrees from
`dir2` to `-dir1`, exact when it is a multiple of 90 degrees and the middle of the quadrant
otherwise. -/
def sample_angle_2 (dir1 dir2 : Vector_2) : FT :=
  let v1 := dir2
  let v2 : Vector_2 := (-dir1.1, -dir1.2)
  let det := cross_2 v1 v2
  let dot := dot_2 v1 v2
  if det = 0 then (if dot < 0 then 180 else 0)
  else if 0 < det then (if dot = 0 then 90 else if 0 < dot then 45 else 135)
  else (if dot = 0 then -90 else if 0 < dot then -45 else -135)

/-! ### `Data_structure.h` and `Initializer.h`: the faces of the bounding box -/

/-- Embeds the constructor `Data_structure(verbose)`: no support plane, an empty
intersection graph, both times zero. -/
def Data_structure.init (m_verbose : Bool) : Data_structure :=
  { m_support_planes := [], m_intersection_graph := ⟨[], [], 0, 0⟩, m_limit_lines := [],
    m_input_polygon_map := [], m_previous_time := 0, m_current_time := 0,
    m_verbose := m_verbose }

/-- Embeds `Data_structure::ivertices()`: the vertex descriptors of the intersection
graph. -/
def Data_structure.ivertices (d : Data_structure) : List IVertex :=
  List.range d.m_intersection_graph.vertices.length

/-- Modelled from the spec: `Intersection_graph::incident_edges(vertex)`, the edges that
have the vertex as an endpoint. -/
def Intersection_graph.incident_edges (g : Intersection_graph) (v : IVertex) : List IEdge :=
  (g.edges.filter (fun p => p.2.source = v ∨ p.2.target = v)).map (fun p => p.1)

/-- Embeds `Data_structure::incident_iedges(ivertex)`. -/
def Data_structure.incident_iedges (d : Data_structure) (ivertex : IVertex) : List IEdge :=
  d.m_intersection_graph.incident_edges ivertex

/-- Modelled from the spec: `Support_plane::add_bbox_polygon(points, ivertices)`
(`Support_plane.h` is not among the sources), which "installs a rectangular face": one new
face and its four sides as new unbound mesh edges, the side `i` from the vertex `i` to the
next one. The result is the four vertices and the plane after the call; in this model of
the mesh, which lists edges and faces, a vertex is named by the index of the side that
starts at it. -/
def Support_plane.add_bbox_polygon (sp : Support_plane) (points : List Point_2)
    (_ivertices : List IVertex) : List Vertex_index × Support_plane :=
  ((List.range 4).map (fun i => sp.mesh_edges.length + i),
    { sp with
      mesh_faces := sp.mesh_faces ++ [⟨points, []⟩],
      mesh_edges := sp.mesh_edges ++
        List.replicate 4 ⟨none, some sp.mesh_faces.length, none⟩ })

/-- Modelled from the spec: `Support_plane::set_iedge(v, u, ie)` (`Support_plane.h` is not
among the sources), a binding "to intersection simplices": the mesh edge from `v` to `u`,
the side that starts at `v`, is bound to the iedge. -/
def Support_plane.set_iedge (sp : Support_plane) (v _u : Vertex_index) (iedge : IEdge) :
    Support_plane :=
  match sp.mesh_edges[v]? with
  | none => sp
  | some e => { sp with mesh_edges := sp.mesh_edges.set v { e with iedge := some iedge } }

/-- The first loop of `Data_structure::add_bbox_polygon`, over `i = 0, ..., 3`: the arrays
`points` and `ivertices` and the intersection graph; `none` when the polygon has no point
at an index. -/
def add_bbox_vertices (G : Geometry) (plane : Plane_3) (polygon : List Point_3) :
    List Nat → List Point_2 × List IVertex × Intersection_graph →
    Option (List Point_2 × List IVertex × Intersection_graph)
  | [], st => some st
  | i :: rest, (points, ivertices, g) =>
    match polygon[i]? with
    | none => none
    | some point =>
      let added := g.add_vertex point
      add_bbox_vertices G plane polygon rest
        (points ++ [G.to_2d plane point], ivertices ++ [added.1.1], added.2)

/-- The second loop of `Data_structure::add_bbox_polygon`, over `i = 0, ..., 3`. -/
def Data_structure.add_bbox_edges (support_plane_idx : Nat) (ivertices : List IVertex)
    (vertices : List Vertex_index) : List Nat → Data_structure → Option Data_structure
  | [], d => some d
  | i :: rest, d =>
    match ivertices[i]?, ivertices[(i + 1) % 4]?, vertices[i]?, vertices[(i + 1) % 4]? with
    | some iv, some iv_next, some v, some v_next =>
      let pair := d.m_intersection_graph.add_edge iv iv_next support_plane_idx
      let iedge := pair.1.1
      let is_inserted := pair.1.2
      let g :=
        if is_inserted = true then pair.2.add_line.2.set_line iedge pair.2.add_line.1
        else pair.2
      match d.m_support_planes[support_plane_idx]? with
      | none => none
      | some sp =>
        let sp1 := sp.set_iedge v v_next iedge
        let sp2 := { sp1 with unique_iedges := set_insert iedge sp1.unique_iedges }
        Data_structure.add_bbox_edges support_plane_idx ivertices vertices rest
          { d with m_intersection_graph := g,
                   m_support_planes := d.m_support_planes.set support_plane_idx sp2 }
    | _, _, _, _ => none

/-- Embeds `Data_structure::add_bbox_polygon(polygon)`: the data structure after the call;
`none` when an assertion fails or an index is out of range. -/
def Data_structure.add_bbox_polygon (G : Geometry) (d : Data_structure)
    (polygon : List Point_3) : Option Data_structure :=
  (d.add_support_plane G polygon).bind fun added =>
  let support_plane_idx := added.1
  let d1 := added.2
  (d1.support_plane support_plane_idx).bind fun sp =>
  (add_bbox_vertices G sp.plane polygon (List.range 4)
    ([], [], d1.m_intersection_graph)).bind fun st =>
  let installed := sp.add_bbox_polygon st.1 st.2.1
  Data_structure.add_bbox_edges support_plane_idx st.2.1 installed.1 (List.range 4)
    { d1 with m_support_planes := d1.m_support_planes.set support_plane_idx installed.2,
              m_intersection_graph := st.2.2 }

/-- Embeds `Initializer::add_bbox_faces(bbox_faces)` on `m_data`: the data structure after
the call; `none` when an assertion fails. -/
def add_bbox_faces (G : Geometry) (m_data : Data_structure)
    (bbox_faces : List (List Point_3)) : Option Data_structure :=
  (bbox_faces.foldlM (fun (d : Data_structure) bbox_face => d.add_bbox_polygon G bbox_face)
    m_data).bind fun d =>
  if ¬ d.number_of_support_planes = 6 then none
  else if ¬ d.ivertices.length = 8 then none
  else if ¬ d.iedges.length = 12 then none
  else some d

/-- The loop of `Initializer::add_input_polygons` from `input_index` on. -/
def add_input_polygons_loop (G : Geometry) :
    List (List Point_3) → Nat → Data_structure → Option Data_structure
  | [], _, d => some d
  | polygon :: rest, input_index, d =>
    match d.add_input_polygon G polygon input_index with
    | none => none
    | some d1 => add_input_polygons_loop G rest (input_index + 1) d1

/-- Embeds `Initializer::add_input_polygons(input_range, polygon_map)` on `m_data`, the
input range listed as its polygons: the data structure after the call; `none` when an
assertion fails. -/
def add_input_polygons (G : Geometry) (m_data : Data_structure)
    (input_range : List (List Point_3)) : Option Data_structure :=
  (add_input_polygons_loop G input_range 0 m_data).bind fun d =>
  if ¬ 6 < d.number_of_support_planes then none else some d

/-- Embeds `Initializer::add_polygons(input_range, polygon_map, bbox_faces)` on `m_data`:
the data structure after the call; `none` when an assertion fails. -/
def add_polygons (G : Geometry) (m_data : Data_structure)
    (input_range : List (List Point_3)) (bbox_faces : List (List Point_3)) :
    Option Data_structure :=
  (add_bbox_faces G m_data bbox_faces).bind fun d => add_input_polygons G d input_range

/-- A sample plane constructor: the plane through the first three points of the polygon,
with the cross product of the two edge vectors at the first point as its normal. -/
def sample_plane_of (polygon : List Point_3) : Plane_3 :=
  match polygon with
  | p :: q :: r :: _ =>
    let u : Point_3 := (q.1 - p.1, q.2.1 - p.2.1, q.2.2 - p.2.2)
    let v : Point_3 := (r.1 - p.1, r.2.1 - p.2.1, r.2.2 - p.2.2)
    let a := u.2.1 * v.2.2 - u.2.2 * v.2.1
    let b := u.2.2 * v.1 - u.1 * v.2.2
    let c := u.1 * v.2.1 - u.2.1 * v.1
    (a, b, c, -(a * p.1 + b * p.2.1 + c * p.2.2))
  | _ => (0, 0, 0, 0)

/-- A sample kernel for the faces of a box: as `sample_geometry`, with the plane of a
polygon through its first three points. -/
def sample_box_geometry : Geometry :=
  { sample_geometry with
    make_support_plane := fun polygon =>
      { plane := sample_plane_of polygon, k := 0, mesh_edges := [], mesh_faces := [],
        unique_iedges := [] } }


/-- The part of the first loop of `Data_structure::add_bbox_polygon` that acts on the
intersection graph: the array `ivertices` and the graph. -/
def add_bbox_vertices_graph (polygon : List Point_3) :
    List Nat → List IVertex × Intersection_graph → Option (List IVertex × Intersection_graph)
  | [], st => some st
  | i :: rest, (ivertices, g) =>
    match polygon[i]? with
    | none => none
    | some point =>
      add_bbox_vertices_graph polygon rest
        (ivertices ++ [(g.add_vertex point).1.1], (g.add_vertex point).2)

/-- The part of the second loop of `Data_structure::add_bbox_polygon` that acts on the
intersection graph. -/
def add_bbox_edges_graph (support_plane_idx : Nat) (ivertices : List IVertex) :
    List Nat → Intersection_graph → Option Intersection_graph
  | [], g => some g
  | i :: rest, g =>
    match ivertices[i]?, ivertices[(i + 1) % 4]? with
    | some iv, some iv_next =>
      let pair := g.add_edge iv iv_next support_plane_idx
      add_bbox_edges_graph support_plane_idx ivertices rest
        (if pair.1.2 = true then pair.2.add_line.2.set_line pair.1.1 pair.2.add_line.1
         else pair.2)
    | _, _ => none

/-- The intersection graph after `Data_structure::add_bbox_polygon(polygon)`, when the
polygon gets the support plane `support_plane_idx`. -/
def bbox_polygon_graph (support_plane_idx : Nat) (polygon : List Point_3)
    (g : Intersection_graph) : Option Intersection_graph :=
  (add_bbox_vertices_graph polygon (List.range 4) ([], g)).bind fun st =>
    add_bbox_edges_graph support_plane_idx st.1 (List.range 4) st.2

/-- The intersection graph after the loop of `Initializer::add_bbox_faces`, when the faces
get the support planes `support_plane_idx`, `support_plane_idx + 1`, and so on. -/
def bbox_faces_graph : List (List Point_3) → Nat → Intersection_graph →
    Option Intersection_graph
  | [], _, g => some g
  | bbox_face :: rest, support_plane_idx, g =>
    (bbox_polygon_graph support_plane_idx bbox_face g).bind
      (bbox_faces_graph rest (support_plane_idx + 1))

/-- The twelve edges of the intersection graph of a box after `add_bbox_faces`: the
descriptor of each edge with its two end vertices, the two faces of the box it lies on,
its line and its flag. The vertices `0, ..., 7` are the corners `bbox[0]`, `bbox[1]`,
`bbox[2]`, `bbox[3]`, `bbox[6]`, `bbox[5]`, `bbox[7]`, `bbox[4]`, in the order in which the
faces reach them. -/
def bbox_graph_edges : List (IEdge × Edge_property) :=
  [(0, ⟨0, 1, [0, 1], 0, true⟩), (1, ⟨1, 2, [0, 2], 1, true⟩), (2, ⟨2, 3, [0, 3], 2, true⟩),
   (3, ⟨3, 0, [0, 4], 3, true⟩), (4, ⟨1, 4, [1, 2], 4, true⟩), (5, ⟨4, 5, [1, 5], 5, true⟩),
   (6, ⟨5, 0, [1, 4], 6, true⟩), (7, ⟨2, 6, [2, 3], 7, true⟩), (8, ⟨6, 4, [2, 5], 8, true⟩),
   (9, ⟨3, 7, [3, 4], 9, true⟩), (10, ⟨7, 6, [3, 5], 10, true⟩),
   (11, ⟨5, 7, [4, 5], 11, true⟩)]

/-- The intersection graph of a box with the corners `bbox` after `add_bbox_faces`. -/
def bbox_graph : List Point_3 → Intersection_graph
  | [b0, b1, b2, b3, b4, b5, b6, b7] =>
    ⟨[⟨b0, true⟩, ⟨b1, true⟩, ⟨b2, true⟩, ⟨b3, true⟩, ⟨b6, true⟩, ⟨b5, true⟩, ⟨b7, true⟩,
      ⟨b4, true⟩], bbox_graph_edges, 12, 12⟩
  | _ => ⟨[], [], 0, 0⟩

/-! ### `Event.h`: the kinds of events -/

/-- The four predicates `is_pvertex_to_pvertex`, `is_pvertex_to_iedge`,
`is_pvertex_to_ivertex` and `is_pvertices_to_ivertex` of an event, in this order. -/
def Event.kinds (e : Event) : List Bool :=
  [e.is_pvertex_to_pvertex, e.is_pvertex_to_iedge, e.is_pvertex_to_ivertex,
   e.is_pvertices_to_ivertex]

/-! ### `Polygon_mesh_processing/random_perturbation.h` -/

/-- The random number generator `RNG`, a parameter (`CGAL/Random.h` is not among the
sources): `rng n lower upper` is the value that the call number `n` of
`rng.get_double(lower, upper)` returns. -/
abbrev RNG := Nat → FT → FT → FT

/-- The contract of `rng.get_double(lower, upper)`: the value lies in `[lower, upper)`. -/
def RNG.in_range (rng : RNG) : Prop :=
  ∀ n lower upper, lower < upper → lower ≤ rng n lower upper ∧ rng n lower upper < upper

/-- Embeds `internal::construct_random_vector_3(max_size, rng, gt)`, when `n` calls of the
generator have been made before: the vector and the number of calls made after it. The
three calls are numbered in the order of the arguments. -/
def construct_random_vector_3 (max_size : FT) (rng : RNG) (n : Nat) : Point_3 × Nat :=
  ((rng n (-max_size) max_size, rng (n + 1) (-max_size) max_size,
    rng (n + 2) (-max_size) max_size), n + 3)

/-- The point `translate(p, v)` of `Construct_translated_point_3`. -/
def translated_point_3 (p v : Point_3) : Point_3 := (p.1 + v.1, p.2.1 + v.2.1, p.2.2 + v.2.2)

/-- What `internal::random_perturbation_impl` reads of the mesh besides the points: the
vertices in the order of `vertices(tmesh)`, the map `vcmap`, the predicate
`is_border(v, tmesh)`, and `tree.closest_point` (mesh and tree code that is not among the
sources); the closest point may depend on the current points of the mesh, which the tree
refers to. -/
structure Perturbation_mesh where
  vertices : List Nat
  vcmap : Nat → Bool
  is_border : Nat → Bool
  closest_point : (Nat → Point_3) → Point_3 → Point_3

/-- The loop `BOOST_FOREACH(vertex_descriptor v, vertices(tmesh))` of
`internal::random_perturbation_impl` over the vertices that are left, from the point map
`vpmap` and `n` calls of the generator made before: the point map after the loop. -/
def random_perturbation_loop (M : Perturbation_mesh) (max_size : FT) (do_project : Bool)
    (rng : RNG) : List Nat → (Nat → Point_3) → Nat → (Nat → Point_3)
  | [], vpmap, _ => vpmap
  | v :: rest, vpmap, n =>
    if (!M.vcmap v && !M.is_border v) = true then
      let p := vpmap v
      let random_vector := construct_random_vector_3 max_size rng n
      let np := translated_point_3 p random_vector.1
      if do_project = true then
        random_perturbation_loop M max_size do_project rng rest
          (Function.update vpmap v (M.closest_point vpmap np)) random_vector.2
      else
        random_perturbation_loop M max_size do_project rng rest
          (Function.update vpmap v np) random_vector.2
    else random_perturbation_loop M max_size do_project rng rest vpmap n

/-- Embeds `internal::random_perturbation_impl(tmesh, max_size, vcmap, vpmap, do_project,
rng, gt)`, which `random_perturbation(tmesh, perturbation_max_size, np)` calls with the
values of its named parameters: the point map after the call. -/
def random_perturbation_impl (M : Perturbation_mesh) (max_size : FT) (vpmap : Nat → Point_3)
    (do_project : Bool) (rng : RNG) : Nat → Point_3 :=
  random_perturbation_loop M max_size do_project rng M.vertices vpmap 0

/-- A sample mesh: a closed surface with the four vertices of a tetrahedron, none of them
constrained. -/
def sample_tetrahedron : Perturbation_mesh :=
  { vertices := [0, 1, 2, 3], vcmap := fun _ => false, is_border := fun _ => false,
    closest_point := fun _ p => p }

/-- The points of the sample tetrahedron. -/
def sample_tetrahedron_points : Nat → Point_3 := fun v =>
  if v = 0 then (0, 0, 0) else if v = 1 then (8, 0, 0) else if v = 2 then (0, 8, 0)
  else (0, 0, 8)

/-- A generator that returns the point of `[lower, upper)` at seven eighths of the way
from `lower` to `upper` at every call. -/
def sample_rng : RNG := fun _ lower upper => lower + 7 * (upper - lower) / 8

/-! ### `Data_structure.h`: checking properties -/

/-- The accessors of the planar meshes that the checks call and whose code
(`Support_plane.h` and the mesh container) is not among the sources; the checks are
modelled for any choice of them.
* `is_valid i` is `mesh(i).is_valid()`;
* `pvertices_of_pface pface` and `pedges_of_pface pface` are the vertices and the edges
  around a face, in the order of its halfedges;
* `has_ivertex pvertex` is `support_plane(pvertex).has_ivertex(pvertex.second)`;
* `point_2 pvertex` and `direction pvertex` are the point of a vertex at the current time
  and its direction;
* `is_simple polygon` and `is_convex polygon` are the two predicates of `Polygon_2`. -/
structure Mesh_access where
  is_valid : Nat → Bool
  pvertices_of_pface : PFace → List PVertex
  pedges_of_pface : PFace → List PEdge
  has_ivertex : PVertex → Bool
  point_2 : PVertex → Point_2
  direction : PVertex → Vector_2
  is_simple : List Point_2 → Bool
  is_convex : List Point_2 → Bool

/-- Embeds `Data_structure::pfaces(support_plane_idx)`: the faces of the mesh of the plane;
`none` when the index is out of range. -/
def Data_structure.pfaces (d : Data_structure) (support_plane_idx : Nat) :
    Option (List PFace) :=
  (d.support_plane support_plane_idx).map
    (fun sp => (List.range sp.mesh_faces.length).map (fun f => (support_plane_idx, f)))

/-- Embeds `Data_structure::has_iedge(pedge)`: the mesh edge is bound to an iedge; `none`
when the plane or the edge does not exist. -/
def Data_structure.has_iedge (d : Data_structure) (pedge : PEdge) : Option Bool :=
  (d.support_plane pedge.1).bind fun sp =>
    (sp.mesh_edges[pedge.2]?).map (fun m => m.iedge.isSome)

/-- The loop over `pvertices_of_pface(pface)` in `check_bbox` and `check_interior`: at a
vertex without ivertex the assertion `has_ivertex(pvertex)` fails in front of
`return false`. The result `some true` means that the loop has ended. -/
def check_pvertices_loop (M : Mesh_access) : List PVertex → Option Bool
  | [] => some true
  | pvertex :: rest =>
    if (!M.has_ivertex pvertex) = true then
      if ¬ M.has_ivertex pvertex = true then none else some false
    else check_pvertices_loop M rest

/-- The loop over `pedges_of_pface(pface)` in `check_bbox` and `check_interior`: at an edge
without iedge the assertion `has_iedge(pedge)` fails in front of `return false`. -/
def Data_structure.check_pedges_loop (d : Data_structure) : List PEdge → Option Bool
  | [] => some true
  | pedge :: rest =>
    match d.has_iedge pedge with
    | none => none
    | some has =>
      if (!has) = true then
        if ¬ has = true then none else some false
      else d.check_pedges_loop rest

/-- The loop over the faces of one plane in `check_bbox` and `check_interior`. -/
def Data_structure.check_pfaces_loop (M : Mesh_access) (d : Data_structure) :
    List PFace → Option Bool
  | [] => some true
  | pface :: rest =>
    match check_pvertices_loop M (M.pvertices_of_pface pface) with
    | some true =>
      match d.check_pedges_loop (M.pedges_of_pface pface) with
      | some true => d.check_pfaces_loop M rest
      | r => r
    | r => r

/-- The loop over the planes `i` in `check_bbox` and `check_interior`, which differ in the
range of `i` and in the texts of the messages only. -/
def Data_structure.check_planes_loop (M : Mesh_access) (d : Data_structure) :
    List Nat → Option Bool
  | [] => some true
  | i :: rest =>
    match d.pfaces i with
    | none => none
    | some pfaces =>
      match d.check_pfaces_loop M pfaces with
      | some true => d.check_planes_loop M rest
      | r => r

/-- Embeds `Data_structure::check_bbox()`: the loop over `i = 0, ..., 5`; `none` when an
assertion fails or a plane does not exist. -/
def Data_structure.check_bbox (M : Mesh_access) (d : Data_structure) : Option Bool :=
  d.check_planes_loop M (List.range 6)

/-- Embeds `Data_structure::check_interior()`: the loop over
`i = 6, ..., number_of_support_planes() - 1`; `none` when an assertion fails. -/
def Data_structure.check_interior (M : Mesh_access) (d : Data_structure) : Option Bool :=
  d.check_planes_loop M (List.range' 6 (d.number_of_support_planes - 6))

/-- Every vertex of every face of the plane `i` has an ivertex and every edge of these
faces has an iedge. -/
def Data_structure.plane_bound (M : Mesh_access) (d : Data_structure) (i : Nat) : Prop :=
  ∀ pfaces, d.pfaces i = some pfaces → ∀ pface ∈ pfaces,
    (∀ pvertex ∈ M.pvertices_of_pface pface, M.has_ivertex pvertex = true) ∧
    (∀ pedge ∈ M.pedges_of_pface pface, d.has_iedge pedge = some true)

/-- A sample of mesh accessors: every face is a triangle, the face `f` with the vertices
and the edges `3 f`, `3 f + 1`, `3 f + 2`; every vertex has an ivertex. -/
def sample_mesh_access : Mesh_access :=
  { is_valid := fun _ => true,
    pvertices_of_pface := fun pface =>
      [(pface.1, 3 * pface.2), (pface.1, 3 * pface.2 + 1), (pface.1, 3 * pface.2 + 2)],
    pedges_of_pface := fun pface =>
      [(pface.1, 3 * pface.2), (pface.1, 3 * pface.2 + 1), (pface.1, 3 * pface.2 + 2)],
    has_ivertex := fun _ => true,
    point_2 := fun pvertex => (pvertex.1, pvertex.2),
    direction := fun _ => (0, 0),
    is_simple := fun _ => true,
    is_convex := fun _ => true }

/-- A sample support plane with one triangular face whose three edges are bound to the
iedges `e`, `e + 1` and `e + 2`. -/
def sample_bound_plane (e : IEdge) : Support_plane :=
  { plane := (0, 0, 1, e), k := 1,
    mesh_edges := [⟨some e, some 0, none⟩, ⟨some (e + 1), some 0, none⟩,
      ⟨some (e + 2), some 0, none⟩],
    mesh_faces := [⟨[(0, 0), (1, 0), (0, 1)], []⟩],
    unique_iedges := [e, e + 1, e + 2] }

/-- A sample data structure with seven support planes, each with one triangular face whose
edges are bound. -/
def sample_data_bound : Data_structure :=
  { m_support_planes := (List.range 7).map (fun i => sample_bound_plane (3 * i)),
    m_intersection_graph :=
      ⟨[], (List.range 21).map (fun e => (e, ⟨0, 0, [e / 3], e, true⟩)), 21, 21⟩,
    m_limit_lines := [], m_input_polygon_map := [(0, 6)], m_previous_time := 0,
    m_current_time := 0, m_verbose := false }

/-! ### `Data_structure.h`: the cached iedges of the support planes -/

/-- Embeds `Kernel::Segment_2`, as its two end points. -/
abbrev Segment_2 := Point_2 × Point_2

/-- Embeds `CGAL::Bbox_2`: the bounds of a box in the plane. -/
structure Bbox_2 where
  xmin : FT
  ymin : FT
  xmax : FT
  ymax : FT
deriving DecidableEq

/-- Modelled from the spec: `Segment_2::bbox()` (kernel code, not among the sources), the
"bounding box" of the segment: the smallest box that holds its two end points. -/
def segment_bbox (s : Segment_2) : Bbox_2 :=
  ⟨min s.1.1 s.2.1, min s.1.2 s.2.2, max s.1.1 s.2.1, max s.1.2 s.2.2⟩

/-- Embeds `Data_structure::segment_2(support_plane_idx, iedge)`, which is
`support_plane(support_plane_idx).to_2d(segment_3(iedge))`: the images of the two end
points of the iedge; `none` when the plane or the iedge does not exist. -/
def Data_structure.segment_2 (G : Geometry) (d : Data_structure) (support_plane_idx : Nat)
    (iedge : IEdge) : Option Segment_2 :=
  (d.support_plane support_plane_idx).bind fun sp =>
    (d.m_intersection_graph.segment_3 iedge).map fun s =>
      (G.to_2d sp.plane s.1, G.to_2d sp.plane s.2)

/-- Modelled from the spec: the three cached vectors of a `Support_plane`
(`Support_plane.h` is not among the sources), "the cached `iedges`, `isegments`, `ibboxes`
vectors (parallel)". They are kept apart from the structure `Support_plane` above. -/
structure Support_plane_cache where
  iedges : List IEdge
  isegments : List Segment_2
  ibboxes : List Bbox_2
deriving DecidableEq

/-- The inner loop `for (const auto& iedge : iedges)` of `precompute_iedge_data` on the
plane `i`: the vectors `isegments` and `ibboxes` after the loop. -/
def Data_structure.precompute_segments (G : Geometry) (d : Data_structure) (i : Nat) :
    List IEdge → List Segment_2 × List Bbox_2 → Option (List Segment_2 × List Bbox_2)
  | [], st => some st
  | iedge :: rest, (isegments, ibboxes) =>
    match d.segment_2 G i iedge with
    | none => none
    | some s =>
      d.precompute_segments G i rest (isegments ++ [s], ibboxes ++ [segment_bbox s])

/-- The loop of `precompute_iedge_data` over the planes `i` that are left: the data
structure and the cached vectors of the planes visited so far. -/
def precompute_iedge_data_loop (G : Geometry) :
    List Nat → Data_structure × List Support_plane_cache →
    Option (Data_structure × List Support_plane_cache)
  | [], st => some st
  | i :: rest, (d, caches) =>
    match d.m_support_planes[i]? with
    | none => none
    | some sp =>
      if ¬ 0 < sp.unique_iedges.length then none
      else
        let iedges := sp.unique_iedges
        let d1 := { d with
          m_support_planes := d.m_support_planes.set i { sp with unique_iedges := [] } }
        match d1.precompute_segments G i iedges ([], []) with
        | none => none
        | some segments =>
          precompute_iedge_data_loop G rest
            (d1, caches ++ [⟨iedges, segments.1, segments.2⟩])

/-- Embeds `Data_structure::precompute_iedge_data()`: the data structure after the call
and, for each support plane in turn, the vectors `iedges(i)`, `isegments(i)` and
`ibboxes(i)` that the call has written; `none` when an assertion fails or an iedge does
not exist. -/
def Data_structure.precompute_iedge_data (G : Geometry) (d : Data_structure) :
    Option (Data_structure × List Support_plane_cache) :=
  precompute_iedge_data_loop G (List.range d.number_of_support_planes) (d, [])

/-- A sample data structure for `precompute_iedge_data`: the sample graph of three vertices
and two iedges, and two support planes, the first crossed by the iedges 0 and 1, the
second by the iedge 1. -/
def sample_data_iedges : Data_structure :=
  { m_support_planes := [⟨(0, 0, 1, 0), 1, [], [], [0, 1]⟩, ⟨(0, 0, 1, 0), 1, [], [], [1]⟩],
    m_intersection_graph := sample_graph, m_limit_lines := [], m_input_polygon_map := [],
    m_previous_time := 0, m_current_time := 0, m_verbose := false }

/-! ### `Data_structure.h`: `check_integrity`, `clear` and `convert` -/

/-- Embeds `Data_structure::Volume_cell`, without the visibility label (whose type is in
`KSR/utils.h`, not among the sources). -/
structure Volume_cell where
  pfaces : List PFace
  neighbors : List Int
  pvertices : List PVertex
  index : Nat
  centroid : Point_3
  inside : FT
  outside : FT
  weight : FT
deriving DecidableEq

/-- Embeds `Data_structure::Reconstructed_model`. -/
structure Reconstructed_model where
  pfaces : List PFace
deriving DecidableEq

/-- All the members of `Data_structure`: the members of the structure `Data_structure`
above as `core`, the cached vectors of the support planes (the entry `i` of `caches`
belongs to the plane `i`; a missing entry stands for three empty vectors), and the
remaining members; the maps are listed as key/value pairs in key order. -/
structure Full_data_structure where
  core : Data_structure
  caches : List Support_plane_cache
  m_points : List ((Nat × IEdge) × Point_2)
  m_directions : List ((Nat × IEdge) × Vector_2)
  m_volumes : List Volume_cell
  m_volume_level_map : List (Int × Nat)
  m_map_volumes : List (PFace × (Int × Int))
  m_reconstructed_model : Reconstructed_model
deriving DecidableEq

/-- Embeds `Data_structure::pface_neighbors()`. -/
def Full_data_structure.pface_neighbors (s : Full_data_structure) :
    List (PFace × (Int × Int)) := s.m_map_volumes

/-- Embeds `Data_structure::volumes()`. -/
def Full_data_structure.volumes (s : Full_data_structure) : List Volume_cell := s.m_volumes

/-- Embeds `Data_structure::reconstructed_model()`. -/
def Full_data_structure.reconstructed_model (s : Full_data_structure) : Reconstructed_model :=
  s.m_reconstructed_model

/-- Embeds `Data_structure::iedges(support_plane_idx)`, the cached vector of the plane. -/
def Full_data_structure.iedges (s : Full_data_structure) (support_plane_idx : Nat) :
    List IEdge :=
  ((s.caches[support_plane_idx]?).getD ⟨[], [], []⟩).iedges

/-- Embeds `Data_structure::clear()`: every container is emptied (an emptied intersection
graph has no vertex, no edge and no line) and both times are set to zero; `m_verbose` is
not touched. -/
def Full_data_structure.clear (s : Full_data_structure) : Full_data_structure :=
  { core :=
      { m_support_planes := [], m_intersection_graph := ⟨[], [], 0, 0⟩, m_limit_lines := [],
        m_input_polygon_map := [], m_previous_time := 0, m_current_time := 0,
        m_verbose := s.core.m_verbose },
    caches := [], m_points := [], m_directions := [], m_volumes := [],
    m_volume_level_map := [], m_map_volumes := [], m_reconstructed_model := ⟨[]⟩ }

/-- Modelled from the spec: the default constructed `Support_plane` (`Support_plane.h` is
not among the sources), a plane without mesh and without iedges. -/
def Support_plane.empty : Support_plane := ⟨(0, 0, 0, 0), 0, [], [], []⟩

/-- Embeds `std::vector::resize(n)`: the first `n` entries, filled up with default
constructed entries. -/
def vector_resize {α : Type} (default_value : α) (n : Nat) (l : List α) : List α :=
  l.take n ++ List.replicate (n - l.length) default_value

/-- Embeds `Data_structure::resize(number_of_items)`. -/
def Full_data_structure.resize (s : Full_data_structure) (number_of_items : Nat) :
    Full_data_structure :=
  { s with
    core := { s.core with
      m_support_planes := vector_resize Support_plane.empty number_of_items
        s.core.m_support_planes },
    caches := vector_resize ⟨[], [], []⟩ number_of_items s.caches }

/-- The loop of `Data_structure::convert` over the planes `i` that are left:
`m_support_planes[i].convert(m_intersection_graph, ds.support_planes()[i])`. Modelled from
the spec: `Support_plane::convert` (not among the sources) makes the target plane expose
the state of the plane, with its mesh and its cached vectors; both kernels have the same
number type here. -/
def Full_data_structure.convert_planes_loop (m : Full_data_structure) :
    List Nat → Full_data_structure → Option Full_data_structure
  | [], ds => some ds
  | i :: rest, ds =>
    match m.core.m_support_planes[i]? with
    | none => none
    | some sp =>
      if ds.core.m_support_planes.length ≤ i then none
      else
        m.convert_planes_loop rest
          { ds with
            core := { ds.core with m_support_planes := ds.core.m_support_planes.set i sp },
            caches := ds.caches.set i ((m.caches[i]?).getD ⟨[], [], []⟩) }

/-- Embeds `Data_structure::convert(ds)` on the data structure `m`: the data structure
`ds` after the call; `none` when the assertion fails. Modelled from the spec:
`Intersection_graph::convert` (not among the sources) makes `ds.igraph()` expose the
intersection graph. -/
def Full_data_structure.convert (m ds : Full_data_structure) : Option Full_data_structure :=
  let ds1 := ds.clear
  let ds2 := ds1.resize m.core.number_of_support_planes
  if ¬ ds2.core.number_of_support_planes = m.core.number_of_support_planes then none
  else
    let ds3 := { ds2 with
      core := { ds2.core with m_intersection_graph := m.core.m_intersection_graph } }
    match m.convert_planes_loop (List.range m.core.number_of_support_planes) ds3 with
    | none => none
    | some ds4 =>
      some { ds4 with
        core := { ds4.core with m_input_polygon_map := m.core.m_input_polygon_map } }

/-- The loop of `is_mesh_valid` over the vertices of one face, with `prev` the vertex
before: two consecutive vertices with the same point and the same direction fail the
assertion in front of `return false`. -/
def identical_vertices_loop (M : Mesh_access) : List PVertex → PVertex → Option Bool
  | [], _ => some true
  | pvertex :: rest, prev =>
    if prev = null_pvertex then identical_vertices_loop M rest pvertex
    else if M.point_2 prev = M.point_2 pvertex ∧ M.direction prev = M.direction pvertex
    then none
    else identical_vertices_loop M rest pvertex

/-- The loop of `is_mesh_valid` over the faces of the plane. -/
def is_mesh_valid_faces (M : Mesh_access) (check_simplicity check_convexity : Bool) :
    List PFace → Option Bool
  | [] => some true
  | pface :: rest =>
    let pvertices := M.pvertices_of_pface pface
    let polygon := pvertices.map M.point_2
    if (check_simplicity && !M.is_simple polygon) = true then none
    else if (check_convexity && !M.is_convex polygon) = true then none
    else
      match identical_vertices_loop M pvertices null_pvertex with
      | some true => is_mesh_valid_faces M check_simplicity check_convexity rest
      | r => r

/-- Embeds `Data_structure::is_mesh_valid(check_simplicity, check_convexity,
support_plane_idx)`; `none` when an assertion fails. -/
def Data_structure.is_mesh_valid (M : Mesh_access) (d : Data_structure)
    (check_simplicity check_convexity : Bool) (support_plane_idx : Nat) : Option Bool :=
  if ¬ M.is_valid support_plane_idx = true then some false
  else if support_plane_idx < 6 then some true
  else
    match d.pfaces support_plane_idx with
    | none => none
    | some pfaces => is_mesh_valid_faces M check_simplicity check_convexity pfaces

/-- The iedges that `check_integrity` reads for the plane `i`: the cached vector
`iedges(i)` when `is_initialized`, the set `unique_iedges()` otherwise; `none` when the
plane does not exist. -/
def Full_data_structure.plane_iedges (s : Full_data_structure) (is_initialized : Bool)
    (i : Nat) : Option (List IEdge) :=
  (s.core.support_plane i).map fun sp =>
    if is_initialized = true then s.iedges i else sp.unique_iedges

/-- The loop of `check_integrity` over the iedges of the plane `i`: an iedge whose planes
do not include `i` fails the assertion in front of `return false`. -/
def Data_structure.check_plane_iedges_loop (d : Data_structure) (i : Nat) :
    List IEdge → Option Bool
  | [] => some true
  | iedge :: rest =>
    match d.intersected_planes iedge with
    | none => none
    | some iplanes =>
      if i ∉ iplanes then none else d.check_plane_iedges_loop i rest

/-- The first loop of `check_integrity`, over the planes `i` that are left. -/
def Full_data_structure.check_integrity_planes_loop (M : Mesh_access)
    (s : Full_data_structure) (is_initialized check_simplicity check_convexity : Bool) :
    List Nat → Option Bool
  | [] => some true
  | i :: rest =>
    match s.core.is_mesh_valid M check_simplicity check_convexity i with
    | some true =>
      match s.plane_iedges is_initialized i with
      | none => none
      | some iedges =>
        if ¬ 0 < iedges.length then none
        else
          match s.core.check_plane_iedges_loop i iedges with
          | some true =>
            s.check_integrity_planes_loop M is_initialized check_simplicity check_convexity
              rest
          | r => r
    | _ => none

/-- The loop of `check_integrity` over the planes of one iedge: a plane whose iedges do
not include the iedge fails the assertion in front of `return false`. -/
def Full_data_structure.check_iedge_planes_loop (s : Full_data_structure)
    (is_initialized : Bool) (iedge : IEdge) : List Nat → Option Bool
  | [] => some true
  | support_plane_idx :: rest =>
    match s.plane_iedges is_initialized support_plane_idx with
    | none => none
    | some sp_iedges =>
      if ¬ 0 < sp_iedges.length then none
      else if iedge ∉ sp_iedges then none
      else s.check_iedge_planes_loop is_initialized iedge rest

/-- The second loop of `check_integrity`, over the iedges of the graph that are left. -/
def Full_data_structure.check_integrity_iedges_loop (s : Full_data_structure)
    (is_initialized : Bool) : List IEdge → Option Bool
  | [] => some true
  | iedge :: rest =>
    match s.core.intersected_planes iedge with
    | none => none
    | some iplanes =>
      match s.check_iedge_planes_loop is_initialized iedge iplanes with
      | some true => s.check_integrity_iedges_loop is_initialized rest
      | r => r

/-- Embeds `Data_structure::check_integrity(is_initialized, check_simplicity,
check_convexity)`; `none` when an assertion fails. -/
def Full_data_structure.check_integrity (M : Mesh_access) (s : Full_data_structure)
    (is_initialized check_simplicity check_convexity : Bool) : Option Bool :=
  match s.check_integrity_planes_loop M is_initialized check_simplicity check_convexity
      (List.range s.core.number_of_support_planes) with
  | some true => s.check_integrity_iedges_loop is_initialized s.core.iedges
  | r => r

/-- Embeds `Initializer::convert(ds)` on the initializer with the data structure `m_data`:
`m_data` and `ds` after the call; `none` when an assertion fails. The two checks are
called with their default arguments. -/
def Initializer_convert (M : Mesh_access) (m_data ds : Full_data_structure) :
    Option (Full_data_structure × Full_data_structure) :=
  let ds1 := ds.clear
  match m_data.convert ds1 with
  | none => none
  | some ds2 =>
    let m_data2 := m_data.clear
    if ¬ ds2.check_integrity M true false false = some true then none
    else if ¬ ds2.core.check_bbox M = some true then none
    else some (m_data2, ds2)

/-- A sample of all members: the sample data structure with seven planes whose edges are
bound, the cached iedges of each plane, and one volume. -/
def sample_full_data : Full_data_structure :=
  { core := sample_data_bound,
    caches := (List.range 7).map (fun i => ⟨[3 * i, 3 * i + 1, 3 * i + 2], [], []⟩),
    m_points := [], m_directions := [],
    m_volumes := [⟨[(6, 0)], [-1], [], 0, (0, 0, 0), 1, 0, 0⟩],
    m_volume_level_map := [(0, 1)], m_map_volumes := [((6, 0), (0, -1))],
    m_reconstructed_model := ⟨[(6, 0)]⟩ }

/-- The sample of all members after a conversion: the same support planes, graph, cached
vectors and input polygon map, and no volume. -/
def sample_full_data_converted : Full_data_structure :=
  { sample_full_data with
    m_volumes := [], m_volume_level_map := [], m_map_volumes := [],
    m_reconstructed_model := ⟨[]⟩ }

/-! ### `Data_structure.h`: `add_iedge` -/

/-- Modelled from the spec: `Intersection_graph::point_3(vertex)`, the "3D point" of an
IVertex; `none` for a descriptor that is not a vertex of the graph. -/
def Intersection_graph.point_3 (g : Intersection_graph) (v : IVertex) : Option Point_3 :=
  (g.vertices[v]?).map (fun p => p.point)

/-- The elements of a `std::set<std::size_t>` inserted one by one into the set `s`. -/
def set_insert_all (xs : List Nat) (s : List Nat) : List Nat :=
  xs.foldl (fun acc x => set_insert x acc) s

/-- Modelled from the spec: `Intersection_graph::add_edge(u, v, planes)` with a set of
planes, "idempotent on (u, v); adds plane indices to the existing arc if one exists": the
edge with its inserted flag and the graph after the call. -/
def Intersection_graph.add_edge_planes (g : Intersection_graph) (u v : IVertex)
    (planes : List Nat) : (IEdge × Bool) × Intersection_graph :=
  match g.edges.find? (fun p =>
      (p.2.source = u ∧ p.2.target = v) ∨ (p.2.source = v ∧ p.2.target = u)) with
  | some p =>
    ((p.1, false),
      g.modify_edge p.1 (fun q => { q with planes := set_insert_all planes q.planes }))
  | none =>
    ((g.next_edge, true),
      { g with
        edges := g.edges ++
          [(g.next_edge, ⟨u, v, set_insert_all planes [], no_element, true⟩)],
        next_edge := g.next_edge + 1 })

/-- The squared distance that the comparison of `add_iedge` computes for the vertex `v`. -/
def Intersection_graph.sq_dist (g : Intersection_graph) (source : Point_3) (v : IVertex) :
    FT :=
  squared_distance_3 source ((g.point_3 v).getD (0, 0, 0))

/-- The loop of `Data_structure::add_iedge` over the indices `i` that are left. -/
def Data_structure.add_iedge_loop (support_planes_idx : List Nat) (vertices : List IVertex)
    (line_idx : Nat) : List Nat → Data_structure → Option Data_structure
  | [], d => some d
  | i :: rest, d =>
    match vertices[i]?, vertices[i + 1]? with
    | some u, some v =>
      let pair := d.m_intersection_graph.add_edge_planes u v support_planes_idx
      let iedge := pair.1.1
      let is_inserted := pair.1.2
      if ¬ is_inserted = true then none
      else
        let d1 := { d with m_intersection_graph := pair.2.set_line iedge line_idx }
        match d1.modify_unique_iedges_all (set_insert iedge) support_planes_idx with
        | none => none
        | some d2 =>
          Data_structure.add_iedge_loop support_planes_idx vertices line_idx rest d2
    | _, _ => none

/-- Embeds `Data_structure::add_iedge(support_planes_idx, vertices)`: the vector `vertices`
after the call, which sorts it, and the data structure after the call; `none` when an
assertion fails, when the vector is empty or when one of its entries is not a vertex of
the graph. -/
def Data_structure.add_iedge (d : Data_structure) (support_planes_idx : List Nat)
    (vertices : List IVertex) : Option (List IVertex × Data_structure) :=
  match vertices with
  | [] => none
  | front :: _ =>
    match d.m_intersection_graph.point_3 front with
    | none => none
    | some source =>
      if ¬ vertices.all (fun v => (d.m_intersection_graph.point_3 v).isSome) = true then none
      else
        let sorted := sort_by (fun a b =>
          decide (d.m_intersection_graph.sq_dist source a <
            d.m_intersection_graph.sq_dist source b)) vertices
        let line := d.m_intersection_graph.add_line
        (Data_structure.add_iedge_loop support_planes_idx sorted line.1
          (List.range (sorted.length - 1))
          { d with m_intersection_graph := line.2 }).map fun d2 => (sorted, d2)

/-- A sample data structure for `add_iedge`: the planes 6 and 7 of the sample data meet
along a line with four vertices, not yet joined. -/
def sample_data_line : Data_structure :=
  { sample_data 1 with
    m_intersection_graph :=
      { vertices := [⟨(2, 0, 0), true⟩, ⟨(0, 0, 0), true⟩, ⟨(3, 0, 0), true⟩,
          ⟨(1, 0, 0), true⟩],
        edges := [], next_edge := 0, m_nb_lines := 0 } }

/-! ### The incidence of support planes and iedges -/

/-- The set `support_plane(i).unique_iedges()`; empty when there is no plane `i`. -/
def Data_structure.unique_iedges_of (d : Data_structure) (i : Nat) : List IEdge :=
  match d.m_support_planes[i]? with
  | some sp => sp.unique_iedges
  | none => []

/-- The incidence of planes and iedges: for every support plane `i` and every IEdge `e` of
the graph, `e` is in `unique_iedges(i)` if and only if `i` is in
`intersected_planes(e)`. -/
def Data_structure.incidence (d : Data_structure) : Prop :=
  ∀ (i : Nat) (sp : Support_plane) (e : IEdge) (planes : List Nat),
    d.support_plane i = some sp → d.intersected_planes e = some planes →
      (e ∈ sp.unique_iedges ↔ i ∈ planes)

/-- The descriptors in use are well formed: every edge descriptor of the graph is below
the next unused one and occurs once, every set `unique_iedges` is a set (ascending) of
descriptors below the next unused one, and the planes of an edge are support planes. -/
def Data_structure.well_formed (d : Data_structure) : Prop :=
  (∀ p ∈ d.m_intersection_graph.edges, p.1 < d.m_intersection_graph.next_edge) ∧
  (d.m_intersection_graph.edges.map (fun p => p.1)).Nodup ∧
  (∀ sp ∈ d.m_support_planes, sp.unique_iedges.Pairwise (fun a b => a < b)) ∧
  (∀ sp ∈ d.m_support_planes, ∀ e ∈ sp.unique_iedges,
    e < d.m_intersection_graph.next_edge) ∧
  (∀ p ∈ d.m_intersection_graph.edges, ∀ i ∈ p.2.planes, i < d.number_of_support_planes)

/-- The incidence and the well-formedness over the sets `unique_iedges` as a function of the
plane index `M`, the edges `E` of the graph and the next unused edge descriptor `N`. -/
def incidence_ok (M : Nat → List IEdge) (E : List (IEdge × Edge_property)) (N : Nat) : Prop :=
  (∀ p ∈ E, p.1 < N) ∧
  (E.map (fun p => p.1)).Nodup ∧
  (∀ i, (M i).Pairwise (fun a b => a < b)) ∧
  (∀ i, ∀ e ∈ M i, e < N) ∧
  (∀ i, ∀ p ∈ E, (p.1 ∈ M i ↔ i ∈ p.2.planes))

/-- A sample kernel that cuts: as `sample_geometry`, with `intersection` the point in which
the plane crosses the open segment (none when the end points are not strictly on the two
sides of the plane) and `barycenter` the weighted mean. -/
def sample_cut_geometry : Geometry :=
  { sample_geometry with
    intersection := fun plane segment =>
      let fp := plane.1 * segment.1.1 + plane.2.1 * segment.1.2.1 +
        plane.2.2.1 * segment.1.2.2 + plane.2.2.2
      let fq := plane.1 * segment.2.1 + plane.2.1 * segment.2.2.1 +
        plane.2.2.1 * segment.2.2.2 + plane.2.2.2
      if fp * fq < 0 then
        let t := fp / (fp - fq)
        some (segment.1.1 + t * (segment.2.1 - segment.1.1),
          segment.1.2.1 + t * (segment.2.2.1 - segment.1.2.1),
          segment.1.2.2 + t * (segment.2.2.2 - segment.1.2.2))
      else none,
    barycenter := fun p w1 q w2 =>
      ((w1 * p.1 + w2 * q.1) / (w1 + w2), (w1 * p.2.1 + w2 * q.2.1) / (w1 + w2),
        (w1 * p.2.2 + w2 * q.2.2) / (w1 + w2)) }

/-- A sample data structure with a corner of the bounding box: the bbox planes `x = 0`
(plane 0), `y = 0` (plane 1) and `z = 0` (plane 2) meet in the vertex 0, from which the
IEdges 0, 1 and 2 run along the three axes to the vertices 1, 2 and 3; the planes 3, 4
and 5 are the far bbox planes, and the plane 6 is the plane `x + y + z = 1` of an input
polygon, not yet intersected with the box. -/
def sample_data_corner : Data_structure :=
  { m_support_planes :=
      [⟨(1, 0, 0, 0), 0, [], [], [1, 2]⟩, ⟨(0, 1, 0, 0), 0, [], [], [0, 2]⟩,
       ⟨(0, 0, 1, 0), 0, [], [], [0, 1]⟩, ⟨(1, 0, 0, -2), 0, [], [], []⟩,
       ⟨(0, 1, 0, -2), 0, [], [], []⟩, ⟨(0, 0, 1, -2), 0, [], [], []⟩,
       ⟨(1, 1, 1, -1), 0, [], [], []⟩],
    m_intersection_graph :=
      { vertices := [⟨(0, 0, 0), true⟩, ⟨(2, 0, 0), true⟩, ⟨(0, 2, 0), true⟩,
          ⟨(0, 0, 2), true⟩],
        edges := [(0, ⟨0, 1, [1, 2], 0, true⟩), (1, ⟨0, 2, [0, 2], 1, true⟩),
          (2, ⟨0, 3, [0, 1], 2, true⟩)],
        next_edge := 3, m_nb_lines := 3 },
    m_limit_lines := [],
    m_input_polygon_map := [(0, 6)],
    m_previous_time := 0, m_current_time := 0, m_verbose := false }

/-! ### `Data_structure.h`: `pvertices_around_ivertex` -/

/-- The functions of the planar meshes and of the intersection graph that
`pvertices_around_ivertex` calls and whose code is not among the sources, for any choice
of them: `border_prev_and_next(pvertex)`, `iedge(pvertex)` (`null_iedge` when the vertex
has none), `source(iedge)`, `target(iedge)`, `direction(pvertex)`,
`point_2(support_plane_idx, ivertex)` and `is_frozen(pvertex)`. -/
structure Border_access where
  border_prev_and_next : PVertex → PVertex × PVertex
  iedge : PVertex → IEdge
  source : IEdge → IVertex
  target : IEdge → IVertex
  direction : PVertex → Vector_2
  point_2 : Nat → IVertex → Point_2
  is_frozen : PVertex → Bool

/-- Embeds `Data_structure::Queue_element`. -/
structure Queue_element where
  previous : PVertex
  pvertex : PVertex
  front : Bool
  previous_was_free : Bool
deriving DecidableEq

/-- The value of `is_free` that the body of the loop of `pvertices_around_ivertex` computes
for `current`: the vertex has no iedge, or its iedge does not touch `ivertex`, or its
direction points backwards, or it is frozen. The assertion `target(iedge) == ivertex` is
reached only when one end of the iedge is `ivertex` and the source is not. -/
def Border_access.is_free (B : Border_access) (ivertex : IVertex) (current : PVertex) : Bool :=
  let iedge := B.iedge current
  if iedge = null_iedge then true
  else if B.source iedge ≠ ivertex ∧ B.target iedge ≠ ivertex then true
  else
    let other := if B.source iedge = ivertex then B.target iedge else B.source iedge
    let dir1 := B.direction current
    let dir2 := vector_2 (B.point_2 current.1 other) (B.point_2 current.1 ivertex)
    let dot_product := dot_2 dir1 dir2
    decide (dot_product < 0) || B.is_frozen current

/-- The loop `while (!todo.empty())` of `pvertices_around_ivertex`, over the queue `todo` and
the deque `pvertices`; each round takes one unit of `fuel`, and the result is `none` when
the fuel runs out or the assertion `next != previous` fails. -/
def Border_access.around_loop (B : Border_access) (ivertex : IVertex) :
    Nat → List Queue_element → List PVertex → Option (List PVertex)
  | _, [], pvertices => some pvertices
  | 0, _ :: _, _ => none
  | fuel + 1, q :: todo, pvertices =>
    let is_free := B.is_free ivertex q.pvertex
    if (q.previous_was_free && is_free) = true then B.around_loop ivertex fuel todo pvertices
    else
      let pvertices1 := if q.front = true then q.pvertex :: pvertices
        else pvertices ++ [q.pvertex]
      let pn := B.border_prev_and_next q.pvertex
      if pn.1 = q.previous then
        if ¬ pn.2 ≠ q.previous then none
        else B.around_loop ivertex fuel (todo ++ [⟨q.pvertex, pn.2, q.front, is_free⟩])
          pvertices1
      else B.around_loop ivertex fuel (todo ++ [⟨q.pvertex, pn.1, q.front, is_free⟩])
        pvertices1

/-- Embeds `Data_structure::pvertices_around_ivertex(pvertex, ivertex)`, the loop run with
`fuel` rounds at most: the returned vector, `none` when the fuel runs out or an assertion
fails. -/
def Border_access.pvertices_around_ivertex (B : Border_access) (fuel : Nat)
    (pvertex : PVertex) (ivertex : IVertex) : Option (List PVertex) :=
  let pn := B.border_prev_and_next pvertex
  match B.around_loop ivertex fuel
      [⟨pvertex, pn.1, true, false⟩, ⟨pvertex, pn.2, false, false⟩] [pvertex] with
  | none => none
  | some crossed_pvertices =>
    if ¬ 3 ≤ crossed_pvertices.length then none else some crossed_pvertices

/-- The walk along the border in one direction, from the vertex `current` reached from
`previous`: the vertices up to, and without, the first vertex that is free and whose
predecessor in the walk was free (`previous_was_free` for the first vertex); `none` when
the fuel runs out or a border vertex has the same vertex on both sides. -/
def Border_access.border_walk (B : Border_access) (ivertex : IVertex) :
    Nat → PVertex → PVertex → Bool → Option (List PVertex)
  | 0, _, _, _ => none
  | fuel + 1, previous, current, previous_was_free =>
    if (previous_was_free && B.is_free ivertex current) = true then some []
    else
      let pn := B.border_prev_and_next current
      if pn.1 = previous then
        if ¬ pn.2 ≠ previous then none
        else (B.border_walk ivertex fuel current pn.2 (B.is_free ivertex current)).map
          (fun l => current :: l)
      else (B.border_walk ivertex fuel current pn.1 (B.is_free ivertex current)).map
        (fun l => current :: l)

/-- A sample border: the eight vertices `(6, 0), ..., (6, 7)` of a polygon on the plane 6,
in this order around the border. Only the vertex `(6, 2)` has an iedge, the iedge 5 from
the ivertex 0 to the ivertex 9, along which it moves forwards; no vertex is frozen. -/
def sample_border : Border_access :=
  { border_prev_and_next := fun v => ((6, (v.2 + 7) % 8), (6, (v.2 + 1) % 8)),
    iedge := fun v => if v = (6, 2) then 5 else null_iedge,
    source := fun _ => 0,
    target := fun _ => 9,
    direction := fun _ => (1, 0),
    point_2 := fun _ iv => if iv = 0 then (1, 0) else (0, 0),
    is_frozen := fun _ => false }

/-- No vertex of the walk `l` is free while its predecessor in the walk is free;
`previous_was_free` stands for the predecessor of the first vertex. -/
def Border_access.no_free_pair (B : Border_access) (ivertex : IVertex) :
    Bool → List PVertex → Prop
  | _, [] => True
  | previous_was_free, v :: rest =>
    ¬ (previous_was_free = true ∧ B.is_free ivertex v = true) ∧
      B.no_free_pair ivertex (B.is_free ivertex v) rest

/-! ### `intersect_with_bbox`: the new edges -/

/-- The vector `intersections` of `intersect_with_bbox` after `std::sort`, for the plane
`plane` and the result `collected` of the first loop. -/
def sorted_intersections (G : Geometry) (plane : Plane_3)
    (collected : Point_3 × List (IEdge × Point_3)) : List (IEdge × Point_3) :=
  sort_by (fun a b => G.direction_less (G.to_2d plane collected.1) (G.to_2d plane a.2)
    (G.to_2d plane b.2)) collected.2

/-- The state of the second loop of `intersect_with_bbox` before the round `a`, over the
graph `g0` at the start of the loop: the graph has got the hit points of the rounds before
as new vertices and one line for each entry of the memo, and nothing else; the memo maps
distinct bbox planes to the new lines in the order of their allocation; each entry of
`common_planes_idx` is a key of the memo and is the only bbox plane common to the hit edge
of its round and the next one. -/
def Bbox_scan.ok (g0 : Intersection_graph) (intersections : List (IEdge × Point_3))
    (a : Nat) (st : Bbox_scan) : Prop :=
  st.graph.edges = g0.edges ∧ st.graph.next_edge = g0.next_edge ∧
  st.graph.vertices = g0.vertices ++
    (intersections.take a).map (fun x => (⟨x.2, true⟩ : Vertex_property)) ∧
  st.vertices = List.range' g0.vertices.length a ∧
  st.common_planes_idx.length = a ∧
  st.graph.m_nb_lines = g0.m_nb_lines + st.map_lines_idx.length ∧
  st.map_lines_idx.map (fun kv => kv.2) =
    List.range' g0.m_nb_lines st.map_lines_idx.length ∧
  (st.map_lines_idx.map (fun kv => kv.1)).Nodup ∧
  (∀ c ∈ st.common_planes_idx, c ∈ st.map_lines_idx.map (fun kv => kv.1)) ∧
  (∀ (i c : Nat), st.common_planes_idx[i]? = some c →
    ∃ (e0 e1 : IEdge × Point_3) (planes0 planes1 : List Nat),
      intersections[i]? = some e0 ∧
      intersections[(i + 1) % intersections.length]? = some e1 ∧
      g0.intersected_planes e0.1 = some planes0 ∧
      g0.intersected_planes e1.1 = some planes1 ∧
      c < 6 ∧ c ∈ planes0 ∧ c ∈ planes1 ∧
      ∀ x, x ∈ planes0 → x ∈ planes1 → x < 6 → x = c)

/-- The part of one round of the third loop of `intersect_with_bbox` that acts on the
graph: the hit edge is split at `vertex`, and the edge from `vertex` to `next_vertex` is
added for the plane `support_plane_idx`, gets the plane `common_plane_idx` and the line
`line`. -/
def Intersection_graph.bbox_round (g : Intersection_graph) (iedge : IEdge)
    (vertex next_vertex : IVertex) (support_plane_idx common_plane_idx line : Nat) :
    Option Intersection_graph :=
  (g.split_edge iedge vertex).map fun split =>
    let added := split.2.add_edge vertex next_vertex support_plane_idx
    (added.2.modify_edge added.1.1
      (fun q => { q with planes := set_insert common_plane_idx q.planes })).set_line
        added.1.1 line

/-- The graph before the round `i` of the third loop of `intersect_with_bbox`, over the
graph `g0` at the start of the loop, whose vertices before the call are the first `V`: it
has three more edge descriptors for each round before; the edges with an old descriptor
are edges of `g0`; an edge with a new descriptor has an old vertex at one end or is the
new edge of a round before; the new edge of the round `j` before has the descriptor
`next_edge + 3 j + 2`, joins the vertex of the hit `j` to the vertex of the next hit in the
cycle of the `n` hits, and has the two planes `support_plane_idx` and
`common_planes_idx[j]` and the line of the memo. -/
def bbox_split_ok (g0 : Intersection_graph) (V n support_plane_idx : Nat)
    (common_planes_idx : List Nat) (map_lines_idx : List (Nat × Nat)) (i : Nat)
    (g : Intersection_graph) : Prop :=
  g.next_edge = g0.next_edge + 3 * i ∧
  g.vertices = g0.vertices ∧ g.m_nb_lines = g0.m_nb_lines ∧
  (∀ p ∈ g.edges, p.1 < g.next_edge) ∧
  (∀ p ∈ g.edges, p.1 < g0.next_edge → p ∈ g0.edges) ∧
  (∀ p ∈ g.edges, g0.next_edge ≤ p.1 →
    (p.2.source < V ∨ p.2.target < V) ∨
      ∃ j, j < i ∧ p.2.source = V + j ∧ p.2.target = V + (j + 1) % n) ∧
  (∀ (j c : Nat), j < i → common_planes_idx[j]? = some c →
    (g0.next_edge + 3 * j + 2,
      (⟨V + j, V + (j + 1) % n, set_insert c [support_plane_idx],
        (map_lines_idx.lookup c).getD 0, true⟩ : Edge_property)) ∈ g.edges)

/-! ### `KSR/property_map.h`: `Semantic_from_label_map` -/

/-- The values of `KSR::Semantic_label` that `property_map.h` names (`KSR/enum.h` is not
among the sources). -/
inductive Semantic_label where
  | GROUND
  | BUILDING_BOUNDARY
  | BUILDING_INTERIOR
  | VEGETATION
  | UNCLASSIFIED
deriving DecidableEq

/-- Embeds `Label_to_semantic_map`, a `std::unordered_map<int, Semantic_label>`, as the list
of its entries in the order of their insertion; the keys of a map are distinct. -/
abbrev Label_to_semantic_map := List (Int × Semantic_label)

/-- Embeds `m_label_to_semantic_map.find(label)`: the value of the entry with this key,
`none` for `end()`. -/
def Label_to_semantic_map.find (m : Label_to_semantic_map) (label : Int) :
    Option Semantic_label :=
  (List.find? (fun kv => kv.1 = label) m).map (fun kv => kv.2)

/-- Embeds `m_label_to_semantic_map.insert(std::make_pair(idx, label))`: `insert` of
`std::unordered_map` adds the pair only when the map has no entry with this key. -/
def Label_to_semantic_map.insert (m : Label_to_semantic_map) (idx : Int)
    (label : Semantic_label) : Label_to_semantic_map :=
  match m.find idx with
  | some _ => m
  | none => m ++ [(idx, label)]

/-- One loop `while (stream >> idx) m_label_to_semantic_map.insert(idx, label)` of the
constructor, over the integers that the stream yields. -/
def insert_labels (label : Semantic_label) :
    List Int → Label_to_semantic_map → Label_to_semantic_map
  | [], m => m
  | idx :: rest, m => insert_labels label rest (m.insert idx label)

/-- Embeds `KSR::Semantic_from_label_map<LabelMap>`: the label map and the map from labels
to semantic labels. -/
structure Semantic_from_label_map (Key : Type) where
  m_label_map : Key → Int
  m_label_to_semantic_map : Label_to_semantic_map

/-- Embeds the constructor `Semantic_from_label_map(label_map, gi_str, bi_str, ii_str,
vi_str, verbose)`. The extraction `stream >> idx` of the standard library is the parameter
`parse`: the integers read from a string until an extraction fails. -/
def Semantic_from_label_map.make {Key : Type} (parse : String → List Int)
    (label_map : Key → Int) (gi_str bi_str ii_str vi_str : String) :
    Semantic_from_label_map Key :=
  let m0 : Label_to_semantic_map := []
  let m1 := insert_labels Semantic_label.GROUND (parse gi_str) m0
  let m2 := insert_labels Semantic_label.BUILDING_BOUNDARY (parse bi_str) m1
  let m3 := insert_labels Semantic_label.BUILDING_INTERIOR (parse ii_str) m2
  let m4 := insert_labels Semantic_label.VEGETATION (parse vi_str) m3
  ⟨label_map, m4⟩

/-- Embeds the friend function `get(semantic_map, key)`. -/
def Semantic_from_label_map.get {Key : Type} (semantic_map : Semantic_from_label_map Key)
    (key : Key) : Semantic_label :=
  let label := semantic_map.m_label_map key
  match semantic_map.m_label_to_semantic_map.find label with
  | none => Semantic_label.UNCLASSIFIED
  | some value => value

/-- The semantic label of the first of the four lists, in the order ground, building
boundary, building interior, vegetation, that contains the label; `UNCLASSIFIED` when none
does. -/
def first_list_semantic (gi bi ii vi : List Int) (label : Int) : Semantic_label :=
  if label ∈ gi then Semantic_label.GROUND
  else if label ∈ bi then Semantic_label.BUILDING_BOUNDARY
  else if label ∈ ii then Semantic_label.BUILDING_INTERIOR
  else if label ∈ vi then Semantic_label.VEGETATION
  else Semantic_label.UNCLASSIFIED

/-! ### `AABB_traversal_traits_with_Hausdorff_distance.h` -/

/-- Embeds `Face_handle`, a face descriptor; `none` is the value `Face_handle()`. -/
abbrev Face_handle := Option Nat

/-- Embeds the members of `Bounds<Kernel, Face_handle>` that
`Hausdorff_primitive_traits_tm2` reads or writes. -/
structure Bounds where
  lower : FT
  upper : FT
  lface : Face_handle
  uface : Face_handle
deriving DecidableEq

/-- Embeds the state of `Hausdorff_primitive_traits_tm2` that `intersection` changes: the
local bounds and the running minima of the three vertices of the query triangle. -/
structure Hausdorff_primitive_traits_tm2 where
  h_local_bounds : Bounds
  h_v0_lower : FT
  h_v1_lower : FT
  h_v2_lower : FT
deriving DecidableEq

/-- Embeds `Hausdorff_primitive_traits_tm2::intersection(query, primitive)`: the state after
the call, `none` when the assertion `primitive.id() != Face_handle()` fails. The three
distances `v0_dist`, `v1_dist`, `v2_dist` of the vertices of the query triangle to the
triangle of the primitive come from the kernel (projection, squared distance, square root),
which is not among the sources, and are arguments here. -/
def Hausdorff_primitive_traits_tm2.intersection (t : Hausdorff_primitive_traits_tm2)
    (v0_dist v1_dist v2_dist : FT) (primitive_id : Face_handle) :
    Option Hausdorff_primitive_traits_tm2 :=
  if ¬ primitive_id ≠ none then none
  else
    let h_v0_lower := if v0_dist < t.h_v0_lower then v0_dist else t.h_v0_lower
    let h_v1_lower := if v1_dist < t.h_v1_lower then v1_dist else t.h_v1_lower
    let h_v2_lower := if v2_dist < t.h_v2_lower then v2_dist else t.h_v2_lower
    let distance_lower := max (max h_v0_lower h_v1_lower) h_v2_lower
    let distance_upper := max (max v0_dist v1_dist) v2_dist
    let bounds1 : Bounds :=
      if distance_lower < t.h_local_bounds.lower then
        { t.h_local_bounds with lower := distance_lower, lface := primitive_id }
      else t.h_local_bounds
    let bounds2 : Bounds :=
      if distance_upper < bounds1.upper then
        { bounds1 with upper := distance_upper, uface := primitive_id }
      else bounds1
    some ⟨bounds2, h_v0_lower, h_v1_lower, h_v2_lower⟩

/-- A sample state: the local bounds `2 <= 5` and the running minima `3, 1, 4`. -/
def sample_hausdorff_traits : Hausdorff_primitive_traits_tm2 :=
  ⟨⟨2, 5, some 0, some 0⟩, 3, 1, 4⟩

/-! ### `Delaunay_triangulation_sphere_2.h`: `test_dim_down` -/

/-- Embeds `Vertex_handle` of the triangulation on the sphere. -/
abbrev Vertex_handle := Nat

/-- The loop `for (i = 0; i < points.size() - 4; ++i)` of `test_dim_down`, entered with the
index `i` and the flag `dim1`; `bound` is the value of `points.size() - 4` as a
`std::size_t`. `on_boundary p q r s` is the test
`power_test(p, q, r, s) == ON_ORIENTED_BOUNDARY` of the geometric traits, which are not
among the sources. The first argument bounds the number of rounds; the result is `none`
when it is used up or when `points.at` throws `std::out_of_range`. -/
def test_dim_down_loop (on_boundary : Point_3 → Point_3 → Point_3 → Point_3 → Bool)
    (points : List Point_3) (bound : Nat) : Nat → Nat → Bool → Option Bool
  | 0, _, _ => none
  | fuel + 1, i, dim1 =>
    if i < bound then
      match points[i]?, points[i + 1]?, points[i + 2]?, points[i + 3]? with
      | some p, some q, some r, some s =>
        let dim1b := dim1 && on_boundary p q r s
        if ¬ dim1b = true then some dim1b
        else test_dim_down_loop on_boundary points bound fuel (i + 1) dim1b
      | _, _, _, _ => none
    else some true

/-- Embeds `Delaunay_triangulation_sphere_2::test_dim_down(v)` on a triangulation of the
given dimension whose vertices are listed with their points in the order of
`vertices_begin()`: the returned flag; `none` when the precondition `dimension() == 2`
fails or `points.at` throws. A round of the loop that neither returns nor throws reads the
point at `i + 3`, so `points.size() + 1` rounds always suffice. -/
def test_dim_down (on_boundary : Point_3 → Point_3 → Point_3 → Point_3 → Bool)
    (dimension : Nat) (vertices : List (Vertex_handle × Point_3)) (v : Vertex_handle) :
    Option Bool :=
  if ¬ dimension = 2 then none
  else
    let dim1 := true
    if vertices.length = 4 then some dim1
    else
      let points := (vertices.filter (fun it => it.1 ≠ v)).map (fun it => it.2)
      let bound := (points.length + 2 ^ 64 - 4) % 2 ^ 64
      test_dim_down_loop on_boundary points bound (points.length + 1) 0 dim1

/-- The windows of four consecutive points that the loop of `test_dim_down` would have to
test for the points to be coplanar: the window that starts at `i` passes the test. -/
def window_on_boundary (on_boundary : Point_3 → Point_3 → Point_3 → Point_3 → Bool)
    (points : List Point_3) (i : Nat) : Bool :=
  match points[i]?, points[i + 1]?, points[i + 2]?, points[i + 3]? with
  | some p, some q, some r, some s => on_boundary p q r s
  | _, _, _, _ => false

/-- A sample test on the oriented boundary: the four points are coplanar (the determinant
of the three vectors from the first point is zero). -/
def sample_coplanar (p q r s : Point_3) : Bool :=
  let u : Point_3 := (q.1 - p.1, q.2.1 - p.2.1, q.2.2 - p.2.2)
  let v : Point_3 := (r.1 - p.1, r.2.1 - p.2.1, r.2.2 - p.2.2)
  let w : Point_3 := (s.1 - p.1, s.2.1 - p.2.1, s.2.2 - p.2.2)
  decide (u.1 * (v.2.1 * w.2.2 - v.2.2 * w.2.1) - u.2.1 * (v.1 * w.2.2 - v.2.2 * w.1) +
    u.2.2 * (v.1 * w.2.1 - v.2.1 * w.1) = 0)

/-- A sample triangulation of the sphere with five vertices: the vertex 4 at the south
pole, and the vertices 0 to 3, which are not coplanar. -/
def sample_sphere_vertices : List (Vertex_handle × Point_3) :=
  [(0, (1, 0, 0)), (1, (0, 1, 0)), (2, (0, 0, 1)), (3, (-1, 0, 0)), (4, (0, 0, -1))]

/-- The vector `points` of `test_dim_down(v)`: the points of the vertices other than `v`. -/
def other_points (vertices : List (Vertex_handle × Point_3)) (v : Vertex_handle) :
    List Point_3 :=
  (vertices.filter (fun it => it.1 ≠ v)).map (fun it => it.2)

/-! ### `Data_structure::is_volume_degenerate` and `find_adjacent_pfaces` -/

/-- Embeds `CGAL_assertion(has_iedge(pedge)); const auto iedge = this->iedge(pedge);`: the
iedge that the mesh edge is bound to; `none` when the assertion fails. -/
def Data_structure.iedge_of_pedge (d : Data_structure) (pedge : PEdge) : Option IEdge :=
  match d.has_iedge pedge with
  | some true =>
    (d.support_plane pedge.1).bind fun sp => (sp.mesh_edges[pedge.2]?).bind (fun m => m.iedge)
  | _ => none

/-- The inner loop of `find_adjacent_pfaces` over the pedges of one face: `num_found` after
the loop, `none` when the assertion `has_iedge(pedge)` fails. -/
def Data_structure.count_query_pedges (d : Data_structure) (query : IEdge) :
    List PEdge → Nat → Option Nat
  | [], num_found => some num_found
  | pedge :: rest, num_found =>
    match d.iedge_of_pedge pedge with
    | none => none
    | some iedge =>
      d.count_query_pedges query rest (if iedge = query then num_found + 1 else num_found)

/-- The outer loop of `find_adjacent_pfaces` over the faces. -/
def Data_structure.find_adjacent_pfaces_loop (M : Mesh_access) (d : Data_structure)
    (current : PFace) (query : IEdge) : List PFace → Nat → Option Nat
  | [], num_found => some num_found
  | pface :: rest, num_found =>
    if pface = current then d.find_adjacent_pfaces_loop M current query rest num_found
    else
      match d.count_query_pedges query (M.pedges_of_pface pface) num_found with
      | none => none
      | some n => d.find_adjacent_pfaces_loop M current query rest n

/-- Embeds `Data_structure::find_adjacent_pfaces(current, query, pfaces)`: the number of
pedges bound to `query` among the faces other than `current`; `none` when an assertion
fails. -/
def Data_structure.find_adjacent_pfaces (M : Mesh_access) (d : Data_structure)
    (current : PFace) (query : IEdge) (pfaces : List PFace) : Option Nat :=
  d.find_adjacent_pfaces_loop M current query pfaces 0

/-- The inner loop of `is_volume_degenerate` over the pedges of the face `pface`: `count`
after the loop, `none` when an assertion fails. -/
def Data_structure.count_shared_pedges (M : Mesh_access) (d : Data_structure)
    (pface : PFace) (pfaces : List PFace) : List PEdge → Nat → Option Nat
  | [], count => some count
  | pedge :: rest, count =>
    match d.iedge_of_pedge pedge with
    | none => none
    | some iedge =>
      match d.find_adjacent_pfaces M pface iedge pfaces with
      | none => none
      | some num_found =>
        d.count_shared_pedges M pface pfaces rest (if num_found = 1 then count + 1 else count)

/-- The outer loop of `is_volume_degenerate` over the faces still to visit; `pfaces` is the
whole list. -/
def Data_structure.is_volume_degenerate_loop (M : Mesh_access) (d : Data_structure)
    (pfaces : List PFace) : List PFace → Option Bool
  | [] => some false
  | pface :: rest =>
    let pedges := M.pedges_of_pface pface
    let n := pedges.length
    match d.count_shared_pedges M pface pfaces pedges 0 with
    | none => none
    | some count =>
      if count ≠ n then some true
      else d.is_volume_degenerate_loop M pfaces rest

/-- Embeds `Data_structure::is_volume_degenerate(pfaces)`; `none` when an assertion fails. -/
def Data_structure.is_volume_degenerate (M : Mesh_access) (d : Data_structure)
    (pfaces : List PFace) : Option Bool :=
  d.is_volume_degenerate_loop M pfaces pfaces

/-- The number of pedges, among the faces of the list different from `current`, that are
bound to the iedge `query`. -/
def Data_structure.adjacent_count (M : Mesh_access) (d : Data_structure) (current : PFace)
    (query : IEdge) (pfaces : List PFace) : Nat :=
  (((pfaces.filter (fun pface => pface ≠ current)).map M.pedges_of_pface).flatten).countP
    (fun pedge => d.iedge_of_pedge pedge = some query)

/-- The property of the claim C37 for one pedge of the face `pface`: the pedge is bound to
an iedge, and exactly one pedge among the other faces of the list is bound to the same
iedge. -/
def Data_structure.shared_once (M : Mesh_access) (d : Data_structure) (pface : PFace)
    (pfaces : List PFace) (pedge : PEdge) : Bool :=
  match d.iedge_of_pedge pedge with
  | none => false
  | some iedge => decide (d.adjacent_count M pface iedge pfaces = 1)

/-- A sample data structure for `is_volume_degenerate`: the planes 6 and 7 carry one
triangular face each, and the three edges of both are bound to the iedges 0, 1 and 2. -/
def sample_data_pillow : Data_structure :=
  { sample_data 1 with
    m_support_planes :=
      List.replicate 6 (sample_plane 0 []) ++ [sample_bound_plane 0, sample_bound_plane 0] }

/-! ### The parallel test and the missing intersection of `compute_future_points_and_directions` -/

/-- The test of the specification for two lines, the first through `p` and `q`, the second
through `s` and `t`: their slopes differ by less than `tol`. The slope is taken as the
source takes it (the value `100000` stands for a vertical line). -/
def slopes_differ_less (tol : FT) (p q s t : Point_2) : Bool :=
  decide (|slope_or_default tol (q.2 - p.2) (q.1 - p.1) -
    slope_or_default tol (t.2 - s.2) (t.1 - s.1)| < tol)

/-- A sample input of `compute_future_points_and_directions` in which the edge from the
previous vertex to the pvertex is parallel to the iedge now, and is not at the time
`m_current_time + 1`: the previous vertex moves up and the pvertex moves down. -/
def sample_future_turning : Future_input :=
  { source_p := (0, 0), target_p := (4, 0), curr_p := (2, 2), prev_p := (0, 2),
    next_p := (3, 4), curr_future := (2, 1), prev_future := (0, 3), next_future := (3, 3),
    m_current_time := 1, future_point_a := (0, 0), future_point_b := (0, 0) }

/-- A sample input of `compute_future_points_and_directions` in which the edge from the
previous vertex to the pvertex is not parallel to the iedge now, and the line through their
points at the time `m_current_time + 1` is parallel to it; the point `future_point_a`
holds the value `a` when the routine is called. -/
def sample_future_missing (a : Point_2) : Future_input :=
  { source_p := (0, 0), target_p := (4, 0), curr_p := (1, 2), prev_p := (0, 4),
    next_p := (3, 4), curr_future := (1, 1), prev_future := (-1, 1), next_future := (3, 3),
    m_current_time := 1, future_point_a := a, future_point_b := (0, 0) }

/-! ### The entries that `set_limit_lines` records -/

/-- The plane `s` has a pedge bound to an iedge of the line `i`, in the sense of
`get_occupied_pedges(null_pvertex(), iedge, ...)`: some iedge of the graph lies on the
line `i`, the plane `s` is one of its planes and is not a bbox plane, and a mesh edge of
`s` is bound to that iedge. -/
def Data_structure.has_bound_pedge (d : Data_structure) (i s : Nat) : Prop :=
  ∃ iedge ∈ d.iedges, d.line_idx iedge = some i ∧
    ∃ planes, d.intersected_planes iedge = some planes ∧ s ∈ planes ∧
      s ≠ null_pvertex.1 ∧ 6 ≤ s ∧
      ∃ es, d.pedges s = some es ∧ ∃ pm ∈ es, pm.2.iedge = some iedge

/-- The entry of the line `i` as the claim C33 describes it, for the planes `sps` that have
pedges bound to the iedges of the line, in ascending order: nothing when there is no such
plane; for one plane `s1` the single pair `(s1, s2)`, where `s2` is the only other plane
of the first iedge of the line; for two planes both ordered pairs. -/
def Data_structure.entry_of_planes (d : Data_structure) (i : Nat) (sps : List Nat)
    (entry : Limit_line) : Prop :=
  (sps = [] → entry = []) ∧
  (∀ s1, sps = [s1] → ∃ iedge planes s2,
    (d.iedges.filter (fun e => d.line_idx e = some i)).head? = some iedge ∧
    d.intersected_planes iedge = some planes ∧
    planes.filter (fun s => s ≠ s1) = [s2] ∧ s2 ≠ s1 ∧
    entry = [((s1, s2), false)]) ∧
  (∀ s1 s2, sps = [s1, s2] → entry = [((s1, s2), false), ((s2, s1), false)])

/-- The statement of the claim C33 for the line `i` and its entry: the planes with pedges
bound to the iedges of the line form an ascending list `sps` of at most two planes, and
the entry is the one that `entry_of_planes` describes. -/
def Data_structure.limit_entry_ok (d : Data_structure) (i : Nat) (entry : Limit_line) :
    Prop :=
  ∃ sps : List Nat, sps.Pairwise (fun a b => a < b) ∧ sps.length ≤ 2 ∧
    (∀ s, s ∈ sps ↔ d.has_bound_pedge i s) ∧ d.entry_of_planes i sps entry

/-! ## Theorems -/

/-! ### `Event.h`: the order of the event queue -/

theorem ETime.lt_iff (tol : ℚ) (a e : ETime) :
    ETime.lt tol a e = true ↔
      (|a.time - e.time| < tol ∧ a.is_pvertex_to_ivertex = false ∧
          e.is_pvertex_to_ivertex = true) ∨
      (¬ |a.time - e.time| < tol ∧ a.time < e.time) := by
  unfold ETime.lt
  by_cases h : |a.time - e.time| < tol
  · cases ha : a.is_pvertex_to_ivertex <;> cases hb : e.is_pvertex_to_ivertex <;> simp [h]
  · simp [h]

/-- C1 (as stated, refuted): at equal times the pvertex-to-ivertex event does not compare
less than the pvertex-to-iedge event; the comparison goes the other way. -/
theorem C1_ivertex_not_before_iedge :
    (Event.pvertex_to_ivertex false (6, 0) 3 0).is_pvertex_to_ivertex = true ∧
    ∃ b, Event.pvertex_to_iedge false (6, 1) 4 0 = some b ∧
      b.is_pvertex_to_iedge = true ∧
      |(Event.pvertex_to_ivertex false (6, 0) 3 0).m_time.time - b.m_time.time|
        < (1 / 100000 : ℚ) ∧
      ETime.lt (1 / 100000) (Event.pvertex_to_ivertex false (6, 0) 3 0).m_time b.m_time
        = false := by
  refine ⟨by decide, _, rfl, by decide, ?_, ?_⟩
  · simp [Event.pvertex_to_ivertex]
  · simp [Event.pvertex_to_ivertex, ETime.lt, ETime.is_pvertex_to_ivertex, null_pvertex,
      null_ivertex, no_element]

/-- C1 (amended): for a pvertex-to-ivertex event `a` and a pvertex-to-iedge event `b` whose
times differ by less than the tolerance, `b` compares less than `a` under
`ETime::operator<` and `a` does not compare less than `b`: the pvertex-to-iedge event is
ordered first. -/
theorem C1_iedge_before_ivertex (tol : ℚ) (ca cb : Bool) (pa pb : PVertex) (iv : IVertex)
    (ie : IEdge) (ta tb : ℚ) (b : Event)
    (hiv : iv ≠ null_ivertex)
    (hb : Event.pvertex_to_iedge cb pb ie tb = some b)
    (hband : |ta - tb| < tol) :
    ETime.lt tol b.m_time (Event.pvertex_to_ivertex ca pa iv ta).m_time = true ∧
    ETime.lt tol (Event.pvertex_to_ivertex ca pa iv ta).m_time b.m_time = false := by
  unfold Event.pvertex_to_iedge at hb
  split at hb
  · cases hb
    have hband2 : |tb - ta| < tol := by rw [abs_sub_comm]; exact hband
    simp [Event.pvertex_to_ivertex, ETime.lt, ETime.is_pvertex_to_ivertex, hband, hband2, hiv]
  · cases hb

theorem C1_iedge_before_ivertex_witness :
    ETime.lt (1 / 100000)
        (⟨false, (6, 1), null_pvertex, null_ivertex, 4, ⟨0, null_pvertex, null_ivertex⟩, 6⟩ :
          Event).m_time
        (Event.pvertex_to_ivertex false (6, 0) 3 0).m_time = true ∧
    ETime.lt (1 / 100000) (Event.pvertex_to_ivertex false (6, 0) 3 0).m_time
        (⟨false, (6, 1), null_pvertex, null_ivertex, 4, ⟨0, null_pvertex, null_ivertex⟩, 6⟩ :
          Event).m_time = false :=
  C1_iedge_before_ivertex (1 / 100000) false false (6, 0) (6, 1) 3 4 0 0 _
    (by decide) rfl (by norm_num)

theorem ETime.lt_eq_false_iff (tol : ℚ) (a e : ETime) :
    ETime.lt tol a e = false ↔ ¬ ETime.lt tol a e = true := by
  cases ETime.lt tol a e <;> simp

theorem ETime.lt_iff_of_separated (tol : ℚ) (a b : ETime) (h : ETime.separated tol a b) :
    ETime.lt tol a b = true ↔
      a.time < b.time ∨
      (a.time = b.time ∧ 0 < tol ∧ a.is_pvertex_to_ivertex = false ∧
        b.is_pvertex_to_ivertex = true) := by
  rw [ETime.lt_iff]
  rcases h with h | h
  · simp [h]
  · have hn : ¬ |a.time - b.time| < tol := not_lt.mpr h
    constructor
    · rintro (⟨h1, -⟩ | ⟨-, h2⟩)
      · exact absurd h1 hn
      · exact Or.inl h2
    · rintro (h1 | ⟨h1, h2, -⟩)
      · exact Or.inr ⟨hn, h1⟩
      · exfalso
        rw [h1, sub_self, abs_zero] at h
        exact absurd h2 (not_lt.mpr h)

/-- C2 (as stated, refuted): `ETime::operator<` is not a strict weak order. With tolerance
`1/100000` and three events of the same kind at times `0`, `6/1000000`, `12/1000000`,
the first two and the last two are incomparable while the first compares less than the
third (incomparability is not transitive); and with an iedge-kind time `9/1000000`, an
ivertex-kind time `0` and an iedge-kind time `15/1000000`, `a < b` and `b < c` hold but
`a < c` does not (the comparison is not transitive). -/
theorem C2_not_strict_weak_order :
    (ETime.lt (1 / 100000) ⟨0, null_pvertex, null_ivertex⟩
        ⟨6 / 1000000, null_pvertex, null_ivertex⟩ = false ∧
     ETime.lt (1 / 100000) ⟨6 / 1000000, null_pvertex, null_ivertex⟩
        ⟨0, null_pvertex, null_ivertex⟩ = false ∧
     ETime.lt (1 / 100000) ⟨6 / 1000000, null_pvertex, null_ivertex⟩
        ⟨12 / 1000000, null_pvertex, null_ivertex⟩ = false ∧
     ETime.lt (1 / 100000) ⟨12 / 1000000, null_pvertex, null_ivertex⟩
        ⟨6 / 1000000, null_pvertex, null_ivertex⟩ = false ∧
     ETime.lt (1 / 100000) ⟨0, null_pvertex, null_ivertex⟩
        ⟨12 / 1000000, null_pvertex, null_ivertex⟩ = true) ∧
    (ETime.lt (1 / 100000) ⟨9 / 1000000, null_pvertex, null_ivertex⟩
        ⟨0, null_pvertex, 3⟩ = true ∧
     ETime.lt (1 / 100000) ⟨0, null_pvertex, 3⟩
        ⟨15 / 1000000, null_pvertex, null_ivertex⟩ = true ∧
     ETime.lt (1 / 100000) ⟨9 / 1000000, null_pvertex, null_ivertex⟩
        ⟨15 / 1000000, null_pvertex, null_ivertex⟩ = false) := by
  refine ⟨⟨?_, ?_, ?_, ?_, ?_⟩, ?_, ?_, ?_⟩ <;>
    simp [ETime.lt, ETime.is_pvertex_to_ivertex, null_pvertex, null_ivertex, no_element] <;>
    norm_num [abs_lt, abs_of_nonneg, abs_of_neg]

/-- C2 (amended): `ETime::operator<` is irreflexive and asymmetric on all events; on
events whose times are pairwise separated by the tolerance (equal, or at least `tol`
apart) it is moreover transitive and its incomparability is transitive, i.e. it is a
strict weak order there. -/
theorem C2_strict_weak_order_on_separated (tol : ℚ) :
    (∀ a : ETime, ETime.lt tol a a = false) ∧
    (∀ a b : ETime, ETime.lt tol a b = true → ETime.lt tol b a = false) ∧
    (∀ a b c : ETime, ETime.separated tol a b → ETime.separated tol b c →
        ETime.separated tol a c →
        (ETime.lt tol a b = true → ETime.lt tol b c = true → ETime.lt tol a c = true) ∧
        (ETime.lt tol a b = false → ETime.lt tol b a = false →
          ETime.lt tol b c = false → ETime.lt tol c b = false →
          ETime.lt tol a c = false ∧ ETime.lt tol c a = false)) := by
  refine ⟨fun a => ?_, fun a b hab => ?_, fun a b c sab sbc sac => ⟨?_, ?_⟩⟩
  · rw [ETime.lt_eq_false_iff, ETime.lt_iff]
    rintro (⟨-, h1, h2⟩ | ⟨-, h⟩)
    · rw [h1] at h2; cases h2
    · exact lt_irrefl _ h
  · rw [ETime.lt_eq_false_iff, ETime.lt_iff]
    rw [ETime.lt_iff] at hab
    rw [abs_sub_comm b.time a.time]
    rintro (⟨h0, h1, h2⟩ | ⟨h0, h⟩)
    · rcases hab with ⟨-, h3, -⟩ | ⟨h3, -⟩
      · rw [h2] at h3; cases h3
      · exact h3 h0
    · rcases hab with ⟨h3, -⟩ | ⟨-, h3⟩
      · exact h0 h3
      · exact lt_asymm h h3
  · have sba : ETime.separated tol b a := by
      rcases sab with h | h
      · exact Or.inl h.symm
      · exact Or.inr (by rw [abs_sub_comm]; exact h)
    rw [ETime.lt_iff_of_separated tol a b sab, ETime.lt_iff_of_separated tol b c sbc,
      ETime.lt_iff_of_separated tol a c sac]
    rintro (h1 | ⟨h1, h2, h3, h4⟩) (h5 | ⟨h5, h6, h7, h8⟩)
    · exact Or.inl (lt_trans h1 h5)
    · exact Or.inl (h5 ▸ h1)
    · exact Or.inl (h1 ▸ h5)
    · rw [h4] at h7; cases h7
  · have sba : ETime.separated tol b a := by
      rcases sab with h | h
      · exact Or.inl h.symm
      · exact Or.inr (by rw [abs_sub_comm]; exact h)
    have scb : ETime.separated tol c b := by
      rcases sbc with h | h
      · exact Or.inl h.symm
      · exact Or.inr (by rw [abs_sub_comm]; exact h)
    have sca : ETime.separated tol c a := by
      rcases sac with h | h
      · exact Or.inl h.symm
      · exact Or.inr (by rw [abs_sub_comm]; exact h)
    simp only [ETime.lt_eq_false_iff]
    rw [ETime.lt_iff_of_separated tol a b sab, ETime.lt_iff_of_separated tol b a sba,
      ETime.lt_iff_of_separated tol b c sbc, ETime.lt_iff_of_separated tol c b scb,
      ETime.lt_iff_of_separated tol a c sac, ETime.lt_iff_of_separated tol c a sca]
    intro h1 h2 h3 h4
    have eab : a.time = b.time := by
      rcases lt_trichotomy a.time b.time with h | h | h
      · exact absurd (Or.inl h) h1
      · exact h
      · exact absurd (Or.inl h) h2
    have ebc : b.time = c.time := by
      rcases lt_trichotomy b.time c.time with h | h | h
      · exact absurd (Or.inl h) h3
      · exact h
      · exact absurd (Or.inl h) h4
    have eac : a.time = c.time := eab.trans ebc
    simp only [eab, ebc, lt_irrefl, false_or, true_and] at h1 h2 h3 h4 ⊢
    cases ha : a.is_pvertex_to_ivertex <;> cases hb : b.is_pvertex_to_ivertex <;>
      cases hc : c.is_pvertex_to_ivertex <;> simp_all

theorem C2_strict_weak_order_on_separated_witness :
    ETime.separated (1 / 100000) ⟨0, null_pvertex, null_ivertex⟩ ⟨0, null_pvertex, 3⟩ ∧
    ETime.separated (1 / 100000) ⟨0, null_pvertex, 3⟩ ⟨1, null_pvertex, null_ivertex⟩ ∧
    ETime.lt (1 / 100000) ⟨0, null_pvertex, null_ivertex⟩ ⟨0, null_pvertex, 3⟩ = true ∧
    ETime.lt (1 / 100000) ⟨0, null_pvertex, 3⟩ ⟨1, null_pvertex, null_ivertex⟩ = true ∧
    ETime.lt (1 / 100000) ⟨0, null_pvertex, null_ivertex⟩ ⟨1, null_pvertex, null_ivertex⟩
      = true :=
  have hab : ETime.lt (1 / 100000) ⟨0, null_pvertex, null_ivertex⟩ ⟨0, null_pvertex, 3⟩
      = true := by
    simp [ETime.lt, ETime.is_pvertex_to_ivertex, null_pvertex, null_ivertex, no_element]
  have hbc : ETime.lt (1 / 100000) ⟨0, null_pvertex, 3⟩ ⟨1, null_pvertex, null_ivertex⟩
      = true := by
    simp [ETime.lt, ETime.is_pvertex_to_ivertex, null_pvertex, null_ivertex, no_element]
    norm_num
  ⟨Or.inl rfl, Or.inr (by norm_num), hab, hbc,
    ((C2_strict_weak_order_on_separated (1 / 100000)).2.2
      ⟨0, null_pvertex, null_ivertex⟩ ⟨0, null_pvertex, 3⟩ ⟨1, null_pvertex, null_ivertex⟩
      (Or.inl rfl) (Or.inr (by norm_num)) (Or.inr (by norm_num))).1 hab hbc⟩

/-! ### `update_limit_lines_and_k` -/

theorem decrement_unsigned_eq (k : Nat) (h1 : 1 ≤ k) (h2 : k < 4294967296) :
    decrement_unsigned k = k - 1 := by
  unfold decrement_unsigned
  omega

/-- Under its context assertions `update_limit_lines_and_k` is its tail. -/
theorem update_eq_tail (d : Data_structure) (pvertex : PVertex) (e : IEdge) (occ : Bool)
    (s2 line : Nat) (hc : update_context d pvertex e s2 line) :
    d.update_limit_lines_and_k pvertex e occ = update_tail d pvertex.1 s2 line occ := by
  obtain ⟨⟨planes, hp, hscan⟩, h1, h2, h3, h4, h5, h6, h7⟩ := hc
  unfold Data_structure.update_limit_lines_and_k update_tail
  simp only [hp, hscan, h4]
  rw [if_neg h1, if_neg (not_not_intro h2), if_neg (not_not_intro h3), if_neg h5,
    if_neg (not_not_intro h6), if_neg (not_not_intro h7)]

/-- A call that trips no assertion either met a bbox plane, and then returns true with the
data structure untouched whatever the occupied flag is, or passed the context assertions. -/
theorem update_some_cases (d : Data_structure) (pvertex : PVertex) (e : IEdge) (occ : Bool)
    (r : Bool × Data_structure) (h : d.update_limit_lines_and_k pvertex e occ = some r) :
    (r = (true, d) ∧ ∀ occ2, d.update_limit_lines_and_k pvertex e occ2 = some (true, d)) ∨
    ∃ s2 line, update_context d pvertex e s2 line := by
  unfold Data_structure.update_limit_lines_and_k at h
  dsimp only at h
  cases hp : d.intersected_planes e with
  | none => simp [hp] at h
  | some planes =>
    simp only [hp] at h
    cases hscan : scan_intersected_planes pvertex.1 planes with
    | bbox_plane =>
      left
      simp only [hscan] at h
      refine ⟨(Option.some.inj h).symm, fun occ2 => ?_⟩
      unfold Data_structure.update_limit_lines_and_k
      simp [hp, hscan]
    | not_found => simp [hscan] at h
    | found s2 =>
      right
      simp only [hscan] at h
      split at h
      · cases h
      split at h
      · cases h
      split at h
      · cases h
      cases hl : d.line_idx e with
      | none => simp [hl] at h
      | some line =>
        simp only [hl] at h
        split at h
        · cases h
        split at h
        · cases h
        split at h
        · cases h
        rename_i a1 a2 a3 a4 a5 a6
        exact ⟨s2, line, ⟨planes, hp, hscan⟩, a1, not_not.mp a2, not_not.mp a3, hl, a4,
          not_not.mp a5, not_not.mp a6⟩

theorem update_tail_cases (d : Data_structure) (s1 s2 line : Nat) (occ : Bool) (b : Bool)
    (d2 : Data_structure) (h : update_tail d s1 s2 line occ = some (b, d2)) :
    (find_limit_pair s1 s2 (d.m_limit_lines.getD line []) = some b ∧ d2 = d) ∨
    (find_limit_pair s1 s2 (d.m_limit_lines.getD line []) = none ∧
      (d.m_limit_lines.getD line []).length < 2 ∧
      ((occ = false ∧ b = false ∧ d2 = d.push_limit line ((s1, s2), false)) ∨
       (occ = true ∧ d.k s1 = some 1 ∧ b = true ∧
          d2 = d.push_limit line ((s1, s2), true)) ∨
       (occ = true ∧ (∃ k, d.k s1 = some k ∧ k ≠ 1) ∧ b = false ∧
          d2 = (d.push_limit line ((s1, s2), false)).decrement_k s1))) := by
  unfold update_tail at h
  cases hf : find_limit_pair s1 s2 (d.m_limit_lines.getD line []) with
  | some f =>
    simp only [hf] at h
    left
    cases h
    exact ⟨rfl, rfl⟩
  | none =>
    simp only [hf] at h
    right
    split at h
    · cases h
    rename_i hlen
    refine ⟨rfl, not_not.mp hlen, ?_⟩
    cases occ with
    | false =>
      simp only [Bool.false_eq_true, if_false] at h
      cases h
      exact Or.inl ⟨rfl, rfl, rfl⟩
    | true =>
      simp only [if_true] at h
      cases hk : d.k s1 with
      | none => simp [hk] at h
      | some k =>
        simp only [hk] at h
        by_cases hk1 : k = 1
        · simp only [hk1, if_true] at h
          cases h
          exact Or.inr (Or.inl ⟨rfl, by rw [hk1], rfl, rfl⟩)
        · simp only [hk1, if_false] at h
          cases h
          exact Or.inr (Or.inr ⟨rfl, ⟨k, rfl, hk1⟩, rfl, rfl⟩)

theorem push_limit_getD (d : Data_structure) (line : Nat) (item : (Nat × Nat) × Bool)
    (h : line < d.m_limit_lines.length) :
    (d.push_limit line item).m_limit_lines.getD line [] =
      d.m_limit_lines.getD line [] ++ [item] := by
  unfold Data_structure.push_limit
  simp only [List.getD_eq_getElem?_getD, List.getElem?_set_self h, Option.getD_some]

theorem decrement_k_limit_lines (d : Data_structure) (s : Nat) :
    (d.decrement_k s).m_limit_lines = d.m_limit_lines := by
  unfold Data_structure.decrement_k
  split <;> rfl

theorem decrement_k_graph (d : Data_structure) (s : Nat) :
    (d.decrement_k s).m_intersection_graph = d.m_intersection_graph := by
  unfold Data_structure.decrement_k
  split <;> rfl

theorem find_limit_pair_append (s1 s2 : Nat) (b : Bool) (pairs : Limit_line)
    (h : find_limit_pair s1 s2 pairs = none) :
    find_limit_pair s1 s2 (pairs ++ [((s1, s2), b)]) = some b := by
  induction pairs with
  | nil => simp [find_limit_pair]
  | cons item rest ih =>
    unfold find_limit_pair at h
    split at h
    · cases h
    · rename_i hne
      simp only [List.cons_append, find_limit_pair, hne, if_false]
      exact ih h

/-- Once the memo of the line ends with the entry for `(s1, s2)` that a first call
appended, a further call finds it and changes nothing. -/
theorem update_after_push (d d2 : Data_structure) (pvertex : PVertex) (e : IEdge)
    (s2 line : Nat) (b occ2 : Bool) (hc : update_context d pvertex e s2 line)
    (hg : d2.m_intersection_graph = d.m_intersection_graph)
    (hlen : (d.m_limit_lines.getD line []).length < 2)
    (hf : find_limit_pair pvertex.1 s2 (d.m_limit_lines.getD line []) = none)
    (hl : d2.m_limit_lines = (d.push_limit line ((pvertex.1, s2), b)).m_limit_lines) :
    d2.update_limit_lines_and_k pvertex e occ2 = some (b, d2) := by
  obtain ⟨⟨planes, hp, hscan⟩, h1, h2, h3, h4, h5, h6, h7⟩ := hc
  have hget : d2.m_limit_lines.getD line [] =
      d.m_limit_lines.getD line [] ++ [((pvertex.1, s2), b)] := by
    rw [hl]; exact push_limit_getD d line _ h6
  have hlen2 : d2.m_limit_lines.length = d.m_limit_lines.length := by
    rw [hl]; simp [Data_structure.push_limit]
  have hc2 : update_context d2 pvertex e s2 line := by
    refine ⟨⟨planes, ?_, hscan⟩, h1, h2, ?_, ?_, h5, ?_, ?_⟩
    · simpa [Data_structure.intersected_planes, hg] using hp
    · simpa [Data_structure.nb_intersection_lines, hg, hlen2] using h3
    · simpa [Data_structure.line_idx, hg] using h4
    · rw [hlen2]; exact h6
    · rw [hget, List.length_append]; simp only [List.length_singleton]; omega
  rw [update_eq_tail d2 pvertex e occ2 s2 line hc2]
  unfold update_tail
  rw [hget, find_limit_pair_append pvertex.1 s2 b _ hf]

/-- C4: `update_limit_lines_and_k` is idempotent. Whenever a call trips no assertion and
returns `b` with data structure `d2`, the call repeated on `d2` with the same pvertex and
iedge and any occupied flag trips no assertion either, returns `b` again and leaves `d2`
as it is (so `limit_lines` and every `k` are unchanged). -/
theorem C4_update_limit_lines_and_k_idempotent (d : Data_structure) (pvertex : PVertex)
    (e : IEdge) (occ occ2 : Bool) (b : Bool) (d2 : Data_structure)
    (h : d.update_limit_lines_and_k pvertex e occ = some (b, d2)) :
    d2.update_limit_lines_and_k pvertex e occ2 = some (b, d2) := by
  rcases update_some_cases d pvertex e occ (b, d2) h with ⟨hr, hall⟩ | ⟨s2, line, hc⟩
  · cases hr
    exact hall occ2
  · rw [update_eq_tail d pvertex e occ s2 line hc] at h
    rcases update_tail_cases d pvertex.1 s2 line occ b d2 h with
      ⟨hf, hd⟩ | ⟨hf, hlen, ⟨-, hb, hd⟩ | ⟨-, -, hb, hd⟩ | ⟨-, -, hb, hd⟩⟩
    · subst hd
      rw [update_eq_tail d2 pvertex e occ2 s2 line hc]
      unfold update_tail
      rw [hf]
    · subst hb
      exact update_after_push d d2 pvertex e s2 line false occ2 hc (by rw [hd]; rfl) hlen hf
        (by rw [hd])
    · subst hb
      exact update_after_push d d2 pvertex e s2 line true occ2 hc (by rw [hd]; rfl) hlen hf
        (by rw [hd])
    · subst hb
      exact update_after_push d d2 pvertex e s2 line false occ2 hc
        (by rw [hd, decrement_k_graph]; rfl) hlen hf (by rw [hd, decrement_k_limit_lines])

theorem C4_update_limit_lines_and_k_idempotent_witness :
    (sample_data 2).update_limit_lines_and_k (6, 0) 0 true = some (false, sample_data_after) ∧
    sample_data_after.update_limit_lines_and_k (6, 0) 0 false =
      some (false, sample_data_after) :=
  ⟨by decide,
   C4_update_limit_lines_and_k_idempotent (sample_data 2) (6, 0) 0 true false false
     sample_data_after (by decide)⟩

theorem update_frame_refl (d : Data_structure) (pvertex : PVertex) (e : IEdge) :
    update_frame d pvertex e d :=
  ⟨rfl, rfl, rfl, rfl, rfl, rfl, fun _ _ => rfl, fun _ _ h => Or.inl h, rfl, fun _ _ => rfl,
    fun _ h => Or.inl h⟩

theorem update_frame_push (d : Data_structure) (pvertex : PVertex) (e : IEdge) (line : Nat)
    (item : (Nat × Nat) × Bool) (hl : d.line_idx e = some line) :
    update_frame d pvertex e (d.push_limit line item) := by
  refine ⟨rfl, rfl, rfl, rfl, rfl, ?_, ?_, ?_, rfl, fun _ _ => rfl, fun _ h => Or.inl h⟩
  · simp [Data_structure.push_limit]
  · intro l hne
    have hne2 : line ≠ l := fun hh => hne (hh ▸ hl)
    simp only [Data_structure.push_limit, List.getElem?_set_ne hne2]
  · intro l pairs hp
    by_cases hll : line = l
    · subst hll
      right
      refine ⟨item, ?_⟩
      have hlt : line < d.m_limit_lines.length := by
        by_contra hc
        rw [List.getElem?_eq_none (Nat.le_of_not_lt hc)] at hp
        cases hp
      simp only [Data_structure.push_limit, List.getElem?_set_self hlt,
        List.getD_eq_getElem?_getD, hp, Option.getD_some]
    · left
      simp only [Data_structure.push_limit, List.getElem?_set_ne hll, hp]

theorem update_frame_decrement (d d1 : Data_structure) (pvertex : PVertex) (e : IEdge)
    (h : update_frame d pvertex e d1) (hs : d1.m_support_planes = d.m_support_planes) :
    update_frame d pvertex e (d1.decrement_k pvertex.1) := by
  obtain ⟨h1, h2, h3, h4, h5, h6, h7, h8, h9, h10, h11⟩ := h
  unfold Data_structure.decrement_k
  cases hsp : d1.m_support_planes[pvertex.1]? with
  | none => exact ⟨h1, h2, h3, h4, h5, h6, h7, h8, h9, h10, h11⟩
  | some sp =>
    refine ⟨h1, h2, h3, h4, h5, h6, h7, h8, ?_, ?_, ?_⟩
    · simp only [List.length_set]; exact h9
    · intro i hi
      simp only [List.getElem?_set_ne (Ne.symm hi)]
      exact h10 i hi
    · intro sp2 hsp2
      right
      have hlt : pvertex.1 < d1.m_support_planes.length := by
        by_contra hc
        rw [List.getElem?_eq_none (Nat.le_of_not_lt hc)] at hsp
        cases hsp
      rw [hs] at hsp
      rw [hsp] at hsp2
      cases hsp2
      simp only [List.getElem?_set_self hlt]

/-- C5: a call of `update_limit_lines_and_k` that trips no assertion leaves the
intersection graph, the input polygon map, the times and the verbose flag as they are;
the memos keep their number, the memo of every line other than the line of the iedge is
unchanged, and every memo either is unchanged or has one entry appended at its end (so
the entries already present stay); the support planes keep their number, every plane
other than the plane of the pvertex is unchanged, and the plane of the pvertex is
unchanged or differs only in `k`, which was decremented once (the `--` of an
`unsigned int`). -/
theorem C5_update_limit_lines_and_k_frame (d : Data_structure) (pvertex : PVertex)
    (e : IEdge) (occ : Bool) (b : Bool) (d2 : Data_structure)
    (h : d.update_limit_lines_and_k pvertex e occ = some (b, d2)) :
    d2.m_intersection_graph = d.m_intersection_graph ∧
    d2.m_input_polygon_map = d.m_input_polygon_map ∧
    d2.m_previous_time = d.m_previous_time ∧
    d2.m_current_time = d.m_current_time ∧
    d2.m_verbose = d.m_verbose ∧
    d2.m_limit_lines.length = d.m_limit_lines.length ∧
    (∀ l : Nat, d.line_idx e ≠ some l → d2.m_limit_lines[l]? = d.m_limit_lines[l]?) ∧
    (∀ (l : Nat) (pairs : Limit_line), d.m_limit_lines[l]? = some pairs →
      d2.m_limit_lines[l]? = some pairs ∨
      ∃ item : (Nat × Nat) × Bool, d2.m_limit_lines[l]? = some (pairs ++ [item])) ∧
    d2.m_support_planes.length = d.m_support_planes.length ∧
    (∀ i, i ≠ pvertex.1 → d2.m_support_planes[i]? = d.m_support_planes[i]?) ∧
    (∀ sp, d.m_support_planes[pvertex.1]? = some sp →
      d2.m_support_planes[pvertex.1]? = some sp ∨
      d2.m_support_planes[pvertex.1]? = some { sp with k := decrement_unsigned sp.k }) := by
  show update_frame d pvertex e d2
  rcases update_some_cases d pvertex e occ (b, d2) h with ⟨hr, -⟩ | ⟨s2, line, hc⟩
  · cases hr
    exact update_frame_refl d pvertex e
  · rw [update_eq_tail d pvertex e occ s2 line hc] at h
    have hl : d.line_idx e = some line := hc.2.2.2.2.1
    rcases update_tail_cases d pvertex.1 s2 line occ b d2 h with
      ⟨-, hd⟩ | ⟨-, -, ⟨-, -, hd⟩ | ⟨-, -, -, hd⟩ | ⟨-, -, -, hd⟩⟩
    · rw [hd]
      exact update_frame_refl d pvertex e
    · rw [hd]
      exact update_frame_push d pvertex e line _ hl
    · rw [hd]
      exact update_frame_push d pvertex e line _ hl
    · rw [hd]
      exact update_frame_decrement d _ pvertex e (update_frame_push d pvertex e line _ hl) rfl

theorem C5_update_limit_lines_and_k_frame_witness :
    sample_data_after.m_limit_lines.length = (sample_data 2).m_limit_lines.length ∧
    sample_data_after.m_limit_lines[1]? = (sample_data 2).m_limit_lines[1]? ∧
    sample_data_after.m_support_planes[7]? = (sample_data 2).m_support_planes[7]? :=
  have h := C5_update_limit_lines_and_k_frame (sample_data 2) (6, 0) 0 true false
    sample_data_after (by decide)
  ⟨h.2.2.2.2.2.1, h.2.2.2.2.2.2.1 1 (by decide), h.2.2.2.2.2.2.2.2.2.1 7 (by decide)⟩

/-! ### The memo invariant -/

theorem limit_lines_ok_of_eq (d d2 : Data_structure) (h : d2.m_limit_lines = d.m_limit_lines)
    (hok : limit_lines_ok d) : limit_lines_ok d2 := by
  unfold limit_lines_ok at hok ⊢
  rw [h]; exact hok

theorem getD_limit_ok (d : Data_structure) (line : Nat) (hok : limit_lines_ok d) :
    ∀ item ∈ d.m_limit_lines.getD line [], item.1.1 ≠ item.1.2 := by
  intro item hitem
  rw [List.getD_eq_getElem?_getD] at hitem
  cases hg : d.m_limit_lines[line]? with
  | none => rw [hg] at hitem; simp at hitem
  | some pairs =>
    rw [hg] at hitem
    exact (hok pairs (List.getElem?_mem hg)).2 item hitem

theorem limit_lines_ok_push (d : Data_structure) (line : Nat) (item : (Nat × Nat) × Bool)
    (hok : limit_lines_ok d) (hlen : (d.m_limit_lines.getD line []).length < 2)
    (hne : item.1.1 ≠ item.1.2) : limit_lines_ok (d.push_limit line item) := by
  intro pairs hpairs
  unfold Data_structure.push_limit at hpairs
  rcases List.mem_or_eq_of_mem_set hpairs with hmem | heq
  · exact hok pairs hmem
  · subst heq
    refine ⟨?_, ?_⟩
    · rw [List.length_append]; simp only [List.length_singleton]; omega
    · intro it hit
      rcases List.mem_append.mp hit with h1 | h1
      · exact getD_limit_ok d line hok it h1
      · rw [List.mem_singleton] at h1; rw [h1]; exact hne

theorem push_limit_getD_length_le (d : Data_structure) (line : Nat)
    (item : (Nat × Nat) × Bool) :
    ((d.push_limit line item).m_limit_lines.getD line []).length ≤
      (d.m_limit_lines.getD line []).length + 1 := by
  by_cases h : line < d.m_limit_lines.length
  · rw [push_limit_getD d line item h, List.length_append]; simp
  · have h2 : (d.push_limit line item).m_limit_lines.length ≤ line := by
      simp only [Data_structure.push_limit, List.length_set]; omega
    rw [List.getD_eq_getElem?_getD, List.getElem?_eq_none h2]
    simp

theorem new_limit_pairs_ok (planes : Option (List Nat)) (sps : List Nat) (items : Limit_line)
    (h : new_limit_pairs planes sps = some items) :
    items.length ≤ 2 ∧ ∀ item ∈ items, item.1.1 ≠ item.1.2 := by
  match sps, h with
  | [], h =>
    rw [new_limit_pairs] at h
    cases h; simp
  | [sp1], h =>
    rw [new_limit_pairs] at h
    split at h
    · cases h
    split at h
    · cases h
    dsimp only at h
    split at h
    · cases h
    split at h
    · cases h
    split at h
    · cases h
    rename_i hne _ _
    cases h
    have hne2 := not_not.mp hne
    simp only [List.length_singleton, List.mem_singleton]
    exact ⟨by omega, fun item hi => by rw [hi]; exact Ne.symm hne2⟩
  | [sp1, sp2], h =>
    rw [new_limit_pairs] at h
    split at h
    · cases h
    split at h
    · cases h
    split at h
    · cases h
    rename_i hne _ _
    cases h
    have hne2 := not_not.mp hne
    refine ⟨by simp, ?_⟩
    intro item hi
    simp only [List.mem_cons, List.mem_singleton, List.not_mem_nil, or_false] at hi
    rcases hi with hi | hi
    · rw [hi]; exact Ne.symm hne2
    · rw [hi]; exact hne2
  | _ :: _ :: _ :: _, h =>
    rw [new_limit_pairs] at h
    cases h

theorem push_limits_ok (items : Limit_line) :
    ∀ (d : Data_structure) (i : Nat), limit_lines_ok d →
      (d.m_limit_lines.getD i []).length + items.length ≤ 2 →
      (∀ item ∈ items, item.1.1 ≠ item.1.2) → limit_lines_ok (d.push_limits i items) := by
  induction items with
  | nil => intro d i hok _ _; exact hok
  | cons item rest ih =>
    intro d i hok hlen hne
    unfold Data_structure.push_limits
    rw [List.length_cons] at hlen
    have h1 := limit_lines_ok_push d i item hok (by omega) (hne item (List.mem_cons_self _ _))
    have hl := push_limit_getD_length_le d i item
    exact ih _ i h1 (by omega) (fun it hit => hne it (List.mem_cons_of_mem _ hit))

theorem set_limit_line_ok (d d2 : Data_structure) (i : Nat) (hok : limit_lines_ok d)
    (h : d.set_limit_line i = some d2) : limit_lines_ok d2 := by
  unfold Data_structure.set_limit_line at h
  split at h
  · cases h
  split at h
  · cases h
  split at h
  · cases h
  split at h
  · cases h; exact hok
  dsimp only at h
  split at h
  · cases h
  split at h
  · cases h
  split at h
  · cases h
  rename_i hzero
  have hzero2 : (d.m_limit_lines.getD i []).length = 0 := not_not.mp hzero
  split at h
  · cases h
  rename_i items hitems
  cases h
  have hi := new_limit_pairs_ok _ _ items hitems
  exact push_limits_ok items d i hok (by omega) hi.2

theorem set_limit_lines_loop_ok (is : List Nat) :
    ∀ (d d2 : Data_structure), limit_lines_ok d → d.set_limit_lines_loop is = some d2 →
      limit_lines_ok d2 := by
  induction is with
  | nil =>
    intro d d2 hok h
    unfold Data_structure.set_limit_lines_loop at h
    cases h; exact hok
  | cons i rest ih =>
    intro d d2 hok h
    unfold Data_structure.set_limit_lines_loop at h
    cases h1 : d.set_limit_line i with
    | none => rw [h1] at h; cases h
    | some d1 =>
      rw [h1] at h
      exact ih d1 d2 (set_limit_line_ok d d1 i hok h1) h

/-- C6: the memo invariant (every `limit_lines[l]` has at most two entries, and the two
plane indices of every entry are different) holds after every `set_limit_lines` that trips
no assertion, and every `update_limit_lines_and_k` that trips no assertion preserves it. -/
theorem C6_limit_lines_invariant :
    (∀ d d2 : Data_structure, d.set_limit_lines = some d2 → limit_lines_ok d2) ∧
    (∀ (d : Data_structure) (pvertex : PVertex) (e : IEdge) (occ b : Bool)
        (d2 : Data_structure), limit_lines_ok d →
        d.update_limit_lines_and_k pvertex e occ = some (b, d2) → limit_lines_ok d2) := by
  constructor
  · intro d d2 h
    unfold Data_structure.set_limit_lines at h
    refine set_limit_lines_loop_ok _ _ d2 ?_ h
    intro pairs hpairs
    rw [List.eq_of_mem_replicate hpairs]
    exact ⟨by simp, by simp⟩
  · intro d pvertex e occ b d2 hok h
    rcases update_some_cases d pvertex e occ (b, d2) h with ⟨hr, -⟩ | ⟨s2, line, hc⟩
    · cases hr; exact hok
    · rw [update_eq_tail d pvertex e occ s2 line hc] at h
      have hne : pvertex.1 ≠ s2 := by
        obtain ⟨⟨planes, -, hscan⟩, -⟩ := hc
        clear h
        induction planes with
        | nil => cases hscan
        | cons p rest ih =>
          unfold scan_intersected_planes at hscan
          split at hscan
          · exact ih hscan
          · rename_i hp
            split at hscan
            · cases hscan
            · cases hscan; exact fun hh => hp hh.symm
      rcases update_tail_cases d pvertex.1 s2 line occ b d2 h with
        ⟨-, hd⟩ | ⟨-, hlen, ⟨-, -, hd⟩ | ⟨-, -, -, hd⟩ | ⟨-, -, -, hd⟩⟩
      · rw [hd]; exact hok
      · rw [hd]; exact limit_lines_ok_push d line _ hok hlen hne
      · rw [hd]; exact limit_lines_ok_push d line _ hok hlen hne
      · rw [hd]
        exact limit_lines_ok_of_eq _ _ (decrement_k_limit_lines _ _)
          (limit_lines_ok_push d line _ hok hlen hne)

theorem C6_limit_lines_invariant_witness :
    limit_lines_ok
      { sample_data_meshes [⟨some 0, some 0, none⟩] with
        m_limit_lines := [[((6, 7), false), ((7, 6), false)], []] } ∧
    limit_lines_ok sample_data_after :=
  ⟨C6_limit_lines_invariant.1 (sample_data_meshes [⟨some 0, some 0, none⟩]) _ (by decide),
   C6_limit_lines_invariant.2 (sample_data 2) (6, 0) 0 true false sample_data_after
     (by intro pairs hp; simp [sample_data] at hp; subst hp; simp) (by decide)⟩

/-! ### The budget `k` -/

theorem push_limit_k (d : Data_structure) (line : Nat) (item : (Nat × Nat) × Bool) (p : Nat) :
    (d.push_limit line item).k p = d.k p := rfl

theorem decrement_k_k_ne (d : Data_structure) (s p : Nat) (h : s ≠ p) :
    (d.decrement_k s).k p = d.k p := by
  unfold Data_structure.decrement_k
  split
  · simp only [Data_structure.k, Data_structure.support_plane, List.getElem?_set_ne h]
  · rfl

theorem decrement_k_k_self (d : Data_structure) (p k : Nat) (h : d.k p = some k) :
    (d.decrement_k p).k p = some (decrement_unsigned k) := by
  unfold Data_structure.k Data_structure.support_plane at h
  unfold Data_structure.decrement_k
  cases hsp : d.m_support_planes[p]? with
  | none => rw [hsp] at h; cases h
  | some sp =>
    rw [hsp] at h
    have hlt : p < d.m_support_planes.length := by
      by_contra hc
      rw [List.getElem?_eq_none (Nat.le_of_not_lt hc)] at hsp
      cases hsp
    simp only [Option.map_some', Option.some.injEq] at h
    simp only [Data_structure.k, Data_structure.support_plane, List.getElem?_set_self hlt,
      Option.map_some', h]

theorem push_limit_limit_lines_ne (d : Data_structure) (line : Nat)
    (item : (Nat × Nat) × Bool) (h : line < d.m_limit_lines.length) :
    (d.push_limit line item).m_limit_lines ≠ d.m_limit_lines := by
  intro heq
  have h1 := push_limit_getD d line item h
  rw [heq] at h1
  have h2 := congrArg List.length h1
  rw [List.length_append] at h2
  simp at h2

/-- One call: the budget of `p` stays at least 1 and drops by one exactly when the call
recorded a free crossing of `p`. -/
theorem update_budget_step (p k : Nat) (d : Data_structure) (c : Update_call)
    (r : Bool × Data_structure) (hk : d.k p = some k) (hk1 : 1 ≤ k) (hk2 : k < 4294967296)
    (h : d.update_limit_lines_and_k c.pvertex c.iedge c.is_occupied_iedge = some r) :
    ∃ k2, r.2.k p = some k2 ∧ 1 ≤ k2 ∧
      (if is_free_crossing p d c r then 1 else 0) + k2 = k := by
  obtain ⟨b, d2⟩ := r
  have hsame : ∀ (d3 : Data_structure) (b3 : Bool), d3.k p = d.k p →
      is_free_crossing p d c (b3, d3) = false →
      ∃ k2, d3.k p = some k2 ∧ 1 ≤ k2 ∧
        (if is_free_crossing p d c (b3, d3) then 1 else 0) + k2 = k := by
    intro d3 b3 h3 hfree
    exact ⟨k, by rw [h3, hk], hk1, by simp [hfree]⟩
  rcases update_some_cases d c.pvertex c.iedge c.is_occupied_iedge (b, d2) h with
    ⟨hr, -⟩ | ⟨s2, line, hc⟩
  · cases hr
    exact hsame d true rfl (by simp [is_free_crossing])
  · rw [update_eq_tail d c.pvertex c.iedge c.is_occupied_iedge s2 line hc] at h
    have hline : line < d.m_limit_lines.length := hc.2.2.2.2.2.2.1
    rcases update_tail_cases d c.pvertex.1 s2 line c.is_occupied_iedge b d2 h with
      ⟨-, hd⟩ | ⟨-, -, ⟨hocc, hb, hd⟩ | ⟨-, -, hb, hd⟩ | ⟨hocc, ⟨k1, hk1s, hk1ne⟩, hb, hd⟩⟩
    · rw [hd]
      exact hsame d b rfl (by simp [is_free_crossing])
    · rw [hd]
      exact hsame _ b (push_limit_k d line _ p) (by simp [is_free_crossing, hocc])
    · rw [hd, hb]
      exact hsame _ true (push_limit_k d line _ p) (by simp [is_free_crossing])
    · rw [hd, hb]
      by_cases hp : c.pvertex.1 = p
      · rw [hp] at hk1s
        rw [hk] at hk1s
        cases hk1s
        have hdec : decrement_unsigned k = k - 1 := decrement_unsigned_eq k hk1 hk2
        have hk3 : ((d.push_limit line ((c.pvertex.1, s2), false)).decrement_k c.pvertex.1).k p
            = some (k - 1) := by
          rw [hp, ← hdec]
          exact decrement_k_k_self _ p k (by rw [push_limit_k]; exact hk)
        have hfree : is_free_crossing p d c
            (false, (d.push_limit line ((c.pvertex.1, s2), false)).decrement_k c.pvertex.1)
            = true := by
          have hne := push_limit_limit_lines_ne d line ((c.pvertex.1, s2), false) hline
          rw [hp] at hne
          simp [is_free_crossing, hp, hocc, decrement_k_limit_lines, hne]
        refine ⟨k - 1, hk3, by omega, ?_⟩
        rw [hfree]
        simp only [if_true]
        omega
      · exact hsame _ false
          (by rw [decrement_k_k_ne _ _ _ hp, push_limit_k])
          (by simp [is_free_crossing, hp])

theorem run_updates_budget (p : Nat) (calls : List Update_call) :
    ∀ (d : Data_structure) (k n : Nat) (d2 : Data_structure), d.k p = some k → 1 ≤ k →
      k < 4294967296 → run_updates p d calls = some (n, d2) →
      ∃ k2, d2.k p = some k2 ∧ 1 ≤ k2 ∧ n + k2 = k := by
  induction calls with
  | nil =>
    intro d k n d2 hk hk1 _ h
    unfold run_updates at h
    cases h
    exact ⟨k, hk, hk1, by omega⟩
  | cons c rest ih =>
    intro d k n d2 hk hk1 hk2 h
    unfold run_updates at h
    cases hu : d.update_limit_lines_and_k c.pvertex c.iedge c.is_occupied_iedge with
    | none => rw [hu] at h; cases h
    | some r =>
      rw [hu] at h
      dsimp only at h
      obtain ⟨k1, hr, hk1a, hk1b⟩ := update_budget_step p k d c r hk hk1 hk2 hu
      cases hrest : run_updates p r.2 rest with
      | none => rw [hrest] at h; cases h
      | some nd =>
        obtain ⟨n1, d3⟩ := nd
        rw [hrest] at h
        cases h
        obtain ⟨k2, h2a, h2b, h2c⟩ := ih r.2 k1 _ _ hr hk1a (by omega) hrest
        exact ⟨k2, h2a, h2b, by omega⟩

/-- C7: let the budget of the plane `p` be `k0`, an `unsigned int` that is at least 1.
After every sequence of calls of `update_limit_lines_and_k` that trip no assertion, the
number `n` of newly recorded occupied crossings of `p` that are not limit lines and the
budget `k2` of `p` satisfy `n + k2 = k0` and `1 <= k2`, so `n <= k0 - 1` and `n <= k0`
and the budget never drops below 1. And when the budget of `p` is 1, a call for a pvertex
of `p` with an occupied iedge that records a new memo entry returns true, records the
entry as a limit line and leaves the budget at 1. -/
theorem C7_crossing_budget (p k0 : Nat) (hk1 : 1 ≤ k0) (hk2 : k0 < 4294967296) :
    (∀ (d : Data_structure) (calls : List Update_call) (n : Nat) (d2 : Data_structure),
        d.k p = some k0 → run_updates p d calls = some (n, d2) →
        ∃ k2, d2.k p = some k2 ∧ 1 ≤ k2 ∧ n + k2 = k0 ∧ n ≤ k0 - 1 ∧ n ≤ k0) ∧
    (∀ (d : Data_structure) (pvertex : PVertex) (e : IEdge) (b : Bool)
        (d2 : Data_structure), pvertex.1 = p → d.k p = some 1 →
        d.update_limit_lines_and_k pvertex e true = some (b, d2) →
        d2.m_limit_lines ≠ d.m_limit_lines →
        b = true ∧ d2.k p = some 1 ∧
          ∃ line s2, d2 = d.push_limit line ((p, s2), true)) := by
  constructor
  · intro d calls n d2 hk h
    obtain ⟨k2, h1, h2, h3⟩ := run_updates_budget p calls d k0 n d2 hk hk1 hk2 h
    exact ⟨k2, h1, h2, h3, by omega, by omega⟩
  · intro d pvertex e b d2 hp hk h hne
    rcases update_some_cases d pvertex e true (b, d2) h with ⟨hr, -⟩ | ⟨s2, line, hc⟩
    · cases hr; exact absurd rfl hne
    · rw [update_eq_tail d pvertex e true s2 line hc] at h
      rcases update_tail_cases d pvertex.1 s2 line true b d2 h with
        ⟨-, hd⟩ | ⟨-, -, ⟨hocc, -, -⟩ | ⟨-, -, hb, hd⟩ | ⟨-, ⟨k1, hk1s, hk1ne⟩, -, -⟩⟩
      · rw [hd] at hne; exact absurd rfl hne
      · cases hocc
      · rw [hp] at hd
        exact ⟨hb, by rw [hd, push_limit_k]; exact hk, line, s2, hd⟩
      · rw [hp, hk] at hk1s
        cases hk1s
        exact absurd rfl hk1ne

theorem C7_crossing_budget_witness :
    ∃ k2, sample_data_after.k 6 = some k2 ∧ 1 ≤ k2 ∧ 1 + k2 = 2 ∧ 1 ≤ 2 - 1 ∧ 1 ≤ 2 :=
  (C7_crossing_budget 6 2 (by decide) (by decide)).1 (sample_data 2)
    [⟨(6, 0), 0, true⟩, ⟨(6, 1), 0, true⟩] 1 sample_data_after (by decide) (by decide)

/-! ### `is_occupied` -/

/-- C8 (as stated, refuted): IEdge 0 of the sample lies on the planes 6 and 7, none of them
a bbox plane; plane 7 has a mesh edge bound to IEdge 0 with a PFace on one side; yet
`is_occupied` for a pvertex of plane 6 reports the iedge as not occupied. -/
theorem C8_single_face_not_occupied :
    (sample_data_meshes []).intersected_planes 0 = some [6, 7] ∧
    (∀ p ∈ [6, 7], 6 ≤ p) ∧
    has_face_on_other_plane (sample_data_meshes []) 6 0 [6, 7] ∧
    (sample_data_meshes []).is_occupied (6, 0) 0 = some (false, false) := by
  refine ⟨by decide, by decide, ?_, by decide⟩
  exact ⟨7, by simp, by decide, [((7, 0), ⟨some 0, some 0, none⟩), ((7, 1), ⟨none, some 0, none⟩)],
    by decide, ((7, 0), ⟨some 0, some 0, none⟩), by simp, rfl, Or.inl (by simp)⟩

theorem count_adjacent_faces_eq (e : IEdge) (es : List (PEdge × Mesh_edge)) :
    ∀ num, count_adjacent_faces e es num =
      num + ((es.filter (fun pe => pe.2.iedge = some e)).map
        (fun pe => pe.2.face_count)).sum := by
  induction es with
  | nil => intro num; simp [count_adjacent_faces]
  | cons pe rest ih =>
    intro num
    unfold count_adjacent_faces
    by_cases hb : pe.2.iedge = some e
    · have hs : pe.2.iedge.isSome = true := by rw [hb]; rfl
      simp only [hs, not_true_eq_false, if_false, hb, if_true, List.filter_cons, decide_True,
        List.map_cons, List.sum_cons, ih, Mesh_edge.face_count]
      by_cases h1 : pe.2.face1 = none <;> by_cases h2 : pe.2.face2 = none <;>
        simp [h1, h2] <;> omega
    · simp only [hb, if_false, List.filter_cons, decide_False, Bool.false_eq_true]
      split
      · exact ih num
      · exact ih num

theorem pedges_of_lt (d : Data_structure) (plane : Nat)
    (h : plane < d.number_of_support_planes) : ∃ es, d.pedges plane = some es := by
  unfold Data_structure.pedges Data_structure.support_plane
  unfold Data_structure.number_of_support_planes at h
  rw [List.getElem?_eq_getElem h]
  exact ⟨_, rfl⟩

theorem is_occupied_loop_eq (d : Data_structure) (pvertex : PVertex) (e : IEdge)
    (planes : List Nat) :
    ∀ num, (∀ p ∈ planes, 6 ≤ p) → (∀ p ∈ planes, p < d.number_of_support_planes) →
      d.is_occupied_loop pvertex e planes num =
        some (Occupied_scan.counted (num + adjacent_face_count d pvertex.1 e planes)) := by
  induction planes with
  | nil => intro num _ _; simp [Data_structure.is_occupied_loop, adjacent_face_count]
  | cons p rest ih =>
    intro num h6 hv
    have h6r : ∀ q ∈ rest, 6 ≤ q := fun q hq => h6 q (List.mem_cons_of_mem _ hq)
    have hvr : ∀ q ∈ rest, q < d.number_of_support_planes :=
      fun q hq => hv q (List.mem_cons_of_mem _ hq)
    unfold Data_structure.is_occupied_loop
    by_cases hp : p = pvertex.1
    · rw [if_pos hp, ih num h6r hvr]
      simp [adjacent_face_count, hp]
    · have hp6 : ¬ p < 6 := Nat.not_lt.mpr (h6 p (List.mem_cons_self _ _))
      obtain ⟨es, hes⟩ := pedges_of_lt d p (hv p (List.mem_cons_self _ _))
      rw [if_neg hp, if_neg hp6]
      simp only [hes]
      rw [ih _ h6r hvr, count_adjacent_faces_eq]
      simp only [adjacent_face_count, List.filter_cons, ne_eq, hp, not_false_eq_true,
        decide_True, if_true, List.map_cons, List.sum_cons, hes, Option.getD_some]
      congr 2
      omega

theorem exists_pos_of_sum_pos {α : Type} (f : α → Nat) (l : List α)
    (h : 0 < (l.map f).sum) : ∃ x ∈ l, 0 < f x := by
  induction l with
  | nil => simp at h
  | cons a rest ih =>
    rw [List.map_cons, List.sum_cons] at h
    by_cases ha : 0 < f a
    · exact ⟨a, List.mem_cons_self _ _, ha⟩
    · obtain ⟨x, hx, hfx⟩ := ih (by omega)
      exact ⟨x, List.mem_cons_of_mem _ hx, hfx⟩

theorem has_face_of_count_pos (d : Data_structure) (sp_idx : Nat) (e : IEdge)
    (planes : List Nat) (hv : ∀ p ∈ planes, p < d.number_of_support_planes)
    (h : 0 < adjacent_face_count d sp_idx e planes) :
    has_face_on_other_plane d sp_idx e planes := by
  unfold adjacent_face_count at h
  obtain ⟨plane, hplane, hpos⟩ := exists_pos_of_sum_pos _ _ h
  rw [List.mem_filter] at hplane
  obtain ⟨es, hes⟩ := pedges_of_lt d plane (hv plane hplane.1)
  rw [hes, Option.getD_some] at hpos
  obtain ⟨pe, hpe, hfc⟩ := exists_pos_of_sum_pos _ _ hpos
  rw [List.mem_filter] at hpe
  refine ⟨plane, hplane.1, by simpa using hplane.2, es, hes, pe, hpe.1, by simpa using hpe.2, ?_⟩
  unfold Mesh_edge.face_count at hfc
  by_cases h1 : pe.2.face1 = none
  · by_cases h2 : pe.2.face2 = none
    · simp [h1, h2] at hfc
    · exact Or.inr h2
  · exact Or.inl h1

/-- C8 (amended): for an iedge `e` that lies on no bbox plane (and whose planes are planes
of the data structure), `is_occupied(pvertex, e)` returns, never reports the bbox as
reached, and reports `e` as occupied exactly when the mesh edges bound to `e` on the
incident planes other than the plane of the pvertex have at least two sides with a PFace
in total. So an occupied iedge has a PFace on another plane, but a single PFace (on one
side of one edge) does not make the iedge occupied. -/
theorem C8_is_occupied_iff_two_faces (d : Data_structure) (pvertex : PVertex) (e : IEdge)
    (planes : List Nat) (hne : e ≠ null_iedge)
    (hplanes : d.intersected_planes e = some planes)
    (hbbox : ∀ p ∈ planes, 6 ≤ p)
    (hvalid : ∀ p ∈ planes, p < d.number_of_support_planes) :
    ∃ r, d.is_occupied pvertex e = some r ∧ r.2 = false ∧
      (r.1 = true ↔ 2 ≤ adjacent_face_count d pvertex.1 e planes) ∧
      (r.1 = true → has_face_on_other_plane d pvertex.1 e planes) := by
  unfold Data_structure.is_occupied
  rw [if_neg (not_not_intro hne)]
  simp only [hplanes, is_occupied_loop_eq d pvertex e planes 0 hbbox hvalid, Nat.zero_add]
  by_cases hc : adjacent_face_count d pvertex.1 e planes ≤ 1
  · rw [if_pos hc]
    exact ⟨(false, false), rfl, rfl, by simp; omega, by simp⟩
  · rw [if_neg hc]
    refine ⟨(true, false), rfl, rfl, by simp; omega, fun _ => ?_⟩
    exact has_face_of_count_pos d pvertex.1 e planes hvalid (by omega)

theorem C8_is_occupied_iff_two_faces_witness :
    ∃ r, (sample_data_meshes [⟨some 0, some 0, some 1⟩]).is_occupied (7, 0) 0 = some r ∧
      r.2 = false ∧
      (r.1 = true ↔
        2 ≤ adjacent_face_count (sample_data_meshes [⟨some 0, some 0, some 1⟩]) 7 0 [6, 7]) ∧
      (r.1 = true →
        has_face_on_other_plane (sample_data_meshes [⟨some 0, some 0, some 1⟩]) 7 0 [6, 7]) :=
  C8_is_occupied_iff_two_faces (sample_data_meshes [⟨some 0, some 0, some 1⟩]) (7, 0) 0 [6, 7]
    (by decide) (by decide) (by decide) (by decide)

/-! ### `add_support_plane` and `add_input_polygon` -/

theorem find_same_plane_some (new_sp : Support_plane) (l : List Support_plane) :
    ∀ i j, find_same_plane new_sp l i = some j →
      i ≤ j ∧ (∃ sp, l[j - i]? = some sp ∧ new_sp.same sp = true) ∧
      ∀ m sp, m < j - i → l[m]? = some sp → new_sp.same sp = false := by
  induction l with
  | nil => intro i j h; cases h
  | cons sp rest ih =>
    intro i j h
    unfold find_same_plane at h
    by_cases hs : new_sp.same sp = true
    · rw [if_pos hs] at h
      cases h
      refine ⟨Nat.le_refl _, ⟨sp, by simp, hs⟩, ?_⟩
      intro m sp2 hm _
      omega
    · rw [if_neg hs] at h
      obtain ⟨h1, ⟨sp2, h2, h3⟩, h4⟩ := ih (i + 1) j h
      have hji : j - i = (j - (i + 1)) + 1 := by omega
      refine ⟨by omega, ⟨sp2, by rw [hji]; simpa using h2, h3⟩, ?_⟩
      intro m sp3 hm hsp3
      cases m with
      | zero =>
        simp only [List.getElem?_cons_zero, Option.some.injEq] at hsp3
        rw [← hsp3]; simpa using hs
      | succ m =>
        rw [List.getElem?_cons_succ] at hsp3
        exact h4 m sp3 (by omega) hsp3

theorem find_same_plane_none (new_sp : Support_plane) (l : List Support_plane) :
    ∀ i, find_same_plane new_sp l i = none ↔ ∀ sp ∈ l, new_sp.same sp = false := by
  induction l with
  | nil => intro i; simp [find_same_plane]
  | cons sp rest ih =>
    intro i
    unfold find_same_plane
    by_cases hs : new_sp.same sp = true
    · simp [hs]
    · rw [if_neg hs, ih (i + 1)]
      simp only [List.mem_cons, forall_eq_or_imp]
      constructor
      · intro h; exact ⟨by simpa using hs, h⟩
      · intro h; exact h.2

theorem modify_unique_iedges_strip (d d2 : Data_structure) (sp_idx : Nat)
    (f : List IEdge → List IEdge) (h : d.modify_unique_iedges sp_idx f = some d2) :
    d2.m_support_planes.map Support_plane.strip = d.m_support_planes.map Support_plane.strip := by
  unfold Data_structure.modify_unique_iedges at h
  cases hsp : d.m_support_planes[sp_idx]? with
  | none => rw [hsp] at h; cases h
  | some sp =>
    rw [hsp] at h
    cases h
    apply List.ext_getElem?
    intro n
    simp only [List.getElem?_map, List.getElem?_set]
    by_cases hn : sp_idx = n
    · subst hn
      have hlt : sp_idx < d.m_support_planes.length := by
        by_contra hc
        rw [List.getElem?_eq_none (Nat.le_of_not_lt hc)] at hsp
        cases hsp
      simp [hlt, hsp, Support_plane.strip]
    · simp [hn]

theorem modify_unique_iedges_all_strip (f : List IEdge → List IEdge) (planes : List Nat) :
    ∀ (d d2 : Data_structure), d.modify_unique_iedges_all f planes = some d2 →
      d2.m_support_planes.map Support_plane.strip =
        d.m_support_planes.map Support_plane.strip := by
  induction planes with
  | nil =>
    intro d d2 h
    unfold Data_structure.modify_unique_iedges_all at h
    cases h; rfl
  | cons sp_idx rest ih =>
    intro d d2 h
    unfold Data_structure.modify_unique_iedges_all at h
    cases h1 : d.modify_unique_iedges sp_idx f with
    | none => rw [h1] at h; cases h
    | some d1 =>
      rw [h1] at h
      rw [ih d1 d2 h, modify_unique_iedges_strip d d1 sp_idx f h1]

theorem bbox_split_loop_strip (support_plane_idx : Nat)
    (intersections : List (IEdge × Point_3)) (common_planes_idx : List Nat)
    (map_lines_idx : List (Nat × Nat)) (vertices : List IVertex) (is : List Nat) :
    ∀ (d d2 : Data_structure),
      Data_structure.bbox_split_loop support_plane_idx intersections common_planes_idx
        map_lines_idx vertices is d = some d2 →
      d2.m_support_planes.map Support_plane.strip =
        d.m_support_planes.map Support_plane.strip := by
  induction is with
  | nil =>
    intro d d2 h
    unfold Data_structure.bbox_split_loop at h
    cases h; rfl
  | cons i rest ih =>
    intro d d2 h
    unfold Data_structure.bbox_split_loop at h
    dsimp only at h
    split at h
    · rename_i iedge _ vertex next_vertex common_plane_idx _ _ _ _
      cases h0 : d.m_intersection_graph.intersected_planes iedge with
      | none => rw [h0] at h; cases h
      | some iplanes =>
      rw [h0, Option.some_bind] at h
      cases h1 : d.modify_unique_iedges_all (fun s => s.erase iedge) iplanes with
      | none => rw [h1] at h; cases h
      | some d1 =>
      rw [h1, Option.some_bind] at h
      cases h2 : d1.m_intersection_graph.split_edge iedge vertex with
      | none => rw [h2] at h; cases h
      | some split =>
      rw [h2, Option.some_bind] at h
      try dsimp only at h
      cases h3 : split.2.intersected_planes split.1.1 with
      | none => rw [h3] at h; cases h
      | some iplanes_1 =>
      rw [h3, Option.some_bind] at h
      cases h4 : Data_structure.modify_unique_iedges_all
          { d1 with m_intersection_graph := split.2 } (set_insert split.1.1) iplanes_1 with
      | none => rw [h4] at h; cases h
      | some d3 =>
      rw [h4, Option.some_bind] at h
      cases h5 : d3.m_intersection_graph.intersected_planes split.1.2 with
      | none => rw [h5] at h; cases h
      | some iplanes_2 =>
      rw [h5, Option.some_bind] at h
      cases h6 : d3.modify_unique_iedges_all (set_insert split.1.2) iplanes_2 with
      | none => rw [h6] at h; cases h
      | some d4 =>
      rw [h6, Option.some_bind] at h
      try dsimp only at h
      generalize hg : Intersection_graph.set_line _ _ _ = g2 at h
      cases h7 : Data_structure.modify_unique_iedges
          { d4 with m_intersection_graph := g2 } support_plane_idx
          (set_insert (d4.m_intersection_graph.add_edge vertex next_vertex
            support_plane_idx).1.1) with
      | none => rw [h7] at h; cases h
      | some d6 =>
      rw [h7, Option.some_bind] at h
      cases h8 : d6.modify_unique_iedges common_plane_idx
          (set_insert (d4.m_intersection_graph.add_edge vertex next_vertex
            support_plane_idx).1.1) with
      | none => rw [h8] at h; cases h
      | some d7 =>
      rw [h8, Option.some_bind] at h
      rw [ih d7 d2 h, modify_unique_iedges_strip _ _ _ _ h8,
        modify_unique_iedges_strip _ _ _ _ h7, modify_unique_iedges_all_strip _ _ _ _ h6,
        modify_unique_iedges_all_strip _ _ _ _ h4, modify_unique_iedges_all_strip _ _ _ _ h1]
    · cases h

theorem intersect_with_bbox_strip (G : Geometry) (d d2 : Data_structure) (idx : Nat)
    (h : d.intersect_with_bbox G idx = some d2) :
    d2.m_support_planes.map Support_plane.strip =
      d.m_support_planes.map Support_plane.strip := by
  unfold Data_structure.intersect_with_bbox at h
  split at h
  · cases h; rfl
  cases h0 : d.support_plane idx with
  | none => rw [h0] at h; cases h
  | some sp =>
  rw [h0, Option.some_bind] at h
  cases h1 : collect_intersections G sp.plane d.m_intersection_graph
      d.m_intersection_graph.edge_list (0, 0, 0) [] with
  | none => rw [h1] at h; cases h
  | some collected =>
  rw [h1, Option.some_bind] at h
  dsimp only at h
  generalize hi : sort_by _ collected.2 = intersections at h
  cases h2 : bbox_scan_loop intersections (List.range intersections.length)
      ⟨d.m_intersection_graph, [], [], []⟩ with
  | none => rw [h2] at h; cases h
  | some st =>
  rw [h2, Option.some_bind] at h
  split at h
  · cases h
  have hs := bbox_split_loop_strip _ _ _ _ _ _ _ d2 h
  exact hs

/-- C10: `add_support_plane` deduplicates planes. If the plane of the polygon equals an
existing support plane, the call returns the smallest index of such a plane and leaves the
whole data structure (so the number of support planes and the intersection graph) as it
is. Otherwise every call that trips no assertion returns the previous number of support
planes, and afterwards there is exactly one support plane more: the support planes are
the old ones followed by the new one, up to their sets `unique_iedges`; with fewer than
six planes before, the call trips no assertion and only appends the plane. -/
theorem C10_add_support_plane_dedup (G : Geometry) (d : Data_structure)
    (polygon : List Point_3) :
    ((∃ sp ∈ d.m_support_planes, (G.make_support_plane polygon).same sp = true) →
      ∃ j sp, d.add_support_plane G polygon = some (j, d) ∧
        d.m_support_planes[j]? = some sp ∧ (G.make_support_plane polygon).same sp = true ∧
        ∀ m sp2, m < j → d.m_support_planes[m]? = some sp2 →
          (G.make_support_plane polygon).same sp2 = false) ∧
    ((∀ sp ∈ d.m_support_planes, (G.make_support_plane polygon).same sp = false) →
      (∀ r, d.add_support_plane G polygon = some r →
        r.1 = d.number_of_support_planes ∧
        r.2.number_of_support_planes = d.number_of_support_planes + 1 ∧
        r.2.m_support_planes.map Support_plane.strip =
          (d.m_support_planes ++ [G.make_support_plane polygon]).map Support_plane.strip) ∧
      (d.number_of_support_planes < 6 →
        d.add_support_plane G polygon =
          some (d.number_of_support_planes,
            { d with m_support_planes :=
                d.m_support_planes ++ [G.make_support_plane polygon] }))) := by
  constructor
  · intro hex
    unfold Data_structure.add_support_plane
    dsimp only
    cases hf : find_same_plane (G.make_support_plane polygon) d.m_support_planes 0 with
    | none =>
      obtain ⟨sp, hsp, hsame⟩ := hex
      have := (find_same_plane_none _ _ 0).mp hf sp hsp
      rw [this] at hsame
      cases hsame
    | some j =>
      obtain ⟨-, ⟨sp, h2, h3⟩, h4⟩ := find_same_plane_some _ _ 0 j hf
      exact ⟨j, sp, rfl, h2, h3, fun m sp2 hm hsp2 => h4 m sp2 hm hsp2⟩
  · intro hall
    have hf := (find_same_plane_none (G.make_support_plane polygon) d.m_support_planes 0).mpr hall
    constructor
    · intro r hr
      unfold Data_structure.add_support_plane at hr
      dsimp only at hr
      rw [hf] at hr
      dsimp only at hr
      cases hi : Data_structure.intersect_with_bbox G
          { d with m_support_planes := d.m_support_planes ++ [G.make_support_plane polygon] }
          d.number_of_support_planes with
      | none => rw [hi] at hr; cases hr
      | some d2 =>
        rw [hi] at hr
        cases hr
        have hs := intersect_with_bbox_strip G _ d2 _ hi
        refine ⟨rfl, ?_, hs⟩
        have hlen := congrArg List.length hs
        simp only [List.length_map, List.length_append, List.length_singleton] at hlen
        exact hlen
    · intro h6
      unfold Data_structure.add_support_plane
      dsimp only
      rw [hf]
      dsimp only
      unfold Data_structure.intersect_with_bbox
      rw [if_pos h6]
      rfl

theorem C10_add_support_plane_dedup_witness :
    ∃ j sp, sample_data_polygon.add_support_plane sample_geometry sample_coplanar_polygon =
        some (j, sample_data_polygon) ∧
      sample_data_polygon.m_support_planes[j]? = some sp ∧
      (sample_geometry.make_support_plane sample_coplanar_polygon).same sp = true ∧
      ∀ m sp2, m < j → sample_data_polygon.m_support_planes[m]? = some sp2 →
        (sample_geometry.make_support_plane sample_coplanar_polygon).same sp2 = false :=
  (C10_add_support_plane_dedup sample_geometry sample_data_polygon sample_coplanar_polygon).1
    ⟨⟨(0, 0, 1, 0), 0, List.replicate 3 ⟨none, some 0, none⟩,
      [⟨[(0, 0), (1, 0), (0, 1)], [0]⟩], []⟩, by decide, by decide⟩

/-- C9 (as stated, refuted): the data structure holds the six bbox planes and a
first input polygon in the plane `z = 0` (plane 6, input index 0). Inserting a second
polygon of the plane `z = 0` with input index 1 trips no assertion: `add_support_plane`
returns the existing index 6, and `add_input_polygon` adds a second face to plane 6 and
the entry `1 -> 6` to the input polygon map. -/
theorem C9_coplanar_polygon_accepted :
    sample_data_polygon.add_support_plane sample_geometry sample_coplanar_polygon =
      some (6, sample_data_polygon) ∧
    ∃ d2, sample_data_polygon.add_input_polygon sample_geometry sample_coplanar_polygon 1 =
        some d2 ∧
      d2.number_of_support_planes = 7 ∧
      d2.m_input_polygon_map = [(0, 6), (1, 6)] ∧
      (d2.m_support_planes[6]?).map (fun sp => sp.mesh_faces.length) = some 2 ∧
      (sample_data_polygon.m_support_planes[6]?).map (fun sp => sp.mesh_faces.length)
        = some 1 := by
  refine ⟨by decide, _, rfl, ?_, ?_, ?_, ?_⟩ <;> decide

theorem mem_map_assign (key value : Nat) :
    ∀ l : List (Nat × Nat), (key, value) ∈ map_assign key value l := by
  intro l
  induction l with
  | nil => simp [map_assign]
  | cons kv rest ih =>
    unfold map_assign
    split
    · exact List.mem_cons_self _ _
    · split
      · exact List.mem_cons_self _ _
      · exact List.mem_cons_of_mem _ ih

/-- C9 (amended): inserting an input polygon whose supporting plane equals an existing
support plane is accepted, not rejected. `add_input_polygon` returns whenever the
preprocessing of the projected points does; it reuses the equal plane of the smallest
index `j`: no support plane is added and the intersection graph and the other planes are
left as they are, the polygon becomes one more face of the plane `j`, carrying the input
index, and the input polygon map sends the input index to `j`. -/
theorem C9_coplanar_polygon_reuses_plane (G : Geometry) (d : Data_structure)
    (polygon : List Point_3) (input_index : Nat)
    (hex : ∃ sp ∈ d.m_support_planes, (G.make_support_plane polygon).same sp = true) :
    ∃ j sp, d.m_support_planes[j]? = some sp ∧
      (G.make_support_plane polygon).same sp = true ∧
      (∀ m sp2, m < j → d.m_support_planes[m]? = some sp2 →
        (G.make_support_plane polygon).same sp2 = false) ∧
      ((G.preprocess (polygon.map (fun point => G.to_2d sp.plane point))).isSome = true →
        (d.add_input_polygon G polygon input_index).isSome = true) ∧
      ∀ d2, d.add_input_polygon G polygon input_index = some d2 →
        d2.number_of_support_planes = d.number_of_support_planes ∧
        d2.m_intersection_graph = d.m_intersection_graph ∧
        (∀ m, m ≠ j → d2.m_support_planes[m]? = d.m_support_planes[m]?) ∧
        (∃ points, d2.m_support_planes[j]? = some (sp.add_input_polygon points [input_index]) ∧
          (sp.add_input_polygon points [input_index]).mesh_faces =
            sp.mesh_faces ++ [⟨points, [input_index]⟩]) ∧
        d2.m_input_polygon_map = map_assign input_index j d.m_input_polygon_map ∧
        (input_index, j) ∈ d2.m_input_polygon_map := by
  cases hf : find_same_plane (G.make_support_plane polygon) d.m_support_planes 0 with
  | none =>
    obtain ⟨sp, hsp, hsame⟩ := hex
    have := (find_same_plane_none _ _ 0).mp hf sp hsp
    rw [this] at hsame
    cases hsame
  | some j =>
    obtain ⟨-, ⟨sp, h2, h3⟩, h4⟩ := find_same_plane_some _ _ 0 j hf
    have hadd : d.add_support_plane G polygon = some (j, d) := by
      unfold Data_structure.add_support_plane
      dsimp only
      rw [hf]
    have hlt : j < d.m_support_planes.length := by
      by_contra hc
      rw [Nat.sub_zero, List.getElem?_eq_none (Nat.le_of_not_lt hc)] at h2
      cases h2
    rw [Nat.sub_zero] at h2
    refine ⟨j, sp, h2, h3, fun m sp2 hm hsp2 => h4 m sp2 hm hsp2, ?_, ?_⟩
    · intro hpre
      obtain ⟨pre, hpre2⟩ := Option.isSome_iff_exists.mp hpre
      unfold Data_structure.add_input_polygon
      rw [hadd, Option.some_bind]
      dsimp only
      unfold Data_structure.support_plane
      rw [h2, Option.some_bind, hpre2, Option.some_bind]
      rfl
    · intro d2 h
      unfold Data_structure.add_input_polygon at h
      rw [hadd, Option.some_bind] at h
      dsimp only at h
      unfold Data_structure.support_plane at h
      rw [h2, Option.some_bind] at h
      cases hpre : G.preprocess (polygon.map (fun point => G.to_2d sp.plane point)) with
      | none => rw [hpre] at h; cases h
      | some pre =>
        rw [hpre, Option.some_bind] at h
        cases h
        refine ⟨?_, rfl, ?_, ⟨(G.sort_points_by_direction pre).1, ?_, rfl⟩, rfl,
          mem_map_assign _ _ _⟩
        · unfold Data_structure.number_of_support_planes
          dsimp only
          rw [List.length_set]
        · intro m hm
          dsimp only
          exact List.getElem?_set_ne (Ne.symm hm)
        · dsimp only
          exact List.getElem?_set_self hlt

theorem C9_coplanar_polygon_reuses_plane_witness :
    ∃ j sp, sample_data_polygon.m_support_planes[j]? = some sp ∧
      (sample_geometry.make_support_plane sample_coplanar_polygon).same sp = true ∧
      (∀ m sp2, m < j → sample_data_polygon.m_support_planes[m]? = some sp2 →
        (sample_geometry.make_support_plane sample_coplanar_polygon).same sp2 = false) ∧
      ((sample_geometry.preprocess (sample_coplanar_polygon.map
          (fun point => sample_geometry.to_2d sp.plane point))).isSome = true →
        (sample_data_polygon.add_input_polygon sample_geometry sample_coplanar_polygon
          1).isSome = true) ∧
      ∀ d2, sample_data_polygon.add_input_polygon sample_geometry sample_coplanar_polygon 1 =
          some d2 →
        d2.number_of_support_planes = sample_data_polygon.number_of_support_planes ∧
        d2.m_intersection_graph = sample_data_polygon.m_intersection_graph ∧
        (∀ m, m ≠ j → d2.m_support_planes[m]? = sample_data_polygon.m_support_planes[m]?) ∧
        (∃ points,
          d2.m_support_planes[j]? = some (sp.add_input_polygon points [1]) ∧
          (sp.add_input_polygon points [1]).mesh_faces =
            sp.mesh_faces ++ [⟨points, [1]⟩]) ∧
        d2.m_input_polygon_map =
          map_assign 1 j sample_data_polygon.m_input_polygon_map ∧
        (1, j) ∈ d2.m_input_polygon_map :=
  C9_coplanar_polygon_reuses_plane sample_geometry sample_data_polygon
    sample_coplanar_polygon 1
    ⟨⟨(0, 0, 1, 0), 0, List.replicate 3 ⟨none, some 0, none⟩,
      [⟨[(0, 0), (1, 0), (0, 1)], [0]⟩], []⟩, by decide, by decide⟩

/-! ### `Initializer.h`: the bounding box -/

theorem squared_distance_3_x (x0 x1 y z : FT) :
    squared_distance_3 (x0, y, z) (x1, y, z) = (x1 - x0) ^ 2 := by
  simp only [squared_distance_3]; ring

theorem squared_distance_3_y (x y0 y1 z : FT) :
    squared_distance_3 (x, y0, z) (x, y1, z) = (y1 - y0) ^ 2 := by
  simp only [squared_distance_3]; ring

theorem squared_distance_3_z (x y z0 z1 : FT) :
    squared_distance_3 (x, y, z0) (x, y, z1) = (z1 - z0) ^ 2 := by
  simp only [squared_distance_3]; ring

/-- The outcome of `initialize_axis_aligned_box` on a box with finite bounds, by the three
squared extents that the source calls `bbox_length_1`, `bbox_length_2`, `bbox_length_3`. -/
theorem shift_degenerate_bbox_corners (tol : FT) (box : Bbox_3) :
    shift_degenerate_bbox tol (bbox_corners box) =
      if (box.xmax - box.xmin) ^ 2 < tol ∨ (box.ymax - box.ymin) ^ 2 < tol ∨
          (box.zmax - box.zmin) ^ 2 < tol then
        if (box.xmax - box.xmin) ^ 2 < tol then
          if ¬ tol ≤ (box.ymax - box.ymin) ^ 2 then none
          else if ¬ tol ≤ (box.zmax - box.zmin) ^ 2 then none
          else some
            [(box.xmin - 2 * tol, box.ymin, box.zmin), (box.xmax + 2 * tol, box.ymin, box.zmin),
             (box.xmax + 2 * tol, box.ymax, box.zmin), (box.xmin - 2 * tol, box.ymax, box.zmin),
             (box.xmin - 2 * tol, box.ymax, box.zmax), (box.xmin - 2 * tol, box.ymin, box.zmax),
             (box.xmax + 2 * tol, box.ymin, box.zmax), (box.xmax + 2 * tol, box.ymax, box.zmax)]
        else if (box.ymax - box.ymin) ^ 2 < tol then
          if ¬ tol ≤ (box.zmax - box.zmin) ^ 2 then none
          else if ¬ tol ≤ (box.xmax - box.xmin) ^ 2 then none
          else some
            [(box.xmin, box.ymin - 2 * tol, box.zmin), (box.xmax, box.ymin - 2 * tol, box.zmin),
             (box.xmax, box.ymax + 2 * tol, box.zmin), (box.xmin, box.ymax + 2 * tol, box.zmin),
             (box.xmin, box.ymax + 2 * tol, box.zmax), (box.xmin, box.ymin - 2 * tol, box.zmax),
             (box.xmax, box.ymin - 2 * tol, box.zmax), (box.xmax, box.ymax + 2 * tol, box.zmax)]
        else if (box.zmax - box.zmin) ^ 2 < tol then
          if ¬ tol ≤ (box.xmax - box.xmin) ^ 2 then none
          else if ¬ tol ≤ (box.ymax - box.ymin) ^ 2 then none
          else some
            [(box.xmin, box.ymin, box.zmin - 2 * tol), (box.xmax, box.ymin, box.zmin - 2 * tol),
             (box.xmax, box.ymax, box.zmin - 2 * tol), (box.xmin, box.ymax, box.zmin - 2 * tol),
             (box.xmin, box.ymax, box.zmax + 2 * tol), (box.xmin, box.ymin, box.zmax + 2 * tol),
             (box.xmax, box.ymin, box.zmax + 2 * tol), (box.xmax, box.ymax, box.zmax + 2 * tol)]
        else none
      else some (bbox_corners box) := by
  simp only [bbox_corners, shift_degenerate_bbox, squared_distance_3_x, squared_distance_3_y,
    squared_distance_3_z, shift_point, add_zero, ← sub_eq_add_neg]
  rw [if_neg (not_not_intro (sq_nonneg _)), if_neg (not_not_intro (sq_nonneg _)),
    if_neg (not_not_intro (sq_nonneg _))]

/-- C13: when the box of the input points is degenerate only along x (the source's
`bbox_length_1`, the squared extent in x, is below the tolerance and `bbox_length_2` and
`bbox_length_3` are not), `initialize_axis_aligned_box` trips no assertion and returns the
min/max corners with the corners 0, 3, 4, 5 moved by `-2 tol` in x and the corners
1, 2, 7, 6 moved by `+2 tol` in x, all y and z coordinates unchanged. -/
theorem C13_degenerate_x_shift (tol : FT) (input_range : List (List Point_3)) (box : Bbox_3)
    (hbox : input_bbox input_range none = some box)
    (h1 : (box.xmax - box.xmin) ^ 2 < tol)
    (h2 : tol ≤ (box.ymax - box.ymin) ^ 2)
    (h3 : tol ≤ (box.zmax - box.zmin) ^ 2) :
    initialize_axis_aligned_box tol input_range = some
      [(box.xmin - 2 * tol, box.ymin, box.zmin), (box.xmax + 2 * tol, box.ymin, box.zmin),
       (box.xmax + 2 * tol, box.ymax, box.zmin), (box.xmin - 2 * tol, box.ymax, box.zmin),
       (box.xmin - 2 * tol, box.ymax, box.zmax), (box.xmin - 2 * tol, box.ymin, box.zmax),
       (box.xmax + 2 * tol, box.ymin, box.zmax), (box.xmax + 2 * tol, box.ymax, box.zmax)] := by
  unfold initialize_axis_aligned_box
  rw [hbox]
  simp only
  rw [shift_degenerate_bbox_corners, if_pos (Or.inl h1), if_pos h1, if_neg (not_not_intro h2),
    if_neg (not_not_intro h3)]

theorem C13_degenerate_x_shift_witness :
    initialize_axis_aligned_box 1 [[(0, 0, 0), (0, 2, 0), (0, 2, 2)]] = some
      [(0 - 2 * 1, 0, 0), (0 + 2 * 1, 0, 0), (0 + 2 * 1, 2, 0), (0 - 2 * 1, 2, 0),
       (0 - 2 * 1, 2, 2), (0 - 2 * 1, 0, 2), (0 + 2 * 1, 0, 2), (0 + 2 * 1, 2, 2)] :=
  C13_degenerate_x_shift 1 [[(0, 0, 0), (0, 2, 0), (0, 2, 2)]] ⟨0, 0, 0, 0, 2, 2⟩
    (by decide) (by norm_num) (by norm_num) (by norm_num)

/-- C14 (as stated, refuted): with tolerance `1/100000`, the input points `(0, 0, 0)`,
`(1/1000, 1, 0)`, `(0, 1, 1)` have the box `[0, 1/1000] x [0, 1] x [0, 1]`, whose extent
(edge length) along x is `1/1000`, not below the tolerance; yet the two faces across x are
moved: the returned corners are not the min/max corners. -/
theorem C14_extent_above_tolerance_shifted :
    input_bbox [[(0, 0, 0), (1 / 1000, 1, 0), (0, 1, 1)]] none =
      some ⟨0, 0, 0, 1 / 1000, 1, 1⟩ ∧
    ¬ ((1 / 1000 : FT) - 0 < 1 / 100000) ∧
    initialize_axis_aligned_box (1 / 100000) [[(0, 0, 0), (1 / 1000, 1, 0), (0, 1, 1)]] =
      some
        [(-1 / 50000, 0, 0), (51 / 50000, 0, 0), (51 / 50000, 1, 0), (-1 / 50000, 1, 0),
         (-1 / 50000, 1, 1), (-1 / 50000, 0, 1), (51 / 50000, 0, 1), (51 / 50000, 1, 1)] ∧
    initialize_axis_aligned_box (1 / 100000) [[(0, 0, 0), (1 / 1000, 1, 0), (0, 1, 1)]] ≠
      some (bbox_corners ⟨0, 0, 0, 1 / 1000, 1, 1⟩) := by
  have hb : input_bbox [[(0, 0, 0), (1 / 1000, 1, 0), (0, 1, 1)]] none =
      some ⟨0, 0, 0, 1 / 1000, 1, 1⟩ := by
    simp [input_bbox, add_point_to_bbox]
  have hr : initialize_axis_aligned_box (1 / 100000)
      [[(0, 0, 0), (1 / 1000, 1, 0), (0, 1, 1)]] = some
        [(-1 / 50000, 0, 0), (51 / 50000, 0, 0), (51 / 50000, 1, 0), (-1 / 50000, 1, 0),
         (-1 / 50000, 1, 1), (-1 / 50000, 0, 1), (51 / 50000, 0, 1), (51 / 50000, 1, 1)] := by
    unfold initialize_axis_aligned_box
    rw [hb]
    simp only
    rw [shift_degenerate_bbox_corners]
    norm_num
  refine ⟨hb, by norm_num, hr, ?_⟩
  rw [hr]
  simp [bbox_corners]

/-- C14 (amended): `initialize_axis_aligned_box` shifts a pair of opposite box faces
exactly when the squared extent of the box along that axis (the source's `bbox_length`, a
`CGAL::squared_distance`) is below the tolerance: if all three squared extents are at
least the tolerance the returned corners are exactly the min/max corners of the input
points, and if exactly one squared extent is below the tolerance exactly the two faces
across that axis are moved, by `2 tol` each, away from each other. -/
theorem C14_shift_iff_squared_extent_below (tol : FT) (input_range : List (List Point_3))
    (box : Bbox_3) (hbox : input_bbox input_range none = some box) :
    (tol ≤ (box.xmax - box.xmin) ^ 2 → tol ≤ (box.ymax - box.ymin) ^ 2 →
      tol ≤ (box.zmax - box.zmin) ^ 2 →
      initialize_axis_aligned_box tol input_range = some (bbox_corners box)) ∧
    ((box.xmax - box.xmin) ^ 2 < tol → tol ≤ (box.ymax - box.ymin) ^ 2 →
      tol ≤ (box.zmax - box.zmin) ^ 2 →
      initialize_axis_aligned_box tol input_range = some
        [(box.xmin - 2 * tol, box.ymin, box.zmin), (box.xmax + 2 * tol, box.ymin, box.zmin),
         (box.xmax + 2 * tol, box.ymax, box.zmin), (box.xmin - 2 * tol, box.ymax, box.zmin),
         (box.xmin - 2 * tol, box.ymax, box.zmax), (box.xmin - 2 * tol, box.ymin, box.zmax),
         (box.xmax + 2 * tol, box.ymin, box.zmax), (box.xmax + 2 * tol, box.ymax, box.zmax)]) ∧
    (tol ≤ (box.xmax - box.xmin) ^ 2 → (box.ymax - box.ymin) ^ 2 < tol →
      tol ≤ (box.zmax - box.zmin) ^ 2 →
      initialize_axis_aligned_box tol input_range = some
        [(box.xmin, box.ymin - 2 * tol, box.zmin), (box.xmax, box.ymin - 2 * tol, box.zmin),
         (box.xmax, box.ymax + 2 * tol, box.zmin), (box.xmin, box.ymax + 2 * tol, box.zmin),
         (box.xmin, box.ymax + 2 * tol, box.zmax), (box.xmin, box.ymin - 2 * tol, box.zmax),
         (box.xmax, box.ymin - 2 * tol, box.zmax), (box.xmax, box.ymax + 2 * tol, box.zmax)]) ∧
    (tol ≤ (box.xmax - box.xmin) ^ 2 → tol ≤ (box.ymax - box.ymin) ^ 2 →
      (box.zmax - box.zmin) ^ 2 < tol →
      initialize_axis_aligned_box tol input_range = some
        [(box.xmin, box.ymin, box.zmin - 2 * tol), (box.xmax, box.ymin, box.zmin - 2 * tol),
         (box.xmax, box.ymax, box.zmin - 2 * tol), (box.xmin, box.ymax, box.zmin - 2 * tol),
         (box.xmin, box.ymax, box.zmax + 2 * tol), (box.xmin, box.ymin, box.zmax + 2 * tol),
         (box.xmax, box.ymin, box.zmax + 2 * tol), (box.xmax, box.ymax, box.zmax + 2 * tol)]) := by
  unfold initialize_axis_aligned_box
  rw [hbox]
  simp only
  rw [shift_degenerate_bbox_corners]
  refine ⟨fun h1 h2 h3 => ?_, fun h1 h2 h3 => ?_, fun h1 h2 h3 => ?_, fun h1 h2 h3 => ?_⟩
  · rw [if_neg (by rintro (h | h | h) <;> linarith)]
  · rw [if_pos (Or.inl h1), if_pos h1, if_neg (not_not_intro h2), if_neg (not_not_intro h3)]
  · rw [if_pos (Or.inr (Or.inl h2)), if_neg (not_lt.mpr h1), if_pos h2,
      if_neg (not_not_intro h3), if_neg (not_not_intro h1)]
  · rw [if_pos (Or.inr (Or.inr h3)), if_neg (not_lt.mpr h1), if_neg (not_lt.mpr h2), if_pos h3,
      if_neg (not_not_intro h1), if_neg (not_not_intro h2)]

theorem C14_shift_iff_squared_extent_below_witness :
    initialize_axis_aligned_box 1 [[(0, 0, 0), (2, 2, 0), (0, 2, 2)]] =
      some (bbox_corners ⟨0, 0, 0, 2, 2, 2⟩) :=
  (C14_shift_iff_squared_extent_below 1 [[(0, 0, 0), (2, 2, 0), (0, 2, 2)]] ⟨0, 0, 0, 2, 2, 2⟩
    (by decide)).1 (by norm_num) (by norm_num) (by norm_num)

/-- C15: if the box of the input points is flat on two or more axes,
`initialize_axis_aligned_box` fails (one of the assertions "DEGENERATED INPUT POLYGONS"
trips) instead of returning a box. This holds when flat means that the squared extent (the
source's `bbox_length`) is below the tolerance, for every tolerance, and also when flat
means that the extent (edge length) is below the tolerance, for every tolerance that is at
most 1. -/
theorem C15_flat_on_two_axes_fails (tol : FT) (input_range : List (List Point_3))
    (box : Bbox_3) (hbox : input_bbox input_range none = some box) :
    ((((box.xmax - box.xmin) ^ 2 < tol ∧ (box.ymax - box.ymin) ^ 2 < tol) ∨
      ((box.xmax - box.xmin) ^ 2 < tol ∧ (box.zmax - box.zmin) ^ 2 < tol) ∨
      ((box.ymax - box.ymin) ^ 2 < tol ∧ (box.zmax - box.zmin) ^ 2 < tol)) →
      initialize_axis_aligned_box tol input_range = none) ∧
    (tol ≤ 1 → box.xmin ≤ box.xmax → box.ymin ≤ box.ymax → box.zmin ≤ box.zmax →
      ((box.xmax - box.xmin < tol ∧ box.ymax - box.ymin < tol) ∨
       (box.xmax - box.xmin < tol ∧ box.zmax - box.zmin < tol) ∨
       (box.ymax - box.ymin < tol ∧ box.zmax - box.zmin < tol)) →
      initialize_axis_aligned_box tol input_range = none) := by
  have hsq : (((box.xmax - box.xmin) ^ 2 < tol ∧ (box.ymax - box.ymin) ^ 2 < tol) ∨
      ((box.xmax - box.xmin) ^ 2 < tol ∧ (box.zmax - box.zmin) ^ 2 < tol) ∨
      ((box.ymax - box.ymin) ^ 2 < tol ∧ (box.zmax - box.zmin) ^ 2 < tol)) →
      initialize_axis_aligned_box tol input_range = none := by
    intro h
    unfold initialize_axis_aligned_box
    rw [hbox]
    simp only
    rw [shift_degenerate_bbox_corners]
    rcases h with ⟨h1, h2⟩ | ⟨h1, h3⟩ | ⟨h2, h3⟩
    · rw [if_pos (Or.inl h1), if_pos h1, if_pos (not_le.mpr h2)]
    · rw [if_pos (Or.inl h1), if_pos h1]
      by_cases h2 : tol ≤ (box.ymax - box.ymin) ^ 2
      · rw [if_neg (not_not_intro h2), if_pos (not_le.mpr h3)]
      · rw [if_pos h2]
    · rw [if_pos (Or.inr (Or.inl h2))]
      by_cases h1 : (box.xmax - box.xmin) ^ 2 < tol
      · rw [if_pos h1, if_pos (not_le.mpr h2)]
      · rw [if_neg h1, if_pos h2, if_pos (not_le.mpr h3)]
  refine ⟨hsq, fun htol hx hy hz h => hsq ?_⟩
  have key : ∀ a : FT, 0 ≤ a → a < tol → a ^ 2 < tol := by
    intro a ha hlt
    have htol0 : 0 < tol := lt_of_le_of_lt ha hlt
    nlinarith
  rcases h with ⟨h1, h2⟩ | ⟨h1, h3⟩ | ⟨h2, h3⟩
  · exact Or.inl ⟨key _ (by linarith) h1, key _ (by linarith) h2⟩
  · exact Or.inr (Or.inl ⟨key _ (by linarith) h1, key _ (by linarith) h3⟩)
  · exact Or.inr (Or.inr ⟨key _ (by linarith) h2, key _ (by linarith) h3⟩)

theorem C15_flat_on_two_axes_fails_witness :
    initialize_axis_aligned_box 1 [[(0, 0, 0), (0, 0, 2), (0, 0, 3)]] = none :=
  (C15_flat_on_two_axes_fails 1 [[(0, 0, 0), (0, 0, 2), (0, 0, 3)]] ⟨0, 0, 0, 0, 0, 3⟩
    (by decide)).1 (Or.inl ⟨by norm_num, by norm_num⟩)

theorem squared_distance_3_scaled (c p : Point_3) (s : FT) :
    squared_distance_3 c (c + s • (p - c)) = s ^ 2 * squared_distance_3 c p := by
  obtain ⟨c1, c2, c3⟩ := c
  obtain ⟨p1, p2, p3⟩ := p
  simp only [squared_distance_3, Prod.mk_add_mk, Prod.smul_mk, Prod.mk_sub_mk, smul_eq_mul]
  ring

theorem squared_distance_3_pos (c p : Point_3) (h : p ≠ c) : 0 < squared_distance_3 c p := by
  obtain ⟨c1, c2, c3⟩ := c
  obtain ⟨p1, p2, p3⟩ := p
  simp only [squared_distance_3]
  have hne : p1 - c1 ≠ 0 ∨ p2 - c2 ≠ 0 ∨ p3 - c3 ≠ 0 := by
    by_contra hc
    push_neg at hc
    apply h
    rw [sub_eq_zero.mp hc.1, sub_eq_zero.mp hc.2.1, sub_eq_zero.mp hc.2.2]
  rcases hne with h1 | h1 | h1
  · have := mul_self_pos.mpr h1
    nlinarith [mul_self_nonneg (p2 - c2), mul_self_nonneg (p3 - c3)]
  · have := mul_self_pos.mpr h1
    nlinarith [mul_self_nonneg (p1 - c1), mul_self_nonneg (p3 - c3)]
  · have := mul_self_pos.mpr h1
    nlinarith [mul_self_nonneg (p1 - c1), mul_self_nonneg (p2 - c2)]

theorem sum_map_affine {α : Type} (f : α → FT) (a s : FT) (l : List α) :
    (l.map (fun p => a + s * (f p - a))).sum =
      l.length * a + s * ((l.map f).sum - l.length * a) := by
  induction l with
  | nil => simp
  | cons x rest ih =>
    simp only [List.map_cons, List.sum_cons, List.length_cons, ih]
    push_cast
    ring

theorem centroid_3_scaled (s : FT) (l : List Point_3) :
    centroid_3 (l.map (scale_point s)) = scale_point s (centroid_3 l) := by
  simp only [centroid_3, scale_point, List.map_map, List.length_map, Function.comp_def,
    List.sum_map_mul_left, mul_div_assoc]

theorem translate_scaled (a p : Point_3) (s : FT) :
    translate_point a (scale_point s a) (scale_point s p) = a + s • (p - a) := by
  obtain ⟨a1, a2, a3⟩ := a
  obtain ⟨p1, p2, p3⟩ := p
  simp only [translate_point, scale_point, Prod.mk_add_mk, Prod.smul_mk, Prod.mk_sub_mk,
    smul_eq_mul, Prod.mk.injEq]
  refine ⟨?_, ?_, ?_⟩ <;> ring

theorem centroid_3_affine (s : FT) (l : List Point_3) (hl : l.length ≠ 0) :
    centroid_3 (l.map (fun p => centroid_3 l + s • (p - centroid_3 l))) = centroid_3 l := by
  have hn : (l.length : FT) ≠ 0 := by exact_mod_cast hl
  have key : ∀ f : Point_3 → FT,
      (l.map (fun p => (l.map f).sum / l.length + s * (f p - (l.map f).sum / l.length))).sum
        / l.length = (l.map f).sum / l.length := by
    intro f
    rw [sum_map_affine f _ s l]
    field_simp
  have h1 := key (fun p => p.1)
  have h2 := key (fun p => p.2.1)
  have h3 := key (fun p => p.2.2)
  simp only [centroid_3, List.map_map, List.length_map, Function.comp_def, Prod.fst_add,
    Prod.snd_add, Prod.smul_fst, Prod.smul_snd, Prod.fst_sub, Prod.snd_sub, smul_eq_mul]
  rw [h1, h2, h3]

/-- C16: `enlarge_bounding_box(r)` maps every corner `p` of the box to `c + r' (p - c)`,
where `c` is the centroid of the eight corners and `r' = r`, except `r' = 1 + 2 tol` when
`r = 1`; the centroid of the box is unchanged; and with a positive tolerance, for every
`r >= 1`, the ratio `r'` is greater than 1, so that every corner other than the centroid
moves strictly away from the centroid: the box is strictly enlarged. -/
theorem C16_enlarge_bounding_box (tol r : FT) (bbox : List Point_3) (hlen : bbox.length = 8) :
    enlarge_bounding_box tol r bbox =
      bbox.map (fun p => centroid_3 bbox + enlarge_ratio tol r • (p - centroid_3 bbox)) ∧
    centroid_3 (enlarge_bounding_box tol r bbox) = centroid_3 bbox ∧
    (0 < tol → 1 ≤ r →
      1 < enlarge_ratio tol r ∧
      ∀ p ∈ bbox, p ≠ centroid_3 bbox →
        squared_distance_3 (centroid_3 bbox) p <
          squared_distance_3 (centroid_3 bbox)
            (centroid_3 bbox + enlarge_ratio tol r • (p - centroid_3 bbox))) := by
  have hmap : enlarge_bounding_box tol r bbox =
      bbox.map (fun p => centroid_3 bbox + enlarge_ratio tol r • (p - centroid_3 bbox)) := by
    have hr : (if r = 1 then r + 2 * tol else r) = enlarge_ratio tol r := by
      unfold enlarge_ratio
      by_cases h1 : r = 1
      · rw [if_pos h1, if_pos h1, h1]
      · rw [if_neg h1, if_neg h1]
    unfold enlarge_bounding_box
    simp only [hr, centroid_3_scaled, List.map_map, Function.comp_def, translate_scaled]
  refine ⟨hmap, ?_, ?_⟩
  · rw [hmap]
    exact centroid_3_affine _ bbox (by rw [hlen]; decide)
  · intro htol hr
    have hgt : 1 < enlarge_ratio tol r := by
      unfold enlarge_ratio
      by_cases h1 : r = 1
      · rw [if_pos h1]; linarith
      · rw [if_neg h1]; exact lt_of_le_of_ne hr (Ne.symm h1)
    refine ⟨hgt, fun p _ hp => ?_⟩
    rw [squared_distance_3_scaled]
    have hpos := squared_distance_3_pos (centroid_3 bbox) p hp
    have hs : 1 < enlarge_ratio tol r ^ 2 := by nlinarith
    calc squared_distance_3 (centroid_3 bbox) p
        = 1 * squared_distance_3 (centroid_3 bbox) p := (one_mul _).symm
      _ < enlarge_ratio tol r ^ 2 * squared_distance_3 (centroid_3 bbox) p :=
          mul_lt_mul_of_pos_right hs hpos

theorem C16_enlarge_bounding_box_witness :
    1 < enlarge_ratio 1 1 ∧
    ∀ p ∈ bbox_corners ⟨0, 0, 0, 2, 2, 2⟩, p ≠ centroid_3 (bbox_corners ⟨0, 0, 0, 2, 2, 2⟩) →
      squared_distance_3 (centroid_3 (bbox_corners ⟨0, 0, 0, 2, 2, 2⟩)) p <
        squared_distance_3 (centroid_3 (bbox_corners ⟨0, 0, 0, 2, 2, 2⟩))
          (centroid_3 (bbox_corners ⟨0, 0, 0, 2, 2, 2⟩) +
            enlarge_ratio 1 1 • (p - centroid_3 (bbox_corners ⟨0, 0, 0, 2, 2, 2⟩))) :=
  (C16_enlarge_bounding_box 1 1 (bbox_corners ⟨0, 0, 0, 2, 2, 2⟩) rfl).2.2
    (by norm_num) (by norm_num)

/-! ### Future points and directions -/

theorem projection_on_line (l : Line_2) (x : Point_2) :
    cross_2 (vector_2 l.p (l.projection x)) (vector_2 l.p l.q) = 0 := by
  simp only [Line_2.projection, cross_2, vector_2]
  ring

theorem projection_orthogonal (l : Line_2) (x : Point_2) (h : l.p ≠ l.q) :
    dot_2 (vector_2 (l.projection x) x) (vector_2 l.p l.q) = 0 := by
  have hv : dot_2 (vector_2 l.p l.q) (vector_2 l.p l.q) ≠ 0 := by
    simp only [dot_2, vector_2]
    intro h0
    have h1 : l.q.1 - l.p.1 = 0 := by
      nlinarith [mul_self_nonneg (l.q.1 - l.p.1), mul_self_nonneg (l.q.2 - l.p.2)]
    have h2 : l.q.2 - l.p.2 = 0 := by
      nlinarith [mul_self_nonneg (l.q.1 - l.p.1), mul_self_nonneg (l.q.2 - l.p.2)]
    apply h
    exact Prod.ext (sub_eq_zero.mp h1).symm (sub_eq_zero.mp h2).symm
  simp only [Line_2.projection]
  simp only [dot_2, vector_2] at hv ⊢
  field_simp
  ring

theorem line_intersection_on_second (l1 l2 : Line_2) (pt : Point_2)
    (h : line_intersection l1 l2 = some pt) :
    cross_2 (vector_2 l2.p pt) (vector_2 l2.p l2.q) = 0 := by
  unfold line_intersection at h
  dsimp only at h
  split at h
  · cases h
  · rename_i hdet
    cases h
    simp only [cross_2, vector_2] at hdet ⊢
    field_simp
    ring

theorem line_intersection_on_first (l1 l2 : Line_2) (pt : Point_2)
    (h : line_intersection l1 l2 = some pt) :
    cross_2 (vector_2 l1.p pt) (vector_2 l1.p l1.q) = 0 := by
  unfold line_intersection at h
  dsimp only at h
  split at h
  · cases h
  · cases h
    simp only [cross_2, vector_2]
    ring

theorem cross_2_of_on_line (s a b : Point_2) (v : Vector_2)
    (ha : cross_2 (vector_2 s a) v = 0) (hb : cross_2 (vector_2 s b) v = 0) :
    cross_2 (vector_2 a b) v = 0 := by
  simp only [cross_2, vector_2] at ha hb ⊢
  linarith

theorem finish_future_point_some (t : FT) (pinit raw fp : Point_2) (fd : Vector_2)
    (h : finish_future_point t pinit raw = some (fp, fd)) :
    fd = vector_2 pinit raw ∧ fp + t • fd = pinit ∧ fd ≠ (0, 0) := by
  unfold finish_future_point at h
  split at h
  · cases h
  dsimp only at h
  split at h
  · cases h
  rename_i hne
  cases h
  refine ⟨rfl, ?_, not_not.mp hne⟩
  apply Prod.ext
  · simp only [Prod.fst_add, Prod.smul_fst, smul_eq_mul]; ring
  · simp only [Prod.snd_add, Prod.smul_snd, smul_eq_mul]; ring

theorem constrained_of_finish (source_p target_p x raw fp : Point_2) (fd : Vector_2) (t : FT)
    (hraw : cross_2 (vector_2 source_p raw) (vector_2 source_p target_p) = 0)
    (h : finish_future_point t ((⟨source_p, target_p⟩ : Line_2).projection x) raw =
      some (fp, fd)) :
    constrained_to_iedge source_p target_p x t fp fd := by
  obtain ⟨h1, h2, -⟩ := finish_future_point_some t _ raw fp fd h
  refine ⟨h2, ?_⟩
  rw [h1]
  exact cross_2_of_on_line source_p _ raw _
    (projection_on_line ⟨source_p, target_p⟩ x) hraw

theorem source_on_line (source_p target_p : Point_2) :
    cross_2 (vector_2 source_p source_p) (vector_2 source_p target_p) = 0 := by
  simp only [cross_2, vector_2]; ring

theorem target_on_line (source_p target_p : Point_2) :
    cross_2 (vector_2 source_p target_p) (vector_2 source_p target_p) = 0 := by
  simp only [cross_2, vector_2]; ring

/-- One neighbour of the routines for a single pvertex: the point found on the iedge line
(an endpoint of the iedge in the parallel case, the intersection otherwise) lies on that
line. -/
theorem found_on_line (source_p target_p : Point_2) (l : Line_2) (c1 c2 : Prop)
    [Decidable c1] [Decidable c2] (raw : Point_2)
    (h : (if c1 then (if c2 then some target_p else some source_p)
          else line_intersection l ⟨source_p, target_p⟩) = some raw) :
    cross_2 (vector_2 source_p raw) (vector_2 source_p target_p) = 0 := by
  by_cases h1 : c1
  · rw [if_pos h1] at h
    by_cases h2 : c2
    · rw [if_pos h2] at h; cases h; exact target_on_line _ _
    · rw [if_neg h2] at h; cases h; exact source_on_line _ _
  · rw [if_neg h1] at h
    exact line_intersection_on_second l ⟨source_p, target_p⟩ raw h

/-- C20: in each of the three future-point routines, whenever the routine returns and every
line intersection that it asks for exists, each returned pair satisfies
`future_point + m_current_time * future_direction = pinit`, where `pinit` is the
orthogonal projection of the current point of the pvertex onto the 2D line of the iedge
(it lies on that line, and the vector from it to the point of the pvertex is orthogonal to
the iedge), and `future_direction` is parallel to that line. -/
theorem C20_future_point_on_iedge_line (tol : FT) :
    (∀ (i : Future_input) (o : Future_output),
      compute_future_points_and_directions tol i = some o →
      (o.is_parallel_prev = false →
        line_intersection ⟨i.prev_future, i.curr_future⟩ ⟨i.source_p, i.target_p⟩ ≠ none) →
      (o.is_parallel_next = false →
        line_intersection ⟨i.next_future, i.curr_future⟩ ⟨i.source_p, i.target_p⟩ ≠ none) →
      constrained_to_iedge i.source_p i.target_p i.curr_p i.m_current_time
        o.future_point_a o.future_direction_a ∧
      constrained_to_iedge i.source_p i.target_p i.curr_p i.m_current_time
        o.future_point_b o.future_direction_b) ∧
    (∀ (source_p target_p curr_p next_p curr_future next_future : Point_2) (t : FT)
        (r : Bool × Point_2 × Vector_2),
      compute_future_point_and_direction_1 tol source_p target_p curr_p next_p curr_future
        next_future t = some r →
      constrained_to_iedge source_p target_p curr_p t r.2.1 r.2.2) ∧
    (∀ (source_p target_p pv_point curr_p next_p curr_future next_future : Point_2) (t : FT)
        (r : Bool × Point_2 × Vector_2),
      compute_future_point_and_direction_2 tol source_p target_p pv_point curr_p next_p
        curr_future next_future t = some r →
      constrained_to_iedge source_p target_p pv_point t r.2.1 r.2.2) ∧
    (∀ (source_p target_p x : Point_2), source_p ≠ target_p →
      cross_2 (vector_2 source_p ((⟨source_p, target_p⟩ : Line_2).projection x))
          (vector_2 source_p target_p) = 0 ∧
      dot_2 (vector_2 ((⟨source_p, target_p⟩ : Line_2).projection x) x)
          (vector_2 source_p target_p) = 0) := by
  refine ⟨?_, ?_, ?_, ?_⟩
  · intro i o h ha hb
    unfold compute_future_points_and_directions at h
    split at h
    · cases h
    dsimp only at h
    split at h
    · cases h
    rename_i fa da hfa
    split at h
    · cases h
    rename_i fb db hfb
    cases h
    dsimp only at ha hb ⊢
    -- the point `a`
    have hA : constrained_to_iedge i.source_p i.target_p i.curr_p i.m_current_time fa da := by
      refine constrained_of_finish _ _ _ _ fa da _ ?_ hfa
      by_cases hp : |slope_or_default tol (i.curr_p.2 - i.prev_p.2) (i.curr_p.1 - i.prev_p.1) -
          slope_or_default tol (i.target_p.2 - i.source_p.2) (i.target_p.1 - i.source_p.1)| < tol
      · simp only [hp, decide_True, if_true]
        split
        · exact target_on_line _ _
        · exact source_on_line _ _
      · simp only [hp, decide_False, Bool.false_eq_true, if_false]
        have hex := ha (by simp [hp])
        cases hl : line_intersection ⟨i.prev_future, i.curr_future⟩ ⟨i.source_p, i.target_p⟩ with
        | none => exact absurd hl hex
        | some pt => exact line_intersection_on_second _ _ pt hl
    by_cases hn : |slope_or_default tol (i.curr_p.2 - i.next_p.2) (i.curr_p.1 - i.next_p.1) -
        slope_or_default tol (i.target_p.2 - i.source_p.2) (i.target_p.1 - i.source_p.1)| < tol
    · simp only [hn, decide_True, if_true] at hfb ⊢
      refine ⟨?_, ?_⟩
      · split <;> exact hA
      · refine constrained_of_finish _ _ _ _ fb db _ ?_ hfb
        split
        · exact target_on_line _ _
        · exact source_on_line _ _
    · simp only [hn, decide_False, Bool.false_eq_true, if_false] at hfb ⊢
      have hex := hb (by simp [hn])
      cases hl : line_intersection ⟨i.next_future, i.curr_future⟩ ⟨i.source_p, i.target_p⟩ with
      | none => exact absurd hl hex
      | some pt =>
        simp only [hl] at hfb ⊢
        exact ⟨hA, constrained_of_finish _ _ _ _ fb db _
          (line_intersection_on_second _ _ pt hl) hfb⟩
  · intro source_p target_p curr_p next_p curr_future next_future t r h
    unfold compute_future_point_and_direction_1 at h
    split at h
    · cases h
    dsimp only at h
    split at h
    · cases h
    rename_i raw hraw
    obtain ⟨par, fp, fd⟩ := r
    cases hf : finish_future_point t ((⟨source_p, target_p⟩ : Line_2).projection curr_p) raw with
    | none => rw [hf] at h; cases h
    | some res =>
      rw [hf] at h
      obtain ⟨fp2, fd2⟩ := res
      simp only [Option.map_some', Option.some.injEq, Prod.mk.injEq] at h
      obtain ⟨-, h1, h2⟩ := h
      subst h1 h2
      refine constrained_of_finish _ _ _ raw _ _ _ ?_ hf
      simp only [decide_eq_true_eq] at hraw
      exact found_on_line source_p target_p _ _ _ raw hraw
  · intro source_p target_p pv_point curr_p next_p curr_future next_future t r h
    unfold compute_future_point_and_direction_2 at h
    split at h
    · cases h
    dsimp only at h
    split at h
    · cases h
    rename_i raw hraw
    obtain ⟨par, fp, fd⟩ := r
    cases hf : finish_future_point t ((⟨source_p, target_p⟩ : Line_2).projection pv_point) raw with
    | none => rw [hf] at h; cases h
    | some res =>
      rw [hf] at h
      obtain ⟨fp2, fd2⟩ := res
      simp only [Option.map_some', Option.some.injEq, Prod.mk.injEq] at h
      obtain ⟨-, h1, h2⟩ := h
      subst h1 h2
      refine constrained_of_finish _ _ _ raw _ _ _ ?_ hf
      simp only [decide_eq_true_eq] at hraw
      exact found_on_line source_p target_p _ _ _ raw hraw
  · intro source_p target_p x hne
    exact ⟨projection_on_line ⟨source_p, target_p⟩ x,
      projection_orthogonal ⟨source_p, target_p⟩ x hne⟩

theorem C20_future_point_on_iedge_line_witness :
    (compute_future_points_and_directions (1 / 100000) sample_future_input =
        some ⟨false, false, (0, 0), (2, 0), (1, 0), (-1, 0)⟩ ∧
      constrained_to_iedge (0, 0) (4, 0) (1, 2) 1 (0, 0) (1, 0) ∧
      constrained_to_iedge (0, 0) (4, 0) (1, 2) 1 (2, 0) (-1, 0)) ∧
    (compute_future_point_and_direction_1 (1 / 100000) (0, 0) (4, 0) (1, 2) (3, 4) (1, 1)
        (3, 3) 1 = some (false, (2, 0), (-1, 0)) ∧
      constrained_to_iedge (0, 0) (4, 0) (1, 2) 1 (2, 0) (-1, 0)) ∧
    (compute_future_point_and_direction_2 (1 / 100000) (0, 0) (4, 0) (1, 2) (0, 4) (3, 4)
        (-1, 3) (3, 3) 1 = some (true, (2, 0), (-1, 0)) ∧
      constrained_to_iedge (0, 0) (4, 0) (1, 2) 1 (2, 0) (-1, 0)) := by
  have h0 : compute_future_points_and_directions (1 / 100000) sample_future_input =
      some ⟨false, false, (0, 0), (2, 0), (1, 0), (-1, 0)⟩ := by
    norm_num [compute_future_points_and_directions, sample_future_input, slope_or_default,
      line_intersection, finish_future_point, Line_2.projection, vector_2, dot_2, cross_2,
      Prod.ext_iff]
  have h1 : compute_future_point_and_direction_1 (1 / 100000) (0, 0) (4, 0) (1, 2) (3, 4)
      (1, 1) (3, 3) 1 = some (false, (2, 0), (-1, 0)) := by
    norm_num [compute_future_point_and_direction_1, slope_or_default,
      line_intersection, finish_future_point, Line_2.projection, vector_2, dot_2, cross_2,
      Prod.ext_iff]
  have h2 : compute_future_point_and_direction_2 (1 / 100000) (0, 0) (4, 0) (1, 2) (0, 4)
      (3, 4) (-1, 3) (3, 3) 1 = some (true, (2, 0), (-1, 0)) := by
    norm_num [compute_future_point_and_direction_2, slope_or_default,
      line_intersection, finish_future_point, Line_2.projection, vector_2, dot_2, cross_2,
      Prod.ext_iff]
  have ha : line_intersection ⟨sample_future_input.prev_future,
      sample_future_input.curr_future⟩
      ⟨sample_future_input.source_p, sample_future_input.target_p⟩ ≠ none := by
    norm_num [sample_future_input, line_intersection, vector_2, cross_2]
    exact Option.some_ne_none _
  have hb : line_intersection ⟨sample_future_input.next_future,
      sample_future_input.curr_future⟩
      ⟨sample_future_input.source_p, sample_future_input.target_p⟩ ≠ none := by
    norm_num [sample_future_input, line_intersection, vector_2, cross_2]
    exact Option.some_ne_none _
  exact ⟨⟨h0, (C20_future_point_on_iedge_line (1 / 100000)).1 sample_future_input _ h0
      (fun _ => ha) (fun _ => hb)⟩,
    ⟨h1, (C20_future_point_on_iedge_line (1 / 100000)).2.1 _ _ _ _ _ _ _ _ h1⟩,
    ⟨h2, (C20_future_point_on_iedge_line (1 / 100000)).2.2.1 _ _ _ _ _ _ _ _ _ h2⟩⟩

/-! ### Cleaning an input polygon -/

theorem getElem?_of_drop_cons (points : List Point_2) (i : Nat) (p : Point_2)
    (rest : List Point_2) (h : points.drop i = p :: rest) :
    points[i]? = some p ∧ points.drop (i + 1) = rest ∧ points.length = i + 1 + rest.length := by
  have h1 : points[i]? = some p := by
    have h0 : (points.drop i)[0]? = some p := by rw [h]; simp
    rw [List.getElem?_drop] at h0
    simpa using h0
  have h2 : points.drop (i + 1) = rest := by
    have : points.drop (i + 1) = (points.drop i).drop 1 := by
      rw [List.drop_drop, Nat.add_comm]
    rw [this, h]; rfl
  have h3 : (points.drop i).length = rest.length + 1 := by rw [h]; rfl
  rw [List.length_drop] at h3
  have hi : i < points.length := by
    rcases List.getElem?_eq_some_iff.mp h1 with ⟨hlt, -⟩
    exact hlt
  exact ⟨h1, h2, by omega⟩

/-- The inner loop of `remove_equal_points` stops at the end of the chain of points that
follow `i`, each at a distance less than `min_dist` from the one just before it. -/
theorem remove_equal_while_eq (points : List Point_2) (min_dist : FT) :
    ∀ (fuel i : Nat) (p : Point_2) (rest : List Point_2),
      points.drop i = p :: rest → rest.length < fuel →
      remove_equal_while points min_dist fuel i = some (i + chain_length min_dist p rest) := by
  intro fuel
  induction fuel with
  | zero => intro i p rest _ h; omega
  | succ fuel ih =>
    intro i p rest hd hf
    obtain ⟨h1, h2, h3⟩ := getElem?_of_drop_cons points i p rest hd
    rw [remove_equal_while]
    dsimp only
    rw [h1]
    cases rest with
    | nil =>
      have hn : (i + 1) % points.length = 0 := by
        rw [h3]; simp
      have h0 : ∃ q, points[(i + 1) % points.length]? = some q := by
        rw [hn]
        have : 0 < points.length := by omega
        exact ⟨points[0], List.getElem?_eq_getElem this⟩
      obtain ⟨q, hq⟩ := h0
      rw [hq]
      simp only [chain_length, Nat.add_zero]
      by_cases hs : distance_less p q min_dist = true
      · simp [hn, hs]
      · simp [hs]
    | cons q rest2 =>
      have hlen : i + 1 < points.length := by rw [h3]; simp
      have hn : (i + 1) % points.length = i + 1 := Nat.mod_eq_of_lt hlen
      obtain ⟨hq, -, -⟩ := getElem?_of_drop_cons points (i + 1) q rest2 h2
      rw [hn, hq]
      simp only [chain_length]
      by_cases hs : distance_less p q min_dist = true
      · have hrec := ih (i + 1) q rest2 h2 (by simp at hf; omega)
        simp only [hs, Nat.add_one_ne_zero, false_and, if_false, if_true, hrec]
        congr 1; omega
      · simp [hs]

theorem far_from_predecessor_eq (min_dist : FT) :
    ∀ (rest : List Point_2) (p : Point_2),
      far_from_predecessor min_dist p rest =
        far_from_input_predecessor min_dist (rest.drop (chain_length min_dist p rest)) := by
  intro rest
  induction rest with
  | nil => intro p; rfl
  | cons q rest ih =>
    intro p
    by_cases hs : distance_less p q min_dist = true
    · simp only [far_from_predecessor, chain_length, hs, if_true, List.drop_succ_cons]
      exact ih q
    · simp only [far_from_predecessor, chain_length, hs, if_false, List.drop_zero,
        far_from_input_predecessor, Bool.false_eq_true]

/-- The outer loop of `remove_equal_points`, entered at the index `i`, appends the first
of the remaining points and each later one that is not at a distance less than `min_dist`
from the point just before it. -/
theorem remove_equal_for_eq (points : List Point_2) (min_dist : FT) :
    ∀ (fuel i : Nat) (polygon : List Point_2),
      (points.drop i).length < fuel →
      remove_equal_for points min_dist fuel i polygon =
        some (polygon ++ far_from_input_predecessor min_dist (points.drop i)) := by
  intro fuel
  induction fuel with
  | zero => intro i polygon h; omega
  | succ fuel ih =>
    intro i polygon hf
    rw [remove_equal_for]
    cases hd : points.drop i with
    | nil =>
      have : points.length ≤ i := List.drop_eq_nil_iff.mp hd
      simp [far_from_input_predecessor, Nat.not_lt.mpr this]
    | cons p rest =>
      obtain ⟨h1, h2, h3⟩ := getElem?_of_drop_cons points i p rest hd
      have hi : i < points.length := by omega
      have hw := remove_equal_while_eq points min_dist points.length i p rest hd (by omega)
      simp only [hi, if_true, h1, hw]
      have hdrop : points.drop (i + chain_length min_dist p rest + 1) =
          rest.drop (chain_length min_dist p rest) := by
        rw [← h2, List.drop_drop]; congr 1; omega
      have hlen : (points.drop (i + chain_length min_dist p rest + 1)).length < fuel := by
        rw [hdrop, List.length_drop]
        rw [hd] at hf; simp at hf; omega
      rw [ih _ _ hlen, hdrop, far_from_input_predecessor, far_from_predecessor_eq]
      simp

/-- The function `remove_equal_points` returns the first point and each later point that
is not at a distance less than `min_dist` from the point just before it in the input, and
fails exactly when fewer than three points are left. -/
theorem remove_equal_points_eq (points : List Point_2) (min_dist : FT) :
    remove_equal_points points min_dist =
      if 3 ≤ (far_from_input_predecessor min_dist points).length
      then some (far_from_input_predecessor min_dist points) else none := by
  unfold remove_equal_points
  rw [remove_equal_for_eq points min_dist (points.length + 1) 0 [] (by simp)]
  simp

theorem far_from_predecessor_zip (min_dist : FT) :
    ∀ (rest : List Point_2) (p : Point_2),
      far_from_predecessor min_dist p rest =
        ((List.zip (p :: rest) rest).filter
          (fun pq => !distance_less pq.1 pq.2 min_dist)).map Prod.snd := by
  intro rest
  induction rest with
  | nil => intro p; rfl
  | cons q rest ih =>
    intro p
    by_cases hs : distance_less p q min_dist = true
    · simp only [far_from_predecessor, hs, if_true, List.zip_cons_cons, List.filter_cons,
        Bool.not_true, Bool.false_eq_true, if_false]
      exact ih q
    · simp only [far_from_predecessor, hs, if_false, List.zip_cons_cons, List.filter_cons,
        Bool.not_eq_true, Bool.not_eq_true', List.map_cons, Bool.false_eq_true]
      rw [ih q]
      simp [Bool.eq_false_iff.mpr hs]

/-- C17 (as stated, refuted): on the polygon `(0, 0), (9, 0), (-2, 0), (50, 0),
(50, 50)` with `min_dist = 10` the point `(-2, 0)` is kept right after `(0, 0)` although
it is at a distance less than `min_dist` from it, the last kept point; and on `(0, 0),
(9, 0), (18, 0), (50, 0), (50, 50)` the point `(18, 0)` is dropped although it is not at a
distance less than `min_dist` from the last kept point `(0, 0)`. -/
theorem C17_kept_point_near_last_kept :
    remove_equal_points [(0, 0), (9, 0), (-2, 0), (50, 0), (50, 50)] 10 =
        some [(0, 0), (-2, 0), (50, 0), (50, 50)] ∧
      distance_less (0, 0) (-2, 0) 10 = true ∧
    remove_equal_points [(0, 0), (9, 0), (18, 0), (50, 0), (50, 50)] 10 =
        some [(0, 0), (50, 0), (50, 50)] ∧
      distance_less (0, 0) (18, 0) 10 = false := by
  refine ⟨?_, ?_, ?_, ?_⟩
  · rw [remove_equal_points_eq]
    norm_num [far_from_input_predecessor, far_from_predecessor, distance_less,
      squared_distance_2]
  · norm_num [distance_less, squared_distance_2]
  · rw [remove_equal_points_eq]
    norm_num [far_from_input_predecessor, far_from_predecessor, distance_less,
      squared_distance_2]
  · norm_num [distance_less, squared_distance_2]

/-- C17 (amended): `remove_equal_points` fails on the empty polygon, and on a polygon that
starts with `p` it returns `out` exactly when `out` has at least three points and is `p`
followed by those later points that are not at a distance less than `min_dist` from the
point just before them in the input (kept or not): the kept points after the first are
the second components of the pairs of consecutive input points whose distance is not less
than `min_dist`. The pair of the last and the first point has no effect. -/
theorem C17_remove_equal_points_far_from_input_predecessor (min_dist : FT) :
    remove_equal_points [] min_dist = none ∧
    ∀ (p : Point_2) (rest out : List Point_2),
      remove_equal_points (p :: rest) min_dist = some out ↔
        (out = p :: ((List.zip (p :: rest) rest).filter
            (fun pq => !distance_less pq.1 pq.2 min_dist)).map Prod.snd ∧
          3 ≤ out.length) := by
  refine ⟨?_, ?_⟩
  · rw [remove_equal_points_eq]; simp [far_from_input_predecessor]
  · intro p rest out
    rw [remove_equal_points_eq, far_from_input_predecessor, far_from_predecessor_zip]
    constructor
    · intro h
      split at h
      · rename_i h3
        cases h
        exact ⟨rfl, h3⟩
      · cases h
    · rintro ⟨h1, h2⟩
      rw [h1] at h2
      rw [if_pos h2, h1]

theorem C17_remove_equal_points_far_from_input_predecessor_witness :
    remove_equal_points [(0, 0), (9, 0), (-2, 0), (50, 0), (50, 50)] 10 =
      some [(0, 0), (-2, 0), (50, 0), (50, 50)] :=
  ((C17_remove_equal_points_far_from_input_predecessor 10).2 (0, 0)
    [(9, 0), (-2, 0), (50, 0), (50, 50)] [(0, 0), (-2, 0), (50, 0), (50, 50)]).mpr
    ⟨by norm_num [List.zip, List.zipWith, List.filter, distance_less, squared_distance_2],
      by decide⟩

/-- The test `distance_less` on the squares agrees with the comparison of the square root
of the squared distance with `min_dist` over the real numbers. -/
theorem distance_less_iff_sqrt (p q : Point_2) (min_dist : FT) :
    distance_less p q min_dist = true ↔
      Real.sqrt ((squared_distance_2 p q : FT) : ℝ) < ((min_dist : FT) : ℝ) := by
  unfold distance_less
  rw [decide_eq_true_iff]
  by_cases hd : 0 < min_dist
  · have hd2 : (0 : ℝ) < ((min_dist : FT) : ℝ) := by exact_mod_cast hd
    rw [Real.sqrt_lt' hd2]
    constructor
    · rintro ⟨-, h⟩
      have : ((squared_distance_2 p q : FT) : ℝ) < ((min_dist * min_dist : FT) : ℝ) := by
        exact_mod_cast h
      rw [pow_two]; push_cast at this; exact this
    · intro h
      refine ⟨hd, ?_⟩
      have h2 : ((squared_distance_2 p q : FT) : ℝ) < ((min_dist * min_dist : FT) : ℝ) := by
        push_cast; rw [← pow_two]; exact h
      exact_mod_cast h2
  · constructor
    · rintro ⟨h, -⟩; exact absurd h hd
    · intro h
      have h0 : (0 : ℝ) ≤ Real.sqrt ((squared_distance_2 p q : FT) : ℝ) := Real.sqrt_nonneg _
      have h1 : ((min_dist : FT) : ℝ) ≤ 0 := by exact_mod_cast not_lt.mp hd
      linarith

theorem collinear_angle_some (normalize : Vector_2 → Vector_2)
    (angle_2 : Vector_2 → Vector_2 → FT) (points : List Point_2) (i : Nat)
    (hi : i < points.length) :
    ∃ p q r, points[(i + points.length - 1) % points.length]? = some p ∧
      points[i]? = some q ∧ points[(i + 1) % points.length]? = some r ∧
      collinear_angle normalize angle_2 points i =
        some (angle_2 (normalize (vector_2 q r)) (normalize (vector_2 q p))) := by
  have hn : 0 < points.length := by omega
  have h1 : (i + points.length - 1) % points.length < points.length := Nat.mod_lt _ hn
  have h2 : (i + 1) % points.length < points.length := Nat.mod_lt _ hn
  refine ⟨points[(i + points.length - 1) % points.length], points[i],
    points[(i + 1) % points.length], List.getElem?_eq_getElem h1, List.getElem?_eq_getElem hi,
    List.getElem?_eq_getElem h2, ?_⟩
  unfold collinear_angle
  simp only [List.getElem?_eq_getElem h1, List.getElem?_eq_getElem hi,
    List.getElem?_eq_getElem h2]

theorem remove_collinear_step_eq (normalize : Vector_2 → Vector_2)
    (angle_2 : Vector_2 → Vector_2 → FT) (points : List Point_2) (min_angle : FT)
    (polygon : List Point_2) (i : Nat) (hi : i < points.length) :
    remove_collinear_step normalize angle_2 points min_angle polygon i =
      some (polygon ++ (if angle_exceeds normalize angle_2 points min_angle i = true
        then [points[i]] else [])) := by
  obtain ⟨p, q, r, -, hq, -, ha⟩ := collinear_angle_some normalize angle_2 points i hi
  have hq2 : q = points[i] := by
    rw [List.getElem?_eq_getElem hi] at hq; exact (Option.some.inj hq).symm
  unfold remove_collinear_step angle_exceeds
  rw [ha, hq]
  simp only [decide_eq_true_eq]
  split <;> simp [hq2]

theorem remove_collinear_fold_eq (normalize : Vector_2 → Vector_2)
    (angle_2 : Vector_2 → Vector_2 → FT) (points : List Point_2) (min_angle : FT) :
    ∀ (l : List Nat) (polygon : List Point_2), (∀ i ∈ l, i < points.length) →
      l.foldlM (remove_collinear_step normalize angle_2 points min_angle) polygon =
        some (polygon ++ (l.filter (angle_exceeds normalize angle_2 points min_angle)).filterMap
          (fun i => points[i]?)) := by
  intro l
  induction l with
  | nil => intro polygon _; simp
  | cons i l ih =>
    intro polygon hl
    have hi : i < points.length := hl i (List.mem_cons_self _ _)
    rw [List.foldlM_cons, remove_collinear_step_eq normalize angle_2 points min_angle polygon i hi]
    simp only [Option.bind_eq_bind, Option.some_bind]
    rw [ih _ (fun j hj => hl j (List.mem_cons_of_mem _ hj))]
    by_cases hk : angle_exceeds normalize angle_2 points min_angle i = true
    · simp [hk, List.filter_cons, List.getElem?_eq_getElem hi]
    · simp [hk, List.filter_cons]

/-- The `for` loop of `remove_collinear_points` never fails and leaves the points at the
indices where the computed angle is greater than `min_angle`, in their order. -/
theorem remove_collinear_for_eq (normalize : Vector_2 → Vector_2)
    (angle_2 : Vector_2 → Vector_2 → FT) (points : List Point_2) (min_angle : FT) :
    remove_collinear_for normalize angle_2 points min_angle =
      some ((kept_indices normalize angle_2 points min_angle).filterMap
        (fun i => points[i]?)) := by
  unfold remove_collinear_for kept_indices
  rw [remove_collinear_fold_eq normalize angle_2 points min_angle _ []
    (fun i hi => List.mem_range.mp hi)]
  simp

theorem kept_points_length (normalize : Vector_2 → Vector_2)
    (angle_2 : Vector_2 → Vector_2 → FT) (points : List Point_2) (min_angle : FT) :
    ((kept_indices normalize angle_2 points min_angle).filterMap
      (fun i => points[i]?)).length =
      (kept_indices normalize angle_2 points min_angle).length := by
  have h : ∀ l : List Nat, (∀ i ∈ l, i < points.length) →
      (l.filterMap (fun i => points[i]?)).length = l.length := by
    intro l
    induction l with
    | nil => intro _; rfl
    | cons i l ih =>
      intro hl
      have hi : i < points.length := hl i (List.mem_cons_self _ _)
      rw [List.filterMap_cons]
      simp only [List.getElem?_eq_getElem hi, List.length_cons]
      rw [ih (fun j hj => hl j (List.mem_cons_of_mem _ hj))]
  apply h
  intro i hi
  unfold kept_indices at hi
  exact List.mem_range.mp (List.mem_filter.mp hi).1

theorem kept_indices_antitone (normalize : Vector_2 → Vector_2)
    (angle_2 : Vector_2 → Vector_2 → FT) (points : List Point_2) (a b : FT) (hab : a ≤ b) :
    (kept_indices normalize angle_2 points b).length ≤
      (kept_indices normalize angle_2 points a).length := by
  unfold kept_indices
  have h : ∀ l : List Nat,
      (l.filter (angle_exceeds normalize angle_2 points b)).length ≤
        (l.filter (angle_exceeds normalize angle_2 points a)).length := by
    intro l
    induction l with
    | nil => simp
    | cons i l ih =>
      by_cases hb : angle_exceeds normalize angle_2 points b i = true
      · have ha : angle_exceeds normalize angle_2 points a i = true := by
          unfold angle_exceeds at hb ⊢
          cases hc : collinear_angle normalize angle_2 points i with
          | none => rw [hc] at hb; cases hb
          | some angle =>
            rw [hc] at hb
            simp only [decide_eq_true_eq] at hb ⊢
            exact lt_of_le_of_lt hab hb
        simp only [List.filter_cons, hb, ha, if_true, List.length_cons]
        omega
      · simp only [List.filter_cons, hb, if_false, Bool.false_eq_true]
        by_cases ha : angle_exceeds normalize angle_2 points a i = true
        · simp only [ha, if_true, List.length_cons]; omega
        · simp only [ha, if_false, Bool.false_eq_true]; exact ih
  exact h _

/-- C18 (as stated, refuted): on the polygon `(0, 0), (1, 0), (2, 0), (2, 2), (0, 2)`
with `min_angle = 10` four points survive; the angle computed at the corner `(2, 0)` is 90
and exceeds `min_angle`, and the corner is kept, not dropped; the angle computed at
`(1, 0)`, which lies on the segment between its neighbours, is 0 and does not exceed
`min_angle`, and this point is dropped. -/
theorem C18_point_with_large_angle_kept :
    remove_collinear_points sample_normalize sample_angle_2 1
        [(0, 0), (1, 0), (2, 0), (2, 2), (0, 2)] 10 =
      some [(0, 0), (2, 0), (2, 2), (0, 2)] ∧
    collinear_angle sample_normalize sample_angle_2
        [(0, 0), (1, 0), (2, 0), (2, 2), (0, 2)] 2 = some 90 ∧
    collinear_angle sample_normalize sample_angle_2
        [(0, 0), (1, 0), (2, 0), (2, 2), (0, 2)] 1 = some 0 := by
  refine ⟨?_, ?_, ?_⟩
  · norm_num [remove_collinear_points, remove_collinear_for, remove_collinear_step,
      collinear_angle, sample_normalize, sample_angle_2, vector_2, cross_2, dot_2, List.range,
      List.range.loop]
  · norm_num [collinear_angle, sample_normalize, sample_angle_2, vector_2, cross_2, dot_2]
  · norm_num [collinear_angle, sample_normalize, sample_angle_2, vector_2, cross_2, dot_2]

/-- C18 (amended): when at least three points survive at the threshold `min_angle`,
`remove_collinear_points` returns at once, and its result is the list of the points `q` at
the indices where the angle computed between the directions `(q -> r)` and `(q -> p)`,
with `p` and `r` the cyclic neighbours before and after `q`, exceeds `min_angle`: the
point `q` is kept if and only if that angle exceeds `min_angle`, and dropped otherwise. -/
theorem C18_point_kept_iff_angle_exceeds (normalize : Vector_2 → Vector_2)
    (angle_2 : Vector_2 → Vector_2 → FT) (points : List Point_2) (min_angle : FT) (fuel : Nat)
    (h : 3 ≤ (kept_indices normalize angle_2 points min_angle).length) :
    remove_collinear_points normalize angle_2 (fuel + 1) points min_angle =
      some ((kept_indices normalize angle_2 points min_angle).filterMap
        (fun i => points[i]?)) ∧
    ∀ i, i ∈ kept_indices normalize angle_2 points min_angle ↔
      i < points.length ∧ ∃ p q r,
        points[(i + points.length - 1) % points.length]? = some p ∧
        points[i]? = some q ∧ points[(i + 1) % points.length]? = some r ∧
        angle_2 (normalize (vector_2 q r)) (normalize (vector_2 q p)) > min_angle := by
  refine ⟨?_, ?_⟩
  · rw [remove_collinear_points, remove_collinear_for_eq]
    simp only [kept_points_length]
    rw [if_pos h]
  · intro i
    unfold kept_indices
    rw [List.mem_filter, List.mem_range]
    constructor
    · rintro ⟨hi, hk⟩
      obtain ⟨p, q, r, hp, hq, hr, ha⟩ := collinear_angle_some normalize angle_2 points i hi
      refine ⟨hi, p, q, r, hp, hq, hr, ?_⟩
      unfold angle_exceeds at hk
      rw [ha] at hk
      simpa using hk
    · rintro ⟨hi, p, q, r, hp, hq, hr, hgt⟩
      refine ⟨hi, ?_⟩
      obtain ⟨p2, q2, r2, hp2, hq2, hr2, ha⟩ :=
        collinear_angle_some normalize angle_2 points i hi
      rw [hp] at hp2; rw [hq] at hq2; rw [hr] at hr2
      cases hp2; cases hq2; cases hr2
      unfold angle_exceeds
      rw [ha]
      simpa using hgt

theorem C18_point_kept_iff_angle_exceeds_witness :
    3 ≤ (kept_indices sample_normalize sample_angle_2
        [(0, 0), (1, 0), (2, 0), (2, 2), (0, 2)] 10).length ∧
    remove_collinear_points sample_normalize sample_angle_2 (0 + 1)
        [(0, 0), (1, 0), (2, 0), (2, 2), (0, 2)] 10 =
      some ((kept_indices sample_normalize sample_angle_2
        [(0, 0), (1, 0), (2, 0), (2, 2), (0, 2)] 10).filterMap
          (fun i => [((0 : FT), (0 : FT)), (1, 0), (2, 0), (2, 2), (0, 2)][i]?)) := by
  have h : 3 ≤ (kept_indices sample_normalize sample_angle_2
      [(0, 0), (1, 0), (2, 0), (2, 2), (0, 2)] 10).length := by
    norm_num [kept_indices, angle_exceeds, collinear_angle, sample_normalize, sample_angle_2,
      vector_2, cross_2, dot_2, List.range, List.range.loop, List.filter]
  exact ⟨h, (C18_point_kept_iff_angle_exceeds sample_normalize sample_angle_2
    [(0, 0), (1, 0), (2, 0), (2, 2), (0, 2)] 10 0 h).1⟩

/-- C19 (the code at the failing inputs): the recursion has no end. Whenever fewer than
three points of the polygon have a computed angle greater than zero,
`remove_collinear_points` does not return for any positive `min_angle`, however many calls
are allowed: every threshold `min_angle / 2 ^ k` is positive, so fewer than three points
survive at each retry. -/
theorem C19_remove_collinear_points_never_returns (normalize : Vector_2 → Vector_2)
    (angle_2 : Vector_2 → Vector_2 → FT) (points : List Point_2) (min_angle : FT)
    (h : (kept_indices normalize angle_2 points 0).length < 3) (hm : 0 < min_angle) :
    ∀ fuel, remove_collinear_points normalize angle_2 fuel points min_angle = none := by
  intro fuel
  induction fuel generalizing min_angle with
  | zero => rfl
  | succ fuel ih =>
    rw [remove_collinear_points, remove_collinear_for_eq]
    simp only [kept_points_length]
    have hle := kept_indices_antitone normalize angle_2 points 0 min_angle (le_of_lt hm)
    rw [if_neg (by omega)]
    exact ih (min_angle / 2) (by positivity)

theorem C19_remove_collinear_points_never_returns_witness :
    3 ≤ [((0 : FT), (0 : FT)), (1, 0), (2, 0)].length ∧
    ∀ fuel, remove_collinear_points sample_normalize sample_angle_2 fuel
      [(0, 0), (1, 0), (2, 0)] 10 = none :=
  ⟨by decide, C19_remove_collinear_points_never_returns sample_normalize sample_angle_2
    [(0, 0), (1, 0), (2, 0)] 10
    (by norm_num [kept_indices, angle_exceeds, collinear_angle, sample_normalize,
      sample_angle_2, vector_2, cross_2, dot_2, List.range, List.range.loop, List.filter])
    (by norm_num)⟩

/-! ### The faces of the bounding box -/

set_option maxHeartbeats 400000 in
/-- The intersection graph of a box: the six faces of `bounding_box_to_polygons`, inserted
one after the other into the empty graph, leave the eight corners as vertices and the
twelve edges of `bbox_graph_edges`. -/
theorem bbox_faces_graph_box (c0 c1 c2 c3 c4 c5 c6 c7 : Point_3)
    (hc : [c0, c1, c2, c3, c4, c5, c6, c7].Pairwise (fun a b => a ≠ b)) :
    bbox_faces_graph (bounding_box_to_polygons [c0, c1, c2, c3, c4, c5, c6, c7]) 0
      ⟨[], [], 0, 0⟩ = some (bbox_graph [c0, c1, c2, c3, c4, c5, c6, c7]) := by
  simp only [List.pairwise_cons, List.mem_cons, List.mem_singleton, forall_eq_or_imp,
    forall_eq, List.not_mem_nil, List.Pairwise.nil, and_true, ne_eq, IsEmpty.forall_iff,
    implies_true] at hc
  obtain ⟨⟨h01, h02, h03, h04, h05, h06, h07⟩, ⟨h12, h13, h14, h15, h16, h17⟩,
    ⟨h23, h24, h25, h26, h27⟩, ⟨h34, h35, h36, h37⟩, ⟨h45, h46, h47⟩, ⟨h56, h57⟩, h67⟩ := hc
  have f0 : bbox_polygon_graph 0 [c0, c1, c2, c3]
      ⟨[], [], 0, 0⟩ =
      some ⟨[⟨c0, true⟩, ⟨c1, true⟩, ⟨c2, true⟩, ⟨c3, true⟩], [(0, ⟨0, 1, [0], 0, true⟩), (1,
        ⟨1, 2, [0], 1, true⟩), (2, ⟨2, 3, [0], 2, true⟩), (3, ⟨3, 0, [0], 3, true⟩)], 4, 4⟩ := by
    simp [bbox_polygon_graph, add_bbox_vertices_graph, add_bbox_edges_graph,
      Intersection_graph.add_vertex, Intersection_graph.add_edge, Intersection_graph.add_line,
      Intersection_graph.set_line, Intersection_graph.modify_edge, set_insert, List.range,
      List.range.loop, List.findIdx?_cons,
      h01, h02, h03, h12, h13, h23, Ne.symm h01, Ne.symm h02, Ne.symm h03, Ne.symm h12, Ne.symm
      h13, Ne.symm h23]
  have f1 : bbox_polygon_graph 1 [c0, c1, c6, c5]
      ⟨[⟨c0, true⟩, ⟨c1, true⟩, ⟨c2, true⟩, ⟨c3, true⟩], [(0, ⟨0, 1, [0], 0, true⟩), (1, ⟨1, 2,
      [0], 1, true⟩), (2, ⟨2, 3, [0], 2, true⟩), (3, ⟨3, 0, [0], 3, true⟩)], 4, 4⟩ =
      some ⟨[⟨c0, true⟩, ⟨c1, true⟩, ⟨c2, true⟩, ⟨c3, true⟩, ⟨c6, true⟩, ⟨c5, true⟩], [(0, ⟨0,
        1, [0, 1], 0, true⟩), (1, ⟨1, 2, [0], 1, true⟩), (2, ⟨2, 3, [0], 2, true⟩), (3, ⟨3, 0, [0], 3,
        true⟩), (4, ⟨1, 4, [1], 4, true⟩), (5, ⟨4, 5, [1], 5, true⟩), (6, ⟨5, 0, [1], 6, true⟩)], 7, 7⟩
        := by
    simp [bbox_polygon_graph, add_bbox_vertices_graph, add_bbox_edges_graph,
      Intersection_graph.add_vertex, Intersection_graph.add_edge, Intersection_graph.add_line,
      Intersection_graph.set_line, Intersection_graph.modify_edge, set_insert, List.range,
      List.range.loop, List.findIdx?_cons,
      h01, h02, h03, h05, h06, h12, h13, h15, h16, h23, h25, h26, h35, h36, h56, Ne.symm h01,
      Ne.symm h02, Ne.symm h03, Ne.symm h05, Ne.symm h06, Ne.symm h12, Ne.symm h13, Ne.symm h15,
      Ne.symm h16, Ne.symm h23, Ne.symm h25, Ne.symm h26, Ne.symm h35, Ne.symm h36, Ne.symm h56]
  have f2 : bbox_polygon_graph 2 [c1, c2, c7, c6]
      ⟨[⟨c0, true⟩, ⟨c1, true⟩, ⟨c2, true⟩, ⟨c3, true⟩, ⟨c6, true⟩, ⟨c5, true⟩], [(0, ⟨0, 1, [0,
      1], 0, true⟩), (1, ⟨1, 2, [0], 1, true⟩), (2, ⟨2, 3, [0], 2, true⟩), (3, ⟨3, 0, [0], 3, true⟩),
      (4, ⟨1, 4, [1], 4, true⟩), (5, ⟨4, 5, [1], 5, true⟩), (6, ⟨5, 0, [1], 6, true⟩)], 7, 7⟩ =
      some ⟨[⟨c0, true⟩, ⟨c1, true⟩, ⟨c2, true⟩, ⟨c3, true⟩, ⟨c6, true⟩, ⟨c5, true⟩, ⟨c7,
        true⟩], [(0, ⟨0, 1, [0, 1], 0, true⟩), (1, ⟨1, 2, [0, 2], 1, true⟩), (2, ⟨2, 3, [0], 2, true⟩),
        (3, ⟨3, 0, [0], 3, true⟩), (4, ⟨1, 4, [1, 2], 4, true⟩), (5, ⟨4, 5, [1], 5, true⟩), (6, ⟨5, 0,
        [1], 6, true⟩), (7, ⟨2, 6, [2], 7, true⟩), (8, ⟨6, 4, [2], 8, true⟩)], 9, 9⟩ := by
    simp [bbox_polygon_graph, add_bbox_vertices_graph, add_bbox_edges_graph,
      Intersection_graph.add_vertex, Intersection_graph.add_edge, Intersection_graph.add_line,
      Intersection_graph.set_line, Intersection_graph.modify_edge, set_insert, List.range,
      List.range.loop, List.findIdx?_cons,
      h01, h02, h03, h05, h06, h07, h12, h13, h15, h16, h17, h23, h25, h26, h27, h35, h36, h37,
      h56, h57, h67, Ne.symm h01, Ne.symm h02, Ne.symm h03, Ne.symm h05, Ne.symm h06, Ne.symm
      h07, Ne.symm h12, Ne.symm h13, Ne.symm h15, Ne.symm h16, Ne.symm h17, Ne.symm h23, Ne.symm
      h25, Ne.symm h26, Ne.symm h27, Ne.symm h35, Ne.symm h36, Ne.symm h37, Ne.symm h56, Ne.symm
      h57, Ne.symm h67]
  have f3 : bbox_polygon_graph 3 [c2, c3, c4, c7]
      ⟨[⟨c0, true⟩, ⟨c1, true⟩, ⟨c2, true⟩, ⟨c3, true⟩, ⟨c6, true⟩, ⟨c5, true⟩, ⟨c7, true⟩],
      [(0, ⟨0, 1, [0, 1], 0, true⟩), (1, ⟨1, 2, [0, 2], 1, true⟩), (2, ⟨2, 3, [0], 2, true⟩), (3, ⟨3,
      0, [0], 3, true⟩), (4, ⟨1, 4, [1, 2], 4, true⟩), (5, ⟨4, 5, [1], 5, true⟩), (6, ⟨5, 0, [1], 6,
      true⟩), (7, ⟨2, 6, [2], 7, true⟩), (8, ⟨6, 4, [2], 8, true⟩)], 9, 9⟩ =
      some ⟨[⟨c0, true⟩, ⟨c1, true⟩, ⟨c2, true⟩, ⟨c3, true⟩, ⟨c6, true⟩, ⟨c5, true⟩, ⟨c7, true⟩,
        ⟨c4, true⟩], [(0, ⟨0, 1, [0, 1], 0, true⟩), (1, ⟨1, 2, [0, 2], 1, true⟩), (2, ⟨2, 3, [0, 3], 2,
        true⟩), (3, ⟨3, 0, [0], 3, true⟩), (4, ⟨1, 4, [1, 2], 4, true⟩), (5, ⟨4, 5, [1], 5, true⟩), (6,
        ⟨5, 0, [1], 6, true⟩), (7, ⟨2, 6, [2, 3], 7, true⟩), (8, ⟨6, 4, [2], 8, true⟩), (9, ⟨3, 7, [3],
        9, true⟩), (10, ⟨7, 6, [3], 10, true⟩)], 11, 11⟩ := by
    simp [bbox_polygon_graph, add_bbox_vertices_graph, add_bbox_edges_graph,
      Intersection_graph.add_vertex, Intersection_graph.add_edge, Intersection_graph.add_line,
      Intersection_graph.set_line, Intersection_graph.modify_edge, set_insert, List.range,
      List.range.loop, List.findIdx?_cons,
      h01, h02, h03, h04, h05, h06, h07, h12, h13, h14, h15, h16, h17, h23, h24, h25, h26, h27,
      h34, h35, h36, h37, h45, h46, h47, h56, h57, h67, Ne.symm h01, Ne.symm h02, Ne.symm h03,
      Ne.symm h04, Ne.symm h05, Ne.symm h06, Ne.symm h07, Ne.symm h12, Ne.symm h13, Ne.symm h14,
      Ne.symm h15, Ne.symm h16, Ne.symm h17, Ne.symm h23, Ne.symm h24, Ne.symm h25, Ne.symm h26,
      Ne.symm h27, Ne.symm h34, Ne.symm h35, Ne.symm h36, Ne.symm h37, Ne.symm h45, Ne.symm h46,
      Ne.symm h47, Ne.symm h56, Ne.symm h57, Ne.symm h67]
  have f4 : bbox_polygon_graph 4 [c3, c0, c5, c4]
      ⟨[⟨c0, true⟩, ⟨c1, true⟩, ⟨c2, true⟩, ⟨c3, true⟩, ⟨c6, true⟩, ⟨c5, true⟩, ⟨c7, true⟩, ⟨c4,
      true⟩], [(0, ⟨0, 1, [0, 1], 0, true⟩), (1, ⟨1, 2, [0, 2], 1, true⟩), (2, ⟨2, 3, [0, 3], 2,
      true⟩), (3, ⟨3, 0, [0], 3, true⟩), (4, ⟨1, 4, [1, 2], 4, true⟩), (5, ⟨4, 5, [1], 5, true⟩), (6,
      ⟨5, 0, [1], 6, true⟩), (7, ⟨2, 6, [2, 3], 7, true⟩), (8, ⟨6, 4, [2], 8, true⟩), (9, ⟨3, 7, [3],
      9, true⟩), (10, ⟨7, 6, [3], 10, true⟩)], 11, 11⟩ =
      some ⟨[⟨c0, true⟩, ⟨c1, true⟩, ⟨c2, true⟩, ⟨c3, true⟩, ⟨c6, true⟩, ⟨c5, true⟩, ⟨c7, true⟩,
        ⟨c4, true⟩], [(0, ⟨0, 1, [0, 1], 0, true⟩), (1, ⟨1, 2, [0, 2], 1, true⟩), (2, ⟨2, 3, [0, 3], 2,
        true⟩), (3, ⟨3, 0, [0, 4], 3, true⟩), (4, ⟨1, 4, [1, 2], 4, true⟩), (5, ⟨4, 5, [1], 5, true⟩),
        (6, ⟨5, 0, [1, 4], 6, true⟩), (7, ⟨2, 6, [2, 3], 7, true⟩), (8, ⟨6, 4, [2], 8, true⟩), (9, ⟨3,
        7, [3, 4], 9, true⟩), (10, ⟨7, 6, [3], 10, true⟩), (11, ⟨5, 7, [4], 11, true⟩)], 12, 12⟩ := by
    simp [bbox_polygon_graph, add_bbox_vertices_graph, add_bbox_edges_graph,
      Intersection_graph.add_vertex, Intersection_graph.add_edge, Intersection_graph.add_line,
      Intersection_graph.set_line, Intersection_graph.modify_edge, set_insert, List.range,
      List.range.loop, List.findIdx?_cons,
      h01, h02, h03, h04, h05, h06, h07, h12, h13, h14, h15, h16, h17, h23, h24, h25, h26, h27,
      h34, h35, h36, h37, h45, h46, h47, h56, h57, h67, Ne.symm h01, Ne.symm h02, Ne.symm h03,
      Ne.symm h04, Ne.symm h05, Ne.symm h06, Ne.symm h07, Ne.symm h12, Ne.symm h13, Ne.symm h14,
      Ne.symm h15, Ne.symm h16, Ne.symm h17, Ne.symm h23, Ne.symm h24, Ne.symm h25, Ne.symm h26,
      Ne.symm h27, Ne.symm h34, Ne.symm h35, Ne.symm h36, Ne.symm h37, Ne.symm h45, Ne.symm h46,
      Ne.symm h47, Ne.symm h56, Ne.symm h57, Ne.symm h67]
  have f5 : bbox_polygon_graph 5 [c5, c6, c7, c4]
      ⟨[⟨c0, true⟩, ⟨c1, true⟩, ⟨c2, true⟩, ⟨c3, true⟩, ⟨c6, true⟩, ⟨c5, true⟩, ⟨c7, true⟩, ⟨c4,
      true⟩], [(0, ⟨0, 1, [0, 1], 0, true⟩), (1, ⟨1, 2, [0, 2], 1, true⟩), (2, ⟨2, 3, [0, 3], 2,
      true⟩), (3, ⟨3, 0, [0, 4], 3, true⟩), (4, ⟨1, 4, [1, 2], 4, true⟩), (5, ⟨4, 5, [1], 5, true⟩),
      (6, ⟨5, 0, [1, 4], 6, true⟩), (7, ⟨2, 6, [2, 3], 7, true⟩), (8, ⟨6, 4, [2], 8, true⟩), (9, ⟨3,
      7, [3, 4], 9, true⟩), (10, ⟨7, 6, [3], 10, true⟩), (11, ⟨5, 7, [4], 11, true⟩)], 12, 12⟩ =
      some ⟨[⟨c0, true⟩, ⟨c1, true⟩, ⟨c2, true⟩, ⟨c3, true⟩, ⟨c6, true⟩, ⟨c5, true⟩, ⟨c7, true⟩,
        ⟨c4, true⟩], [(0, ⟨0, 1, [0, 1], 0, true⟩), (1, ⟨1, 2, [0, 2], 1, true⟩), (2, ⟨2, 3, [0, 3], 2,
        true⟩), (3, ⟨3, 0, [0, 4], 3, true⟩), (4, ⟨1, 4, [1, 2], 4, true⟩), (5, ⟨4, 5, [1, 5], 5,
        true⟩), (6, ⟨5, 0, [1, 4], 6, true⟩), (7, ⟨2, 6, [2, 3], 7, true⟩), (8, ⟨6, 4, [2, 5], 8,
        true⟩), (9, ⟨3, 7, [3, 4], 9, true⟩), (10, ⟨7, 6, [3, 5], 10, true⟩), (11, ⟨5, 7, [4, 5], 11,
        true⟩)], 12, 12⟩ := by
    simp [bbox_polygon_graph, add_bbox_vertices_graph, add_bbox_edges_graph,
      Intersection_graph.add_vertex, Intersection_graph.add_edge, Intersection_graph.add_line,
      Intersection_graph.set_line, Intersection_graph.modify_edge, set_insert, List.range,
      List.range.loop, List.findIdx?_cons,
      h01, h02, h03, h04, h05, h06, h07, h12, h13, h14, h15, h16, h17, h23, h24, h25, h26, h27,
      h34, h35, h36, h37, h45, h46, h47, h56, h57, h67, Ne.symm h01, Ne.symm h02, Ne.symm h03,
      Ne.symm h04, Ne.symm h05, Ne.symm h06, Ne.symm h07, Ne.symm h12, Ne.symm h13, Ne.symm h14,
      Ne.symm h15, Ne.symm h16, Ne.symm h17, Ne.symm h23, Ne.symm h24, Ne.symm h25, Ne.symm h26,
      Ne.symm h27, Ne.symm h34, Ne.symm h35, Ne.symm h36, Ne.symm h37, Ne.symm h45, Ne.symm h46,
      Ne.symm h47, Ne.symm h56, Ne.symm h57, Ne.symm h67]
  rw [bounding_box_to_polygons, bbox_faces_graph, f0, Option.some_bind, bbox_faces_graph, f1,
    Option.some_bind, bbox_faces_graph, f2, Option.some_bind, bbox_faces_graph, f3,
    Option.some_bind, bbox_faces_graph, f4, Option.some_bind, bbox_faces_graph, f5,
    Option.some_bind, bbox_faces_graph]
  rfl

theorem add_bbox_vertices_graph_eq (G : Geometry) (plane : Plane_3) (polygon : List Point_3) :
    ∀ (l : List Nat) (points : List Point_2) (ivertices : List IVertex)
      (g : Intersection_graph) (r : List IVertex × Intersection_graph),
      add_bbox_vertices_graph polygon l (ivertices, g) = some r →
      ∃ pts, add_bbox_vertices G plane polygon l (points, ivertices, g) =
        some (pts, r.1, r.2) := by
  intro l
  induction l with
  | nil =>
    intro points ivertices g r h
    rw [add_bbox_vertices_graph] at h
    cases h
    exact ⟨points, by rw [add_bbox_vertices]⟩
  | cons i rest ih =>
    intro points ivertices g r h
    rw [add_bbox_vertices_graph] at h
    rw [add_bbox_vertices]
    cases hp : polygon[i]? with
    | none => rw [hp] at h; cases h
    | some point =>
      rw [hp] at h
      exact ih _ _ _ r h

theorem set_iedge_plane (sp : Support_plane) (v u : Vertex_index) (iedge : IEdge) :
    (sp.set_iedge v u iedge).plane = sp.plane := by
  unfold Support_plane.set_iedge
  split <;> rfl

theorem map_plane_set (planes : List Support_plane) (idx : Nat) (sp sp2 : Support_plane)
    (h : planes[idx]? = some sp) (hp : sp2.plane = sp.plane) :
    (planes.set idx sp2).map (fun s => s.plane) = planes.map (fun s => s.plane) := by
  apply List.ext_getElem?
  intro n
  rw [List.getElem?_map, List.getElem?_map, List.getElem?_set]
  by_cases hn : idx = n
  · subst hn
    have hlt : idx < planes.length := by
      rcases List.getElem?_eq_some_iff.mp h with ⟨hlt, -⟩
      exact hlt
    simp [hlt, h, hp]
  · simp [hn]

theorem add_bbox_edges_graph_eq (support_plane_idx : Nat) (ivertices : List IVertex)
    (vertices : List Vertex_index) (hv : vertices.length = 4) (d0 : Data_structure) :
    ∀ (l : List Nat) (planes : List Support_plane) (g g2 : Intersection_graph),
      support_plane_idx < planes.length → (∀ i ∈ l, i < 4) →
      add_bbox_edges_graph support_plane_idx ivertices l g = some g2 →
      ∃ d2, Data_structure.add_bbox_edges support_plane_idx ivertices vertices l
          { d0 with m_intersection_graph := g, m_support_planes := planes } = some d2 ∧
        d2.m_intersection_graph = g2 ∧
        d2.m_support_planes.map (fun s => s.plane) = planes.map (fun s => s.plane) := by
  intro l
  induction l with
  | nil =>
    intro planes g g2 _ _ h
    rw [add_bbox_edges_graph] at h
    cases h
    exact ⟨_, by rw [Data_structure.add_bbox_edges], rfl, rfl⟩
  | cons i rest ih =>
    intro planes g g2 hidx hl h
    have hi : i < 4 := hl i (List.mem_cons_self _ _)
    rw [add_bbox_edges_graph] at h
    rw [Data_structure.add_bbox_edges]
    cases h1 : ivertices[i]? with
    | none => rw [h1] at h; cases h
    | some iv =>
      cases h2 : ivertices[(i + 1) % 4]? with
      | none => rw [h1, h2] at h; cases h
      | some iv_next =>
        rw [h1, h2] at h
        have hv1 : vertices[i]? = some vertices[i] :=
          List.getElem?_eq_getElem (by omega)
        have hlt2 : (i + 1) % 4 < vertices.length := by
          rw [hv]; exact Nat.mod_lt _ (by decide)
        have hv2 : vertices[(i + 1) % 4]? = some vertices[(i + 1) % 4] :=
          List.getElem?_eq_getElem hlt2
        obtain ⟨sp, hs⟩ : ∃ sp, planes[support_plane_idx]? = some sp :=
          ⟨_, List.getElem?_eq_getElem hidx⟩
        rw [hv1, hv2]
        dsimp only at h ⊢
        rw [hs]
        dsimp only
        obtain ⟨d2, hd2, hg2, hp2⟩ := ih
          (planes.set support_plane_idx
            { sp.set_iedge vertices[i] vertices[(i + 1) % 4]
                (g.add_edge iv iv_next support_plane_idx).1.1 with
              unique_iedges := set_insert (g.add_edge iv iv_next support_plane_idx).1.1
                (sp.set_iedge vertices[i] vertices[(i + 1) % 4]
                  (g.add_edge iv iv_next support_plane_idx).1.1).unique_iedges })
          _ g2 (by simpa using hidx) (fun j hj => hl j (List.mem_cons_of_mem _ hj)) h
        refine ⟨d2, hd2, hg2, ?_⟩
        rw [hp2]
        exact map_plane_set _ _ _ _ hs (set_iedge_plane _ _ _ _)

theorem add_bbox_polygon_graph_eq (G : Geometry) (d : Data_structure) (polygon : List Point_3)
    (g2 : Intersection_graph) (hlen : d.m_support_planes.length < 6)
    (hnew : ∀ sp ∈ d.m_support_planes, (G.make_support_plane polygon).plane ≠ sp.plane)
    (hg : bbox_polygon_graph d.m_support_planes.length polygon d.m_intersection_graph =
      some g2) :
    ∃ d2, d.add_bbox_polygon G polygon = some d2 ∧ d2.m_intersection_graph = g2 ∧
      d2.m_support_planes.map (fun s => s.plane) =
        d.m_support_planes.map (fun s => s.plane) ++ [(G.make_support_plane polygon).plane] := by
  have hnone : find_same_plane (G.make_support_plane polygon) d.m_support_planes 0 = none :=
    (find_same_plane_none _ _ 0).mpr (fun sp hsp => by
      simp [Support_plane.same, hnew sp hsp])
  unfold bbox_polygon_graph at hg
  cases hst : add_bbox_vertices_graph polygon (List.range 4) ([], d.m_intersection_graph) with
  | none => rw [hst] at hg; cases hg
  | some st =>
    rw [hst, Option.some_bind] at hg
    obtain ⟨pts, hpts⟩ := add_bbox_vertices_graph_eq G (G.make_support_plane polygon).plane
      polygon (List.range 4) [] [] d.m_intersection_graph st hst
    have hget : (d.m_support_planes ++ [G.make_support_plane polygon])[
        d.m_support_planes.length]? = some (G.make_support_plane polygon) := by
      simp
    obtain ⟨d2, hd2, hg2, hp2⟩ := add_bbox_edges_graph_eq d.m_support_planes.length st.1
      ((G.make_support_plane polygon).add_bbox_polygon pts st.1).1
      (by simp [Support_plane.add_bbox_polygon]) d
      (List.range 4)
      ((d.m_support_planes ++ [G.make_support_plane polygon]).set d.m_support_planes.length
        ((G.make_support_plane polygon).add_bbox_polygon pts st.1).2)
      st.2 g2 (by simp) (fun i hi => List.mem_range.mp hi) hg
    refine ⟨d2, ?_, hg2, ?_⟩
    · unfold Data_structure.add_bbox_polygon Data_structure.add_support_plane
      simp only [hnone, Data_structure.intersect_with_bbox,
        Data_structure.number_of_support_planes, if_pos hlen, Option.map_some',
        Option.some_bind, Data_structure.support_plane, hget, hpts]
      exact hd2
    · rw [hp2, map_plane_set _ _ _ _ hget (by rfl)]
      simp

theorem bbox_faces_fold_eq (G : Geometry) :
    ∀ (faces : List (List Point_3)) (d : Data_structure) (g2 : Intersection_graph),
      d.m_support_planes.length + faces.length ≤ 6 →
      (d.m_support_planes.map (fun s => s.plane) ++
        faces.map (fun f => (G.make_support_plane f).plane)).Pairwise (fun a b => a ≠ b) →
      bbox_faces_graph faces d.m_support_planes.length d.m_intersection_graph = some g2 →
      ∃ d2, faces.foldlM (fun (d1 : Data_structure) f => d1.add_bbox_polygon G f) d = some d2 ∧
        d2.m_intersection_graph = g2 ∧
        d2.m_support_planes.map (fun s => s.plane) =
          d.m_support_planes.map (fun s => s.plane) ++
            faces.map (fun f => (G.make_support_plane f).plane) := by
  intro faces
  induction faces with
  | nil =>
    intro d g2 _ _ h
    rw [bbox_faces_graph] at h
    cases h
    exact ⟨d, rfl, rfl, by simp⟩
  | cons f rest ih =>
    intro d g2 hlen hp h
    rw [bbox_faces_graph] at h
    cases h1 : bbox_polygon_graph d.m_support_planes.length f d.m_intersection_graph with
    | none => rw [h1] at h; cases h
    | some g1 =>
      rw [h1, Option.some_bind] at h
      have hnew : ∀ sp ∈ d.m_support_planes, (G.make_support_plane f).plane ≠ sp.plane := by
        intro sp hsp
        rw [List.pairwise_append] at hp
        exact (hp.2.2 sp.plane (List.mem_map_of_mem _ hsp) _
          (by simp)).symm
      obtain ⟨d1, hd1, hg1, hp1⟩ := add_bbox_polygon_graph_eq G d f g1
        (by simp at hlen; omega) hnew h1
      have hlen1 : d1.m_support_planes.length = d.m_support_planes.length + 1 := by
        have := congrArg List.length hp1
        simpa using this
      obtain ⟨d2, hd2, hg2, hp2⟩ := ih d1 g2 (by simp at hlen; omega)
        (by rw [hp1]; simpa using hp) (by rw [hlen1, hg1]; exact h)
      refine ⟨d2, ?_, hg2, ?_⟩
      · rw [List.foldlM_cons, hd1]
        exact hd2
      · rw [hp2, hp1]; simp

/-- The six faces of a box with pairwise distinct corners, whose planes are pairwise
different, are inserted by `add_bbox_faces` without a failed assertion, and leave the
intersection graph `bbox_graph` and six support planes. -/
theorem add_bbox_faces_box (G : Geometry) (v : Bool) (c0 c1 c2 c3 c4 c5 c6 c7 : Point_3)
    (hc : [c0, c1, c2, c3, c4, c5, c6, c7].Pairwise (fun a b => a ≠ b))
    (hp : ((bounding_box_to_polygons [c0, c1, c2, c3, c4, c5, c6, c7]).map
      (fun f => (G.make_support_plane f).plane)).Pairwise (fun a b => a ≠ b)) :
    ∃ d, add_bbox_faces G (Data_structure.init v)
        (bounding_box_to_polygons [c0, c1, c2, c3, c4, c5, c6, c7]) = some d ∧
      d.m_intersection_graph = bbox_graph [c0, c1, c2, c3, c4, c5, c6, c7] ∧
      d.m_support_planes.length = 6 := by
  obtain ⟨d, hd, hg, hpl⟩ := bbox_faces_fold_eq G
    (bounding_box_to_polygons [c0, c1, c2, c3, c4, c5, c6, c7]) (Data_structure.init v)
    (bbox_graph [c0, c1, c2, c3, c4, c5, c6, c7])
    (by simp [Data_structure.init, bounding_box_to_polygons])
    (by simpa [Data_structure.init] using hp)
    (bbox_faces_graph_box c0 c1 c2 c3 c4 c5 c6 c7 hc)
  have hlen : d.m_support_planes.length = 6 := by
    have := congrArg List.length hpl
    simpa [Data_structure.init, bounding_box_to_polygons] using this
  refine ⟨d, ?_, hg, hlen⟩
  unfold add_bbox_faces
  rw [hd, Option.some_bind]
  simp [Data_structure.number_of_support_planes, Data_structure.ivertices,
    Data_structure.iedges, hlen, hg, bbox_graph, bbox_graph_edges]

/-- With an empty input range `add_polygons` always fails: when `add_bbox_faces` returns,
there are exactly six support planes, and the assertion of `add_input_polygons` asks for
more than six. -/
theorem add_polygons_empty (G : Geometry) (m_data : Data_structure)
    (bbox_faces : List (List Point_3)) :
    add_polygons G m_data [] bbox_faces = none := by
  unfold add_polygons
  cases h : add_bbox_faces G m_data bbox_faces with
  | none => rfl
  | some d =>
    rw [Option.some_bind]
    have h6 : d.number_of_support_planes = 6 := by
      unfold add_bbox_faces at h
      cases hf : List.foldlM (fun (d : Data_structure) bbox_face =>
          d.add_bbox_polygon G bbox_face) m_data bbox_faces with
      | none => rw [hf] at h; cases h
      | some d1 =>
        rw [hf, Option.some_bind] at h
        by_cases h1 : d1.number_of_support_planes = 6
        · rw [if_neg (not_not.mpr h1)] at h
          split at h
          · cases h
          · split at h
            · cases h
            · cases h; exact h1
        · rw [if_pos h1] at h; cases h
    simp [add_input_polygons, add_input_polygons_loop, h6]

theorem sample_bbox_distinct :
    [((-1 : FT), (-1 : FT), (-1 : FT)), (1, -1, -1), (1, 1, -1), (-1, 1, -1), (-1, 1, 1),
      (-1, -1, 1), (1, -1, 1), (1, 1, 1)].Pairwise (fun a b => a ≠ b) := by
  simp only [List.pairwise_cons, List.mem_cons, List.mem_singleton, forall_eq_or_imp,
    forall_eq, List.not_mem_nil, List.Pairwise.nil, and_true, ne_eq, IsEmpty.forall_iff,
    implies_true, Prod.mk.injEq]
  norm_num

theorem sample_bbox_planes_distinct :
    ((bounding_box_to_polygons [((-1 : FT), (-1 : FT), (-1 : FT)), (1, -1, -1), (1, 1, -1),
      (-1, 1, -1), (-1, 1, 1), (-1, -1, 1), (1, -1, 1), (1, 1, 1)]).map
      (fun f => (sample_box_geometry.make_support_plane f).plane)).Pairwise
        (fun a b => a ≠ b) := by
  simp only [bounding_box_to_polygons, sample_box_geometry, sample_plane_of, List.map_cons,
    List.map_nil, List.pairwise_cons, List.mem_cons, List.mem_singleton, forall_eq_or_imp,
    forall_eq, List.not_mem_nil, List.Pairwise.nil, and_true, ne_eq, IsEmpty.forall_iff,
    implies_true, Prod.mk.injEq]
  norm_num

/-- C12: when the six faces that `bounding_box_to_polygons` builds from eight pairwise
distinct corners of a box, lying on six different planes, are inserted by
`add_bbox_polygon` into a new data structure (the loop of `add_bbox_faces`, whose three
assertions then pass), the data structure has exactly 6 support planes, 8 IVertices and 12
IEdges; every IEdge lies on exactly 2 planes, both among the six, and every IVertex has
exactly 3 incident IEdges. -/
theorem C12_bbox_faces_graph (G : Geometry) (v : Bool) (c0 c1 c2 c3 c4 c5 c6 c7 : Point_3)
    (hc : [c0, c1, c2, c3, c4, c5, c6, c7].Pairwise (fun a b => a ≠ b))
    (hp : ((bounding_box_to_polygons [c0, c1, c2, c3, c4, c5, c6, c7]).map
      (fun f => (G.make_support_plane f).plane)).Pairwise (fun a b => a ≠ b)) :
    ∃ d, add_bbox_faces G (Data_structure.init v)
        (bounding_box_to_polygons [c0, c1, c2, c3, c4, c5, c6, c7]) = some d ∧
      d.number_of_support_planes = 6 ∧ d.ivertices.length = 8 ∧ d.iedges.length = 12 ∧
      d.iedges.Nodup ∧
      (∀ e ∈ d.iedges, ∃ planes, d.intersected_planes e = some planes ∧
        planes.length = 2 ∧ planes.Nodup ∧ ∀ p ∈ planes, p < 6) ∧
      (∀ iv ∈ d.ivertices, (d.incident_iedges iv).length = 3) := by
  obtain ⟨d, hd, hg, hlen⟩ := add_bbox_faces_box G v c0 c1 c2 c3 c4 c5 c6 c7 hc hp
  refine ⟨d, hd, hlen, ?_, ?_, ?_, ?_, ?_⟩
  · rw [Data_structure.ivertices, hg]; rfl
  · rw [Data_structure.iedges, hg]; rfl
  · rw [Data_structure.iedges, hg]
    show (bbox_graph_edges.map (fun p => p.1)).Nodup
    decide
  · intro e he
    rw [Data_structure.iedges, hg] at he
    rw [Data_structure.intersected_planes, hg]
    have he2 : e ∈ [0, 1, 2, 3, 4, 5, 6, 7, 8, 9, 10, 11] := he
    simp only [List.mem_cons, List.mem_singleton, List.not_mem_nil, or_false] at he2
    rcases he2 with h | h | h | h | h | h | h | h | h | h | h | h <;> rw [h] <;>
      exact ⟨_, rfl, rfl, by decide, by decide⟩
  · intro iv hiv
    rw [Data_structure.ivertices, hg] at hiv
    rw [Data_structure.incident_iedges, hg]
    have hiv2 : iv ∈ [0, 1, 2, 3, 4, 5, 6, 7] := hiv
    simp only [List.mem_cons, List.mem_singleton, List.not_mem_nil, or_false] at hiv2
    rcases hiv2 with h | h | h | h | h | h | h | h <;> rw [h] <;> rfl

theorem C12_bbox_faces_graph_witness :
    ∃ d, add_bbox_faces sample_box_geometry (Data_structure.init false)
        (bounding_box_to_polygons [(-1, -1, -1), (1, -1, -1), (1, 1, -1), (-1, 1, -1),
          (-1, 1, 1), (-1, -1, 1), (1, -1, 1), (1, 1, 1)]) = some d ∧
      d.number_of_support_planes = 6 ∧ d.ivertices.length = 8 ∧ d.iedges.length = 12 ∧
      d.iedges.Nodup ∧
      (∀ e ∈ d.iedges, ∃ planes, d.intersected_planes e = some planes ∧
        planes.length = 2 ∧ planes.Nodup ∧ ∀ p ∈ planes, p < 6) ∧
      (∀ iv ∈ d.ivertices, (d.incident_iedges iv).length = 3) :=
  C12_bbox_faces_graph sample_box_geometry false (-1, -1, -1) (1, -1, -1) (1, 1, -1)
    (-1, 1, -1) (-1, 1, 1) (-1, -1, 1) (1, -1, 1) (1, 1, 1) sample_bbox_distinct
    sample_bbox_planes_distinct

/-- C11 (as stated, refuted): with the cube of side 2 around the origin and an empty input
range, the six faces are inserted by `add_bbox_faces`, and then `add_polygons` fails on the
assertion `number_of_support_planes() > 6` of `add_input_polygons`; and no bounding box
comes out of `initialize_axis_aligned_box` for an empty input range. -/
theorem C11_empty_input_fails :
    (∃ d, add_bbox_faces sample_box_geometry (Data_structure.init false)
      (bounding_box_to_polygons [(-1, -1, -1), (1, -1, -1), (1, 1, -1), (-1, 1, -1),
        (-1, 1, 1), (-1, -1, 1), (1, -1, 1), (1, 1, 1)]) = some d) ∧
    add_polygons sample_box_geometry (Data_structure.init false) []
      (bounding_box_to_polygons [(-1, -1, -1), (1, -1, -1), (1, 1, -1), (-1, 1, -1),
        (-1, 1, 1), (-1, -1, 1), (1, -1, 1), (1, 1, 1)]) = none ∧
    initialize_axis_aligned_box (1 / 100000) [] = none := by
  refine ⟨?_, add_polygons_empty _ _ _, rfl⟩
  obtain ⟨d, hd, -, -⟩ := add_bbox_faces_box sample_box_geometry false (-1, -1, -1)
    (1, -1, -1) (1, 1, -1) (-1, 1, -1) (-1, 1, 1) (-1, -1, 1) (1, -1, 1) (1, 1, 1)
    sample_bbox_distinct sample_bbox_planes_distinct
  exact ⟨d, hd⟩

/-- C11 (amended): for the six faces of a box with pairwise distinct corners, lying on six
different planes, `add_bbox_faces` succeeds on a new data structure and yields exactly 6
support planes, 8 IVertices and 12 IEdges; with an empty input range `add_polygons` then
fails on the assertion of `add_input_polygons`, and for any input range it returns only a
data structure with more than six support planes. -/
theorem C11_bbox_faces_then_empty_input_fails (G : Geometry) (v : Bool)
    (c0 c1 c2 c3 c4 c5 c6 c7 : Point_3)
    (hc : [c0, c1, c2, c3, c4, c5, c6, c7].Pairwise (fun a b => a ≠ b))
    (hp : ((bounding_box_to_polygons [c0, c1, c2, c3, c4, c5, c6, c7]).map
      (fun f => (G.make_support_plane f).plane)).Pairwise (fun a b => a ≠ b)) :
    (∃ d, add_bbox_faces G (Data_structure.init v)
        (bounding_box_to_polygons [c0, c1, c2, c3, c4, c5, c6, c7]) = some d ∧
      d.number_of_support_planes = 6 ∧ d.ivertices.length = 8 ∧ d.iedges.length = 12) ∧
    add_polygons G (Data_structure.init v) []
      (bounding_box_to_polygons [c0, c1, c2, c3, c4, c5, c6, c7]) = none ∧
    ∀ input_range d, add_polygons G (Data_structure.init v) input_range
        (bounding_box_to_polygons [c0, c1, c2, c3, c4, c5, c6, c7]) = some d →
      6 < d.number_of_support_planes := by
  obtain ⟨d, hd, hg, hlen⟩ := add_bbox_faces_box G v c0 c1 c2 c3 c4 c5 c6 c7 hc hp
  refine ⟨⟨d, hd, hlen, ?_, ?_⟩, add_polygons_empty _ _ _, ?_⟩
  · rw [Data_structure.ivertices, hg]; rfl
  · rw [Data_structure.iedges, hg]; rfl
  · intro input_range d2 h
    unfold add_polygons at h
    rw [hd, Option.some_bind] at h
    unfold add_input_polygons at h
    cases hl : add_input_polygons_loop G input_range 0 d with
    | none => rw [hl] at h; cases h
    | some d3 =>
      rw [hl, Option.some_bind] at h
      split at h
      · cases h
      · rename_i h6
        cases h
        exact not_not.mp h6

theorem C11_bbox_faces_then_empty_input_fails_witness :
    (∃ d, add_bbox_faces sample_box_geometry (Data_structure.init false)
        (bounding_box_to_polygons [(-1, -1, -1), (1, -1, -1), (1, 1, -1), (-1, 1, -1),
          (-1, 1, 1), (-1, -1, 1), (1, -1, 1), (1, 1, 1)]) = some d ∧
      d.number_of_support_planes = 6 ∧ d.ivertices.length = 8 ∧ d.iedges.length = 12) ∧
    add_polygons sample_box_geometry (Data_structure.init false) []
      (bounding_box_to_polygons [(-1, -1, -1), (1, -1, -1), (1, 1, -1), (-1, 1, -1),
        (-1, 1, 1), (-1, -1, 1), (1, -1, 1), (1, 1, 1)]) = none :=
  ⟨(C11_bbox_faces_then_empty_input_fails sample_box_geometry false (-1, -1, -1)
      (1, -1, -1) (1, 1, -1) (-1, 1, -1) (-1, 1, 1) (-1, -1, 1) (1, -1, 1) (1, 1, 1)
      sample_bbox_distinct sample_bbox_planes_distinct).1,
    (C11_bbox_faces_then_empty_input_fails sample_box_geometry false (-1, -1, -1)
      (1, -1, -1) (1, 1, -1) (-1, 1, -1) (-1, 1, 1) (-1, -1, 1) (1, -1, 1) (1, 1, 1)
      sample_bbox_distinct sample_bbox_planes_distinct).2.1⟩

/-! ### `Event.h`: the four kinds of events -/

/-- C26 (as stated, refuted): the event built by the constructor for two polygon vertices
and an intersection graph vertex, with non-null arguments, makes two of the four
predicates true, `is_pvertex_to_pvertex` and `is_pvertices_to_ivertex`. -/
theorem C26_pvertices_to_ivertex_two_kinds :
    ∃ e, Event.pvertices_to_ivertex true (6, 0) (6, 1) 3 0 = some e ∧
      e.is_pvertex_to_pvertex = true ∧ e.is_pvertices_to_ivertex = true ∧
      (e.kinds.filter (fun b => b)).length = 2 := by
  exact ⟨_, rfl, by decide, by decide, by decide⟩

/-- C26 (amended): with non-null arguments, the events built by the constructors for two
polygon vertices, for a polygon vertex and an iedge, and for a polygon vertex and an
ivertex make exactly one of the four predicates true, the one of their kind; the event
built by the constructor for two polygon vertices and an ivertex makes exactly two of
them true, `is_pvertices_to_ivertex` and `is_pvertex_to_pvertex`, because
`is_pvertex_to_pvertex` tests `m_pother` only. -/
theorem C26_event_kinds (pvertex pother : PVertex) (ivertex : IVertex) (iedge : IEdge)
    (time : ℚ) (hp : pother ≠ null_pvertex) (hv : ivertex ≠ null_ivertex)
    (he : iedge ≠ null_iedge) :
    (∃ e, Event.pvertex_to_pvertex true pvertex pother time = some e ∧
      e.kinds = [true, false, false, false]) ∧
    (∃ e, Event.pvertex_to_iedge false pvertex iedge time = some e ∧
      e.kinds = [false, true, false, false]) ∧
    (∀ c, (Event.pvertex_to_ivertex c pvertex ivertex time).kinds =
      [false, false, true, false]) ∧
    (∃ e, Event.pvertices_to_ivertex true pvertex pother ivertex time = some e ∧
      e.kinds = [true, false, false, true]) := by
  refine ⟨⟨_, rfl, ?_⟩, ⟨_, rfl, ?_⟩, ?_, ⟨_, rfl, ?_⟩⟩
  · simp [Event.kinds, Event.is_pvertex_to_pvertex, Event.is_pvertex_to_iedge,
      Event.is_pvertex_to_ivertex, Event.is_pvertices_to_ivertex, hp]
  · simp [Event.kinds, Event.is_pvertex_to_pvertex, Event.is_pvertex_to_iedge,
      Event.is_pvertex_to_ivertex, Event.is_pvertices_to_ivertex, he]
  · intro c
    simp [Event.kinds, Event.pvertex_to_ivertex, Event.is_pvertex_to_pvertex,
      Event.is_pvertex_to_iedge, Event.is_pvertex_to_ivertex, Event.is_pvertices_to_ivertex,
      hv]
  · simp [Event.kinds, Event.is_pvertex_to_pvertex, Event.is_pvertex_to_iedge,
      Event.is_pvertex_to_ivertex, Event.is_pvertices_to_ivertex, hp, hv]

theorem C26_event_kinds_witness :
    (∃ e, Event.pvertex_to_pvertex true (6, 0) (6, 1) 2 = some e ∧
      e.kinds = [true, false, false, false]) ∧
    (∃ e, Event.pvertex_to_iedge false (6, 0) 5 2 = some e ∧
      e.kinds = [false, true, false, false]) ∧
    (∀ c, (Event.pvertex_to_ivertex c (6, 0) 3 2).kinds = [false, false, true, false]) ∧
    (∃ e, Event.pvertices_to_ivertex true (6, 0) (6, 1) 3 2 = some e ∧
      e.kinds = [true, false, false, true]) :=
  C26_event_kinds (6, 0) (6, 1) 3 5 2 (by decide) (by decide) (by decide)

/-! ### `random_perturbation.h` -/

theorem sample_rng_in_range : RNG.in_range sample_rng := by
  intro n lower upper h
  unfold sample_rng
  constructor <;> linarith

/-- The loop of `random_perturbation_impl` leaves the point of a vertex that is not in the
list of the vertices still to visit. -/
theorem random_perturbation_loop_not_mem (M : Perturbation_mesh) (max_size : FT)
    (do_project : Bool) (rng : RNG) (v : Nat) :
    ∀ (l : List Nat) (vpmap : Nat → Point_3) (n : Nat), v ∉ l →
      random_perturbation_loop M max_size do_project rng l vpmap n v = vpmap v := by
  intro l
  induction l with
  | nil => intro vpmap n _; rfl
  | cons u rest ih =>
    intro vpmap n hv
    have hu : v ≠ u := fun h => hv (h ▸ List.mem_cons_self _ _)
    have hr : v ∉ rest := fun h => hv (List.mem_cons_of_mem _ h)
    rw [random_perturbation_loop]
    split
    · dsimp only
      split
      · rw [ih _ _ hr, Function.update_noteq hu]
      · rw [ih _ _ hr, Function.update_noteq hu]
    · exact ih _ _ hr

/-- The loop of `random_perturbation_impl` leaves the point of a constrained vertex and of
a border vertex as it is. -/
theorem random_perturbation_loop_fixed (M : Perturbation_mesh) (max_size : FT)
    (do_project : Bool) (rng : RNG) (v : Nat)
    (hv : M.vcmap v = true ∨ M.is_border v = true) :
    ∀ (l : List Nat) (vpmap : Nat → Point_3) (n : Nat),
      random_perturbation_loop M max_size do_project rng l vpmap n v = vpmap v := by
  intro l
  induction l with
  | nil => intro vpmap n; rfl
  | cons u rest ih =>
    intro vpmap n
    rw [random_perturbation_loop]
    split
    · rename_i hg
      have hu : v ≠ u := by
        intro h
        subst h
        rcases hv with h1 | h1 <;> simp [h1] at hg
      dsimp only
      split
      · rw [ih, Function.update_noteq hu]
      · rw [ih, Function.update_noteq hu]
    · exact ih _ _

/-- C25: `random_perturbation` never modifies a constrained vertex, and never a border
vertex: for every mesh, every point map, every generator (every random outcome) and both
values of `do_project`, the point of a vertex that is marked in `vcmap` or lies on the
border is the same after the call as before. -/
theorem C25_constrained_vertex_fixed (M : Perturbation_mesh) (max_size : FT)
    (vpmap : Nat → Point_3) (do_project : Bool) (rng : RNG) (v : Nat)
    (hv : M.vcmap v = true ∨ M.is_border v = true) :
    random_perturbation_impl M max_size vpmap do_project rng v = vpmap v :=
  random_perturbation_loop_fixed M max_size do_project rng v hv _ _ _

theorem C25_constrained_vertex_fixed_witness :
    random_perturbation_impl { sample_tetrahedron with vcmap := fun v => decide (v = 2) } 4
      sample_tetrahedron_points true sample_rng 2 = sample_tetrahedron_points 2 :=
  C25_constrained_vertex_fixed { sample_tetrahedron with vcmap := fun v => decide (v = 2) } 4
    sample_tetrahedron_points true sample_rng 2 (Or.inl (by decide))

/-- The move of a vertex that is visited once, is not constrained and not on the border,
with `do_project = false`: the three coordinates of the move are three values of the
generator. -/
theorem random_perturbation_loop_move (M : Perturbation_mesh) (max_size : FT) (rng : RNG)
    (v : Nat) (hc : M.vcmap v = false) (hb : M.is_border v = false) :
    ∀ (l : List Nat) (vpmap : Nat → Point_3) (n : Nat), l.Nodup → v ∈ l →
      ∃ m, random_perturbation_loop M max_size false rng l vpmap n v =
        translated_point_3 (vpmap v) (construct_random_vector_3 max_size rng m).1 := by
  intro l
  induction l with
  | nil => intro vpmap n _ hv; cases hv
  | cons u rest ih =>
    intro vpmap n hnd hv
    rw [List.nodup_cons] at hnd
    rw [random_perturbation_loop]
    by_cases hu : v = u
    · subst hu
      simp only [hc, hb, Bool.not_false, Bool.and_self, if_true, Bool.false_eq_true, if_false]
      rw [random_perturbation_loop_not_mem M max_size false rng v _ _ _ hnd.1,
        Function.update_same]
      exact ⟨n, rfl⟩
    · have hr : v ∈ rest := by
        rcases List.mem_cons.mp hv with h | h
        · exact absurd h hu
        · exact h
      split
      · dsimp only
        simp only [Bool.false_eq_true, if_false]
        obtain ⟨m, hm⟩ := ih (Function.update vpmap u _) (construct_random_vector_3 max_size
          rng n).2 hnd.2 hr
        rw [Function.update_noteq hu] at hm
        exact ⟨m, hm⟩
      · exact ih _ _ hnd.2 hr

/-- C24 (the code at the failing inputs): for every positive `perturbation_max_size` there
is a generator within its contract for which `random_perturbation` with
`do_project = false` moves a vertex by a vector longer than `perturbation_max_size`: on
the sample tetrahedron the first vertex is moved by three quarters of the maximal size
along each axis, a vector whose squared length is `27/16` of the square of the maximal
size. What the code bounds is each coordinate of the move: for every generator within its
contract every vertex that is visited once, is not constrained and not on the border is
moved by at most the maximal size along each axis, so by a vector whose squared length is
at most three times the square of the maximal size. -/
theorem C24_move_longer_than_max_size (max_size : FT) (hpos : 0 < max_size) :
    (RNG.in_range sample_rng ∧
      max_size * max_size <
        squared_distance_3 (sample_tetrahedron_points 0)
          (random_perturbation_impl sample_tetrahedron max_size sample_tetrahedron_points
            false sample_rng 0)) ∧
    ∀ (M : Perturbation_mesh) (vpmap : Nat → Point_3) (rng : RNG) (v : Nat),
      RNG.in_range rng → M.vertices.Nodup → v ∈ M.vertices → M.vcmap v = false →
      M.is_border v = false →
      squared_distance_3 (vpmap v)
        (random_perturbation_impl M max_size vpmap false rng v) ≤
          3 * (max_size * max_size) := by
  refine ⟨⟨sample_rng_in_range, ?_⟩, ?_⟩
  · have h : random_perturbation_impl sample_tetrahedron max_size sample_tetrahedron_points
        false sample_rng 0 = translated_point_3 (sample_tetrahedron_points 0)
          (construct_random_vector_3 max_size sample_rng 0).1 := by
      unfold random_perturbation_impl
      show random_perturbation_loop sample_tetrahedron max_size false sample_rng
        (0 :: [1, 2, 3]) _ 0 0 = _
      rw [random_perturbation_loop]
      simp only [sample_tetrahedron, Bool.not_false, Bool.and_self, if_true,
        Bool.false_eq_true, if_false]
      rw [random_perturbation_loop_not_mem _ _ _ _ _ _ _ _ (by decide), Function.update_same]
    rw [h]
    simp only [construct_random_vector_3, translated_point_3, squared_distance_3, sample_rng,
      sample_tetrahedron_points, if_true]
    nlinarith [mul_pos hpos hpos]
  · intro M vpmap rng v hr hnd hv hc hb
    obtain ⟨m, hm⟩ := random_perturbation_loop_move M max_size rng v hc hb M.vertices vpmap 0
      hnd hv
    unfold random_perturbation_impl
    rw [hm]
    have hlt : -max_size < max_size := by linarith
    obtain ⟨a1, a2⟩ := hr m (-max_size) max_size hlt
    obtain ⟨b1, b2⟩ := hr (m + 1) (-max_size) max_size hlt
    obtain ⟨c1, c2⟩ := hr (m + 2) (-max_size) max_size hlt
    simp only [construct_random_vector_3, translated_point_3, squared_distance_3]
    nlinarith [mul_nonneg (sub_nonneg.mpr (le_of_lt a2)) (sub_nonneg.mpr a1),
      mul_nonneg (sub_nonneg.mpr (le_of_lt b2)) (sub_nonneg.mpr b1),
      mul_nonneg (sub_nonneg.mpr (le_of_lt c2)) (sub_nonneg.mpr c1)]

theorem C24_move_longer_than_max_size_witness :
    (4 : FT) * 4 <
      squared_distance_3 (sample_tetrahedron_points 0)
        (random_perturbation_impl sample_tetrahedron 4 sample_tetrahedron_points
          false sample_rng 0) :=
  (C24_move_longer_than_max_size 4 (by norm_num)).1.2

/-! ### Checking properties -/

theorem check_pvertices_loop_cases (M : Mesh_access) (l : List PVertex) :
    (check_pvertices_loop M l = some true ∧ ∀ pvertex ∈ l, M.has_ivertex pvertex = true) ∨
    (check_pvertices_loop M l = none ∧ ¬ ∀ pvertex ∈ l, M.has_ivertex pvertex = true) := by
  induction l with
  | nil => left; exact ⟨rfl, by simp⟩
  | cons pvertex rest ih =>
    rw [check_pvertices_loop]
    by_cases h : M.has_ivertex pvertex = true
    · simp only [h, Bool.not_true, Bool.false_eq_true, if_false, List.mem_cons,
        forall_eq_or_imp, true_and]
      exact ih
    · right
      simp [h]

theorem check_pedges_loop_cases (d : Data_structure) (l : List PEdge) :
    (d.check_pedges_loop l = some true ∧ ∀ pedge ∈ l, d.has_iedge pedge = some true) ∨
    (d.check_pedges_loop l = none ∧ ¬ ∀ pedge ∈ l, d.has_iedge pedge = some true) := by
  induction l with
  | nil => left; exact ⟨rfl, by simp⟩
  | cons pedge rest ih =>
    rw [Data_structure.check_pedges_loop]
    cases h : d.has_iedge pedge with
    | none => right; simp [h]
    | some has =>
      cases has with
      | true =>
        simp only [Bool.not_true, Bool.false_eq_true, if_false, List.mem_cons,
          forall_eq_or_imp, h, true_and]
        exact ih
      | false => right; simp [h]

theorem check_pfaces_loop_cases (M : Mesh_access) (d : Data_structure) (l : List PFace) :
    (d.check_pfaces_loop M l = some true ∧ ∀ pface ∈ l,
      (∀ pvertex ∈ M.pvertices_of_pface pface, M.has_ivertex pvertex = true) ∧
      (∀ pedge ∈ M.pedges_of_pface pface, d.has_iedge pedge = some true)) ∨
    (d.check_pfaces_loop M l = none ∧ ¬ ∀ pface ∈ l,
      (∀ pvertex ∈ M.pvertices_of_pface pface, M.has_ivertex pvertex = true) ∧
      (∀ pedge ∈ M.pedges_of_pface pface, d.has_iedge pedge = some true)) := by
  induction l with
  | nil => left; exact ⟨rfl, by simp⟩
  | cons pface rest ih =>
    rw [Data_structure.check_pfaces_loop]
    rcases check_pvertices_loop_cases M (M.pvertices_of_pface pface) with ⟨hv, hv2⟩ | ⟨hv, hv2⟩
    · rcases check_pedges_loop_cases d (M.pedges_of_pface pface) with ⟨he, he2⟩ | ⟨he, he2⟩
      · rw [hv, he]
        simp only [List.mem_cons, forall_eq_or_imp]
        rcases ih with ⟨h1, h2⟩ | ⟨h1, h2⟩
        · left; exact ⟨h1, ⟨hv2, he2⟩, h2⟩
        · right; exact ⟨h1, fun h => h2 h.2⟩
      · rw [hv, he]
        right
        refine ⟨rfl, fun h => he2 ?_⟩
        exact (h pface (List.mem_cons_self _ _)).2
    · rw [hv]
      right
      refine ⟨rfl, fun h => hv2 ?_⟩
      exact (h pface (List.mem_cons_self _ _)).1

theorem check_planes_loop_cases (M : Mesh_access) (d : Data_structure) (l : List Nat)
    (hl : ∀ i ∈ l, i < d.number_of_support_planes) :
    (d.check_planes_loop M l = some true ∧ ∀ i ∈ l, d.plane_bound M i) ∨
    (d.check_planes_loop M l = none ∧ ¬ ∀ i ∈ l, d.plane_bound M i) := by
  induction l with
  | nil => left; exact ⟨rfl, by simp⟩
  | cons i rest ih =>
    rw [Data_structure.check_planes_loop]
    have hi : i < d.m_support_planes.length := hl i (List.mem_cons_self _ _)
    have hsome : d.pfaces i = some ((List.range d.m_support_planes[i].mesh_faces.length).map
        (fun f => (i, f))) := by
      unfold Data_structure.pfaces Data_structure.support_plane
      rw [List.getElem?_eq_getElem hi]; rfl
    rw [hsome]
    dsimp only
    have hb : d.plane_bound M i ↔ ∀ pface ∈
        (List.range d.m_support_planes[i].mesh_faces.length).map (fun f => (i, f)),
        (∀ pvertex ∈ M.pvertices_of_pface pface, M.has_ivertex pvertex = true) ∧
        (∀ pedge ∈ M.pedges_of_pface pface, d.has_iedge pedge = some true) := by
      unfold Data_structure.plane_bound
      rw [hsome]
      constructor
      · intro h; exact h _ rfl
      · intro h pfaces hp
        cases hp
        exact h
    rcases check_pfaces_loop_cases M d _ with ⟨h1, h2⟩ | ⟨h1, h2⟩
    · rw [h1]
      simp only [List.mem_cons, forall_eq_or_imp]
      rcases ih (fun j hj => hl j (List.mem_cons_of_mem _ hj)) with ⟨h3, h4⟩ | ⟨h3, h4⟩
      · left; exact ⟨h3, hb.mpr h2, h4⟩
      · right; exact ⟨h3, fun h => h4 h.2⟩
    · rw [h1]
      right
      refine ⟨rfl, fun h => h2 (hb.mp ?_)⟩
      exact h i (List.mem_cons_self _ _)

/-- C23: with at least six support planes, `check_bbox` returns true if and only if on
each of the planes 0..5 every vertex of every face has an ivertex and every edge of these
faces has an iedge, and `check_interior` returns true if and only if the same holds on
each plane with index at least 6; otherwise neither returns true (with the assertions
compiled in, the assertion in front of `return false` fails). -/
theorem C23_check_bbox_and_interior (M : Mesh_access) (d : Data_structure)
    (h6 : 6 ≤ d.number_of_support_planes) :
    (d.check_bbox M = some true ↔ ∀ i, i < 6 → d.plane_bound M i) ∧
    (d.check_interior M = some true ↔
      ∀ i, 6 ≤ i → i < d.number_of_support_planes → d.plane_bound M i) ∧
    (d.check_bbox M = some true ∨ d.check_bbox M = none) ∧
    (d.check_interior M = some true ∨ d.check_interior M = none) := by
  have hb := check_planes_loop_cases M d (List.range 6)
    (fun i hi => lt_of_lt_of_le (List.mem_range.mp hi) h6)
  have hi := check_planes_loop_cases M d (List.range' 6 (d.number_of_support_planes - 6))
    (fun i hi => by
      rw [List.mem_range'_1] at hi
      omega)
  have e1 : (∀ i ∈ List.range 6, d.plane_bound M i) ↔ ∀ i, i < 6 → d.plane_bound M i := by
    constructor
    · intro h i hlt; exact h i (List.mem_range.mpr hlt)
    · intro h i hm; exact h i (List.mem_range.mp hm)
  have e2 : (∀ i ∈ List.range' 6 (d.number_of_support_planes - 6), d.plane_bound M i) ↔
      ∀ i, 6 ≤ i → i < d.number_of_support_planes → d.plane_bound M i := by
    constructor
    · intro h i h1 h2
      exact h i (by rw [List.mem_range'_1]; omega)
    · intro h i hm
      rw [List.mem_range'_1] at hm
      exact h i hm.1 (by omega)
  unfold Data_structure.check_bbox Data_structure.check_interior
  rw [← e1, ← e2]
  refine ⟨?_, ?_, ?_, ?_⟩
  · rcases hb with ⟨h1, h2⟩ | ⟨h1, h2⟩
    · rw [h1]; exact ⟨fun _ => h2, fun _ => rfl⟩
    · rw [h1]; exact ⟨fun h => (by cases h), fun h => absurd h h2⟩
  · rcases hi with ⟨h1, h2⟩ | ⟨h1, h2⟩
    · rw [h1]; exact ⟨fun _ => h2, fun _ => rfl⟩
    · rw [h1]; exact ⟨fun h => (by cases h), fun h => absurd h h2⟩
  · rcases hb with ⟨h1, -⟩ | ⟨h1, -⟩
    · exact Or.inl h1
    · exact Or.inr h1
  · rcases hi with ⟨h1, -⟩ | ⟨h1, -⟩
    · exact Or.inl h1
    · exact Or.inr h1

theorem C23_check_bbox_and_interior_witness :
    sample_data_bound.check_bbox sample_mesh_access = some true ∧
    sample_data_bound.check_interior sample_mesh_access = some true ∧
    (sample_data_bound.check_bbox sample_mesh_access = some true ↔
      ∀ i, i < 6 → sample_data_bound.plane_bound sample_mesh_access i) :=
  ⟨by decide, by decide,
    (C23_check_bbox_and_interior sample_mesh_access sample_data_bound (by decide)).1⟩

/-! ### The cached iedges of the support planes -/

theorem segment_2_congr (G : Geometry) (d d2 : Data_structure) (i : Nat) (e : IEdge)
    (hg : d2.m_intersection_graph = d.m_intersection_graph)
    (hp : (d2.m_support_planes[i]?).map (fun (sp : Support_plane) => sp.plane) =
      (d.m_support_planes[i]?).map (fun (sp : Support_plane) => sp.plane)) :
    d2.segment_2 G i e = d.segment_2 G i e := by
  unfold Data_structure.segment_2 Data_structure.support_plane
  rw [hg]
  cases h1 : d.m_support_planes[i]? with
  | none =>
    rw [h1] at hp
    cases h2 : d2.m_support_planes[i]? with
    | none => rfl
    | some sp2 => rw [h2] at hp; cases hp
  | some sp =>
    rw [h1] at hp
    cases h2 : d2.m_support_planes[i]? with
    | none => rw [h2] at hp; cases hp
    | some sp2 =>
      rw [h2] at hp
      simp only [Option.map_some', Option.some.injEq] at hp
      simp only [Option.some_bind, hp]

/-- The inner loop of `precompute_iedge_data` appends one segment and its box for each
iedge, in order. -/
theorem precompute_segments_eq (G : Geometry) (d : Data_structure) (i : Nat) :
    ∀ (l : List IEdge) (isegments : List Segment_2) (ibboxes : List Bbox_2)
      (r : List Segment_2 × List Bbox_2),
      d.precompute_segments G i l (isegments, ibboxes) = some r →
      ∃ ss, r = (isegments ++ ss, ibboxes ++ ss.map segment_bbox) ∧
        List.Forall₂ (fun e s => d.segment_2 G i e = some s) l ss := by
  intro l
  induction l with
  | nil =>
    intro isegments ibboxes r h
    rw [Data_structure.precompute_segments] at h
    cases h
    exact ⟨[], by simp, List.Forall₂.nil⟩
  | cons e rest ih =>
    intro isegments ibboxes r h
    rw [Data_structure.precompute_segments] at h
    cases hs : d.segment_2 G i e with
    | none => rw [hs] at h; cases h
    | some s =>
      rw [hs] at h
      obtain ⟨ss, hr, hf⟩ := ih _ _ r h
      refine ⟨s :: ss, ?_, List.Forall₂.cons hs hf⟩
      rw [hr]; simp

theorem forall₂_getElem? {α β : Type} (R : α → β → Prop) :
    ∀ (l : List α) (ss : List β), List.Forall₂ R l ss →
      l.length = ss.length ∧
        ∀ (j : Nat) (e : α), l[j]? = some e → ∃ s, ss[j]? = some s ∧ R e s := by
  intro l ss h
  induction h with
  | nil => exact ⟨rfl, fun j e he => by simp at he⟩
  | cons hr _ ih =>
    refine ⟨by simp [ih.1], ?_⟩
    intro j e he
    cases j with
    | zero =>
      simp only [List.getElem?_cons_zero, Option.some.injEq] at he
      subst he
      exact ⟨_, by simp, hr⟩
    | succ j =>
      simp only [List.getElem?_cons_succ] at he ⊢
      exact ih.2 j e he

/-- What `precompute_iedge_data` leaves for the plane `i` that had the state `sp`: the
plane `sp2` after the call and its cached vectors `c`. -/
theorem precompute_loop_eq (G : Geometry) :
    ∀ (l : List Nat) (d d2 : Data_structure) (caches caches2 : List Support_plane_cache),
      l.Nodup →
      precompute_iedge_data_loop G l (d, caches) = some (d2, caches2) →
      d2.m_intersection_graph = d.m_intersection_graph ∧
      d2.m_support_planes.length = d.m_support_planes.length ∧
      (∀ i : Nat, i ∉ l → d2.m_support_planes[i]? = d.m_support_planes[i]?) ∧
      (∀ i : Nat, (d2.m_support_planes[i]?).map (fun (sp : Support_plane) => sp.plane) =
        (d.m_support_planes[i]?).map (fun (sp : Support_plane) => sp.plane)) ∧
      caches2.length = caches.length + l.length ∧
      (∀ k : Nat, k < caches.length → caches2[k]? = caches[k]?) ∧
      ∀ (k i : Nat), l[k]? = some i → ∃ (sp : Support_plane) (c : Support_plane_cache),
        d.m_support_planes[i]? = some sp ∧
        d2.m_support_planes[i]? = some { sp with unique_iedges := [] } ∧
        caches2[caches.length + k]? = some c ∧ c.iedges = sp.unique_iedges ∧
        0 < c.iedges.length ∧
        c.ibboxes = c.isegments.map segment_bbox ∧
        List.Forall₂ (fun e s => d.segment_2 G i e = some s) c.iedges c.isegments := by
  intro l
  induction l with
  | nil =>
    intro d d2 caches caches2 _ h
    rw [precompute_iedge_data_loop] at h
    cases h
    exact ⟨rfl, rfl, fun _ _ => rfl, fun _ => rfl, rfl, fun _ _ => rfl,
      fun k i hk => by simp at hk⟩
  | cons i rest ih =>
    intro d d2 caches caches2 hnd h
    rw [List.nodup_cons] at hnd
    rw [precompute_iedge_data_loop] at h
    cases hsp : d.m_support_planes[i]? with
    | none => rw [hsp] at h; cases h
    | some sp =>
      rw [hsp] at h
      dsimp only at h
      by_cases hpos : 0 < sp.unique_iedges.length
      · rw [if_neg (not_not.mpr hpos)] at h
        have hi : i < d.m_support_planes.length := by
          rcases List.getElem?_eq_some_iff.mp hsp with ⟨hlt, -⟩
          exact hlt
        cases hseg : Data_structure.precompute_segments G
            { d with m_support_planes :=
              d.m_support_planes.set i { sp with unique_iedges := [] } } i
            sp.unique_iedges ([], []) with
        | none => rw [hseg] at h; cases h
        | some segments =>
          rw [hseg] at h
          obtain ⟨hg, hlen, hout, hpl, hcl, hck, hin⟩ := ih _ d2 _ caches2 hnd.2 h
          obtain ⟨ss, hss, hf⟩ := precompute_segments_eq G _ i _ _ _ _ hseg
          have hplane : ∀ j : Nat, ((d.m_support_planes.set i
              { sp with unique_iedges := [] })[j]?).map (fun (s : Support_plane) => s.plane) =
              (d.m_support_planes[j]?).map (fun (s : Support_plane) => s.plane) := by
            intro j
            rw [List.getElem?_set]
            by_cases hj : i = j
            · subst hj
              simp [hi, hsp]
            · simp [hj]
          have hseg2 : ∀ j e, Data_structure.segment_2 G
              { d with m_support_planes :=
                d.m_support_planes.set i { sp with unique_iedges := [] } } j e =
              d.segment_2 G j e :=
            fun j e => segment_2_congr G d _ j e rfl (hplane j)
          refine ⟨hg, by rw [hlen]; simp, ?_, ?_, ?_, ?_, ?_⟩
          · intro j hj
            rw [hout j (fun hm => hj (List.mem_cons_of_mem _ hm))]
            have hji : i ≠ j := fun he => hj (he ▸ List.mem_cons_self _ _)
            simp [List.getElem?_set, hji]
          · intro j
            rw [hpl j]
            exact hplane j
          · rw [hcl]; simp; omega
          · intro k hk
            rw [hck k (by simp; omega)]
            exact List.getElem?_append_left hk
          · intro k j hk
            cases k with
            | zero =>
              simp only [List.getElem?_cons_zero, Option.some.injEq] at hk
              subst hk
              refine ⟨sp, ⟨sp.unique_iedges, segments.1, segments.2⟩, hsp, ?_, ?_, rfl, hpos,
                ?_, ?_⟩
              · rw [hout i hnd.1]
                simp [List.getElem?_set, hi]
              · rw [Nat.add_zero, hck caches.length (by simp)]
                simp
              · rw [hss]; simp
              · rw [hss]
                simp only [List.nil_append]
                exact hf.imp (fun _ _ h1 => by rw [← hseg2]; exact h1)
            | succ k =>
              simp only [List.getElem?_cons_succ] at hk
              obtain ⟨sp1, c, h1, h2, h3, h4, h5, h6, h7⟩ := hin k j hk
              have hji : i ≠ j := by
                intro he
                subst he
                exact hnd.1 (List.getElem?_mem hk)
              refine ⟨sp1, c, ?_, h2, ?_, h4, h5, h6, ?_⟩
              · simpa [List.getElem?_set, hji] using h1
              · have hk2 : caches.length + (k + 1) = caches.length + 1 + k := by omega
                rw [hk2]
                simpa using h3
              · exact h7.imp (fun _ _ h8 => by rw [← hseg2]; exact h8)
      · rw [if_pos hpos] at h; cases h

/-- C21: after `precompute_iedge_data` has succeeded, for every support plane `i` the
cached vector `iedges(i)` is the former content of `unique_iedges(i)`, each element once
and in ascending order (the order of the `std::set`), `unique_iedges(i)` is empty and the
plane is otherwise unchanged, `isegments(i)` and `ibboxes(i)` are as long as `iedges(i)`,
`isegments(i)[j]` is `segment_2(i, iedges(i)[j])` and `ibboxes(i)[j]` is the bounding box
of that segment. -/
theorem C21_precompute_iedge_data (G : Geometry) (d d2 : Data_structure)
    (caches : List Support_plane_cache)
    (hsorted : ∀ sp ∈ d.m_support_planes, sp.unique_iedges.Pairwise (fun a b => a < b))
    (h : d.precompute_iedge_data G = some (d2, caches)) :
    d2.number_of_support_planes = d.number_of_support_planes ∧
    caches.length = d.number_of_support_planes ∧
    ∀ (i : Nat) (sp : Support_plane), d.m_support_planes[i]? = some sp →
      ∃ (sp2 : Support_plane) (c : Support_plane_cache),
        d2.m_support_planes[i]? = some sp2 ∧ caches[i]? = some c ∧
        c.iedges = sp.unique_iedges ∧ c.iedges.Nodup ∧
        c.iedges.Pairwise (fun a b => a < b) ∧
        sp2.unique_iedges = [] ∧ sp2 = { sp with unique_iedges := [] } ∧
        c.isegments.length = c.iedges.length ∧ c.ibboxes.length = c.iedges.length ∧
        ∀ (j : Nat) (e : IEdge), c.iedges[j]? = some e →
          ∃ s : Segment_2, d2.segment_2 G i e = some s ∧ c.isegments[j]? = some s ∧
            c.ibboxes[j]? = some (segment_bbox s) := by
  unfold Data_structure.precompute_iedge_data at h
  obtain ⟨hg, hlen, -, hpl, hcl, -, hin⟩ := precompute_loop_eq G _ d d2 [] caches
    (List.nodup_range _) h
  refine ⟨hlen, by simpa using hcl, ?_⟩
  intro i sp hsp
  have hi : i < d.m_support_planes.length := by
    rcases List.getElem?_eq_some_iff.mp hsp with ⟨hlt, -⟩
    exact hlt
  obtain ⟨sp1, c, h1, h2, h3, h4, -, h6, h7⟩ := hin i i (by
    rw [List.getElem?_range]; exact hi)
  rw [hsp] at h1
  cases h1
  have hs : sp.unique_iedges.Pairwise (fun a b => a < b) :=
    hsorted sp (List.getElem?_mem hsp)
  obtain ⟨hl7, hj7⟩ := forall₂_getElem? _ _ _ h7
  refine ⟨_, c, h2, by simpa using h3, h4, ?_, by rw [h4]; exact hs, rfl, rfl, hl7.symm, ?_,
    ?_⟩
  · rw [h4]
    exact hs.imp (fun hab => Nat.ne_of_lt hab)
  · rw [h6, List.length_map]; exact hl7.symm
  · intro j e he
    obtain ⟨s, hs1, hs2⟩ := hj7 j e he
    refine ⟨s, ?_, hs1, ?_⟩
    · rw [segment_2_congr G d d2 i e hg (hpl i)]; exact hs2
    · rw [h6, List.getElem?_map, hs1]; rfl

theorem C21_precompute_iedge_data_witness :
    ∃ d2 caches, sample_data_iedges.precompute_iedge_data sample_geometry = some (d2, caches) ∧
      d2.number_of_support_planes = sample_data_iedges.number_of_support_planes ∧
      caches.map (fun c => c.iedges) = [[0, 1], [1]] ∧
      d2.m_support_planes.map (fun sp => sp.unique_iedges) = [[], []] := by
  have h : sample_data_iedges.precompute_iedge_data sample_geometry =
      some ({ sample_data_iedges with
          m_support_planes := [⟨(0, 0, 1, 0), 1, [], [], []⟩, ⟨(0, 0, 1, 0), 1, [], [], []⟩] },
        [⟨[0, 1], [((0, 0), (1, 0)), ((1, 0), (1, 1))],
            [segment_bbox ((0, 0), (1, 0)), segment_bbox ((1, 0), (1, 1))]⟩,
         ⟨[1], [((1, 0), (1, 1))], [segment_bbox ((1, 0), (1, 1))]⟩]) := by
    decide
  exact ⟨_, _, h, (C21_precompute_iedge_data sample_geometry sample_data_iedges _ _
    (by decide) h).1, rfl, rfl⟩

/-! ### `clear` and `convert` -/

/-- The loop of `Data_structure::convert` over the planes changes the list of the support
planes and the cached vectors only, and keeps the number of the support planes. -/
theorem convert_planes_loop_frame (m : Full_data_structure) :
    ∀ (l : List Nat) (ds ds2 : Full_data_structure),
      m.convert_planes_loop l ds = some ds2 →
      ds2.core.m_support_planes.length = ds.core.m_support_planes.length ∧
      (∀ j : Nat, ds2.core.m_support_planes[j]? =
        if j ∈ l then m.core.m_support_planes[j]? else ds.core.m_support_planes[j]?) ∧
      ds2.core.m_intersection_graph = ds.core.m_intersection_graph ∧
      ds2.core.m_input_polygon_map = ds.core.m_input_polygon_map ∧
      ds2.core.m_limit_lines = ds.core.m_limit_lines ∧
      ds2.m_volumes = ds.m_volumes ∧ ds2.m_map_volumes = ds.m_map_volumes ∧
      ds2.m_volume_level_map = ds.m_volume_level_map ∧
      ds2.m_reconstructed_model = ds.m_reconstructed_model := by
  intro l
  induction l with
  | nil =>
    intro ds ds2 h
    rw [Full_data_structure.convert_planes_loop] at h
    cases h
    exact ⟨rfl, fun j => by simp, rfl, rfl, rfl, rfl, rfl, rfl, rfl⟩
  | cons i rest ih =>
    intro ds ds2 h
    rw [Full_data_structure.convert_planes_loop] at h
    cases hsp : m.core.m_support_planes[i]? with
    | none => rw [hsp] at h; cases h
    | some sp =>
      rw [hsp] at h
      dsimp only at h
      by_cases hi : ds.core.m_support_planes.length ≤ i
      · rw [if_pos hi] at h; cases h
      · rw [if_neg hi] at h
        obtain ⟨h1, h2, h3, h4, h5, h6, h7, h8, h9⟩ := ih _ ds2 h
        refine ⟨by rw [h1]; simp, ?_, h3, h4, h5, h6, h7, h8, h9⟩
        intro j
        rw [h2 j]
        by_cases hj : j ∈ rest
        · simp [hj]
        · by_cases hji : i = j
          · subst hji
            simp [hj, List.getElem?_set, Nat.lt_of_not_le hi, hsp]
          · have hji2 : ¬ j = i := fun he => hji he.symm
            simp [hj, List.getElem?_set, hji, hji2]

/-- The data structure `ds` after `Data_structure::convert(ds)`: it exposes the support
planes, the intersection graph and the input polygon map of the source, and every other
container of `ds` is empty. -/
theorem convert_eq (m ds ds2 : Full_data_structure) (h : m.convert ds = some ds2) :
    ds2.core.m_support_planes = m.core.m_support_planes ∧
    ds2.core.m_intersection_graph = m.core.m_intersection_graph ∧
    ds2.core.m_input_polygon_map = m.core.m_input_polygon_map ∧
    ds2.core.m_limit_lines = [] ∧ ds2.m_volumes = [] ∧ ds2.m_map_volumes = [] ∧
    ds2.m_volume_level_map = [] ∧ ds2.m_reconstructed_model = ⟨[]⟩ := by
  unfold Full_data_structure.convert at h
  dsimp only at h
  split at h
  · cases h
  rename_i hn
  split at h
  · cases h
  rename_i ds4 hloop
  cases h
  obtain ⟨h1, h2, h3, -, h5, h6, h7, h8, h9⟩ := convert_planes_loop_frame m _ _ ds4 hloop
  refine ⟨?_, h3, rfl, h5, h6, h7, h8, h9⟩
  have hlen : ds4.core.m_support_planes.length = m.core.m_support_planes.length := by
    rw [h1]
    exact not_not.mp hn
  apply List.ext_getElem?
  intro j
  show ds4.core.m_support_planes[j]? = _
  rw [h2 j]
  by_cases hj : j < m.core.number_of_support_planes
  · rw [if_pos (List.mem_range.mpr hj)]
  · rw [if_neg (fun hm => hj (List.mem_range.mp hm))]
    have h0 := h2 j
    rw [if_neg (fun hm => hj (List.mem_range.mp hm))] at h0
    unfold Data_structure.number_of_support_planes at hj
    rw [← h0, List.getElem?_eq_none (by omega), List.getElem?_eq_none (by omega)]

/-- C22: after `Initializer::convert(ds)` has returned, `ds` has the same number of
support planes (indeed the same support planes and the same intersection graph) and the
same input polygon map as the data of the initializer had; the volumes, the map
`pface_neighbors` and the reconstructed model of `ds` are empty; and the data structure of
the initializer is cleared: it has no support plane, and both its times are zero. -/
theorem C22_initializer_convert (M : Mesh_access) (m_data ds m_data2 ds2 : Full_data_structure)
    (h : Initializer_convert M m_data ds = some (m_data2, ds2)) :
    ds2.core.number_of_support_planes = m_data.core.number_of_support_planes ∧
    ds2.core.m_input_polygon_map = m_data.core.m_input_polygon_map ∧
    ds2.core.m_support_planes = m_data.core.m_support_planes ∧
    ds2.core.m_intersection_graph = m_data.core.m_intersection_graph ∧
    ds2.volumes = [] ∧ ds2.pface_neighbors = [] ∧ ds2.reconstructed_model.pfaces = [] ∧
    m_data2.core.number_of_support_planes = 0 ∧ m_data2.core.m_previous_time = 0 ∧
    m_data2.core.m_current_time = 0 ∧ m_data2 = m_data.clear := by
  unfold Initializer_convert at h
  dsimp only at h
  split at h
  · cases h
  rename_i ds3 hconv
  split at h
  · cases h
  split at h
  · cases h
  cases h
  obtain ⟨h1, h2, h3, -, h5, h6, -, h8⟩ := convert_eq m_data _ ds2 hconv
  refine ⟨?_, h3, h1, h2, h5, h6, ?_, rfl, rfl, rfl, rfl⟩
  · unfold Data_structure.number_of_support_planes; rw [h1]
  · unfold Full_data_structure.reconstructed_model; rw [h8]

theorem C22_initializer_convert_witness :
    Initializer_convert sample_mesh_access sample_full_data sample_full_data.clear =
      some (sample_full_data.clear, sample_full_data_converted) ∧
    sample_full_data_converted.core.number_of_support_planes =
      sample_full_data.core.number_of_support_planes := by
  have h : Initializer_convert sample_mesh_access sample_full_data sample_full_data.clear =
      some (sample_full_data.clear, sample_full_data_converted) := by
    decide
  exact ⟨h, (C22_initializer_convert sample_mesh_access _ _ _ _ h).1⟩

/-! ### `add_iedge` -/

theorem insert_sorted_perm {α : Type} (less : α → α → Bool) (a : α) :
    ∀ l : List α, (insert_sorted less a l).Perm (a :: l) := by
  intro l
  induction l with
  | nil => exact List.Perm.refl _
  | cons b rest ih =>
    rw [insert_sorted]
    split
    · exact List.Perm.refl _
    · exact (List.Perm.cons b ih).trans (List.Perm.swap a b rest)

theorem sort_by_perm {α : Type} (less : α → α → Bool) :
    ∀ l : List α, (sort_by less l).Perm l := by
  intro l
  induction l with
  | nil => exact List.Perm.refl _
  | cons a rest ih =>
    rw [sort_by]
    exact (insert_sorted_perm less a _).trans (List.Perm.cons a ih)

theorem insert_sorted_pairwise {α : Type} (key : α → FT) (a : α) :
    ∀ l : List α, l.Pairwise (fun x y => key x ≤ key y) →
      (insert_sorted (fun x y => decide (key x < key y)) a l).Pairwise
        (fun x y => key x ≤ key y) := by
  intro l
  induction l with
  | nil => intro _; simp [insert_sorted]
  | cons b rest ih =>
    intro h
    rw [insert_sorted]
    rw [List.pairwise_cons] at h
    by_cases hab : key a < key b
    · simp only [hab, decide_True, if_true]
      refine List.Pairwise.cons ?_ (List.Pairwise.cons h.1 h.2)
      intro y hy
      rcases List.mem_cons.mp hy with hy | hy
      · rw [hy]; exact le_of_lt hab
      · exact le_trans (le_of_lt hab) (h.1 y hy)
    · simp only [hab, decide_False, Bool.false_eq_true, if_false]
      refine List.Pairwise.cons ?_ (ih h.2)
      intro y hy
      have hy2 := (insert_sorted_perm (fun x y => decide (key x < key y)) a rest).mem_iff.mp hy
      rcases List.mem_cons.mp hy2 with hy3 | hy3
      · rw [hy3]; exact not_lt.mp hab
      · exact h.1 y hy3

/-- The sort of the source, by a comparison `key a < key b`, returns a rearrangement of
the list in which the keys do not decrease. -/
theorem sort_by_pairwise {α : Type} (key : α → FT) :
    ∀ l : List α, (sort_by (fun x y => decide (key x < key y)) l).Pairwise
      (fun x y => key x ≤ key y) := by
  intro l
  induction l with
  | nil => simp [sort_by]
  | cons a rest ih =>
    rw [sort_by]
    exact insert_sorted_pairwise key a _ ih

theorem set_insert_append (x : Nat) :
    ∀ s : List Nat, (∀ y ∈ s, y < x) → set_insert x s = s ++ [x] := by
  intro s
  induction s with
  | nil => intro _; rfl
  | cons y ys ih =>
    intro h
    have hy : y < x := h y (List.mem_cons_self _ _)
    rw [set_insert, if_neg (by omega), if_neg (by omega),
      ih (fun z hz => h z (List.mem_cons_of_mem _ hz))]
    rfl

/-- The elements of a set, inserted in ascending order into the empty set, give the set. -/
theorem set_insert_all_sorted :
    ∀ (xs s : List Nat), (s ++ xs).Pairwise (fun a b => a < b) →
      set_insert_all xs s = s ++ xs := by
  intro xs
  induction xs with
  | nil => intro s _; simp [set_insert_all]
  | cons x rest ih =>
    intro s h
    have hx : ∀ y ∈ s, y < x := by
      intro y hy
      rw [List.pairwise_append] at h
      exact h.2.2 y hy x (List.mem_cons_self _ _)
    have h2 : ((s ++ [x]) ++ rest).Pairwise (fun a b => a < b) := by
      simpa using h
    have := ih (s ++ [x]) h2
    unfold set_insert_all at this ⊢
    rw [List.foldl_cons, set_insert_append x s hx, this]
    simp

theorem modify_unique_iedges_graph (d d2 : Data_structure) (sp_idx : Nat)
    (f : List IEdge → List IEdge) (h : d.modify_unique_iedges sp_idx f = some d2) :
    d2.m_intersection_graph = d.m_intersection_graph := by
  unfold Data_structure.modify_unique_iedges at h
  split at h
  · cases h
  · cases h; rfl

theorem modify_unique_iedges_all_graph (f : List IEdge → List IEdge) (planes : List Nat) :
    ∀ (d d2 : Data_structure), d.modify_unique_iedges_all f planes = some d2 →
      d2.m_intersection_graph = d.m_intersection_graph := by
  induction planes with
  | nil =>
    intro d d2 h
    rw [Data_structure.modify_unique_iedges_all] at h
    cases h; rfl
  | cons sp_idx rest ih =>
    intro d d2 h
    rw [Data_structure.modify_unique_iedges_all] at h
    cases h1 : d.modify_unique_iedges sp_idx f with
    | none => rw [h1] at h; cases h
    | some d1 =>
      rw [h1] at h
      rw [ih d1 d2 h, modify_unique_iedges_graph d d1 sp_idx f h1]

theorem map_modify_last (edges : List (IEdge × Edge_property)) (n : IEdge)
    (q : Edge_property) (f : Edge_property → Edge_property)
    (h : ∀ p ∈ edges, p.1 < n) :
    (edges ++ [(n, q)]).map (fun p => if p.1 = n then (p.1, f p.2) else p) =
      edges ++ [(n, f q)] := by
  rw [List.map_append]
  congr 1
  · conv_rhs => rw [← List.map_id edges]
    apply List.map_congr_left
    intro p hp
    rw [if_neg (Nat.ne_of_lt (h p hp))]
    rfl
  · simp

/-- One round of the loop of `add_iedge` that passes its assertion appends one edge with
the next descriptor, the two vertices, the given planes and the given line. -/
theorem add_iedge_loop_eq (planes : List Nat) (vertices : List IVertex) (line_idx : Nat)
    (hplanes : planes.Pairwise (fun a b => a < b)) :
    ∀ (k a : Nat) (d d2 : Data_structure),
      (∀ p ∈ d.m_intersection_graph.edges, p.1 < d.m_intersection_graph.next_edge) →
      Data_structure.add_iedge_loop planes vertices line_idx (List.range' a k) d = some d2 →
      d2.m_intersection_graph.vertices = d.m_intersection_graph.vertices ∧
      d2.m_intersection_graph.m_nb_lines = d.m_intersection_graph.m_nb_lines ∧
      d2.m_intersection_graph.next_edge = d.m_intersection_graph.next_edge + k ∧
      d2.m_intersection_graph.edges = d.m_intersection_graph.edges ++
        (List.range' a k).map (fun i =>
          (d.m_intersection_graph.next_edge + (i - a),
            (⟨(vertices[i]?).getD 0, (vertices[i + 1]?).getD 0, planes, line_idx, true⟩ :
              Edge_property))) := by
  intro k
  induction k with
  | zero =>
    intro a d d2 _ h
    rw [List.range'_zero, Data_structure.add_iedge_loop] at h
    cases h
    simp
  | succ k ih =>
    intro a d d2 hwf h
    rw [List.range'_succ, Data_structure.add_iedge_loop] at h
    cases hu : vertices[a]? with
    | none => rw [hu] at h; cases h
    | some u =>
      cases hv : vertices[a + 1]? with
      | none => rw [hu, hv] at h; cases h
      | some v =>
        rw [hu, hv] at h
        dsimp only at h
        unfold Intersection_graph.add_edge_planes at h
        cases hf : d.m_intersection_graph.edges.find? (fun p =>
            (p.2.source = u ∧ p.2.target = v) ∨ (p.2.source = v ∧ p.2.target = u)) with
        | some p => rw [hf] at h; simp at h
        | none =>
          rw [hf] at h
          simp only [not_true_eq_false, if_false] at h
          cases hm : Data_structure.modify_unique_iedges_all
              { d with m_intersection_graph :=
                ({ d.m_intersection_graph with
                  edges := d.m_intersection_graph.edges ++
                    [(d.m_intersection_graph.next_edge,
                      ⟨u, v, set_insert_all planes [], no_element, true⟩)],
                  next_edge := d.m_intersection_graph.next_edge + 1 } :
                  Intersection_graph).set_line d.m_intersection_graph.next_edge line_idx }
              (set_insert d.m_intersection_graph.next_edge) planes with
          | none => rw [hm] at h; cases h
          | some d1 =>
            rw [hm] at h
            have hg := modify_unique_iedges_all_graph _ _ _ _ hm
            have hedges : d1.m_intersection_graph.edges = d.m_intersection_graph.edges ++
                [(d.m_intersection_graph.next_edge, ⟨u, v, planes, line_idx, true⟩)] := by
              rw [hg]
              show (d.m_intersection_graph.edges ++ [(d.m_intersection_graph.next_edge,
                  (⟨u, v, set_insert_all planes [], no_element, true⟩ : Edge_property))]).map
                (fun p => if p.1 = d.m_intersection_graph.next_edge
                  then (p.1, { p.2 with line := line_idx }) else p) = _
              rw [map_modify_last _ _ _ (fun q => { q with line := line_idx }) hwf,
                set_insert_all_sorted planes [] (by simpa using hplanes)]
              rfl
            have hnext : d1.m_intersection_graph.next_edge =
                d.m_intersection_graph.next_edge + 1 := by
              rw [hg]; rfl
            have hwf1 : ∀ p ∈ d1.m_intersection_graph.edges,
                p.1 < d1.m_intersection_graph.next_edge := by
              intro p hp
              rw [hedges] at hp
              rw [hnext]
              rcases List.mem_append.mp hp with hp | hp
              · exact Nat.lt_succ_of_lt (hwf p hp)
              · simp only [List.mem_singleton] at hp
                rw [hp]; exact Nat.lt_succ_self _
            obtain ⟨h1, h2, h3, h4⟩ := ih (a + 1) d1 d2 hwf1 h
            refine ⟨by rw [h1, hg]; rfl, by rw [h2, hg]; rfl, by rw [h3, hnext, Nat.add_assoc, Nat.add_comm 1 k], ?_⟩
            rw [h4, hedges, List.range'_succ, List.map_cons, List.append_assoc]
            congr 1
            simp only [List.singleton_append, hu, hv, Option.getD_some, Nat.sub_self,
              Nat.add_zero]
            congr 1
            apply List.map_congr_left
            intro i hi
            rw [List.mem_range'_1] at hi
            rw [hnext]
            have hi1 : ∀ j : Nat, a + 1 ≤ j → j - a = (j - (a + 1)) + 1 := by
              intro j hj; omega
            rw [hi1 i hi.1, Nat.add_assoc, Nat.add_comm 1]

/-- C30: `add_iedge(planes, vertices)` with `m >= 2` distinct vertices, when it returns,
has created exactly `m - 1` new IEdges, with the next `m - 1` descriptors; all of them
carry one line, which `add_line` has newly allocated (the old number of lines), and the
given set of planes; the edge `i` joins the entries `i` and `i + 1` of the sorted vector,
which is a rearrangement of the given vertices in which the squared distance from the
first given vertex does not decrease; no vertex occurs twice, so that the arcs of the
line form a simple path. Nothing else of the graph changes. -/
theorem C30_add_iedge_path (d d2 : Data_structure) (planes : List Nat)
    (vertices sorted : List IVertex)
    (hwf : ∀ p ∈ d.m_intersection_graph.edges, p.1 < d.m_intersection_graph.next_edge)
    (hplanes : planes.Pairwise (fun a b => a < b))
    (hnd : vertices.Nodup) (hm : 2 ≤ vertices.length)
    (h : d.add_iedge planes vertices = some (sorted, d2)) :
    ∃ source, (vertices.head?).bind d.m_intersection_graph.point_3 = some source ∧
      sorted.Perm vertices ∧ sorted.Nodup ∧
      sorted.Pairwise (fun a b =>
        d.m_intersection_graph.sq_dist source a ≤ d.m_intersection_graph.sq_dist source b) ∧
      d2.m_intersection_graph.m_nb_lines = d.m_intersection_graph.m_nb_lines + 1 ∧
      d2.m_intersection_graph.vertices = d.m_intersection_graph.vertices ∧
      d2.m_intersection_graph.next_edge =
        d.m_intersection_graph.next_edge + (vertices.length - 1) ∧
      d2.m_intersection_graph.edges = d.m_intersection_graph.edges ++
        (List.range (vertices.length - 1)).map (fun i =>
          (d.m_intersection_graph.next_edge + i,
            (⟨(sorted[i]?).getD 0, (sorted[i + 1]?).getD 0, planes,
              d.m_intersection_graph.m_nb_lines, true⟩ : Edge_property))) := by
  unfold Data_structure.add_iedge at h
  cases vertices with
  | nil => simp at hm
  | cons front rest =>
    dsimp only at h
    cases hs : d.m_intersection_graph.point_3 front with
    | none => rw [hs] at h; cases h
    | some source =>
      rw [hs] at h
      dsimp only at h
      split at h
      · cases h
      cases hl : Data_structure.add_iedge_loop planes
          (sort_by (fun a b => decide (d.m_intersection_graph.sq_dist source a <
            d.m_intersection_graph.sq_dist source b)) (front :: rest))
          d.m_intersection_graph.add_line.1
          (List.range ((sort_by (fun a b => decide (d.m_intersection_graph.sq_dist source a <
            d.m_intersection_graph.sq_dist source b)) (front :: rest)).length - 1))
          { d with m_intersection_graph := d.m_intersection_graph.add_line.2 } with
      | none => rw [hl] at h; cases h
      | some d3 =>
        rw [hl] at h
        simp only [Option.map_some', Option.some.injEq, Prod.mk.injEq] at h
        obtain ⟨h1, h2⟩ := h
        subst h2
        have hperm := sort_by_perm (fun a b => decide (d.m_intersection_graph.sq_dist source a <
            d.m_intersection_graph.sq_dist source b)) (front :: rest)
        rw [h1] at hperm hl
        have hlen : sorted.length = (front :: rest).length := hperm.length_eq
        rw [List.range_eq_range'] at hl
        obtain ⟨e1, e2, e3, e4⟩ := add_iedge_loop_eq planes sorted _ hplanes _ 0 _ d3
          (by exact hwf) hl
        refine ⟨source, by simpa using hs, hperm, hperm.nodup_iff.mpr hnd, ?_, ?_, e1, ?_, ?_⟩
        · rw [← h1]
          exact sort_by_pairwise (d.m_intersection_graph.sq_dist source) _
        · rw [e2]; rfl
        · rw [e3, hlen]; rfl
        · rw [e4, hlen, List.range_eq_range']
          rfl

theorem C30_add_iedge_path_witness :
    ∃ d2, sample_data_line.add_iedge [6, 7] [1, 0, 2, 3] = some ([1, 3, 0, 2], d2) ∧
      d2.m_intersection_graph.m_nb_lines = 1 ∧
      d2.m_intersection_graph.next_edge = 3 ∧
      d2.m_intersection_graph.edges =
        [(0, ⟨1, 3, [6, 7], 0, true⟩), (1, ⟨3, 0, [6, 7], 0, true⟩),
         (2, ⟨0, 2, [6, 7], 0, true⟩)] := by
  have h : sample_data_line.add_iedge [6, 7] [1, 0, 2, 3] = some ([1, 3, 0, 2],
      { sample_data_line with
        m_intersection_graph :=
          { sample_data_line.m_intersection_graph with
            edges := [(0, ⟨1, 3, [6, 7], 0, true⟩), (1, ⟨3, 0, [6, 7], 0, true⟩),
              (2, ⟨0, 2, [6, 7], 0, true⟩)],
            next_edge := 3, m_nb_lines := 1 },
        m_support_planes := List.replicate 6 (sample_plane 0 []) ++
          [{ sample_plane 1 [] with unique_iedges := [0, 1, 2] },
           { sample_plane 1 [] with unique_iedges := [0, 1, 2] }] }) := by
    norm_num [Data_structure.add_iedge, sample_data_line, sample_data, sample_plane,
      Intersection_graph.point_3, Intersection_graph.sq_dist, squared_distance_3, sort_by,
      insert_sorted, Intersection_graph.add_line, Data_structure.add_iedge_loop,
      Intersection_graph.add_edge_planes, set_insert_all, set_insert,
      Intersection_graph.set_line, Intersection_graph.modify_edge,
      Data_structure.modify_unique_iedges_all, Data_structure.modify_unique_iedges,
      List.range, List.range.loop, List.replicate]
  obtain ⟨source, -, -, -, -, hl, -, hn, he⟩ := C30_add_iedge_path sample_data_line _ [6, 7]
    [1, 0, 2, 3] [1, 3, 0, 2] (by decide) (by decide) (by decide) (by decide) h
  exact ⟨_, h, hl, hn, he⟩

/-! ### The incidence of support planes and iedges -/

theorem mem_set_insert (x e : Nat) : ∀ l : List Nat, x ∈ set_insert e l ↔ x = e ∨ x ∈ l := by
  intro l
  induction l with
  | nil => simp [set_insert]
  | cons y ys ih =>
    rw [set_insert]
    split
    · simp
    · split
      · rename_i h1 h2
        subst h2
        simp only [List.mem_cons]
        tauto
      · simp only [List.mem_cons, ih]
        tauto

theorem set_insert_pairwise (e : Nat) : ∀ l : List Nat,
    l.Pairwise (fun a b => a < b) → (set_insert e l).Pairwise (fun a b => a < b) := by
  intro l
  induction l with
  | nil => intro _; simp [set_insert]
  | cons y ys ih =>
    intro h
    rw [set_insert]
    rw [List.pairwise_cons] at h
    split
    · rename_i h1
      refine List.Pairwise.cons ?_ (List.Pairwise.cons h.1 h.2)
      intro z hz
      rcases List.mem_cons.mp hz with hz | hz
      · rw [hz]; exact h1
      · exact Nat.lt_trans h1 (h.1 z hz)
    · split
      · exact List.Pairwise.cons h.1 h.2
      · rename_i h1 h2
        refine List.Pairwise.cons ?_ (ih h.2)
        intro z hz
        rcases (mem_set_insert z e ys).mp hz with hz | hz
        · rw [hz]; omega
        · exact h.1 z hz

theorem mem_erase_sorted (x e : Nat) (l : List Nat) (h : l.Pairwise (fun a b => a < b)) :
    x ∈ l.erase e ↔ x ∈ l ∧ x ≠ e := by
  have hn : l.Nodup := h.imp (fun hab => Nat.ne_of_lt hab)
  rw [hn.mem_erase_iff]
  tauto

theorem erase_pairwise (e : Nat) (l : List Nat) (h : l.Pairwise (fun a b => a < b)) :
    (l.erase e).Pairwise (fun a b => a < b) :=
  h.sublist (List.erase_sublist e l)

theorem mem_set_insert_all (x : Nat) : ∀ (xs s : List Nat),
    x ∈ set_insert_all xs s ↔ x ∈ xs ∨ x ∈ s := by
  intro xs
  induction xs with
  | nil => intro s; simp [set_insert_all]
  | cons y ys ih =>
    intro s
    have := ih (set_insert y s)
    unfold set_insert_all at this ⊢
    rw [List.foldl_cons, this, mem_set_insert, List.mem_cons]
    tauto

/-- Changing the property of the edge `e` so that its plane set gains the planes `A`, and
inserting `e` into `unique_iedges` of exactly the planes `A`, keeps the incidence. -/
theorem ok_map_edge (M M2 : Nat → List IEdge) (E : List (IEdge × Edge_property)) (N : Nat)
    (e : IEdge) (f : Edge_property → Edge_property) (A : List Nat)
    (h : incidence_ok M E N) (he : e < N)
    (hM : ∀ i, (M2 i).Pairwise (fun a b => a < b) ∧
      ∀ x, x ∈ M2 i ↔ x ∈ M i ∨ (x = e ∧ i ∈ A))
    (hf : ∀ q i, i ∈ (f q).planes ↔ i ∈ q.planes ∨ i ∈ A) :
    incidence_ok M2 (E.map (fun p => if p.1 = e then (p.1, f p.2) else p)) N := by
  obtain ⟨ha, hb, hc, hd, hr⟩ := h
  have hid : (E.map (fun p => if p.1 = e then (p.1, f p.2) else p)).map (fun p => p.1) =
      E.map (fun p => p.1) := by
    rw [List.map_map]
    apply List.map_congr_left
    intro p _
    simp only [Function.comp]
    split <;> rfl
  refine ⟨?_, ?_, fun i => (hM i).1, ?_, ?_⟩
  · intro p hp
    obtain ⟨p0, hp0, rfl⟩ := List.mem_map.mp hp
    have := ha p0 hp0
    split <;> exact this
  · rw [hid]; exact hb
  · intro i x hx
    rcases ((hM i).2 x).mp hx with h1 | h1
    · exact hd i x h1
    · rw [h1.1]; exact he
  · intro i p hp
    obtain ⟨p0, hp0, rfl⟩ := List.mem_map.mp hp
    by_cases hpe : p0.1 = e
    · rw [if_pos hpe]
      show p0.1 ∈ M2 i ↔ i ∈ (f p0.2).planes
      rw [(hM i).2, hf, hr i p0 hp0]
      constructor
      · rintro (h1 | h1)
        · exact Or.inl h1
        · exact Or.inr h1.2
      · rintro (h1 | h1)
        · exact Or.inl h1
        · exact Or.inr ⟨hpe, h1⟩
    · rw [if_neg hpe, (hM i).2, hr i p0 hp0]
      constructor
      · rintro (h1 | h1)
        · exact h1
        · exact absurd h1.1 hpe
      · exact Or.inl

/-- A new edge with the next descriptor and the plane set `A`, inserted into
`unique_iedges` of exactly the planes `A`, keeps the incidence. -/
theorem ok_new_edge (M M2 : Nat → List IEdge) (E : List (IEdge × Edge_property)) (N : Nat)
    (q : Edge_property) (A : List Nat)
    (h : incidence_ok M E N)
    (hM : ∀ i, (M2 i).Pairwise (fun a b => a < b) ∧
      ∀ x, x ∈ M2 i ↔ x ∈ M i ∨ (x = N ∧ i ∈ A))
    (hq : ∀ i, i ∈ q.planes ↔ i ∈ A) :
    incidence_ok M2 (E ++ [(N, q)]) (N + 1) := by
  obtain ⟨ha, hb, hc, hd, hr⟩ := h
  refine ⟨?_, ?_, fun i => (hM i).1, ?_, ?_⟩
  · intro p hp
    rcases List.mem_append.mp hp with hp | hp
    · exact Nat.lt_succ_of_lt (ha p hp)
    · rw [List.mem_singleton] at hp
      rw [hp]; exact Nat.lt_succ_self N
  · rw [List.map_append, List.nodup_append]
    refine ⟨hb, by simp, ?_⟩
    intro a h1 h2
    rw [List.map_singleton, List.mem_singleton] at h2
    obtain ⟨p, hp, rfl⟩ := List.mem_map.mp h1
    exact absurd h2 (Nat.ne_of_lt (ha p hp))
  · intro i x hx
    rcases ((hM i).2 x).mp hx with h1 | h1
    · exact Nat.lt_succ_of_lt (hd i x h1)
    · rw [h1.1]; exact Nat.lt_succ_self N
  · intro i p hp
    rcases List.mem_append.mp hp with hp | hp
    · rw [(hM i).2, hr i p hp]
      constructor
      · rintro (h1 | h1)
        · exact h1
        · exact absurd h1.1 (Nat.ne_of_lt (ha p hp))
      · exact Or.inl
    · rw [List.mem_singleton] at hp
      rw [hp, (hM i).2]
      show N ∈ M i ∨ N = N ∧ i ∈ A ↔ i ∈ q.planes
      rw [hq]
      constructor
      · rintro (h1 | h1)
        · exact absurd (hd i N h1) (Nat.lt_irrefl N)
        · exact h1.2
      · exact fun h1 => Or.inr ⟨rfl, h1⟩

/-- Removing the edge `e` from the graph and from every set `unique_iedges` keeps the
incidence. -/
theorem ok_remove_edge (M M2 : Nat → List IEdge) (E : List (IEdge × Edge_property)) (N : Nat)
    (e : IEdge) (h : incidence_ok M E N)
    (hM : ∀ i, (M2 i).Pairwise (fun a b => a < b) ∧ ∀ x, x ∈ M2 i ↔ x ∈ M i ∧ x ≠ e) :
    incidence_ok M2 (E.filter (fun q => q.1 ≠ e)) N := by
  obtain ⟨ha, hb, hc, hd, hr⟩ := h
  refine ⟨?_, ?_, fun i => (hM i).1, ?_, ?_⟩
  · intro p hp
    exact ha p (List.mem_filter.mp hp).1
  · exact hb.sublist (List.Sublist.map _ (List.filter_sublist _))
  · intro i x hx
    exact hd i x (((hM i).2 x).mp hx).1
  · intro i p hp
    have hp2 := List.mem_filter.mp hp
    have hne : p.1 ≠ e := by simpa using hp2.2
    rw [(hM i).2, ← hr i p hp2.1]
    exact ⟨fun h1 => h1.1, fun h1 => ⟨h1, hne⟩⟩

theorem lookup_mem (e : IEdge) : ∀ (E : List (IEdge × Edge_property)) (q : Edge_property),
    E.lookup e = some q → (e, q) ∈ E := by
  intro E
  induction E with
  | nil => intro q h; simp [List.lookup] at h
  | cons p rest ih =>
    intro q h
    obtain ⟨a, b⟩ := p
    rw [List.lookup] at h
    by_cases hea : e = a
    · subst hea
      simp only [beq_self_eq_true, Option.some.injEq] at h
      rw [h]; exact List.mem_cons_self _ _
    · have hb : (e == a) = false := by simpa using hea
      simp only [hb] at h
      exact List.mem_cons_of_mem _ (ih q h)

theorem mem_lookup (e : IEdge) : ∀ (E : List (IEdge × Edge_property)) (q : Edge_property),
    (E.map (fun p => p.1)).Nodup → (e, q) ∈ E → E.lookup e = some q := by
  intro E
  induction E with
  | nil => intro q _ h; cases h
  | cons p rest ih =>
    intro q hn h
    obtain ⟨a, b⟩ := p
    rw [List.map_cons, List.nodup_cons] at hn
    rw [List.lookup]
    rcases List.mem_cons.mp h with h1 | h1
    · cases h1
      simp
    · have hea : e ≠ a := by
        intro hea
        subst hea
        exact hn.1 (List.mem_map.mpr ⟨(e, q), h1, rfl⟩)
      have hb : (e == a) = false := by simpa using hea
      simp only [hb]
      exact ih q hn.2 h1

/-- The incidence and the well-formedness of a data structure, stated over its components. -/
theorem incidence_ok_iff (d : Data_structure) :
    incidence_ok d.unique_iedges_of d.m_intersection_graph.edges
      d.m_intersection_graph.next_edge ↔ d.well_formed ∧ d.incidence := by
  constructor
  · rintro ⟨ha, hb, hc, hd, hr⟩
    have hM : ∀ i sp, d.m_support_planes[i]? = some sp →
        d.unique_iedges_of i = sp.unique_iedges := by
      intro i sp h
      unfold Data_structure.unique_iedges_of
      rw [h]
    refine ⟨⟨ha, hb, ?_, ?_, ?_⟩, ?_⟩
    · intro sp hsp
      obtain ⟨i, hi⟩ := List.getElem?_of_mem hsp
      rw [← hM i sp hi]; exact hc i
    · intro sp hsp
      obtain ⟨i, hi⟩ := List.getElem?_of_mem hsp
      rw [← hM i sp hi]; exact hd i
    · intro p hp i hi
      have h1 := (hr i p hp).mpr hi
      unfold Data_structure.unique_iedges_of at h1
      unfold Data_structure.number_of_support_planes
      cases h2 : d.m_support_planes[i]? with
      | none => rw [h2] at h1; cases h1
      | some sp => exact (List.getElem?_eq_some_iff.mp h2).1
    · intro i sp e planes h1 h2
      unfold Data_structure.support_plane at h1
      unfold Data_structure.intersected_planes Intersection_graph.intersected_planes at h2
      cases h3 : d.m_intersection_graph.edges.lookup e with
      | none => rw [h3] at h2; cases h2
      | some q =>
        rw [h3] at h2
        simp only [Option.map_some', Option.some.injEq] at h2
        have := hr i (e, q) (lookup_mem e _ q h3)
        rw [hM i sp h1] at this
        rw [← h2]; exact this
  · rintro ⟨⟨ha, hb, hc, hd, he⟩, hr⟩
    refine ⟨ha, hb, ?_, ?_, ?_⟩
    · intro i
      unfold Data_structure.unique_iedges_of
      cases h2 : d.m_support_planes[i]? with
      | none => exact List.Pairwise.nil
      | some sp => exact hc sp (List.getElem?_mem h2)
    · intro i
      unfold Data_structure.unique_iedges_of
      cases h2 : d.m_support_planes[i]? with
      | none => intro e h; cases h
      | some sp => exact hd sp (List.getElem?_mem h2)
    · intro i p hp
      unfold Data_structure.unique_iedges_of
      cases h2 : d.m_support_planes[i]? with
      | none =>
        constructor
        · intro h; cases h
        · intro h
          have h3 := he p hp i h
          unfold Data_structure.number_of_support_planes at h3
          rw [List.getElem?_eq_none_iff] at h2
          omega
      | some sp =>
        have h3 : d.m_intersection_graph.edges.lookup p.1 = some p.2 :=
          mem_lookup p.1 _ p.2 hb hp
        exact hr i sp p.1 p.2.planes h2 (by
          unfold Data_structure.intersected_planes Intersection_graph.intersected_planes
          rw [h3]; rfl)

theorem unique_iedges_of_set (d d2 : Data_structure) (i : Nat) (sp sp2 : Support_plane)
    (h : d.m_support_planes[i]? = some sp)
    (h2 : d2.m_support_planes = d.m_support_planes.set i sp2) (j : Nat) :
    d2.unique_iedges_of j = if j = i then sp2.unique_iedges else d.unique_iedges_of j := by
  unfold Data_structure.unique_iedges_of
  rw [h2]
  have hi : i < d.m_support_planes.length := (List.getElem?_eq_some_iff.mp h).1
  by_cases hj : j = i
  · subst hj
    rw [if_pos rfl, List.getElem?_set_self hi]
  · rw [if_neg hj, List.getElem?_set_ne (fun h3 => hj h3.symm)]

theorem unique_iedges_of_congr (d d2 : Data_structure)
    (h : d2.m_support_planes = d.m_support_planes) :
    d2.unique_iedges_of = d.unique_iedges_of := by
  funext j
  unfold Data_structure.unique_iedges_of
  rw [h]

theorem modify_unique_iedges_of (d d2 : Data_structure) (sp_idx : Nat)
    (f : List IEdge → List IEdge) (h : d.modify_unique_iedges sp_idx f = some d2) :
    d2.m_intersection_graph = d.m_intersection_graph ∧
    ∀ j, d2.unique_iedges_of j =
      if j = sp_idx then f (d.unique_iedges_of sp_idx) else d.unique_iedges_of j := by
  unfold Data_structure.modify_unique_iedges at h
  cases hsp : d.m_support_planes[sp_idx]? with
  | none => rw [hsp] at h; cases h
  | some sp =>
    rw [hsp] at h
    simp only [Option.some.injEq] at h
    subst h
    refine ⟨rfl, fun j => ?_⟩
    rw [unique_iedges_of_set d _ sp_idx sp _ hsp rfl j]
    unfold Data_structure.unique_iedges_of
    rw [hsp]

/-- The loop that inserts the edge `e` into `unique_iedges` of the planes `planes`. -/
theorem insert_all_of (e : IEdge) (planes : List Nat) :
    ∀ (d d2 : Data_structure), d.modify_unique_iedges_all (set_insert e) planes = some d2 →
      (∀ j, (d.unique_iedges_of j).Pairwise (fun a b => a < b)) →
      d2.m_intersection_graph = d.m_intersection_graph ∧
      ∀ j, (d2.unique_iedges_of j).Pairwise (fun a b => a < b) ∧
        ∀ x, x ∈ d2.unique_iedges_of j ↔ x ∈ d.unique_iedges_of j ∨ (x = e ∧ j ∈ planes) := by
  induction planes with
  | nil =>
    intro d d2 h hs
    rw [Data_structure.modify_unique_iedges_all] at h
    cases h
    exact ⟨rfl, fun j => ⟨hs j, fun x => by simp⟩⟩
  | cons sp_idx rest ih =>
    intro d d2 h hs
    rw [Data_structure.modify_unique_iedges_all] at h
    cases h1 : d.modify_unique_iedges sp_idx (set_insert e) with
    | none => rw [h1] at h; cases h
    | some d1 =>
      rw [h1] at h
      obtain ⟨hg1, hu1⟩ := modify_unique_iedges_of d d1 sp_idx _ h1
      have hs1 : ∀ j, (d1.unique_iedges_of j).Pairwise (fun a b => a < b) := by
        intro j
        rw [hu1 j]
        split
        · exact set_insert_pairwise e _ (hs sp_idx)
        · exact hs j
      obtain ⟨hg2, hu2⟩ := ih d1 d2 h hs1
      refine ⟨by rw [hg2, hg1], fun j => ⟨(hu2 j).1, fun x => ?_⟩⟩
      rw [(hu2 j).2 x, hu1 j, List.mem_cons]
      by_cases hj : j = sp_idx
      · subst hj
        rw [if_pos rfl, mem_set_insert]
        tauto
      · rw [if_neg hj]
        tauto

/-- The loop that erases the edge `e` from `unique_iedges` of the planes `planes`. -/
theorem erase_all_of (e : IEdge) (planes : List Nat) :
    ∀ (d d2 : Data_structure),
      d.modify_unique_iedges_all (fun s => s.erase e) planes = some d2 →
      (∀ j, (d.unique_iedges_of j).Pairwise (fun a b => a < b)) →
      d2.m_intersection_graph = d.m_intersection_graph ∧
      ∀ j, (d2.unique_iedges_of j).Pairwise (fun a b => a < b) ∧
        ∀ x, x ∈ d2.unique_iedges_of j ↔
          x ∈ d.unique_iedges_of j ∧ ¬ (x = e ∧ j ∈ planes) := by
  induction planes with
  | nil =>
    intro d d2 h hs
    rw [Data_structure.modify_unique_iedges_all] at h
    cases h
    exact ⟨rfl, fun j => ⟨hs j, fun x => by simp⟩⟩
  | cons sp_idx rest ih =>
    intro d d2 h hs
    rw [Data_structure.modify_unique_iedges_all] at h
    cases h1 : d.modify_unique_iedges sp_idx (fun s => s.erase e) with
    | none => rw [h1] at h; cases h
    | some d1 =>
      rw [h1] at h
      obtain ⟨hg1, hu1⟩ := modify_unique_iedges_of d d1 sp_idx _ h1
      have hs1 : ∀ j, (d1.unique_iedges_of j).Pairwise (fun a b => a < b) := by
        intro j
        rw [hu1 j]
        split
        · exact erase_pairwise e _ (hs sp_idx)
        · exact hs j
      obtain ⟨hg2, hu2⟩ := ih d1 d2 h hs1
      refine ⟨by rw [hg2, hg1], fun j => ⟨(hu2 j).1, fun x => ?_⟩⟩
      rw [(hu2 j).2 x, hu1 j, List.mem_cons]
      by_cases hj : j = sp_idx
      · subst hj
        rw [if_pos rfl, mem_erase_sorted x e _ (hs j)]
        tauto
      · rw [if_neg hj]
        tauto

theorem insert_one_of (e : IEdge) (sp_idx : Nat) (d d2 : Data_structure)
    (h : d.modify_unique_iedges sp_idx (set_insert e) = some d2)
    (hs : ∀ j, (d.unique_iedges_of j).Pairwise (fun a b => a < b)) :
    d2.m_intersection_graph = d.m_intersection_graph ∧
    ∀ j, (d2.unique_iedges_of j).Pairwise (fun a b => a < b) ∧
      ∀ x, x ∈ d2.unique_iedges_of j ↔ x ∈ d.unique_iedges_of j ∨ (x = e ∧ j ∈ [sp_idx]) := by
  apply insert_all_of e [sp_idx] d d2 _ hs
  rw [Data_structure.modify_unique_iedges_all, h]
  rfl

/-- The call `add_edge(u, v, plane)` followed by the insertion of the returned edge into
`unique_iedges` of the plane keeps the incidence. -/
theorem add_edge_ok (M M2 : Nat → List IEdge) (g : Intersection_graph) (u v : IVertex)
    (s : Nat) (h : incidence_ok M g.edges g.next_edge)
    (hM : ∀ i, (M2 i).Pairwise (fun a b => a < b) ∧
      ∀ x, x ∈ M2 i ↔ x ∈ M i ∨ (x = (g.add_edge u v s).1.1 ∧ i ∈ [s])) :
    (g.add_edge u v s).1.1 < (g.add_edge u v s).2.next_edge ∧
    incidence_ok M2 (g.add_edge u v s).2.edges (g.add_edge u v s).2.next_edge := by
  cases hf : g.edges.find? (fun p =>
      (p.2.source = u ∧ p.2.target = v) ∨ (p.2.source = v ∧ p.2.target = u)) with
  | some p =>
    have e1 : g.add_edge u v s = ((p.1, false),
        g.modify_edge p.1 (fun q => { q with planes := set_insert s q.planes })) := by
      unfold Intersection_graph.add_edge
      rw [hf]
    rw [e1] at hM ⊢
    have hp : p.1 < g.next_edge := h.1 p (List.mem_of_find?_eq_some hf)
    refine ⟨hp, ?_⟩
    exact ok_map_edge M M2 g.edges g.next_edge p.1
      (fun q => { q with planes := set_insert s q.planes }) [s] h hp hM
      (fun q i => by
        show i ∈ set_insert s q.planes ↔ _
        rw [mem_set_insert, List.mem_singleton]; tauto)
  | none =>
    have e1 : g.add_edge u v s = ((g.next_edge, true),
        { g with edges := g.edges ++ [(g.next_edge, ⟨u, v, [s], no_element, true⟩)],
                 next_edge := g.next_edge + 1 }) := by
      unfold Intersection_graph.add_edge
      rw [hf]
    rw [e1] at hM ⊢
    refine ⟨Nat.lt_succ_self _, ?_⟩
    exact ok_new_edge M M2 g.edges g.next_edge _ [s] h hM (fun i => Iff.rfl)

theorem set_line_ok (M : Nat → List IEdge) (g : Intersection_graph) (e : IEdge) (line : Nat)
    (h : incidence_ok M g.edges g.next_edge) (he : e < g.next_edge) :
    incidence_ok M (g.set_line e line).edges (g.set_line e line).next_edge :=
  ok_map_edge M M g.edges g.next_edge e (fun q => { q with line := line }) [] h he
    (fun i => ⟨h.2.2.1 i, fun x => by simp⟩) (fun q i => by simp)

theorem set_iedge_unique (sp : Support_plane) (v u : Vertex_index) (iedge : IEdge) :
    (sp.set_iedge v u iedge).unique_iedges = sp.unique_iedges := by
  unfold Support_plane.set_iedge
  split <;> rfl

/-- The loop of `add_iedge` keeps the incidence. -/
theorem add_iedge_loop_ok (planes : List Nat) (vertices : List IVertex) (line_idx : Nat) :
    ∀ (l : List Nat) (d d2 : Data_structure),
      incidence_ok d.unique_iedges_of d.m_intersection_graph.edges
        d.m_intersection_graph.next_edge →
      Data_structure.add_iedge_loop planes vertices line_idx l d = some d2 →
      incidence_ok d2.unique_iedges_of d2.m_intersection_graph.edges
        d2.m_intersection_graph.next_edge := by
  intro l
  induction l with
  | nil =>
    intro d d2 hok h
    rw [Data_structure.add_iedge_loop] at h
    cases h
    exact hok
  | cons a rest ih =>
    intro d d2 hok h
    rw [Data_structure.add_iedge_loop] at h
    cases hu : vertices[a]? with
    | none => rw [hu] at h; cases h
    | some u =>
      cases hv : vertices[a + 1]? with
      | none => rw [hu, hv] at h; cases h
      | some v =>
        rw [hu, hv] at h
        dsimp only at h
        unfold Intersection_graph.add_edge_planes at h
        cases hf : d.m_intersection_graph.edges.find? (fun p =>
            (p.2.source = u ∧ p.2.target = v) ∨ (p.2.source = v ∧ p.2.target = u)) with
        | some p => rw [hf] at h; simp at h
        | none =>
          rw [hf] at h
          simp only [not_true_eq_false, if_false] at h
          cases hm : Data_structure.modify_unique_iedges_all
              { d with m_intersection_graph :=
                ({ d.m_intersection_graph with
                  edges := d.m_intersection_graph.edges ++
                    [(d.m_intersection_graph.next_edge,
                      ⟨u, v, set_insert_all planes [], no_element, true⟩)],
                  next_edge := d.m_intersection_graph.next_edge + 1 } :
                  Intersection_graph).set_line d.m_intersection_graph.next_edge line_idx }
              (set_insert d.m_intersection_graph.next_edge) planes with
          | none => rw [hm] at h; cases h
          | some d1 =>
            rw [hm] at h
            obtain ⟨hg, hu1⟩ := insert_all_of _ _ _ _ hm hok.2.2.1
            apply ih d1 d2 _ h
            rw [hg]
            have h1 := ok_new_edge d.unique_iedges_of d1.unique_iedges_of
              d.m_intersection_graph.edges d.m_intersection_graph.next_edge
              ⟨u, v, set_insert_all planes [], no_element, true⟩ planes hok hu1
              (fun i => by
                show i ∈ set_insert_all planes [] ↔ _
                rw [mem_set_insert_all]; simp)
            exact set_line_ok d1.unique_iedges_of
              { d.m_intersection_graph with
                  edges := d.m_intersection_graph.edges ++
                    [(d.m_intersection_graph.next_edge,
                      ⟨u, v, set_insert_all planes [], no_element, true⟩)],
                  next_edge := d.m_intersection_graph.next_edge + 1 }
              d.m_intersection_graph.next_edge line_idx h1 (Nat.lt_succ_self _)

/-- The call `add_iedge` keeps the incidence. -/
theorem add_iedge_ok (d d2 : Data_structure) (planes : List Nat)
    (vertices sorted : List IVertex)
    (hok : incidence_ok d.unique_iedges_of d.m_intersection_graph.edges
      d.m_intersection_graph.next_edge)
    (h : d.add_iedge planes vertices = some (sorted, d2)) :
    incidence_ok d2.unique_iedges_of d2.m_intersection_graph.edges
      d2.m_intersection_graph.next_edge := by
  unfold Data_structure.add_iedge at h
  cases vertices with
  | nil => cases h
  | cons front rest =>
    dsimp only at h
    cases hs : d.m_intersection_graph.point_3 front with
    | none => rw [hs] at h; cases h
    | some source =>
      rw [hs] at h
      dsimp only at h
      split at h
      · cases h
      cases hl : Data_structure.add_iedge_loop planes
          (sort_by (fun a b => decide (d.m_intersection_graph.sq_dist source a <
            d.m_intersection_graph.sq_dist source b)) (front :: rest))
          d.m_intersection_graph.add_line.1
          (List.range ((sort_by (fun a b => decide (d.m_intersection_graph.sq_dist source a <
            d.m_intersection_graph.sq_dist source b)) (front :: rest)).length - 1))
          { d with m_intersection_graph := d.m_intersection_graph.add_line.2 } with
      | none => rw [hl] at h; cases h
      | some d3 =>
        rw [hl] at h
        simp only [Option.map_some', Option.some.injEq, Prod.mk.injEq] at h
        rw [← h.2]
        exact add_iedge_loop_ok _ _ _ _
          { d with m_intersection_graph := d.m_intersection_graph.add_line.2 } d3 hok hl

theorem lookup_append_fresh (n : IEdge) (F : List (IEdge × Edge_property)) :
    ∀ E : List (IEdge × Edge_property), (∀ p ∈ E, p.1 ≠ n) →
      (E ++ F).lookup n = F.lookup n := by
  intro E
  induction E with
  | nil => intro _; rfl
  | cons p rest ih =>
    intro h
    obtain ⟨a, b⟩ := p
    have hna : n ≠ a := fun h1 => h (a, b) (List.mem_cons_self _ _) h1.symm
    have hb : (n == a) = false := by simpa using hna
    rw [List.cons_append, List.lookup]
    simp only [hb]
    exact ih (fun p hp => h p (List.mem_cons_of_mem _ hp))

/-- The split of the edge `e` with its bookkeeping (erase `e`, insert the two halves in the
planes of `e`) keeps the incidence. -/
theorem split_edge_ok (M M1 M3 M4 : Nat → List IEdge) (g : Intersection_graph) (e : IEdge)
    (w : IVertex) (q0 : Edge_property) (hlook : g.edges.lookup e = some q0)
    (hok : incidence_ok M g.edges g.next_edge)
    (h1 : ∀ j, (M1 j).Pairwise (fun a b => a < b) ∧
      ∀ x, x ∈ M1 j ↔ x ∈ M j ∧ ¬ (x = e ∧ j ∈ q0.planes))
    (h3 : ∀ j, (M3 j).Pairwise (fun a b => a < b) ∧
      ∀ x, x ∈ M3 j ↔ x ∈ M1 j ∨ (x = g.next_edge ∧ j ∈ q0.planes))
    (h4 : ∀ j, (M4 j).Pairwise (fun a b => a < b) ∧
      ∀ x, x ∈ M4 j ↔ x ∈ M3 j ∨ (x = g.next_edge + 1 ∧ j ∈ q0.planes)) :
    incidence_ok M4
      (g.edges.filter (fun q => q.1 ≠ e) ++
        [(g.next_edge, { q0 with target := w }), (g.next_edge + 1, { q0 with source := w })])
      (g.next_edge + 2) := by
  have hmem := lookup_mem e g.edges q0 hlook
  have hr := hok.2.2.2.2
  have a1 := ok_remove_edge M M1 g.edges g.next_edge e hok (fun j => ⟨(h1 j).1, fun x => by
    rw [(h1 j).2 x]
    constructor
    · rintro ⟨h5, h6⟩
      refine ⟨h5, fun h7 => h6 ⟨h7, ?_⟩⟩
      rw [h7] at h5
      exact (hr j (e, q0) hmem).mp h5
    · rintro ⟨h5, h6⟩
      exact ⟨h5, fun h7 => h6 h7.1⟩⟩)
  have a2 := ok_new_edge M1 M3 _ g.next_edge { q0 with target := w } q0.planes a1 h3
    (fun i => Iff.rfl)
  have a3 := ok_new_edge M3 M4 _ (g.next_edge + 1) { q0 with source := w } q0.planes a2 h4
    (fun i => Iff.rfl)
  rw [List.append_assoc] at a3
  exact a3

/-- The third loop of `intersect_with_bbox` keeps the incidence. -/
theorem bbox_split_loop_ok (support_plane_idx : Nat)
    (intersections : List (IEdge × Point_3)) (common_planes_idx : List Nat)
    (map_lines_idx : List (Nat × Nat)) (vertices : List IVertex) (is : List Nat) :
    ∀ (d d2 : Data_structure),
      incidence_ok d.unique_iedges_of d.m_intersection_graph.edges
        d.m_intersection_graph.next_edge →
      Data_structure.bbox_split_loop support_plane_idx intersections common_planes_idx
        map_lines_idx vertices is d = some d2 →
      incidence_ok d2.unique_iedges_of d2.m_intersection_graph.edges
        d2.m_intersection_graph.next_edge := by
  induction is with
  | nil =>
    intro d d2 hok h
    unfold Data_structure.bbox_split_loop at h
    cases h; exact hok
  | cons i rest ih =>
    intro d d2 hok h
    unfold Data_structure.bbox_split_loop at h
    dsimp only at h
    split at h
    · rename_i iedge _ vertex next_vertex common_plane_idx _ _ _ _
      cases h0 : d.m_intersection_graph.intersected_planes iedge with
      | none => rw [h0] at h; cases h
      | some iplanes =>
      rw [h0, Option.some_bind] at h
      unfold Intersection_graph.intersected_planes at h0
      cases hlook : d.m_intersection_graph.edges.lookup iedge with
      | none => rw [hlook] at h0; cases h0
      | some q0 =>
      rw [hlook] at h0
      simp only [Option.map_some', Option.some.injEq] at h0
      subst h0
      cases h1 : d.modify_unique_iedges_all (fun s => s.erase iedge) q0.planes with
      | none => rw [h1] at h; cases h
      | some d1 =>
      rw [h1, Option.some_bind] at h
      obtain ⟨hg1, hu1⟩ := erase_all_of _ _ _ _ h1 hok.2.2.1
      have hfresh : ∀ p ∈ d.m_intersection_graph.edges.filter (fun q => q.1 ≠ iedge),
          p.1 ≠ d.m_intersection_graph.next_edge ∧
          p.1 ≠ d.m_intersection_graph.next_edge + 1 := by
        intro p hp
        have := hok.1 p (List.mem_filter.mp hp).1
        exact ⟨Nat.ne_of_lt this, Nat.ne_of_lt (Nat.lt_succ_of_lt this)⟩
      cases h2 : d1.m_intersection_graph.split_edge iedge vertex with
      | none => rw [h2] at h; cases h
      | some split =>
      rw [h2, Option.some_bind] at h
      unfold Intersection_graph.split_edge at h2
      rw [hg1, hlook] at h2
      simp only [Option.map_some', Option.some.injEq] at h2
      subst h2
      dsimp only at h
      have hl1 : Intersection_graph.intersected_planes
          { d.m_intersection_graph with
            edges := d.m_intersection_graph.edges.filter (fun q => q.1 ≠ iedge) ++
              [(d.m_intersection_graph.next_edge, { q0 with target := vertex }),
               (d.m_intersection_graph.next_edge + 1, { q0 with source := vertex })],
            next_edge := d.m_intersection_graph.next_edge + 2 }
          d.m_intersection_graph.next_edge = some q0.planes := by
        unfold Intersection_graph.intersected_planes
        dsimp only
        rw [lookup_append_fresh _ _ _ (fun p hp => (hfresh p hp).1)]
        simp [List.lookup]
      have hl2 : Intersection_graph.intersected_planes
          { d.m_intersection_graph with
            edges := d.m_intersection_graph.edges.filter (fun q => q.1 ≠ iedge) ++
              [(d.m_intersection_graph.next_edge, { q0 with target := vertex }),
               (d.m_intersection_graph.next_edge + 1, { q0 with source := vertex })],
            next_edge := d.m_intersection_graph.next_edge + 2 }
          (d.m_intersection_graph.next_edge + 1) = some q0.planes := by
        unfold Intersection_graph.intersected_planes
        dsimp only
        rw [lookup_append_fresh _ _ _ (fun p hp => (hfresh p hp).2)]
        have hb : (d.m_intersection_graph.next_edge + 1 == d.m_intersection_graph.next_edge) =
            false := beq_eq_false_iff_ne.mpr (Nat.succ_ne_self _)
        simp [List.lookup, hb]
      rw [hl1, Option.some_bind] at h
      cases h4 : Data_structure.modify_unique_iedges_all
          { d1 with m_intersection_graph :=
            { d.m_intersection_graph with
              edges := d.m_intersection_graph.edges.filter (fun q => q.1 ≠ iedge) ++
                [(d.m_intersection_graph.next_edge, { q0 with target := vertex }),
                 (d.m_intersection_graph.next_edge + 1, { q0 with source := vertex })],
              next_edge := d.m_intersection_graph.next_edge + 2 } }
          (set_insert d.m_intersection_graph.next_edge) q0.planes with
      | none => rw [h4] at h; cases h
      | some d3 =>
      rw [h4, Option.some_bind] at h
      obtain ⟨hg3, hu3⟩ := insert_all_of _ _ _ _ h4 (fun j => (hu1 j).1)
      rw [hg3] at h
      dsimp only at h
      rw [hl2, Option.some_bind] at h
      cases h6 : d3.modify_unique_iedges_all
          (set_insert (d.m_intersection_graph.next_edge + 1)) q0.planes with
      | none => rw [h6] at h; cases h
      | some d4 =>
      rw [h6, Option.some_bind] at h
      obtain ⟨hg4, hu4⟩ := insert_all_of _ _ _ _ h6 (fun j => (hu3 j).1)
      have hok4 := split_edge_ok d.unique_iedges_of d1.unique_iedges_of d3.unique_iedges_of
        d4.unique_iedges_of d.m_intersection_graph iedge vertex q0 hlook hok hu1 hu3 hu4
      have hE4 : d4.m_intersection_graph =
          { d.m_intersection_graph with
            edges := d.m_intersection_graph.edges.filter (fun q => q.1 ≠ iedge) ++
              [(d.m_intersection_graph.next_edge, { q0 with target := vertex }),
               (d.m_intersection_graph.next_edge + 1, { q0 with source := vertex })],
            next_edge := d.m_intersection_graph.next_edge + 2 } := by
        rw [hg4, hg3]
      have hok4b : incidence_ok d4.unique_iedges_of d4.m_intersection_graph.edges
          d4.m_intersection_graph.next_edge := by
        rw [hE4]; exact hok4
      generalize d4.m_intersection_graph = g4 at h hok4b
      try dsimp only at h
      generalize hg2 : Intersection_graph.set_line _ _ _ = g2 at h
      cases h7 : Data_structure.modify_unique_iedges
          { d4 with m_intersection_graph := g2 } support_plane_idx
          (set_insert (g4.add_edge vertex next_vertex support_plane_idx).1.1) with
      | none => rw [h7] at h; cases h
      | some d6 =>
      rw [h7, Option.some_bind] at h
      obtain ⟨hg6, hu6⟩ := insert_one_of _ _ _ _ h7 (fun j => (hu4 j).1)
      cases h8 : d6.modify_unique_iedges common_plane_idx
          (set_insert (g4.add_edge vertex next_vertex support_plane_idx).1.1) with
      | none => rw [h8] at h; cases h
      | some d7 =>
      rw [h8, Option.some_bind] at h
      obtain ⟨hg7, hu7⟩ := insert_one_of _ _ _ _ h8 (fun j => (hu6 j).1)
      apply ih d7 d2 _ h
      rw [hg7, hg6]
      show incidence_ok d7.unique_iedges_of g2.edges g2.next_edge
      rw [← hg2]
      obtain ⟨hlt, b1⟩ := add_edge_ok d4.unique_iedges_of d6.unique_iedges_of g4 vertex
        next_vertex support_plane_idx hok4b hu6
      have b2 := ok_map_edge d6.unique_iedges_of d7.unique_iedges_of _ _
        (g4.add_edge vertex next_vertex support_plane_idx).1.1
        (fun q => { q with planes := set_insert common_plane_idx q.planes })
        [common_plane_idx] b1 hlt hu7
        (fun q i => by
          show i ∈ set_insert common_plane_idx q.planes ↔ _
          rw [mem_set_insert, List.mem_singleton]; tauto)
      exact set_line_ok d7.unique_iedges_of
        ((g4.add_edge vertex next_vertex support_plane_idx).2.modify_edge
          (g4.add_edge vertex next_vertex support_plane_idx).1.1
          (fun q => { q with planes := set_insert common_plane_idx q.planes }))
        _ _ b2 hlt
    · cases h

theorem add_vertex_edges (g : Intersection_graph) (point : Point_3) :
    (g.add_vertex point).2.edges = g.edges ∧
    (g.add_vertex point).2.next_edge = g.next_edge := by
  unfold Intersection_graph.add_vertex
  split <;> exact ⟨rfl, rfl⟩

/-- The second loop of `intersect_with_bbox` adds lines and vertices only. -/
theorem bbox_scan_loop_edges (intersections : List (IEdge × Point_3)) (is : List Nat) :
    ∀ (st st2 : Bbox_scan), bbox_scan_loop intersections is st = some st2 →
      st2.graph.edges = st.graph.edges ∧ st2.graph.next_edge = st.graph.next_edge := by
  induction is with
  | nil =>
    intro st st2 h
    rw [bbox_scan_loop] at h
    cases h
    exact ⟨rfl, rfl⟩
  | cons i rest ih =>
    intro st st2 h
    rw [bbox_scan_loop] at h
    dsimp only at h
    split at h
    · split at h
      · split at h
        · cases h
        · split at h
          · cases h
          · rename_i point _ _ _ _ _ _ _ _ common_plane_idx _ _
            obtain ⟨e1, e2⟩ := ih _ st2 h
            rw [e1, e2]
            dsimp only
            cases hl : st.map_lines_idx.lookup common_plane_idx with
            | none => exact add_vertex_edges _ _
            | some l => exact add_vertex_edges _ _
      · cases h
    · cases h

/-- The call `intersect_with_bbox` keeps the incidence. -/
theorem intersect_with_bbox_ok (G : Geometry) (d d2 : Data_structure) (idx : Nat)
    (hok : incidence_ok d.unique_iedges_of d.m_intersection_graph.edges
      d.m_intersection_graph.next_edge)
    (h : d.intersect_with_bbox G idx = some d2) :
    incidence_ok d2.unique_iedges_of d2.m_intersection_graph.edges
      d2.m_intersection_graph.next_edge := by
  unfold Data_structure.intersect_with_bbox at h
  split at h
  · cases h; exact hok
  cases h0 : d.support_plane idx with
  | none => rw [h0] at h; cases h
  | some sp =>
  rw [h0, Option.some_bind] at h
  cases h1 : collect_intersections G sp.plane d.m_intersection_graph
      d.m_intersection_graph.edge_list (0, 0, 0) [] with
  | none => rw [h1] at h; cases h
  | some collected =>
  rw [h1, Option.some_bind] at h
  dsimp only at h
  generalize hi : sort_by _ collected.2 = intersections at h
  cases h2 : bbox_scan_loop intersections (List.range intersections.length)
      ⟨d.m_intersection_graph, [], [], []⟩ with
  | none => rw [h2] at h; cases h
  | some st =>
  rw [h2, Option.some_bind] at h
  split at h
  · cases h
  obtain ⟨e1, e2⟩ := bbox_scan_loop_edges _ _ _ _ h2
  apply bbox_split_loop_ok _ _ _ _ _ _ _ d2 _ h
  show incidence_ok d.unique_iedges_of st.graph.edges st.graph.next_edge
  rw [e1, e2]
  exact hok

/-- The call `add_support_plane` keeps the incidence, when the constructor of a support
plane leaves its set `unique_iedges` empty. -/
theorem add_support_plane_ok (G : Geometry) (d : Data_structure) (polygon : List Point_3)
    (r : Nat × Data_structure)
    (hnew : (G.make_support_plane polygon).unique_iedges = [])
    (hok : incidence_ok d.unique_iedges_of d.m_intersection_graph.edges
      d.m_intersection_graph.next_edge)
    (h : d.add_support_plane G polygon = some r) :
    incidence_ok r.2.unique_iedges_of r.2.m_intersection_graph.edges
      r.2.m_intersection_graph.next_edge := by
  unfold Data_structure.add_support_plane at h
  dsimp only at h
  cases hf : find_same_plane (G.make_support_plane polygon) d.m_support_planes 0 with
  | some j =>
    rw [hf] at h
    cases h
    exact hok
  | none =>
    rw [hf] at h
    dsimp only at h
    cases h1 : Data_structure.intersect_with_bbox G
        { d with m_support_planes := d.m_support_planes ++ [G.make_support_plane polygon] }
        d.number_of_support_planes with
    | none => rw [h1] at h; cases h
    | some d2 =>
      rw [h1] at h
      cases h
      apply intersect_with_bbox_ok G _ d2 _ _ h1
      have hu : Data_structure.unique_iedges_of
          { d with m_support_planes := d.m_support_planes ++ [G.make_support_plane polygon] } =
          d.unique_iedges_of := by
        funext j
        unfold Data_structure.unique_iedges_of
        dsimp only
        rcases Nat.lt_trichotomy j d.m_support_planes.length with hj | hj | hj
        · rw [List.getElem?_append_left hj]
        · subst hj
          have e1 : (d.m_support_planes ++ [G.make_support_plane polygon])[
              d.m_support_planes.length]? = some (G.make_support_plane polygon) := by
            simp
          have e2 : d.m_support_planes[d.m_support_planes.length]? = none := by
            simp
          rw [e1, e2]
          exact hnew
        · have e1 : (d.m_support_planes ++ [G.make_support_plane polygon])[j]? = none := by
            rw [List.getElem?_eq_none_iff]
            simp only [List.length_append, List.length_singleton]
            omega
          have e2 : d.m_support_planes[j]? = none := by
            rw [List.getElem?_eq_none_iff]
            omega
          rw [e1, e2]
      rw [hu]
      exact hok

/-- The first loop of `add_bbox_polygon` adds vertices only. -/
theorem add_bbox_vertices_edges (G : Geometry) (plane : Plane_3) (polygon : List Point_3)
    (is : List Nat) :
    ∀ (st st2 : List Point_2 × List IVertex × Intersection_graph),
      add_bbox_vertices G plane polygon is st = some st2 →
      st2.2.2.edges = st.2.2.edges ∧ st2.2.2.next_edge = st.2.2.next_edge := by
  induction is with
  | nil =>
    intro st st2 h
    obtain ⟨points, ivertices, g⟩ := st
    rw [add_bbox_vertices] at h
    cases h
    exact ⟨rfl, rfl⟩
  | cons i rest ih =>
    intro st st2 h
    obtain ⟨points, ivertices, g⟩ := st
    rw [add_bbox_vertices] at h
    cases hp : polygon[i]? with
    | none => rw [hp] at h; cases h
    | some point =>
      rw [hp] at h
      dsimp only at h
      obtain ⟨e1, e2⟩ := ih _ st2 h
      rw [e1, e2]
      exact add_vertex_edges g point

/-- The second loop of `add_bbox_polygon` keeps the incidence. -/
theorem add_bbox_edges_ok (support_plane_idx : Nat) (ivertices : List IVertex)
    (vertices : List Vertex_index) (is : List Nat) :
    ∀ (d d2 : Data_structure),
      incidence_ok d.unique_iedges_of d.m_intersection_graph.edges
        d.m_intersection_graph.next_edge →
      Data_structure.add_bbox_edges support_plane_idx ivertices vertices is d = some d2 →
      incidence_ok d2.unique_iedges_of d2.m_intersection_graph.edges
        d2.m_intersection_graph.next_edge := by
  induction is with
  | nil =>
    intro d d2 hok h
    rw [Data_structure.add_bbox_edges] at h
    cases h; exact hok
  | cons i rest ih =>
    intro d d2 hok h
    rw [Data_structure.add_bbox_edges] at h
    split at h
    · rename_i iv iv_next v v_next _ _ _ _
      dsimp only at h
      cases hsp : d.m_support_planes[support_plane_idx]? with
      | none => rw [hsp] at h; cases h
      | some sp =>
        rw [hsp] at h
        dsimp only at h
        apply ih _ d2 _ h
        have hs : d.unique_iedges_of support_plane_idx = sp.unique_iedges := by
          unfold Data_structure.unique_iedges_of
          rw [hsp]
        have hM : ∀ j, ((Data_structure.unique_iedges_of
            { d with
              m_intersection_graph :=
                if (d.m_intersection_graph.add_edge iv iv_next support_plane_idx).1.2 = true
                then (d.m_intersection_graph.add_edge iv iv_next
                    support_plane_idx).2.add_line.2.set_line
                  (d.m_intersection_graph.add_edge iv iv_next support_plane_idx).1.1
                  (d.m_intersection_graph.add_edge iv iv_next support_plane_idx).2.add_line.1
                else (d.m_intersection_graph.add_edge iv iv_next support_plane_idx).2,
              m_support_planes := d.m_support_planes.set support_plane_idx
                { sp.set_iedge v v_next
                    (d.m_intersection_graph.add_edge iv iv_next support_plane_idx).1.1 with
                  unique_iedges := set_insert
                    (d.m_intersection_graph.add_edge iv iv_next support_plane_idx).1.1
                    (sp.set_iedge v v_next (d.m_intersection_graph.add_edge iv iv_next
                      support_plane_idx).1.1).unique_iedges } }) j).Pairwise
              (fun a b => a < b) ∧
            ∀ x, x ∈ (Data_structure.unique_iedges_of
            { d with
              m_intersection_graph :=
                if (d.m_intersection_graph.add_edge iv iv_next support_plane_idx).1.2 = true
                then (d.m_intersection_graph.add_edge iv iv_next
                    support_plane_idx).2.add_line.2.set_line
                  (d.m_intersection_graph.add_edge iv iv_next support_plane_idx).1.1
                  (d.m_intersection_graph.add_edge iv iv_next support_plane_idx).2.add_line.1
                else (d.m_intersection_graph.add_edge iv iv_next support_plane_idx).2,
              m_support_planes := d.m_support_planes.set support_plane_idx
                { sp.set_iedge v v_next
                    (d.m_intersection_graph.add_edge iv iv_next support_plane_idx).1.1 with
                  unique_iedges := set_insert
                    (d.m_intersection_graph.add_edge iv iv_next support_plane_idx).1.1
                    (sp.set_iedge v v_next (d.m_intersection_graph.add_edge iv iv_next
                      support_plane_idx).1.1).unique_iedges } }) j ↔
              x ∈ d.unique_iedges_of j ∨
                (x = (d.m_intersection_graph.add_edge iv iv_next support_plane_idx).1.1 ∧
                  j ∈ [support_plane_idx]) := by
          intro j
          rw [unique_iedges_of_set d _ support_plane_idx sp _ hsp rfl j, set_iedge_unique]
          by_cases hj : j = support_plane_idx
          · subst hj
            rw [if_pos rfl]
            refine ⟨set_insert_pairwise _ _ (hs ▸ hok.2.2.1 j), fun x => ?_⟩
            rw [mem_set_insert, hs, List.mem_singleton]
            tauto
          · rw [if_neg hj]
            refine ⟨hok.2.2.1 j, fun x => ?_⟩
            rw [List.mem_singleton]
            tauto
        obtain ⟨hlt, b1⟩ := add_edge_ok d.unique_iedges_of _ d.m_intersection_graph iv iv_next
          support_plane_idx hok hM
        by_cases hins : (d.m_intersection_graph.add_edge iv iv_next support_plane_idx).1.2 = true
        · simp only [hins, if_true] at b1 ⊢
          exact set_line_ok _
            (d.m_intersection_graph.add_edge iv iv_next support_plane_idx).2.add_line.2 _ _
            b1 hlt
        · simp only [hins, if_false] at b1 ⊢
          exact b1
    · cases h

/-- The call `add_bbox_polygon` keeps the incidence, when the constructor of a support
plane leaves its set `unique_iedges` empty. -/
theorem add_bbox_polygon_ok (G : Geometry) (d d2 : Data_structure) (polygon : List Point_3)
    (hnew : (G.make_support_plane polygon).unique_iedges = [])
    (hok : incidence_ok d.unique_iedges_of d.m_intersection_graph.edges
      d.m_intersection_graph.next_edge)
    (h : d.add_bbox_polygon G polygon = some d2) :
    incidence_ok d2.unique_iedges_of d2.m_intersection_graph.edges
      d2.m_intersection_graph.next_edge := by
  unfold Data_structure.add_bbox_polygon at h
  cases h0 : d.add_support_plane G polygon with
  | none => rw [h0] at h; cases h
  | some added =>
  rw [h0, Option.some_bind] at h
  try dsimp only at h
  have hok1 := add_support_plane_ok G d polygon added hnew hok h0
  cases h1 : added.2.support_plane added.1 with
  | none => rw [h1] at h; cases h
  | some sp =>
  rw [h1, Option.some_bind] at h
  cases h2 : add_bbox_vertices G sp.plane polygon (List.range 4)
      ([], [], added.2.m_intersection_graph) with
  | none => rw [h2] at h; cases h
  | some st =>
  rw [h2, Option.some_bind] at h
  try dsimp only at h
  obtain ⟨e1, e2⟩ := add_bbox_vertices_edges _ _ _ _ _ _ h2
  apply add_bbox_edges_ok _ _ _ _ _ d2 _ h
  have hu : Data_structure.unique_iedges_of
      { added.2 with
        m_support_planes := added.2.m_support_planes.set added.1
          (sp.add_bbox_polygon st.1 st.2.1).2,
        m_intersection_graph := st.2.2 } = added.2.unique_iedges_of := by
    funext j
    rw [unique_iedges_of_set added.2 _ added.1 sp _ h1 rfl j]
    split
    · rename_i hj
      subst hj
      unfold Data_structure.unique_iedges_of
      unfold Data_structure.support_plane at h1
      rw [h1]
      rfl
    · rfl
  rw [hu]
  show incidence_ok added.2.unique_iedges_of st.2.2.edges st.2.2.next_edge
  rw [e1, e2]
  exact hok1

/-- The incidence of a data structure follows from the comparison of the set
`unique_iedges` of each support plane with the plane set of each edge of the graph. -/
theorem incidence_of_bounded (d : Data_structure)
    (h : ∀ i < d.number_of_support_planes, ∀ p ∈ d.m_intersection_graph.edges,
      (p.1 ∈ d.unique_iedges_of i ↔ i ∈ p.2.planes)) : d.incidence := by
  intro i sp e planes h1 h2
  unfold Data_structure.support_plane at h1
  unfold Data_structure.intersected_planes Intersection_graph.intersected_planes at h2
  cases h3 : d.m_intersection_graph.edges.lookup e with
  | none => rw [h3] at h2; cases h2
  | some q =>
    rw [h3] at h2
    simp only [Option.map_some', Option.some.injEq] at h2
    have h4 := h i (List.getElem?_eq_some_iff.mp h1).1 (e, q) (lookup_mem e _ q h3)
    unfold Data_structure.unique_iedges_of at h4
    rw [h1] at h4
    rw [← h2]
    exact h4

/-- The data structure of the constructor is well formed and has the incidence. -/
theorem init_incidence (m_verbose : Bool) :
    (Data_structure.init m_verbose).well_formed ∧ (Data_structure.init m_verbose).incidence := by
  refine ⟨⟨?_, ?_, ?_, ?_, ?_⟩, ?_⟩
  · intro p hp; cases hp
  · exact List.nodup_nil
  · intro sp hsp; cases hsp
  · intro sp hsp; cases hsp
  · intro p hp; cases hp
  · intro i sp e planes h1 h2
    simp [Data_structure.support_plane, Data_structure.init] at h1

/-- C29: the incidence bookkeeping is an invariant of the graph construction. On a data
structure that is well formed (the edge descriptors in use are distinct and below the next
unused one, the sets `unique_iedges` hold descriptors below the next unused one, the planes
of an edge are support planes) and in which, for every support plane `i` and every IEdge
`e` of the graph, `e` is in `unique_iedges(i)` if and only if `i` is in
`intersected_planes(e)`, each of `add_bbox_polygon` (with a plane constructor that leaves
`unique_iedges` empty), `intersect_with_bbox` (its edge splits included) and `add_iedge`,
when it returns, leaves a data structure that again is well formed and has this
incidence. -/
theorem C29_incidence_preserved (G : Geometry) (d : Data_structure)
    (hwf : d.well_formed) (hinc : d.incidence) :
    (∀ polygon d2, (G.make_support_plane polygon).unique_iedges = [] →
      d.add_bbox_polygon G polygon = some d2 → d2.well_formed ∧ d2.incidence) ∧
    (∀ support_plane_idx d2, d.intersect_with_bbox G support_plane_idx = some d2 →
      d2.well_formed ∧ d2.incidence) ∧
    (∀ planes vertices r, d.add_iedge planes vertices = some r →
      r.2.well_formed ∧ r.2.incidence) := by
  have hok := (incidence_ok_iff d).mpr ⟨hwf, hinc⟩
  refine ⟨?_, ?_, ?_⟩
  · intro polygon d2 hnew h
    exact (incidence_ok_iff d2).mp (add_bbox_polygon_ok G d d2 polygon hnew hok h)
  · intro support_plane_idx d2 h
    exact (incidence_ok_iff d2).mp (intersect_with_bbox_ok G d d2 support_plane_idx hok h)
  · intro planes vertices r h
    exact (incidence_ok_iff r.2).mp (add_iedge_ok d r.2 planes vertices r.1 hok h)

theorem C29_incidence_preserved_witness :
    sample_data_corner.well_formed ∧ sample_data_corner.incidence ∧
    (∃ d2, sample_data_corner.add_bbox_polygon sample_cut_geometry
        [(0, 0, 0), (2, 0, 0), (2, 2, 0), (0, 2, 0)] = some d2 ∧
      d2.well_formed ∧ d2.incidence) ∧
    (∃ d2, sample_data_corner.intersect_with_bbox sample_cut_geometry 6 = some d2 ∧
      d2.m_intersection_graph.next_edge = 12 ∧ d2.well_formed ∧ d2.incidence) ∧
    (∃ r, sample_data_corner.add_iedge [0, 6] [1, 2] = some r ∧
      r.2.well_formed ∧ r.2.incidence) := by
  have hwf : sample_data_corner.well_formed := by
    unfold Data_structure.well_formed
    decide
  have hinc : sample_data_corner.incidence :=
    incidence_of_bounded sample_data_corner (by decide)
  obtain ⟨h1, h2, h3⟩ := C29_incidence_preserved sample_cut_geometry sample_data_corner hwf hinc
  obtain ⟨d2, e2⟩ := Option.isSome_iff_exists.mp
    (show (sample_data_corner.add_bbox_polygon sample_cut_geometry
      [(0, 0, 0), (2, 0, 0), (2, 2, 0), (0, 2, 0)]).isSome = true by with_unfolding_all decide)
  obtain ⟨d3, e3⟩ := Option.isSome_iff_exists.mp
    (show (sample_data_corner.intersect_with_bbox sample_cut_geometry 6).isSome = true by
      with_unfolding_all decide)
  have n3 : ((sample_data_corner.intersect_with_bbox sample_cut_geometry 6).map
      (fun d => d.m_intersection_graph.next_edge)) = some 12 := by with_unfolding_all decide
  obtain ⟨r, e4⟩ := Option.isSome_iff_exists.mp
    (show (sample_data_corner.add_iedge [0, 6] [1, 2]).isSome = true by
      with_unfolding_all decide)
  refine ⟨hwf, hinc, ⟨d2, e2, h1 _ d2 rfl e2⟩, ⟨d3, e3, ?_, h2 6 d3 e3⟩, ⟨r, e4, h3 _ _ r e4⟩⟩
  rw [e3] at n3
  simpa using n3

/-! ### `pvertices_around_ivertex` -/

/-- C27 (as stated, refuted): on the sample border, seen from the vertex `(6, 0)` and the
ivertex 0, the first vertex `(6, 1)` in the direction `next` is free, and yet the returned
cluster holds the two border vertices `(6, 2)` and `(6, 3)` that lie beyond it: the walk
goes on after a free vertex and ends only at a free vertex that follows a free vertex. -/
theorem C27_cluster_beyond_first_free :
    sample_border.border_prev_and_next (6, 0) = ((6, 7), (6, 1)) ∧
    sample_border.is_free 0 (6, 1) = true ∧
    sample_border.pvertices_around_ivertex 20 (6, 0) 0 =
      some [(6, 7), (6, 0), (6, 1), (6, 2), (6, 3)] := by
  refine ⟨by with_unfolding_all decide, by with_unfolding_all decide,
    by with_unfolding_all decide⟩

theorem border_walk_mono (B : Border_access) (ivertex : IVertex) :
    ∀ (fuel : Nat) (previous current : PVertex) (w : Bool) (W : List PVertex),
      B.border_walk ivertex fuel previous current w = some W →
      B.border_walk ivertex (fuel + 1) previous current w = some W := by
  intro fuel
  induction fuel with
  | zero => intro previous current w W h; rw [Border_access.border_walk] at h; cases h
  | succ n ih =>
    intro previous current w W h
    rw [Border_access.border_walk] at h ⊢
    split at h
    · rename_i hs; rw [if_pos hs]; exact h
    · rename_i hs
      rw [if_neg hs]
      dsimp only at h ⊢
      split at h
      · rename_i hp
        rw [if_pos hp]
        split at h
        · cases h
        · rename_i hq
          rw [if_neg hq]
          cases hw : B.border_walk ivertex n current (B.border_prev_and_next current).2
              (B.is_free ivertex current) with
          | none => rw [hw] at h; cases h
          | some W2 => rw [hw] at h; rw [ih _ _ _ _ hw]; exact h
      · rename_i hp
        rw [if_neg hp]
        cases hw : B.border_walk ivertex n current (B.border_prev_and_next current).1
            (B.is_free ivertex current) with
        | none => rw [hw] at h; cases h
        | some W2 => rw [hw] at h; rw [ih _ _ _ _ hw]; exact h

/-- A walk has no vertex that is free after a free vertex. -/
theorem border_walk_no_free_pair (B : Border_access) (ivertex : IVertex) :
    ∀ (fuel : Nat) (previous current : PVertex) (w : Bool) (W : List PVertex),
      B.border_walk ivertex fuel previous current w = some W →
      B.no_free_pair ivertex w W := by
  intro fuel
  induction fuel with
  | zero => intro previous current w W h; rw [Border_access.border_walk] at h; cases h
  | succ n ih =>
    intro previous current w W h
    rw [Border_access.border_walk] at h
    split at h
    · cases h; exact True.intro
    · rename_i hs
      have hs2 : ¬ (w = true ∧ B.is_free ivertex current = true) := by
        simpa using hs
      dsimp only at h
      split at h
      · split at h
        · cases h
        · cases hw : B.border_walk ivertex n current (B.border_prev_and_next current).2
              (B.is_free ivertex current) with
          | none => rw [hw] at h; cases h
          | some W2 =>
            rw [hw] at h
            cases h
            exact ⟨hs2, ih _ _ _ _ hw⟩
      · cases hw : B.border_walk ivertex n current (B.border_prev_and_next current).1
            (B.is_free ivertex current) with
        | none => rw [hw] at h; cases h
        | some W2 =>
          rw [hw] at h
          cases h
          exact ⟨hs2, ih _ _ _ _ hw⟩

/-- The loop with one direction left in the queue is the walk in this direction. -/
theorem around_loop_one (B : Border_access) (ivertex : IVertex) :
    ∀ (fuel : Nat) (a : Queue_element) (pv l : List PVertex),
      B.around_loop ivertex fuel [a] pv = some l →
      ∃ W, B.border_walk ivertex fuel a.previous a.pvertex a.previous_was_free = some W ∧
        l = if a.front = true then W.reverse ++ pv else pv ++ W := by
  intro fuel
  induction fuel with
  | zero => intro a pv l h; rw [Border_access.around_loop] at h; cases h
  | succ n ih =>
    intro a pv l h
    rw [Border_access.around_loop] at h
    rw [Border_access.border_walk]
    dsimp only at h ⊢
    split at h
    · rename_i hs
      rw [if_pos hs]
      rw [Border_access.around_loop] at h
      cases h
      exact ⟨[], rfl, by simp⟩
    · rename_i hs
      rw [if_neg hs]
      split at h
      · rename_i hp
        rw [if_pos hp]
        split at h
        · cases h
        · rename_i hq
          rw [if_neg hq]
          obtain ⟨W, hW, hl⟩ := ih _ _ _ h
          dsimp only at hW hl
          rw [hW]
          refine ⟨a.pvertex :: W, rfl, ?_⟩
          rw [hl]
          by_cases hf : a.front = true <;> simp [hf]
      · rename_i hp
        rw [if_neg hp]
        obtain ⟨W, hW, hl⟩ := ih _ _ _ h
        dsimp only at hW hl
        rw [hW]
        refine ⟨a.pvertex :: W, rfl, ?_⟩
        rw [hl]
        by_cases hf : a.front = true <;> simp [hf]

/-- The loop with the two directions in the queue is the two walks. -/
theorem around_loop_two (B : Border_access) (ivertex : IVertex) :
    ∀ (fuel : Nat) (a b : Queue_element) (pv l : List PVertex),
      a.front ≠ b.front →
      B.around_loop ivertex fuel [a, b] pv = some l →
      ∃ Wa Wb, B.border_walk ivertex fuel a.previous a.pvertex a.previous_was_free = some Wa ∧
        B.border_walk ivertex fuel b.previous b.pvertex b.previous_was_free = some Wb ∧
        l = if a.front = true then Wa.reverse ++ pv ++ Wb else Wb.reverse ++ pv ++ Wa := by
  intro fuel
  induction fuel with
  | zero => intro a b pv l _ h; rw [Border_access.around_loop] at h; cases h
  | succ n ih =>
    intro a b pv l hab h
    rw [Border_access.around_loop] at h
    rw [Border_access.border_walk]
    dsimp only at h ⊢
    split at h
    · rename_i hs
      rw [if_pos hs]
      obtain ⟨Wb, hWb, hl⟩ := around_loop_one B ivertex _ _ _ _ h
      refine ⟨[], Wb, rfl, border_walk_mono B ivertex _ _ _ _ _ hWb, ?_⟩
      rw [hl]
      by_cases hf : a.front = true
      · have hb : b.front = false := by
          cases hbf : b.front with
          | false => rfl
          | true => rw [hf, hbf] at hab; exact absurd rfl hab
        simp [hf, hb]
      · have hb : b.front = true := by
          cases hbf : b.front with
          | true => rfl
          | false =>
            have : a.front = false := by simpa using hf
            rw [this, hbf] at hab; exact absurd rfl hab
        simp [hf, hb]
    · rename_i hs
      rw [if_neg hs]
      split at h
      · rename_i hp
        rw [if_pos hp]
        split at h
        · cases h
        · rename_i hq
          rw [if_neg hq]
          obtain ⟨Wb, Wa, hWb, hWa, hl⟩ := ih b
            ⟨a.pvertex, (B.border_prev_and_next a.pvertex).2, a.front, B.is_free ivertex a.pvertex⟩
            _ _ (fun hc => hab hc.symm) h
          dsimp only at hWa hl
          rw [hWa]
          refine ⟨a.pvertex :: Wa, Wb, rfl, border_walk_mono B ivertex _ _ _ _ _ hWb, ?_⟩
          rw [hl]
          by_cases hf : a.front = true
          · have hb : b.front = false := by
              cases hbf : b.front with
              | false => rfl
              | true => rw [hf, hbf] at hab; exact absurd rfl hab
            simp [hf, hb]
          · have hb : b.front = true := by
              cases hbf : b.front with
              | true => rfl
              | false =>
                have : a.front = false := by simpa using hf
                rw [this, hbf] at hab; exact absurd rfl hab
            simp [hf, hb]
      · rename_i hp
        rw [if_neg hp]
        obtain ⟨Wb, Wa, hWb, hWa, hl⟩ := ih b
          ⟨a.pvertex, (B.border_prev_and_next a.pvertex).1, a.front, B.is_free ivertex a.pvertex⟩
          _ _ (fun hc => hab hc.symm) h
        dsimp only at hWa hl
        rw [hWa]
        refine ⟨a.pvertex :: Wa, Wb, rfl, border_walk_mono B ivertex _ _ _ _ _ hWb, ?_⟩
        rw [hl]
        by_cases hf : a.front = true
        · have hb : b.front = false := by
            cases hbf : b.front with
            | false => rfl
            | true => rw [hf, hbf] at hab; exact absurd rfl hab
          simp [hf, hb]
        · have hb : b.front = true := by
            cases hbf : b.front with
            | true => rfl
            | false =>
              have : a.front = false := by simpa using hf
              rw [this, hbf] at hab; exact absurd rfl hab
          simp [hf, hb]

/-- C27 (amended): in each of the two border directions the walk of
`pvertices_around_ivertex` ends at the first vertex that is free and whose predecessor in
the walk is free as well (the start `pvertex` counts as not free). The returned cluster
is the walk in the direction `prev` reversed, then `pvertex`, then the walk in the
direction `next`; each walk holds the border vertices before the vertex at which it ends,
so a free vertex after a vertex that is not free belongs to the cluster, and the walk
goes on beyond it. In particular the first vertex in each direction always belongs to the
cluster. -/
theorem C27_cluster_of_walks (B : Border_access) (fuel : Nat) (pvertex : PVertex)
    (ivertex : IVertex) (l : List PVertex)
    (h : B.pvertices_around_ivertex fuel pvertex ivertex = some l) :
    ∃ F K,
      B.border_walk ivertex fuel pvertex (B.border_prev_and_next pvertex).1 false = some F ∧
      B.border_walk ivertex fuel pvertex (B.border_prev_and_next pvertex).2 false = some K ∧
      l = F.reverse ++ pvertex :: K ∧
      B.no_free_pair ivertex false F ∧ B.no_free_pair ivertex false K ∧
      F.head? = some (B.border_prev_and_next pvertex).1 ∧
      K.head? = some (B.border_prev_and_next pvertex).2 := by
  unfold Border_access.pvertices_around_ivertex at h
  dsimp only at h
  cases hl : B.around_loop ivertex fuel
      [⟨pvertex, (B.border_prev_and_next pvertex).1, true, false⟩,
       ⟨pvertex, (B.border_prev_and_next pvertex).2, false, false⟩] [pvertex] with
  | none => rw [hl] at h; cases h
  | some l2 =>
    rw [hl] at h
    dsimp only at h
    split at h
    · cases h
    cases h
    obtain ⟨F, K, hF, hK, hl2⟩ := around_loop_two B ivertex fuel _ _ _ _ (by simp) hl
    dsimp only at hF hK hl2
    refine ⟨F, K, hF, hK, by simpa using hl2, border_walk_no_free_pair B ivertex _ _ _ _ _ hF,
      border_walk_no_free_pair B ivertex _ _ _ _ _ hK, ?_, ?_⟩
    · cases fuel with
      | zero => rw [Border_access.border_walk] at hF; cases hF
      | succ n =>
        rw [Border_access.border_walk] at hF
        simp only [Bool.false_and, Bool.false_eq_true, if_false] at hF
        split at hF
        · split at hF
          · cases hF
          · cases hw : B.border_walk ivertex n (B.border_prev_and_next pvertex).1
                (B.border_prev_and_next (B.border_prev_and_next pvertex).1).2
                (B.is_free ivertex (B.border_prev_and_next pvertex).1) with
            | none => rw [hw] at hF; cases hF
            | some W => rw [hw] at hF; cases hF; rfl
        · cases hw : B.border_walk ivertex n (B.border_prev_and_next pvertex).1
              (B.border_prev_and_next (B.border_prev_and_next pvertex).1).1
              (B.is_free ivertex (B.border_prev_and_next pvertex).1) with
          | none => rw [hw] at hF; cases hF
          | some W => rw [hw] at hF; cases hF; rfl
    · cases fuel with
      | zero => rw [Border_access.border_walk] at hK; cases hK
      | succ n =>
        rw [Border_access.border_walk] at hK
        simp only [Bool.false_and, Bool.false_eq_true, if_false] at hK
        split at hK
        · split at hK
          · cases hK
          · cases hw : B.border_walk ivertex n (B.border_prev_and_next pvertex).2
                (B.border_prev_and_next (B.border_prev_and_next pvertex).2).2
                (B.is_free ivertex (B.border_prev_and_next pvertex).2) with
            | none => rw [hw] at hK; cases hK
            | some W => rw [hw] at hK; cases hK; rfl
        · cases hw : B.border_walk ivertex n (B.border_prev_and_next pvertex).2
              (B.border_prev_and_next (B.border_prev_and_next pvertex).2).1
              (B.is_free ivertex (B.border_prev_and_next pvertex).2) with
          | none => rw [hw] at hK; cases hK
          | some W => rw [hw] at hK; cases hK; rfl

theorem C27_cluster_of_walks_witness :
    sample_border.pvertices_around_ivertex 20 (6, 0) 0 =
      some [(6, 7), (6, 0), (6, 1), (6, 2), (6, 3)] ∧
    ∃ F K,
      sample_border.border_walk 0 20 (6, 0) (sample_border.border_prev_and_next (6, 0)).1
        false = some F ∧
      sample_border.border_walk 0 20 (6, 0) (sample_border.border_prev_and_next (6, 0)).2
        false = some K ∧
      [(6, 7), (6, 0), (6, 1), (6, 2), (6, 3)] = F.reverse ++ (6, 0) :: K ∧
      sample_border.no_free_pair 0 false F ∧ sample_border.no_free_pair 0 false K ∧
      F.head? = some (sample_border.border_prev_and_next (6, 0)).1 ∧
      K.head? = some (sample_border.border_prev_and_next (6, 0)).2 :=
  ⟨by with_unfolding_all decide,
    C27_cluster_of_walks sample_border 20 (6, 0) 0 [(6, 7), (6, 0), (6, 1), (6, 2), (6, 3)]
      (by with_unfolding_all decide)⟩

/-! ### `intersect_with_bbox`: the new edges -/

/-- The output iterator of the `std::set_intersection` keeps the one bbox plane of its
range. -/
theorem common_bbox_plane_spec : ∀ (l : List Nat) (acc c : Nat),
    common_bbox_plane l acc = some c →
    (c = acc ∧ ∀ x ∈ l, ¬ x < 6) ∨
    (acc = no_element ∧ c ∈ l ∧ c < 6 ∧ ∀ x ∈ l, x < 6 → x = c) := by
  intro l
  induction l with
  | nil =>
    intro acc c h
    rw [common_bbox_plane] at h
    cases h
    exact Or.inl ⟨rfl, fun x hx => by cases hx⟩
  | cons idx rest ih =>
    intro acc c h
    rw [common_bbox_plane] at h
    split at h
    · rename_i h6
      split at h
      · cases h
      · rename_i hacc
        have hacc2 : acc = no_element := by simpa using hacc
        rcases ih idx c h with ⟨h1, h2⟩ | ⟨h1, _, _, _⟩
        · refine Or.inr ⟨hacc2, ?_, ?_, ?_⟩
          · rw [h1]; exact List.mem_cons_self _ _
          · rw [h1]; exact h6
          · intro x hx hx6
            rcases List.mem_cons.mp hx with hx | hx
            · rw [hx, h1]
            · exact absurd hx6 (h2 x hx)
        · exfalso
          rw [h1] at h6
          unfold no_element at h6
          omega
    · rename_i h6
      rcases ih acc c h with ⟨h1, h2⟩ | ⟨h1, h2, h3, h4⟩
      · refine Or.inl ⟨h1, ?_⟩
        intro x hx
        rcases List.mem_cons.mp hx with hx | hx
        · rw [hx]; exact h6
        · exact h2 x hx
      · refine Or.inr ⟨h1, List.mem_cons_of_mem _ h2, h3, ?_⟩
        intro x hx hx6
        rcases List.mem_cons.mp hx with hx | hx
        · rw [hx] at hx6; exact absurd hx6 h6
        · exact h4 x hx hx6

theorem lookup_none_of_not_mem {β : Type} (k : Nat) : ∀ (m : List (Nat × β)),
    k ∉ m.map (fun kv => kv.1) → m.lookup k = none := by
  intro m
  induction m with
  | nil => intro _; rfl
  | cons p rest ih =>
    intro h
    obtain ⟨a, b⟩ := p
    rw [List.map_cons, List.mem_cons, not_or] at h
    have hb : (k == a) = false := beq_eq_false_iff_ne.mpr h.1
    rw [List.lookup]
    simp only [hb]
    exact ih h.2

theorem lookup_mem_of {β : Type} (k : Nat) : ∀ (m : List (Nat × β)) (v : β),
    m.lookup k = some v → (k, v) ∈ m := by
  intro m
  induction m with
  | nil => intro v h; simp [List.lookup] at h
  | cons p rest ih =>
    intro v h
    obtain ⟨a, b⟩ := p
    rw [List.lookup] at h
    by_cases hka : k = a
    · subst hka
      simp only [beq_self_eq_true, Option.some.injEq] at h
      rw [h]; exact List.mem_cons_self _ _
    · have hb : (k == a) = false := beq_eq_false_iff_ne.mpr hka
      simp only [hb] at h
      exact List.mem_cons_of_mem _ (ih v h)

theorem lookup_some_of_mem {β : Type} (k : Nat) : ∀ (m : List (Nat × β)),
    k ∈ m.map (fun kv => kv.1) → ∃ v, m.lookup k = some v := by
  intro m
  induction m with
  | nil => intro h; cases h
  | cons p rest ih =>
    intro h
    obtain ⟨a, b⟩ := p
    rw [List.lookup]
    by_cases hka : k = a
    · subst hka
      exact ⟨b, by simp⟩
    · have hb : (k == a) = false := beq_eq_false_iff_ne.mpr hka
      simp only [hb]
      rw [List.map_cons, List.mem_cons] at h
      rcases h with h | h
      · exact absurd h hka
      · exact ih h

/-- One round of the second loop of `intersect_with_bbox` keeps the description of its
state, when the hit point of the round is not yet a vertex of the graph. -/
theorem bbox_scan_loop_ok (g0 : Intersection_graph) (intersections : List (IEdge × Point_3))
    (hpts : (intersections.map (fun x => x.2)).Nodup)
    (hnew : ∀ x ∈ intersections, ∀ v ∈ g0.vertices, v.point ≠ x.2) :
    ∀ (k a : Nat) (st st2 : Bbox_scan),
      Bbox_scan.ok g0 intersections a st →
      bbox_scan_loop intersections (List.range' a k) st = some st2 →
      Bbox_scan.ok g0 intersections (a + k) st2 := by
  intro k
  induction k with
  | zero =>
    intro a st st2 hok h
    rw [List.range'_zero, bbox_scan_loop] at h
    cases h
    exact hok
  | succ k ih =>
    intro a st st2 hok h
    rw [List.range'_succ, bbox_scan_loop] at h
    dsimp only at h
    obtain ⟨k1, k2, k3, k4, k5, k6, k7, k8, k9, k10⟩ := hok
    cases hi0 : intersections[a]? with
    | none => rw [hi0] at h; cases h
    | some x0 =>
    obtain ⟨iedge0, point⟩ := x0
    cases hi1 : intersections[(a + 1) % intersections.length]? with
    | none => rw [hi0, hi1] at h; cases h
    | some x1 =>
    obtain ⟨iedge1, point1⟩ := x1
    rw [hi0, hi1] at h
    dsimp only at h
    have hip : ∀ e, st.graph.intersected_planes e = g0.intersected_planes e := by
      intro e
      unfold Intersection_graph.intersected_planes
      rw [k1]
    rw [hip, hip] at h
    cases hp0 : g0.intersected_planes iedge0 with
    | none => rw [hp0] at h; cases h
    | some planes0 =>
    cases hp1 : g0.intersected_planes iedge1 with
    | none => rw [hp0, hp1] at h; cases h
    | some planes1 =>
    rw [hp0, hp1] at h
    dsimp only at h
    cases hc : common_bbox_plane (planes0.filter (fun q => q ∈ planes1)) no_element with
    | none => rw [hc] at h; cases h
    | some c =>
    rw [hc] at h
    dsimp only at h
    split at h
    · cases h
    rename_i hcne
    have hcne2 : c ≠ no_element := by simpa using hcne
    have hcs : c ∈ planes0 ∧ c ∈ planes1 ∧ c < 6 ∧
        ∀ x, x ∈ planes0 → x ∈ planes1 → x < 6 → x = c := by
      rcases common_bbox_plane_spec _ _ _ hc with ⟨h1, _⟩ | ⟨_, h2, h3, h4⟩
      · exact absurd h1 hcne2
      · rw [List.mem_filter] at h2
        refine ⟨h2.1, by simpa using h2.2, h3, ?_⟩
        intro x hx0 hx1 hx6
        exact h4 x (List.mem_filter.mpr ⟨hx0, by simpa using hx1⟩) hx6
    have ha : a < intersections.length := (List.getElem?_eq_some_iff.mp hi0).1
    have htake : intersections.take (a + 1) = intersections.take a ++ [(iedge0, point)] := by
      rw [List.take_succ, hi0]
      rfl
    have hfresh : ∀ (g : Intersection_graph),
        g.vertices = g0.vertices ++
          (intersections.take a).map (fun x => (⟨x.2, true⟩ : Vertex_property)) →
        (g.add_vertex point).1.1 = g0.vertices.length + a ∧
        (g.add_vertex point).2 = { g with vertices := g.vertices ++ [⟨point, true⟩] } := by
      intro g hg
      have hnone : g.vertices.findIdx? (fun v => v.point = point) = none := by
        rw [List.findIdx?_eq_none_iff]
        intro v hv
        rw [hg, List.mem_append] at hv
        simp only [decide_eq_false_iff_not]
        rcases hv with hv | hv
        · exact hnew (iedge0, point) (List.getElem?_mem hi0 |> fun hm => hm) v hv
        · obtain ⟨x, hx, rfl⟩ := List.mem_map.mp hv
          show ¬ x.2 = point
          intro hxp
          obtain ⟨j, hj⟩ := List.getElem?_of_mem hx
          rw [List.getElem?_take] at hj
          have hj2 : j < a ∧ intersections[j]? = some x := by
            split at hj
            · rename_i hlt; exact ⟨hlt, hj⟩
            · cases hj
          have e1 : (intersections.map (fun x => x.2))[j]? = some point := by
            rw [List.getElem?_map, hj2.2, ← hxp]; rfl
          have e2 : (intersections.map (fun x => x.2))[a]? = some point := by
            rw [List.getElem?_map, hi0]; rfl
          have := (List.nodup_iff_getElem?_ne_getElem?.mp hpts) j a hj2.1
            (by rw [List.length_map]; exact ha)
          exact this (e1.trans e2.symm)
      unfold Intersection_graph.add_vertex
      rw [hnone]
      refine ⟨?_, rfl⟩
      show g.vertices.length = _
      rw [hg, List.length_append, List.length_map, List.length_take, Nat.min_eq_left (Nat.le_of_lt ha)]
    have hrange : List.range' g0.vertices.length (a + 1) =
        List.range' g0.vertices.length a ++ [g0.vertices.length + a] := by
      rw [List.range'_concat]
      simp
    have k10b : ∀ (i c2 : Nat), (st.common_planes_idx ++ [c])[i]? = some c2 →
        ∃ (e0 e1 : IEdge × Point_3) (planes0 planes1 : List Nat),
          intersections[i]? = some e0 ∧
          intersections[(i + 1) % intersections.length]? = some e1 ∧
          g0.intersected_planes e0.1 = some planes0 ∧
          g0.intersected_planes e1.1 = some planes1 ∧
          c2 < 6 ∧ c2 ∈ planes0 ∧ c2 ∈ planes1 ∧
          ∀ x, x ∈ planes0 → x ∈ planes1 → x < 6 → x = c2 := by
      intro i c2 hic
      rcases Nat.lt_trichotomy i st.common_planes_idx.length with hlt | heq | hgt
      · rw [List.getElem?_append_left hlt] at hic
        exact k10 i c2 hic
      · rw [heq, List.getElem?_concat_length] at hic
        cases hic
        rw [heq, k5]
        exact ⟨(iedge0, point), (iedge1, point1), planes0, planes1, hi0, hi1, hp0, hp1,
          hcs.2.2.1, hcs.1, hcs.2.1, hcs.2.2.2⟩
      · rw [List.getElem?_eq_none_iff.mpr (by
          rw [List.length_append, List.length_singleton]; omega)] at hic
        cases hic
    rw [show a + (k + 1) = (a + 1) + k by omega]
    apply ih (a + 1) _ st2 _ h
    cases hl : st.map_lines_idx.lookup c with
    | some line =>
      dsimp only
      obtain ⟨f1, f2⟩ := hfresh st.graph k3
      have hmem : c ∈ st.map_lines_idx.map (fun kv => kv.1) :=
        List.mem_map.mpr ⟨(c, line), lookup_mem_of c _ line hl, rfl⟩
      refine ⟨?_, ?_, ?_, ?_, ?_, by rw [f2]; exact k6, k7, k8, ?_, k10b⟩
      · rw [f2]; exact k1
      · rw [f2]; exact k2
      · rw [f2, htake, List.map_append, ← List.append_assoc, ← k3]; rfl
      · rw [f1, k4, hrange]
      · rw [List.length_append, k5]; rfl
      · intro c2 hc2
        rcases List.mem_append.mp hc2 with hc2 | hc2
        · exact k9 c2 hc2
        · rw [List.mem_singleton] at hc2
          rw [hc2]; exact hmem
    | none =>
      dsimp only
      obtain ⟨f1, f2⟩ := hfresh st.graph.add_line.2 k3
      have hnot : c ∉ st.map_lines_idx.map (fun kv => kv.1) := by
        intro hmem
        obtain ⟨v, hv⟩ := lookup_some_of_mem c _ hmem
        rw [hl] at hv
        cases hv
      refine ⟨?_, ?_, ?_, ?_, ?_, ?_, ?_, ?_, ?_, k10b⟩
      · rw [f2]; exact k1
      · rw [f2]; exact k2
      · rw [f2, htake, List.map_append, ← List.append_assoc]
        show st.graph.vertices ++ _ = _
        rw [k3]; rfl
      · rw [f1, k4, hrange]
      · rw [List.length_append, k5]; rfl
      · rw [f2]
        show st.graph.m_nb_lines + 1 = _
        rw [k6, List.length_append, List.length_singleton, Nat.add_assoc]
      · rw [List.map_append, k7, List.length_append, List.length_singleton,
          List.range'_concat]
        show _ ++ [st.graph.m_nb_lines] = _
        rw [k6]
        simp
      · rw [List.map_append, List.nodup_append]
        refine ⟨k8, by simp, ?_⟩
        intro x hx1 hx2
        rw [List.map_singleton, List.mem_singleton] at hx2
        rw [hx2] at hx1
        exact hnot hx1
      · intro c2 hc2
        rw [List.map_append, List.mem_append]
        rcases List.mem_append.mp hc2 with hc2 | hc2
        · exact Or.inl (k9 c2 hc2)
        · rw [List.mem_singleton] at hc2
          rw [hc2]
          exact Or.inr (by simp)

/-- One round of the third loop of `intersect_with_bbox`, seen from the graph. -/
theorem bbox_split_loop_cons (support_plane_idx : Nat)
    (intersections : List (IEdge × Point_3)) (common_planes_idx : List Nat)
    (map_lines_idx : List (Nat × Nat)) (vertices : List IVertex) (i : Nat) (rest : List Nat)
    (d d2 : Data_structure)
    (h : Data_structure.bbox_split_loop support_plane_idx intersections common_planes_idx
      map_lines_idx vertices (i :: rest) d = some d2) :
    ∃ (iedge : IEdge) (pt : Point_3) (vertex next_vertex : IVertex) (c : Nat)
      (d7 : Data_structure),
      intersections[i]? = some (iedge, pt) ∧ vertices[i]? = some vertex ∧
      vertices[(i + 1) % intersections.length]? = some next_vertex ∧
      common_planes_idx[i]? = some c ∧
      d.m_intersection_graph.bbox_round iedge vertex next_vertex support_plane_idx c
        ((map_lines_idx.lookup c).getD 0) = some d7.m_intersection_graph ∧
      Data_structure.bbox_split_loop support_plane_idx intersections common_planes_idx
        map_lines_idx vertices rest d7 = some d2 := by
  unfold Data_structure.bbox_split_loop at h
  dsimp only at h
  split at h
  · rename_i iedge pt vertex next_vertex common_plane_idx hi hv hnv hc
    cases h0 : d.m_intersection_graph.intersected_planes iedge with
    | none => rw [h0] at h; cases h
    | some iplanes =>
    rw [h0, Option.some_bind] at h
    cases h1 : d.modify_unique_iedges_all (fun s => s.erase iedge) iplanes with
    | none => rw [h1] at h; cases h
    | some d1 =>
    rw [h1, Option.some_bind] at h
    have hg1 := modify_unique_iedges_all_graph _ _ _ _ h1
    cases h2 : d1.m_intersection_graph.split_edge iedge vertex with
    | none => rw [h2] at h; cases h
    | some split =>
    rw [h2, Option.some_bind] at h
    try dsimp only at h
    cases h3 : split.2.intersected_planes split.1.1 with
    | none => rw [h3] at h; cases h
    | some iplanes_1 =>
    rw [h3, Option.some_bind] at h
    cases h4 : Data_structure.modify_unique_iedges_all
        { d1 with m_intersection_graph := split.2 } (set_insert split.1.1) iplanes_1 with
    | none => rw [h4] at h; cases h
    | some d3 =>
    rw [h4, Option.some_bind] at h
    have hg3 := modify_unique_iedges_all_graph _ _ _ _ h4
    cases h5 : d3.m_intersection_graph.intersected_planes split.1.2 with
    | none => rw [h5] at h; cases h
    | some iplanes_2 =>
    rw [h5, Option.some_bind] at h
    cases h6 : d3.modify_unique_iedges_all (set_insert split.1.2) iplanes_2 with
    | none => rw [h6] at h; cases h
    | some d4 =>
    rw [h6, Option.some_bind] at h
    have hg4 := modify_unique_iedges_all_graph _ _ _ _ h6
    have hE4 : d4.m_intersection_graph = split.2 := by rw [hg4, hg3]
    try dsimp only at h
    rw [hE4] at h
    generalize hg2 : Intersection_graph.set_line _ _ _ = g2 at h
    cases h7 : Data_structure.modify_unique_iedges
        { d4 with m_intersection_graph := g2 } support_plane_idx
        (set_insert (split.2.add_edge vertex next_vertex support_plane_idx).1.1) with
    | none => rw [h7] at h; cases h
    | some d6 =>
    rw [h7, Option.some_bind] at h
    have hg6 := modify_unique_iedges_graph _ _ _ _ h7
    cases h8 : d6.modify_unique_iedges common_plane_idx
        (set_insert (split.2.add_edge vertex next_vertex support_plane_idx).1.1) with
    | none => rw [h8] at h; cases h
    | some d7 =>
    rw [h8, Option.some_bind] at h
    have hg7 := modify_unique_iedges_graph _ _ _ _ h8
    refine ⟨iedge, pt, vertex, next_vertex, common_plane_idx, d7, hi, hv, hnv, hc, ?_, h⟩
    unfold Intersection_graph.bbox_round
    rw [← hg1, h2, hg7, hg6]
    show some _ = some g2
    rw [← hg2]
  · cases h

theorem next_edge_not_below (a b i k : Nat) (h1 : a = b + 3 * i) (h2 : a + k < b) : False := by
  omega

theorem new_edge_not_old (b j e : Nat) (h : e < b) (h2 : b + 3 * j + 2 = e) : False := by
  omega

theorem not_join_old (V n i src tgt : Nat) (h1 : src < V ∨ tgt < V) :
    ¬ ((src = V + i ∧ tgt = V + (i + 1) % n) ∨ (src = V + (i + 1) % n ∧ tgt = V + i)) := by
  omega

theorem not_join_new (V n i j : Nat) (hn : 3 ≤ n) (hi : i < n) (hj : j < i) :
    ¬ ((V + j = V + i ∧ V + (j + 1) % n = V + (i + 1) % n) ∨
      (V + j = V + (i + 1) % n ∧ V + (j + 1) % n = V + i)) := by
  intro hcase
  rcases hcase with ⟨e1, _⟩ | ⟨e1, e2⟩
  · omega
  · have e3 : j = (i + 1) % n := by omega
    have e4 : (j + 1) % n = i := by omega
    by_cases hin : i + 1 < n
    · rw [Nat.mod_eq_of_lt hin] at e3
      omega
    · have hin2 : i + 1 = n := by omega
      rw [hin2, Nat.mod_self] at e3
      rw [e3, Nat.mod_eq_of_lt (by omega)] at e4
      omega

/-- One round of the third loop of `intersect_with_bbox` adds the new edge of the round,
when the `n >= 3` vertices of the hits are new and distinct. -/
theorem bbox_round_ok (g0 : Intersection_graph) (V n s : Nat) (common : List Nat)
    (map_lines : List (Nat × Nat)) (i c : Nat) (g g2 : Intersection_graph) (iedge : IEdge)
    (hn : 3 ≤ n) (hi : i < n)
    (hends : ∀ p ∈ g0.edges, p.2.source < V ∧ p.2.target < V)
    (he : iedge < g0.next_edge) (hc : common[i]? = some c)
    (hok : bbox_split_ok g0 V n s common map_lines i g)
    (h : g.bbox_round iedge (V + i) (V + (i + 1) % n) s c ((map_lines.lookup c).getD 0) =
      some g2) :
    bbox_split_ok g0 V n s common map_lines (i + 1) g2 := by
  obtain ⟨i1, i1b, i1c, i2, i6, i4, i3⟩ := hok
  unfold Intersection_graph.bbox_round Intersection_graph.split_edge at h
  cases hlook : g.edges.lookup iedge with
  | none => rw [hlook] at h; cases h
  | some q =>
  rw [hlook] at h
  simp only [Option.map_some', Option.some.injEq] at h
  have hq : (iedge, q) ∈ g.edges := lookup_mem iedge _ q hlook
  have hq0 := hends _ (i6 _ hq he)
  have i1n : (g.next_edge : Nat) = g0.next_edge + 3 * i := i1
  have hen : (iedge : Nat) < g0.next_edge := he
  have hfind : (g.edges.filter (fun p => p.1 ≠ iedge) ++
      [(g.next_edge, ({ q with target := V + i } : Edge_property)),
       (g.next_edge + 1, ({ q with source := V + i } : Edge_property))]).find? (fun p =>
        (p.2.source = V + i ∧ p.2.target = V + (i + 1) % n) ∨
        (p.2.source = V + (i + 1) % n ∧ p.2.target = V + i)) = none := by
    rw [List.find?_eq_none]
    intro p hp
    simp only [decide_eq_true_eq]
    rcases List.mem_append.mp hp with hp | hp
    · have hp1 := (List.mem_filter.mp hp).1
      by_cases hold : p.1 < g0.next_edge
      · exact not_join_old V n i p.2.source p.2.target (Or.inl (hends p (i6 p hp1 hold)).1)
      · rcases i4 p hp1 (Nat.le_of_not_lt hold) with h1 | ⟨j, hj, h2, h3⟩
        · exact not_join_old V n i p.2.source p.2.target h1
        · rw [h2, h3]
          exact not_join_new V n i j hn hi hj
    · simp only [List.mem_cons, List.mem_singleton, List.not_mem_nil, or_false] at hp
      rcases hp with hp | hp
      · rw [hp]
        exact not_join_old V n i q.source (V + i) (Or.inl hq0.1)
      · rw [hp]
        exact not_join_old V n i (V + i) q.target (Or.inr hq0.2)
  unfold Intersection_graph.add_edge at h
  dsimp only at h
  rw [hfind] at h
  dsimp only at h
  have hlt : ∀ p ∈ g.edges.filter (fun p => p.1 ≠ iedge) ++
      [(g.next_edge, ({ q with target := V + i } : Edge_property)),
       (g.next_edge + 1, ({ q with source := V + i } : Edge_property))],
      p.1 < g.next_edge + 2 := by
    intro p hp
    rcases List.mem_append.mp hp with hp | hp
    · exact Nat.lt_add_right 2 (i2 p (List.mem_filter.mp hp).1)
    · simp only [List.mem_cons, List.mem_singleton, List.not_mem_nil, or_false] at hp
      rcases hp with hp | hp
      · rw [hp]; exact Nat.lt_add_of_pos_right (by decide)
      · rw [hp]; exact Nat.add_lt_add_left (by decide) _
  have hedges : g2.edges = (g.edges.filter (fun p => p.1 ≠ iedge) ++
      [(g.next_edge, ({ q with target := V + i } : Edge_property)),
       (g.next_edge + 1, ({ q with source := V + i } : Edge_property))]) ++
      [(g.next_edge + 2, (⟨V + i, V + (i + 1) % n, set_insert c [s],
        (map_lines.lookup c).getD 0, true⟩ : Edge_property))] := by
    rw [← h]
    simp only [Intersection_graph.set_line, Intersection_graph.modify_edge]
    rw [map_modify_last _ _ _ (fun q => { q with planes := set_insert c q.planes }) hlt,
      map_modify_last _ _ _ (fun q => { q with line := (map_lines.lookup c).getD 0 }) hlt]
  have hnext : (g2.next_edge : Nat) = g.next_edge + 3 := by
    rw [← h]; rfl
  have hv : g2.vertices = g.vertices := by rw [← h]; rfl
  have hl : g2.m_nb_lines = g.m_nb_lines := by rw [← h]; rfl
  have hnext2 : (g2.next_edge : Nat) = g0.next_edge + 3 * (i + 1) := by
    rw [hnext, i1n, Nat.mul_add, Nat.mul_one, Nat.add_assoc]
  refine ⟨hnext2, by rw [hv, i1b], by rw [hl, i1c], ?_, ?_, ?_, ?_⟩
  · intro p hp
    rw [hedges] at hp
    rw [hnext]
    rcases List.mem_append.mp hp with hp | hp
    · exact Nat.lt_succ_of_lt (hlt p hp)
    · rw [List.mem_singleton] at hp
      rw [hp]; exact Nat.add_lt_add_left (by decide) _
  · intro p hp hold
    rw [hedges] at hp
    rcases List.mem_append.mp hp with hp | hp
    · rcases List.mem_append.mp hp with hp | hp
      · exact i6 p (List.mem_filter.mp hp).1 hold
      · simp only [List.mem_cons, List.mem_singleton, List.not_mem_nil, or_false] at hp
        rcases hp with hp | hp
        · rw [hp] at hold
          exact absurd (next_edge_not_below _ _ _ 0 i1 hold) id
        · rw [hp] at hold
          exact absurd (next_edge_not_below _ _ _ 1 i1 hold) id
    · rw [List.mem_singleton] at hp
      rw [hp] at hold
      exact absurd (next_edge_not_below _ _ _ 2 i1 hold) id
  · intro p hp hnew
    rw [hedges] at hp
    rcases List.mem_append.mp hp with hp | hp
    · rcases List.mem_append.mp hp with hp | hp
      · rcases i4 p (List.mem_filter.mp hp).1 hnew with h1 | ⟨j, hj, h2, h3⟩
        · exact Or.inl h1
        · exact Or.inr ⟨j, by omega, h2, h3⟩
      · simp only [List.mem_cons, List.mem_singleton, List.not_mem_nil, or_false] at hp
        rcases hp with hp | hp
        · rw [hp]; exact Or.inl (Or.inl hq0.1)
        · rw [hp]; exact Or.inl (Or.inr hq0.2)
    · rw [List.mem_singleton] at hp
      rw [hp]
      exact Or.inr ⟨i, by omega, rfl, rfl⟩
  · intro j c2 hj hc2
    rw [hedges]
    by_cases hji : j = i
    · subst hji
      rw [hc] at hc2
      cases hc2
      apply List.mem_append_right
      rw [List.mem_singleton, i1n]
    · have := i3 j c2 (by omega) hc2
      apply List.mem_append_left
      apply List.mem_append_left
      rw [List.mem_filter]
      refine ⟨this, ?_⟩
      simp only [ne_eq, decide_not, Bool.not_eq_true', decide_eq_false_iff_not]
      show ¬ g0.next_edge + 3 * j + 2 = iedge
      intro hji2
      exact new_edge_not_old _ _ _ he hji2

/-- The hit edges that the first loop of `intersect_with_bbox` collects are edges of its
range. -/
theorem collect_intersections_ids (G : Geometry) (plane : Plane_3) (g : Intersection_graph) :
    ∀ (l : List IEdge) (centroid_3 : Point_3) (acc : List (IEdge × Point_3))
      (r : Point_3 × List (IEdge × Point_3)),
      collect_intersections G plane g l centroid_3 acc = some r →
      ∀ x ∈ r.2, x ∈ acc ∨ x.1 ∈ l := by
  intro l
  induction l with
  | nil =>
    intro centroid_3 acc r h x hx
    rw [collect_intersections] at h
    cases h
    exact Or.inl hx
  | cons iedge rest ih =>
    intro centroid_3 acc r h x hx
    rw [collect_intersections] at h
    cases hs : g.segment_3 iedge with
    | none => rw [hs] at h; cases h
    | some segment =>
      rw [hs] at h
      dsimp only at h
      cases hp : G.intersection plane segment with
      | none =>
        rw [hp] at h
        rcases ih _ _ _ h x hx with h1 | h1
        · exact Or.inl h1
        · exact Or.inr (List.mem_cons_of_mem _ h1)
      | some point =>
        rw [hp] at h
        rcases ih _ _ _ h x hx with h1 | h1
        · rcases List.mem_append.mp h1 with h2 | h2
          · exact Or.inl h2
          · rw [List.mem_singleton] at h2
            rw [h2]
            exact Or.inr (List.mem_cons_self _ _)
        · exact Or.inr (List.mem_cons_of_mem _ h1)

/-- The third loop of `intersect_with_bbox` adds the new edges of its rounds. -/
theorem bbox_split_loop_new (g0 : Intersection_graph) (V n s : Nat)
    (intersections : List (IEdge × Point_3)) (common : List Nat)
    (map_lines : List (Nat × Nat)) (hlen : intersections.length = n) (hn : 3 ≤ n)
    (hends : ∀ p ∈ g0.edges, p.2.source < V ∧ p.2.target < V)
    (hids : ∀ x ∈ intersections, x.1 < g0.next_edge) :
    ∀ (k a : Nat) (d d2 : Data_structure), a + k ≤ n →
      bbox_split_ok g0 V n s common map_lines a d.m_intersection_graph →
      Data_structure.bbox_split_loop s intersections common map_lines (List.range' V n)
        (List.range' a k) d = some d2 →
      bbox_split_ok g0 V n s common map_lines (a + k) d2.m_intersection_graph := by
  intro k
  induction k with
  | zero =>
    intro a d d2 _ hok h
    rw [List.range'_zero, Data_structure.bbox_split_loop] at h
    cases h
    exact hok
  | succ k ih =>
    intro a d d2 hak hok h
    rw [List.range'_succ] at h
    obtain ⟨iedge, pt, vertex, next_vertex, c, d7, hi, hv, hnv, hc, hr, hrest⟩ :=
      bbox_split_loop_cons _ _ _ _ _ _ _ _ _ h
    have ha : a < n := by omega
    have hm : (a + 1) % n < n := Nat.mod_lt _ (by omega)
    have ev : vertex = V + a := by
      rw [List.getElem?_range' _ _ ha] at hv
      simpa using hv.symm
    have env : next_vertex = V + (a + 1) % n := by
      rw [hlen, List.getElem?_range' _ _ hm] at hnv
      simpa using hnv.symm
    rw [ev, env] at hr
    have := bbox_round_ok g0 V n s common map_lines a c _ _ iedge hn ha hends
      (hids _ (List.getElem?_mem hi)) hc hok hr
    rw [show a + (k + 1) = (a + 1) + k by omega]
    exact ih (a + 1) d7 d2 (by omega) this hrest

/-- C28: for a support plane `s >= 6` whose plane hits `n >= 3` edges of the graph, in
points that are distinct and are not yet vertices of the graph, a call of
`intersect_with_bbox` that returns has added the `n` hit points as vertices and, besides
the two halves of each hit edge, `n` new IEdges: the new edge `i` joins the vertex of the
hit `i` to the vertex of the next hit in the cyclic order of the sorted hits; its plane set
holds `s` and the bbox plane `c` that is the only bbox plane common to the two hit edges;
its line is the entry of `c` in the memo, a line allocated during the call; and two bbox
planes have the same line in the memo if and only if they are the same plane. -/
theorem C28_intersect_with_bbox_new_edges (G : Geometry) (d d2 : Data_structure) (s : Nat)
    (sp : Support_plane) (collected : Point_3 × List (IEdge × Point_3))
    (hs : 6 ≤ s) (hsp : d.support_plane s = some sp)
    (hcol : collect_intersections G sp.plane d.m_intersection_graph
      d.m_intersection_graph.edge_list (0, 0, 0) [] = some collected)
    (hn : 3 ≤ collected.2.length)
    (hpts : (collected.2.map (fun x => x.2)).Nodup)
    (hnew : ∀ x ∈ collected.2, ∀ v ∈ d.m_intersection_graph.vertices, v.point ≠ x.2)
    (hids : ∀ p ∈ d.m_intersection_graph.edges, p.1 < d.m_intersection_graph.next_edge)
    (hends : ∀ p ∈ d.m_intersection_graph.edges,
      p.2.source < d.m_intersection_graph.vertices.length ∧
      p.2.target < d.m_intersection_graph.vertices.length)
    (h : d.intersect_with_bbox G s = some d2) :
    (sorted_intersections G sp.plane collected).Perm collected.2 ∧
    d2.m_intersection_graph.vertices = d.m_intersection_graph.vertices ++
      (sorted_intersections G sp.plane collected).map
        (fun x => (⟨x.2, true⟩ : Vertex_property)) ∧
    d2.m_intersection_graph.next_edge =
      d.m_intersection_graph.next_edge + 3 * collected.2.length ∧
    ∃ (common : List Nat) (memo : List (Nat × Nat)),
      common.length = collected.2.length ∧
      d2.m_intersection_graph.m_nb_lines = d.m_intersection_graph.m_nb_lines + memo.length ∧
      (∀ (i c : Nat), common[i]? = some c →
        ∃ (e0 e1 : IEdge × Point_3) (planes0 planes1 : List Nat) (line : Nat),
          (sorted_intersections G sp.plane collected)[i]? = some e0 ∧
          (sorted_intersections G sp.plane collected)[(i + 1) % collected.2.length]? =
            some e1 ∧
          d.intersected_planes e0.1 = some planes0 ∧
          d.intersected_planes e1.1 = some planes1 ∧
          c < 6 ∧ c ∈ planes0 ∧ c ∈ planes1 ∧
          (∀ x, x ∈ planes0 → x ∈ planes1 → x < 6 → x = c) ∧
          memo.lookup c = some line ∧
          d.m_intersection_graph.m_nb_lines ≤ line ∧
          line < d2.m_intersection_graph.m_nb_lines ∧
          (d.m_intersection_graph.next_edge + 3 * i + 2,
            (⟨d.m_intersection_graph.vertices.length + i,
              d.m_intersection_graph.vertices.length + (i + 1) % collected.2.length,
              set_insert c [s], line, true⟩ : Edge_property)) ∈
            d2.m_intersection_graph.edges) ∧
      (∀ (c1 c2 l1 l2 : Nat), memo.lookup c1 = some l1 → memo.lookup c2 = some l2 →
        (l1 = l2 ↔ c1 = c2)) := by
  have hperm : (sorted_intersections G sp.plane collected).Perm collected.2 :=
    sort_by_perm _ _
  have hlen : (sorted_intersections G sp.plane collected).length = collected.2.length :=
    hperm.length_eq
  unfold Data_structure.intersect_with_bbox at h
  rw [if_neg (by omega), hsp, Option.some_bind, hcol, Option.some_bind] at h
  dsimp only at h
  change ((bbox_scan_loop (sorted_intersections G sp.plane collected)
    (List.range (sorted_intersections G sp.plane collected).length)
    ⟨d.m_intersection_graph, [], [], []⟩).bind fun st =>
      if ¬ st.vertices.length = (sorted_intersections G sp.plane collected).length then none
      else Data_structure.bbox_split_loop s (sorted_intersections G sp.plane collected)
        st.common_planes_idx st.map_lines_idx st.vertices
        (List.range (sorted_intersections G sp.plane collected).length)
        { d with m_intersection_graph := st.graph }) = some d2 at h
  generalize hI : sorted_intersections G sp.plane collected = intersections at h hperm hlen
  rw [hlen] at h
  generalize hN : collected.2.length = n at h hlen hn
  have hpts2 : (intersections.map (fun x => x.2)).Nodup :=
    (hperm.map _).nodup_iff.mpr hpts
  have hnew2 : ∀ x ∈ intersections, ∀ v ∈ d.m_intersection_graph.vertices, v.point ≠ x.2 :=
    fun x hx => hnew x (hperm.mem_iff.mp hx)
  cases h2 : bbox_scan_loop intersections (List.range n)
      ⟨d.m_intersection_graph, [], [], []⟩ with
  | none => rw [h2] at h; cases h
  | some st =>
  rw [h2, Option.some_bind] at h
  split at h
  · cases h
  rw [List.range_eq_range'] at h2 h
  have hok0 : Bbox_scan.ok d.m_intersection_graph intersections 0
      ⟨d.m_intersection_graph, [], [], []⟩ := by
    refine ⟨rfl, rfl, by simp, by simp, rfl, rfl, by simp, by simp, ?_, ?_⟩
    · intro c hc; cases hc
    · intro i c hc; simp at hc
  have hok := bbox_scan_loop_ok d.m_intersection_graph intersections hpts2 hnew2 n 0 _ st
    hok0 h2
  rw [Nat.zero_add] at hok
  obtain ⟨k1, k2, k3, k4, k5, k6, k7, k8, k9, k10⟩ := hok
  rw [k4] at h
  have hsplit0 : bbox_split_ok st.graph d.m_intersection_graph.vertices.length n s
      st.common_planes_idx st.map_lines_idx 0 st.graph := by
    refine ⟨rfl, rfl, rfl, ?_, fun p hp _ => hp, ?_, ?_⟩
    · intro p hp
      rw [k1] at hp
      rw [k2]
      exact hids p hp
    · intro p hp hge
      rw [k1] at hp
      rw [k2] at hge
      exact absurd (hids p hp) (Nat.not_lt.mpr hge)
    · intro j c hj; cases hj
  have hids2 : ∀ x ∈ intersections, x.1 < st.graph.next_edge := by
    intro x hx
    rcases collect_intersections_ids G sp.plane _ _ _ _ _ hcol x (hperm.mem_iff.mp hx) with
      h1 | h1
    · cases h1
    · unfold Intersection_graph.edge_list at h1
      obtain ⟨p, hp, hp1⟩ := List.mem_map.mp h1
      rw [k2, ← hp1]
      exact hids p hp
  have hfin := bbox_split_loop_new st.graph d.m_intersection_graph.vertices.length n s
    intersections st.common_planes_idx st.map_lines_idx hlen hn
    (fun p hp => hends p (k1 ▸ hp)) hids2 n 0
    { d with m_intersection_graph := st.graph } d2 (by omega) hsplit0 h
  rw [Nat.zero_add] at hfin
  obtain ⟨j1, j1b, j1c, -, -, -, j3⟩ := hfin
  have hrange : ∀ c line, (c, line) ∈ st.map_lines_idx →
      d.m_intersection_graph.m_nb_lines ≤ line ∧
      line < d2.m_intersection_graph.m_nb_lines := by
    intro c line hm
    have : line ∈ st.map_lines_idx.map (fun kv => kv.2) := List.mem_map.mpr ⟨_, hm, rfl⟩
    rw [k7, List.mem_range'_1] at this
    rw [j1c, k6]
    exact this
  refine ⟨hperm, ?_, ?_, st.common_planes_idx, st.map_lines_idx, k5, ?_, ?_, ?_⟩
  · rw [j1b, k3, ← hlen, List.take_length]
  · rw [j1, k2]
  · rw [j1c, k6]
  · intro i c hic
    have hi : i < n := by
      rw [← k5]
      exact (List.getElem?_eq_some_iff.mp hic).1
    obtain ⟨e0, e1, planes0, planes1, a1, a2, a3, a4, a5, a6, a7, a8⟩ := k10 i c hic
    obtain ⟨line, hline⟩ := lookup_some_of_mem c _ (k9 c (List.getElem?_mem hic))
    have hr := hrange c line (lookup_mem_of c _ line hline)
    have hmem := j3 i c hi hic
    rw [hline, k2] at hmem
    rw [hlen] at a2
    exact ⟨e0, e1, planes0, planes1, line, a1, a2, a3, a4, a5, a6, a7, a8, hline, hr.1, hr.2,
      hmem⟩
  · intro c1 c2 l1 l2 h1 h2
    constructor
    · intro hl
      have m1 := lookup_mem_of c1 _ l1 h1
      have m2 := lookup_mem_of c2 _ l2 h2
      have hnd : (st.map_lines_idx.map (fun kv => kv.2)).Nodup := by
        rw [k7]; exact List.nodup_range' _ _
      have := List.inj_on_of_nodup_map hnd m1 m2 hl
      exact (Prod.mk.inj this).1
    · intro hc
      rw [hc, h2] at h1
      exact (Option.some.inj h1).symm

theorem C28_intersect_with_bbox_new_edges_witness :
    ∃ d2, sample_data_corner.intersect_with_bbox sample_cut_geometry 6 = some d2 ∧
      d2.m_intersection_graph.next_edge = 3 + 3 * 3 ∧
      ∃ (common : List Nat) (memo : List (Nat × Nat)),
        common.length = 3 ∧
        d2.m_intersection_graph.m_nb_lines = 3 + memo.length ∧
        (∀ (i c : Nat), common[i]? = some c →
          ∃ (line : Nat), c < 6 ∧ memo.lookup c = some line ∧ 3 ≤ line ∧
            line < d2.m_intersection_graph.m_nb_lines ∧
            (3 + 3 * i + 2,
              (⟨4 + i, 4 + (i + 1) % 3, set_insert c [6], line, true⟩ : Edge_property)) ∈
              d2.m_intersection_graph.edges) ∧
        (∀ (c1 c2 l1 l2 : Nat), memo.lookup c1 = some l1 → memo.lookup c2 = some l2 →
          (l1 = l2 ↔ c1 = c2)) := by
  obtain ⟨d2, e2⟩ := Option.isSome_iff_exists.mp
    (show (sample_data_corner.intersect_with_bbox sample_cut_geometry 6).isSome = true by
      with_unfolding_all decide)
  have hcol : collect_intersections sample_cut_geometry (1, 1, 1, -1)
      sample_data_corner.m_intersection_graph
      sample_data_corner.m_intersection_graph.edge_list (0, 0, 0) [] =
      some ((1 / 3, 1 / 3, 1 / 3), [(0, (1, 0, 0)), (1, (0, 1, 0)), (2, (0, 0, 1))]) := by
    with_unfolding_all decide
  obtain ⟨-, -, hnext, common, memo, hc, hl, hedges, hmemo⟩ :=
    C28_intersect_with_bbox_new_edges sample_cut_geometry sample_data_corner d2 6
      ⟨(1, 1, 1, -1), 0, [], [], []⟩
      ((1 / 3, 1 / 3, 1 / 3), [(0, (1, 0, 0)), (1, (0, 1, 0)), (2, (0, 0, 1))])
      (by decide) (by with_unfolding_all decide) hcol (by decide)
      (by with_unfolding_all decide) (by with_unfolding_all decide)
      (by with_unfolding_all decide) (by with_unfolding_all decide) e2
  refine ⟨d2, e2, hnext, common, memo, hc, hl, ?_, hmemo⟩
  intro i c hic
  obtain ⟨-, -, -, -, line, -, -, -, -, h5, -, -, -, h9, h10, h11, h12⟩ := hedges i c hic
  exact ⟨line, h5, h9, h10, h11, h12⟩

/-! ### `Semantic_from_label_map` -/

theorem find_append_entry (m : Label_to_semantic_map) (idx label : Int)
    (value : Semantic_label) :
    Label_to_semantic_map.find (m ++ [(idx, value)]) label =
      match m.find label with
      | some s => some s
      | none => if label = idx then some value else none := by
  unfold Label_to_semantic_map.find
  rw [List.find?_append]
  cases h : List.find? (fun kv => decide (kv.1 = label)) m with
  | some kv => simp
  | none =>
    by_cases hl : label = idx
    · subst hl; simp [List.find?]
    · have : ¬ idx = label := fun h2 => hl h2.symm
      simp [List.find?, hl, this]

theorem find_insert (m : Label_to_semantic_map) (idx label : Int) (value : Semantic_label) :
    (m.insert idx value).find label =
      match m.find label with
      | some s => some s
      | none => if label = idx then some value else none := by
  unfold Label_to_semantic_map.insert
  cases h : m.find idx with
  | some s =>
    dsimp only
    cases h2 : m.find label with
    | some s2 => rfl
    | none =>
      dsimp only
      by_cases hl : label = idx
      · rw [hl, h] at h2; cases h2
      · rw [if_neg hl]
  | none =>
    dsimp only
    exact find_append_entry m idx label value

/-- A loop of the constructor gives its semantic label to the integers of its list that
have no entry yet, and leaves the entries of the map as they are. -/
theorem find_insert_labels (value : Semantic_label) (label : Int) :
    ∀ (xs : List Int) (m : Label_to_semantic_map),
      (insert_labels value xs m).find label =
        match m.find label with
        | some s => some s
        | none => if label ∈ xs then some value else none := by
  intro xs
  induction xs with
  | nil =>
    intro m
    rw [insert_labels]
    cases h : m.find label with
    | some s => rfl
    | none => simp
  | cons idx rest ih =>
    intro m
    rw [insert_labels, ih, find_insert]
    cases h : m.find label with
    | some s => rfl
    | none =>
      dsimp only
      by_cases hl : label = idx
      · simp [hl]
      · simp [hl]

/-- C39: `get` on a `Semantic_from_label_map` returns, for an item with the label `L`, the
semantic label of the first of the four lists, in the order ground, building boundary,
building interior, vegetation, whose parsed integers contain `L`, and `UNCLASSIFIED` when
none of them does. -/
theorem C39_get_first_list {Key : Type} (parse : String → List Int) (label_map : Key → Int)
    (gi_str bi_str ii_str vi_str : String) (key : Key) :
    (Semantic_from_label_map.make parse label_map gi_str bi_str ii_str vi_str).get key =
      first_list_semantic (parse gi_str) (parse bi_str) (parse ii_str) (parse vi_str)
        (label_map key) := by
  unfold Semantic_from_label_map.get Semantic_from_label_map.make first_list_semantic
  dsimp only
  rw [find_insert_labels, find_insert_labels, find_insert_labels, find_insert_labels]
  have h0 : Label_to_semantic_map.find [] (label_map key) = none := rfl
  rw [h0]
  dsimp only
  by_cases h1 : label_map key ∈ parse gi_str
  · simp [h1]
  · by_cases h2 : label_map key ∈ parse bi_str
    · simp [h1, h2]
    · by_cases h3 : label_map key ∈ parse ii_str
      · simp [h1, h2, h3]
      · by_cases h4 : label_map key ∈ parse vi_str
        · simp [h1, h2, h3, h4]
        · simp [h1, h2, h3, h4]

/-! ### The local bounds of the Hausdorff distance -/

/-- C40: a call of `Hausdorff_primitive_traits_tm2::intersection` that passes its assertion
never increases the local bounds nor the running minima of the three vertices, its lower
estimate is at most its upper estimate, and it keeps the order of the local bounds: if
`lower <= upper` held before the call, it holds after it, for all distances. -/
theorem C40_local_bounds_ordered (t t2 : Hausdorff_primitive_traits_tm2)
    (v0_dist v1_dist v2_dist : FT) (primitive_id : Face_handle)
    (h : t.intersection v0_dist v1_dist v2_dist primitive_id = some t2) :
    t2.h_local_bounds.lower ≤ t.h_local_bounds.lower ∧
    t2.h_local_bounds.upper ≤ t.h_local_bounds.upper ∧
    t2.h_v0_lower ≤ t.h_v0_lower ∧ t2.h_v1_lower ≤ t.h_v1_lower ∧
    t2.h_v2_lower ≤ t.h_v2_lower ∧
    max (max t2.h_v0_lower t2.h_v1_lower) t2.h_v2_lower ≤
      max (max v0_dist v1_dist) v2_dist ∧
    (t.h_local_bounds.lower ≤ t.h_local_bounds.upper →
      t2.h_local_bounds.lower ≤ t2.h_local_bounds.upper) := by
  unfold Hausdorff_primitive_traits_tm2.intersection at h
  split at h
  · cases h
  simp only [Option.some.injEq] at h
  have a0 : (if v0_dist < t.h_v0_lower then v0_dist else t.h_v0_lower) ≤ v0_dist := by
    split
    · exact le_refl _
    · rename_i hc; exact not_lt.mp hc
  have a1 : (if v1_dist < t.h_v1_lower then v1_dist else t.h_v1_lower) ≤ v1_dist := by
    split
    · exact le_refl _
    · rename_i hc; exact not_lt.mp hc
  have a2 : (if v2_dist < t.h_v2_lower then v2_dist else t.h_v2_lower) ≤ v2_dist := by
    split
    · exact le_refl _
    · rename_i hc; exact not_lt.mp hc
  have b0 : (if v0_dist < t.h_v0_lower then v0_dist else t.h_v0_lower) ≤ t.h_v0_lower := by
    split
    · rename_i hc; exact le_of_lt hc
    · exact le_refl _
  have b1 : (if v1_dist < t.h_v1_lower then v1_dist else t.h_v1_lower) ≤ t.h_v1_lower := by
    split
    · rename_i hc; exact le_of_lt hc
    · exact le_refl _
  have b2 : (if v2_dist < t.h_v2_lower then v2_dist else t.h_v2_lower) ≤ t.h_v2_lower := by
    split
    · rename_i hc; exact le_of_lt hc
    · exact le_refl _
  have hd : max (max (if v0_dist < t.h_v0_lower then v0_dist else t.h_v0_lower)
      (if v1_dist < t.h_v1_lower then v1_dist else t.h_v1_lower))
      (if v2_dist < t.h_v2_lower then v2_dist else t.h_v2_lower) ≤
      max (max v0_dist v1_dist) v2_dist :=
    max_le_max (max_le_max a0 a1) a2
  generalize hdl : max (max (if v0_dist < t.h_v0_lower then v0_dist else t.h_v0_lower)
      (if v1_dist < t.h_v1_lower then v1_dist else t.h_v1_lower))
      (if v2_dist < t.h_v2_lower then v2_dist else t.h_v2_lower) = distance_lower at h hd
  generalize hdu : max (max v0_dist v1_dist) v2_dist = distance_upper at h hd
  rw [← h]
  dsimp only
  refine ⟨?_, ?_, b0, b1, b2, by rw [hdl]; exact hd, ?_⟩
  · by_cases c1 : distance_lower < t.h_local_bounds.lower
    · simp only [c1, if_true]
      split <;> exact le_of_lt c1
    · simp only [c1, if_false]
      split <;> exact le_refl _
  · by_cases c1 : distance_lower < t.h_local_bounds.lower
    · simp only [c1, if_true]
      split
      · rename_i c2; exact le_of_lt c2
      · exact le_refl _
    · simp only [c1, if_false]
      split
      · rename_i c2; exact le_of_lt c2
      · exact le_refl _
  · intro hle
    by_cases c1 : distance_lower < t.h_local_bounds.lower
    · simp only [c1, if_true]
      split
      · exact hd
      · rename_i c2
        exact le_trans (le_of_lt c1) hle
    · simp only [c1, if_false]
      split
      · exact le_trans (not_lt.mp c1) hd
      · exact hle

theorem C40_local_bounds_ordered_witness :
    sample_hausdorff_traits.intersection 1 (3 / 2) 3 (some 7) =
      some ⟨⟨2, 3, some 0, some 7⟩, 1, 1, 3⟩ ∧
    (2 : FT) ≤ 2 ∧ (3 : FT) ≤ 5 ∧ (1 : FT) ≤ 3 ∧ (1 : FT) ≤ 1 ∧ (3 : FT) ≤ 4 ∧
    max (max (1 : FT) 1) 3 ≤ max (max 1 (3 / 2)) 3 ∧
    ((2 : FT) ≤ 5 → (2 : FT) ≤ 3) :=
  ⟨by with_unfolding_all decide,
    C40_local_bounds_ordered sample_hausdorff_traits ⟨⟨2, 3, some 0, some 7⟩, 1, 1, 3⟩
      1 (3 / 2) 3 (some 7) (by with_unfolding_all decide)⟩

/-! ### `test_dim_down` -/

/-- The loop of `test_dim_down` over the windows from `i` up to the bound
`points.size() - 4`, when this difference does not wrap around. -/
theorem test_dim_down_loop_eq (on_boundary : Point_3 → Point_3 → Point_3 → Point_3 → Bool)
    (points : List Point_3) (hm : 4 ≤ points.length) :
    ∀ (k i fuel : Nat), i + k = points.length - 4 → k < fuel →
      test_dim_down_loop on_boundary points (points.length - 4) fuel i true =
        some ((List.range' i k).all (window_on_boundary on_boundary points)) := by
  intro k
  induction k with
  | zero =>
    intro i fuel hik hf
    cases fuel with
    | zero => omega
    | succ n =>
      rw [test_dim_down_loop, if_neg (by omega)]
      rfl
  | succ k ih =>
    intro i fuel hik hf
    cases fuel with
    | zero => omega
    | succ n =>
      rw [test_dim_down_loop, if_pos (by omega)]
      obtain ⟨p, hp⟩ : ∃ p, points[i]? = some p :=
        ⟨_, List.getElem?_eq_getElem (by omega)⟩
      obtain ⟨q, hq⟩ : ∃ q, points[i + 1]? = some q :=
        ⟨_, List.getElem?_eq_getElem (by omega)⟩
      obtain ⟨r, hr⟩ : ∃ r, points[i + 2]? = some r :=
        ⟨_, List.getElem?_eq_getElem (by omega)⟩
      obtain ⟨s, hs⟩ : ∃ s, points[i + 3]? = some s :=
        ⟨_, List.getElem?_eq_getElem (by omega)⟩
      have hw : window_on_boundary on_boundary points i = on_boundary p q r s := by
        unfold window_on_boundary
        rw [hp, hq, hr, hs]
      rw [hp, hq, hr, hs]
      dsimp only
      rw [List.range'_succ, List.all_cons, hw]
      cases hb : on_boundary p q r s with
      | false => simp
      | true =>
        simp only [Bool.true_and, not_true_eq_false, if_false]
        rw [ih (i + 1) n (by omega) (by omega)]

/-- C34 (code bug): with at least four vertices other than `v`, and not four vertices in
all, `test_dim_down(v)` returns true exactly when the windows of four consecutive points
that start at the indices `0, ..., points.size() - 5` pass the power test: the loop bound
`points.size() - 4` leaves out the last window, the one that starts at
`points.size() - 4`. With five vertices no window is tested at all and the result is
true, whatever the power test says. -/
theorem C34_test_dim_down_skips_last_window
    (on_boundary : Point_3 → Point_3 → Point_3 → Point_3 → Bool)
    (vertices : List (Vertex_handle × Point_3)) (v : Vertex_handle)
    (h4 : vertices.length ≠ 4) (hm : 4 ≤ (other_points vertices v).length)
    (hsize : (other_points vertices v).length < 2 ^ 64) :
    test_dim_down on_boundary 2 vertices v =
      some ((List.range ((other_points vertices v).length - 4)).all
        (window_on_boundary on_boundary (other_points vertices v))) ∧
    ((other_points vertices v).length = 4 →
      test_dim_down on_boundary 2 vertices v = some true) := by
  have hb : ((other_points vertices v).length + 2 ^ 64 - 4) % 2 ^ 64 =
      (other_points vertices v).length - 4 := by
    have : (other_points vertices v).length + 2 ^ 64 - 4 =
        ((other_points vertices v).length - 4) + 2 ^ 64 := by omega
    rw [this, Nat.add_mod_right, Nat.mod_eq_of_lt (by omega)]
  have main : test_dim_down on_boundary 2 vertices v =
      some ((List.range ((other_points vertices v).length - 4)).all
        (window_on_boundary on_boundary (other_points vertices v))) := by
    unfold test_dim_down
    rw [if_neg (by simp), if_neg h4]
    show test_dim_down_loop on_boundary (other_points vertices v)
      (((other_points vertices v).length + 2 ^ 64 - 4) % 2 ^ 64)
      ((other_points vertices v).length + 1) 0 true = _
    rw [hb, test_dim_down_loop_eq on_boundary _ hm ((other_points vertices v).length - 4) 0 _
      (by omega) (by omega), List.range_eq_range']
  refine ⟨main, fun h => ?_⟩
  rw [main, h]
  rfl

theorem C34_test_dim_down_skips_last_window_witness :
    test_dim_down sample_coplanar 2 sample_sphere_vertices 4 = some true ∧
    other_points sample_sphere_vertices 4 = [(1, 0, 0), (0, 1, 0), (0, 0, 1), (-1, 0, 0)] ∧
    window_on_boundary sample_coplanar (other_points sample_sphere_vertices 4) 0 = false :=
  ⟨(C34_test_dim_down_skips_last_window sample_coplanar sample_sphere_vertices 4
      (by decide) (by decide) (by decide)).2 (by decide),
    by with_unfolding_all decide, by with_unfolding_all decide⟩

/-! ### The budget `k` at zero -/

/-- C35 (code bug): the postfix decrement of the `unsigned int` budget is not guarded. When
the budget of the plane of the pvertex is 0 and a call for an occupied iedge records a new
memo entry, the call returns false and leaves the budget at `4294967295`: the budget has
increased. For a budget that is at least 1, a call never increases it. -/
theorem C35_budget_wraps_at_zero (d : Data_structure) (pvertex : PVertex) (e : IEdge)
    (b : Bool) (d2 : Data_structure) (hk : d.k pvertex.1 = some 0)
    (h : d.update_limit_lines_and_k pvertex e true = some (b, d2))
    (hne : d2.m_limit_lines ≠ d.m_limit_lines) :
    b = false ∧ d2.k pvertex.1 = some 4294967295 ∧
    (∀ (d3 : Data_structure) (p k : Nat) (occ : Bool) (r : Bool × Data_structure),
      d3.k p = some k → 1 ≤ k → k < 4294967296 →
      d3.update_limit_lines_and_k pvertex e occ = some r →
      ∃ k2, r.2.k p = some k2 ∧ k2 ≤ k) := by
  refine ⟨?_, ?_, ?_⟩
  · rcases update_some_cases d pvertex e true (b, d2) h with ⟨hr, -⟩ | ⟨s2, line, hc⟩
    · cases hr; exact absurd rfl hne
    · rw [update_eq_tail d pvertex e true s2 line hc] at h
      rcases update_tail_cases d pvertex.1 s2 line true b d2 h with
        ⟨-, hd⟩ | ⟨-, -, ⟨hocc, -, -⟩ | ⟨-, hk1, -, -⟩ | ⟨-, -, hb, -⟩⟩
      · rw [hd] at hne; exact absurd rfl hne
      · cases hocc
      · rw [hk] at hk1; cases hk1
      · exact hb
  · rcases update_some_cases d pvertex e true (b, d2) h with ⟨hr, -⟩ | ⟨s2, line, hc⟩
    · cases hr; exact absurd rfl hne
    · rw [update_eq_tail d pvertex e true s2 line hc] at h
      rcases update_tail_cases d pvertex.1 s2 line true b d2 h with
        ⟨-, hd⟩ | ⟨-, -, ⟨hocc, -, -⟩ | ⟨-, hk1, -, -⟩ | ⟨-, -, -, hd⟩⟩
      · rw [hd] at hne; exact absurd rfl hne
      · cases hocc
      · rw [hk] at hk1; cases hk1
      · rw [hd, decrement_k_k_self _ pvertex.1 0 (by rw [push_limit_k]; exact hk)]
        rfl
  · intro d3 p k occ r hk3 hk1 hk2 hr
    obtain ⟨k2, h1, -, h3⟩ := update_budget_step p k d3 ⟨pvertex, e, occ⟩ r hk3 hk1 hk2 hr
    exact ⟨k2, h1, by omega⟩

theorem C35_budget_wraps_at_zero_witness :
    (sample_data 0).k 6 = some 0 ∧
    ∃ d2, (sample_data 0).update_limit_lines_and_k (6, 0) 0 true = some (false, d2) ∧
      d2.k 6 = some 4294967295 := by
  obtain ⟨r, hr⟩ := Option.isSome_iff_exists.mp
    (show ((sample_data 0).update_limit_lines_and_k (6, 0) 0 true).isSome = true by decide)
  obtain ⟨b, d2⟩ := r
  have hne : d2.m_limit_lines ≠ (sample_data 0).m_limit_lines := by
    have : ((sample_data 0).update_limit_lines_and_k (6, 0) 0 true).map
        (fun r => r.2.m_limit_lines) = some [[((6, 7), false)], []] := by decide
    rw [hr] at this
    simp only [Option.map_some', Option.some.injEq] at this
    rw [this]
    decide
  obtain ⟨hb, hk, -⟩ := C35_budget_wraps_at_zero (sample_data 0) (6, 0) 0 b d2 (by decide)
    hr hne
  rw [hb] at hr
  exact ⟨by decide, d2, hr, hk⟩

/-! ### The size of the cluster of `pvertices_around_ivertex` -/

/-- A walk that starts after a vertex that is not free holds its first vertex. -/
theorem border_walk_head (B : Border_access) (ivertex : IVertex) (fuel : Nat)
    (previous current : PVertex) (W : List PVertex)
    (h : B.border_walk ivertex fuel previous current false = some W) :
    W.head? = some current := by
  cases fuel with
  | zero => rw [Border_access.border_walk] at h; cases h
  | succ n =>
    rw [Border_access.border_walk] at h
    simp only [Bool.false_and, Bool.false_eq_true, if_false] at h
    split at h
    · split at h
      · cases h
      · cases hw : B.border_walk ivertex n current (B.border_prev_and_next current).2
            (B.is_free ivertex current) with
        | none => rw [hw] at h; cases h
        | some W2 => rw [hw] at h; cases h; rfl
    · cases hw : B.border_walk ivertex n current (B.border_prev_and_next current).1
          (B.is_free ivertex current) with
      | none => rw [hw] at h; cases h
      | some W2 => rw [hw] at h; cases h; rfl

/-- C36: whenever the loop of `pvertices_around_ivertex` ends, the deque holds the query
pvertex with its border predecessor just before it and its border successor just after
it, whatever the bindings, directions and frozen flags of the vertices are; so it has at
least three entries, the final assertion `crossed_pvertices.size() >= 3` passes and the
call returns the deque. -/
theorem C36_cluster_has_three (B : Border_access) (fuel : Nat) (pvertex : PVertex)
    (ivertex : IVertex) (l : List PVertex)
    (h : B.around_loop ivertex fuel
      [⟨pvertex, (B.border_prev_and_next pvertex).1, true, false⟩,
       ⟨pvertex, (B.border_prev_and_next pvertex).2, false, false⟩] [pvertex] = some l) :
    (∃ before after, l = before ++
      [(B.border_prev_and_next pvertex).1, pvertex, (B.border_prev_and_next pvertex).2] ++
      after) ∧
    3 ≤ l.length ∧
    B.pvertices_around_ivertex fuel pvertex ivertex = some l := by
  obtain ⟨F, K, hF, hK, hl⟩ := around_loop_two B ivertex fuel _ _ _ _ (by simp) h
  dsimp only at hF hK hl
  have hF2 := border_walk_head B ivertex fuel _ _ F hF
  have hK2 := border_walk_head B ivertex fuel _ _ K hK
  cases F with
  | nil => cases hF2
  | cons f F2 =>
    cases K with
    | nil => cases hK2
    | cons k K2 =>
      simp only [List.head?_cons, Option.some.injEq] at hF2 hK2
      subst hF2 hK2
      have hl2 : l = F2.reverse ++
          [(B.border_prev_and_next pvertex).1, pvertex, (B.border_prev_and_next pvertex).2] ++
          K2 := by
        rw [hl]; simp
      have hlen : 3 ≤ l.length := by
        rw [hl2]; simp only [List.length_append, List.length_cons, List.length_nil]; omega
      refine ⟨⟨F2.reverse, K2, hl2⟩, hlen, ?_⟩
      unfold Border_access.pvertices_around_ivertex
      dsimp only
      rw [h]
      dsimp only
      rw [if_neg (not_not_intro hlen)]

theorem C36_cluster_has_three_witness :
    (∃ before after, [((6 : Nat), (7 : Nat)), (6, 0), (6, 1), (6, 2), (6, 3)] = before ++
      [(sample_border.border_prev_and_next (6, 0)).1, (6, 0),
        (sample_border.border_prev_and_next (6, 0)).2] ++ after) ∧
    3 ≤ [((6 : Nat), (7 : Nat)), (6, 0), (6, 1), (6, 2), (6, 3)].length ∧
    sample_border.pvertices_around_ivertex 20 (6, 0) 0 =
      some [(6, 7), (6, 0), (6, 1), (6, 2), (6, 3)] :=
  C36_cluster_has_three sample_border 20 (6, 0) 0 [(6, 7), (6, 0), (6, 1), (6, 2), (6, 3)]
    (by with_unfolding_all decide)

/-! ### `remove_equal_points`: the output as a subsequence -/

theorem far_from_predecessor_sublist (min_dist : FT) :
    ∀ (rest : List Point_2) (p : Point_2),
      (far_from_predecessor min_dist p rest).Sublist rest := by
  intro rest
  induction rest with
  | nil => intro p; exact List.Sublist.slnil
  | cons q rest ih =>
    intro p
    rw [far_from_predecessor]
    split
    · exact List.Sublist.cons q (ih q)
    · exact List.Sublist.cons₂ q (ih q)

theorem far_from_predecessor_all (min_dist : FT) :
    ∀ (rest : List Point_2) (p : Point_2),
      (∀ (i : Nat) (a b : Point_2), (p :: rest)[i]? = some a → (p :: rest)[i + 1]? = some b →
        distance_less a b min_dist = false) →
      far_from_predecessor min_dist p rest = rest := by
  intro rest
  induction rest with
  | nil => intro p _; rfl
  | cons q rest ih =>
    intro p h
    rw [far_from_predecessor]
    have h0 : distance_less p q min_dist = false := h 0 p q (by simp) (by simp)
    rw [h0]
    simp only [Bool.false_eq_true, if_false]
    rw [ih q (fun i a b ha hb => h (i + 1) a b (by simpa using ha) (by simpa using hb))]

/-- C38: on every input on which it succeeds, the output of `remove_equal_points` is a
subsequence of the input, in the order of the input, that starts with the first input
point; and it is the input when no point is at a distance less than `min_dist` from the
next one in the cyclic order. -/
theorem C38_remove_equal_points_subsequence (points out : List Point_2) (min_dist : FT)
    (h : remove_equal_points points min_dist = some out) :
    out.Sublist points ∧ points ≠ [] ∧ out.head? = points.head? ∧
    ((∀ (i : Nat) (a b : Point_2), points[i]? = some a →
        points[(i + 1) % points.length]? = some b → distance_less a b min_dist = false) →
      out = points) := by
  rw [remove_equal_points_eq] at h
  split at h
  · rename_i h3
    simp only [Option.some.injEq] at h
    subst h
    cases points with
    | nil => simp [far_from_input_predecessor] at h3
    | cons p rest =>
      rw [far_from_input_predecessor]
      refine ⟨List.Sublist.cons₂ p (far_from_predecessor_sublist min_dist rest p),
        List.cons_ne_nil _ _, rfl, ?_⟩
      intro hall
      rw [far_from_predecessor_all min_dist rest p]
      intro i a b ha hb
      have hi : i + 1 < (p :: rest).length := (List.getElem?_eq_some_iff.mp hb).1
      apply hall i a b ha
      rw [Nat.mod_eq_of_lt hi]
      exact hb
  · cases h

theorem C38_remove_equal_points_subsequence_witness :
    List.Sublist [((0 : FT), (0 : FT)), (-2, 0), (50, 0), (50, 50)]
      [(0, 0), (9, 0), (-2, 0), (50, 0), (50, 50)] ∧
    [((0 : FT), (0 : FT)), (9, 0), (-2, 0), (50, 0), (50, 50)] ≠ [] ∧
    List.head? [((0 : FT), (0 : FT)), (-2, 0), (50, 0), (50, 50)] =
      List.head? [((0 : FT), (0 : FT)), (9, 0), (-2, 0), (50, 0), (50, 50)] ∧
    ((∀ (i : Nat) (a b : Point_2),
        [((0 : FT), (0 : FT)), (9, 0), (-2, 0), (50, 0), (50, 50)][i]? = some a →
        [((0 : FT), (0 : FT)), (9, 0), (-2, 0), (50, 0), (50, 50)][(i + 1) %
          [((0 : FT), (0 : FT)), (9, 0), (-2, 0), (50, 0), (50, 50)].length]? = some b →
        distance_less a b 10 = false) →
      [((0 : FT), (0 : FT)), (-2, 0), (50, 0), (50, 50)] =
        [(0, 0), (9, 0), (-2, 0), (50, 0), (50, 50)]) :=
  C38_remove_equal_points_subsequence [(0, 0), (9, 0), (-2, 0), (50, 0), (50, 50)]
    [(0, 0), (-2, 0), (50, 0), (50, 50)] 10 (by with_unfolding_all decide)

/-! ### `is_volume_degenerate` -/

theorem count_query_pedges_eq (d : Data_structure) (query : IEdge) :
    ∀ (es : List PEdge) (n r : Nat), d.count_query_pedges query es n = some r →
      r = n + es.countP (fun pedge => d.iedge_of_pedge pedge = some query) := by
  intro es
  induction es with
  | nil =>
    intro n r h
    rw [Data_structure.count_query_pedges] at h
    cases h; simp
  | cons pedge rest ih =>
    intro n r h
    rw [Data_structure.count_query_pedges] at h
    cases hi : d.iedge_of_pedge pedge with
    | none => rw [hi] at h; cases h
    | some iedge =>
      rw [hi] at h
      have h2 := ih _ r h
      rw [List.countP_cons, hi, h2]
      by_cases hq : iedge = query
      · simp [hq]; omega
      · simp [hq]

theorem count_query_pedges_total (d : Data_structure) (query : IEdge) :
    ∀ (es : List PEdge) (n : Nat), (∀ pedge ∈ es, (d.iedge_of_pedge pedge).isSome = true) →
      ∃ r, d.count_query_pedges query es n = some r := by
  intro es
  induction es with
  | nil => intro n _; exact ⟨n, by rw [Data_structure.count_query_pedges]⟩
  | cons pedge rest ih =>
    intro n hb
    obtain ⟨iedge, hi⟩ := Option.isSome_iff_exists.mp (hb pedge (List.mem_cons_self _ _))
    rw [Data_structure.count_query_pedges, hi]
    exact ih _ (fun pe hpe => hb pe (List.mem_cons_of_mem _ hpe))

theorem find_adjacent_pfaces_loop_eq (M : Mesh_access) (d : Data_structure) (current : PFace)
    (query : IEdge) :
    ∀ (fs : List PFace) (n r : Nat), d.find_adjacent_pfaces_loop M current query fs n = some r →
      r = n + (((fs.filter (fun pface => pface ≠ current)).map M.pedges_of_pface).flatten).countP
        (fun pedge => d.iedge_of_pedge pedge = some query) := by
  intro fs
  induction fs with
  | nil =>
    intro n r h
    rw [Data_structure.find_adjacent_pfaces_loop] at h
    cases h; simp
  | cons pface rest ih =>
    intro n r h
    rw [Data_structure.find_adjacent_pfaces_loop] at h
    by_cases hc : pface = current
    · rw [if_pos hc] at h
      rw [ih n r h, List.filter_cons_of_neg (by simp [hc])]
    · rw [if_neg hc] at h
      cases hq : d.count_query_pedges query (M.pedges_of_pface pface) n with
      | none => rw [hq] at h; cases h
      | some m =>
        rw [hq] at h
        rw [ih m r h, count_query_pedges_eq d query _ n m hq,
          List.filter_cons_of_pos (by simp [hc]), List.map_cons, List.flatten_cons,
          List.countP_append]
        omega

theorem find_adjacent_pfaces_loop_total (M : Mesh_access) (d : Data_structure)
    (current : PFace) (query : IEdge) :
    ∀ (fs : List PFace) (n : Nat),
      (∀ pface ∈ fs, ∀ pedge ∈ M.pedges_of_pface pface,
        (d.iedge_of_pedge pedge).isSome = true) →
      ∃ r, d.find_adjacent_pfaces_loop M current query fs n = some r := by
  intro fs
  induction fs with
  | nil => intro n _; exact ⟨n, by rw [Data_structure.find_adjacent_pfaces_loop]⟩
  | cons pface rest ih =>
    intro n hb
    have hrest : ∀ pf ∈ rest, ∀ pedge ∈ M.pedges_of_pface pf,
        (d.iedge_of_pedge pedge).isSome = true :=
      fun pf hpf => hb pf (List.mem_cons_of_mem _ hpf)
    rw [Data_structure.find_adjacent_pfaces_loop]
    by_cases hc : pface = current
    · rw [if_pos hc]; exact ih n hrest
    · rw [if_neg hc]
      obtain ⟨m, hm⟩ := count_query_pedges_total d query (M.pedges_of_pface pface) n
        (hb pface (List.mem_cons_self _ _))
      rw [hm]; exact ih m hrest

theorem find_adjacent_pfaces_eq (M : Mesh_access) (d : Data_structure) (current : PFace)
    (query : IEdge) (pfaces : List PFace) (r : Nat)
    (h : d.find_adjacent_pfaces M current query pfaces = some r) :
    r = d.adjacent_count M current query pfaces := by
  unfold Data_structure.find_adjacent_pfaces at h
  rw [find_adjacent_pfaces_loop_eq M d current query pfaces 0 r h]
  unfold Data_structure.adjacent_count
  omega

theorem count_shared_pedges_eq (M : Mesh_access) (d : Data_structure) (pface : PFace)
    (pfaces : List PFace) :
    ∀ (es : List PEdge) (c r : Nat), d.count_shared_pedges M pface pfaces es c = some r →
      r = c + es.countP (d.shared_once M pface pfaces) := by
  intro es
  induction es with
  | nil =>
    intro c r h
    rw [Data_structure.count_shared_pedges] at h
    cases h; simp
  | cons pedge rest ih =>
    intro c r h
    rw [Data_structure.count_shared_pedges] at h
    cases hi : d.iedge_of_pedge pedge with
    | none => rw [hi] at h; cases h
    | some iedge =>
      rw [hi] at h
      dsimp only at h
      cases hf : d.find_adjacent_pfaces M pface iedge pfaces with
      | none => rw [hf] at h; cases h
      | some num_found =>
        rw [hf] at h
        have h2 := ih _ r h
        have h3 := find_adjacent_pfaces_eq M d pface iedge pfaces num_found hf
        have h4 : d.shared_once M pface pfaces pedge = decide (num_found = 1) := by
          unfold Data_structure.shared_once
          rw [hi, h3]
        rw [List.countP_cons, h4, h2]
        by_cases h1 : num_found = 1
        · simp [h1]; omega
        · simp [h1]

theorem count_shared_pedges_total (M : Mesh_access) (d : Data_structure) (pface : PFace)
    (pfaces : List PFace)
    (hb : ∀ pf ∈ pfaces, ∀ pedge ∈ M.pedges_of_pface pf,
      (d.iedge_of_pedge pedge).isSome = true) :
    ∀ (es : List PEdge) (c : Nat), (∀ pedge ∈ es, (d.iedge_of_pedge pedge).isSome = true) →
      ∃ r, d.count_shared_pedges M pface pfaces es c = some r := by
  intro es
  induction es with
  | nil => intro c _; exact ⟨c, by rw [Data_structure.count_shared_pedges]⟩
  | cons pedge rest ih =>
    intro c he
    obtain ⟨iedge, hi⟩ := Option.isSome_iff_exists.mp (he pedge (List.mem_cons_self _ _))
    obtain ⟨nf, hf⟩ := find_adjacent_pfaces_loop_total M d pface iedge pfaces 0 hb
    rw [Data_structure.count_shared_pedges, hi]
    unfold Data_structure.find_adjacent_pfaces
    dsimp only
    rw [hf]
    exact ih _ (fun pe hpe => he pe (List.mem_cons_of_mem _ hpe))

theorem is_volume_degenerate_loop_eq (M : Mesh_access) (d : Data_structure)
    (pfaces : List PFace) :
    ∀ (fs : List PFace) (b : Bool), d.is_volume_degenerate_loop M pfaces fs = some b →
      (b = false ↔ ∀ pface ∈ fs, ∀ pedge ∈ M.pedges_of_pface pface,
        d.shared_once M pface pfaces pedge = true) := by
  intro fs
  induction fs with
  | nil =>
    intro b h
    rw [Data_structure.is_volume_degenerate_loop] at h
    cases h; simp
  | cons pface rest ih =>
    intro b h
    rw [Data_structure.is_volume_degenerate_loop] at h
    try dsimp only at h
    cases hc : d.count_shared_pedges M pface pfaces (M.pedges_of_pface pface) 0 with
    | none => rw [hc] at h; cases h
    | some count =>
      rw [hc] at h
      dsimp only at h
      have h2 := count_shared_pedges_eq M d pface pfaces _ 0 count hc
      rw [Nat.zero_add] at h2
      by_cases hn : count = (M.pedges_of_pface pface).length
      · rw [if_neg (not_not.mpr hn)] at h
        have hall := List.countP_eq_length.mp (h2.symm.trans hn)
        rw [ih b h]
        constructor
        · intro hr pf hpf
          rcases List.mem_cons.mp hpf with he | hin
          · rw [he]; exact hall
          · exact hr pf hin
        · intro hr pf hpf
          exact hr pf (List.mem_cons_of_mem _ hpf)
      · rw [if_pos hn] at h
        cases h
        constructor
        · intro hf; cases hf
        · intro hr
          exact absurd (h2.trans (List.countP_eq_length.mpr (hr pface (List.mem_cons_self _ _)))) hn

theorem is_volume_degenerate_loop_total (M : Mesh_access) (d : Data_structure)
    (pfaces : List PFace)
    (hb : ∀ pf ∈ pfaces, ∀ pedge ∈ M.pedges_of_pface pf,
      (d.iedge_of_pedge pedge).isSome = true) :
    ∀ (fs : List PFace), (∀ pf ∈ fs, pf ∈ pfaces) →
      ∃ b, d.is_volume_degenerate_loop M pfaces fs = some b := by
  intro fs
  induction fs with
  | nil => intro _; exact ⟨false, by rw [Data_structure.is_volume_degenerate_loop]⟩
  | cons pface rest ih =>
    intro hsub
    obtain ⟨count, hc⟩ := count_shared_pedges_total M d pface pfaces hb
      (M.pedges_of_pface pface) 0 (hb pface (hsub pface (List.mem_cons_self _ _)))
    rw [Data_structure.is_volume_degenerate_loop]
    try dsimp only
    rw [hc]
    dsimp only
    by_cases hn : count = (M.pedges_of_pface pface).length
    · rw [if_neg (not_not.mpr hn)]
      exact ih (fun pf hpf => hsub pf (List.mem_cons_of_mem _ hpf))
    · rw [if_pos hn]
      exact ⟨true, rfl⟩

theorem shared_once_iff (M : Mesh_access) (d : Data_structure) (pface : PFace)
    (pfaces : List PFace) (pedge : PEdge) :
    d.shared_once M pface pfaces pedge = true ↔
      ∃ iedge, d.iedge_of_pedge pedge = some iedge ∧
        d.adjacent_count M pface iedge pfaces = 1 := by
  unfold Data_structure.shared_once
  cases hi : d.iedge_of_pedge pedge with
  | none => simp
  | some iedge => simp

/-- C37: `is_volume_degenerate(pfaces)` returns whenever every pedge of every face of the
list is bound to an iedge (otherwise the assertion `has_iedge(pedge)` fails), and whenever
it returns, it returns false if and only if for every face `f` of the list and every pedge
of `f` exactly one pedge among the faces of the list different from `f` is bound to the
same iedge. For the empty list it returns false. -/
theorem C37_volume_degenerate_iff (M : Mesh_access) (d : Data_structure)
    (pfaces : List PFace) :
    ((∀ pface ∈ pfaces, ∀ pedge ∈ M.pedges_of_pface pface,
        (d.iedge_of_pedge pedge).isSome = true) →
      ∃ b, d.is_volume_degenerate M pfaces = some b) ∧
    (∀ b, d.is_volume_degenerate M pfaces = some b →
      (b = false ↔ ∀ pface ∈ pfaces, ∀ pedge ∈ M.pedges_of_pface pface,
        ∃ iedge, d.iedge_of_pedge pedge = some iedge ∧
          d.adjacent_count M pface iedge pfaces = 1)) ∧
    d.is_volume_degenerate M [] = some false := by
  refine ⟨?_, ?_, ?_⟩
  · intro hb
    exact is_volume_degenerate_loop_total M d pfaces hb pfaces (fun _ h => h)
  · intro b h
    rw [is_volume_degenerate_loop_eq M d pfaces pfaces b h]
    constructor
    · intro hr pf hpf pe hpe
      exact (shared_once_iff M d pf pfaces pe).mp (hr pf hpf pe hpe)
    · intro hr pf hpf pe hpe
      exact (shared_once_iff M d pf pfaces pe).mpr (hr pf hpf pe hpe)
  · rfl

theorem C37_volume_degenerate_iff_witness :
    sample_data_pillow.is_volume_degenerate sample_mesh_access [(6, 0), (7, 0)] = some false ∧
    (∀ pface ∈ [((6, 0) : PFace), (7, 0)],
      ∀ pedge ∈ sample_mesh_access.pedges_of_pface pface,
        ∃ iedge, sample_data_pillow.iedge_of_pedge pedge = some iedge ∧
          sample_data_pillow.adjacent_count sample_mesh_access pface iedge
            [(6, 0), (7, 0)] = 1) ∧
    sample_data_pillow.is_volume_degenerate sample_mesh_access [(6, 0)] = some true :=
  have h : sample_data_pillow.is_volume_degenerate sample_mesh_access [(6, 0), (7, 0)] =
      some false := by with_unfolding_all decide
  ⟨h, ((C37_volume_degenerate_iff sample_mesh_access sample_data_pillow
      [(6, 0), (7, 0)]).2.1 false h).mp rfl, by with_unfolding_all decide⟩

/-! ### The parallel test and the missing intersection -/

theorem compute_future_flags (tol : FT) (i : Future_input) (o : Future_output)
    (h : compute_future_points_and_directions tol i = some o) :
    o.is_parallel_prev = slopes_differ_less tol i.prev_p i.curr_p i.source_p i.target_p ∧
    o.is_parallel_next = slopes_differ_less tol i.next_p i.curr_p i.source_p i.target_p := by
  unfold compute_future_points_and_directions at h
  split at h
  · cases h
  dsimp only at h
  split at h
  · cases h
  split at h
  · cases h
  cases h
  exact ⟨rfl, rfl⟩

/-- C31 (as stated, refuted): on the sample input the routine returns and reports the
previous vertex as parallel, although the slope of the line through the points of the
previous vertex and of the pvertex at the time `m_current_time + 1` (it is `-1`) differs
from the slope of the iedge line (it is `0`) by more than the tolerance: the test of the
source is made on the current points. -/
theorem C31_parallel_from_extrapolated_line_refuted :
    (compute_future_points_and_directions (1 / 100000) sample_future_turning).map
        (fun o => o.is_parallel_prev) = some true ∧
    slopes_differ_less (1 / 100000) sample_future_turning.prev_future
        sample_future_turning.curr_future sample_future_turning.source_p
        sample_future_turning.target_p = false := by
  constructor
  · with_unfolding_all decide
  · with_unfolding_all decide

/-- C31 (amended): whenever `compute_future_points_and_directions` returns, it reports the
previous (resp. next) vertex as parallel exactly when the slope of the line through the
current points of the previous (resp. next) vertex and of the pvertex differs from the
slope of the iedge line by less than the tolerance; the points at the time
`m_current_time + 1` have no part in the two flags. -/
theorem C31_parallel_from_current_edge (tol : FT) (i : Future_input) (o : Future_output)
    (h : compute_future_points_and_directions tol i = some o) :
    o.is_parallel_prev = slopes_differ_less tol i.prev_p i.curr_p i.source_p i.target_p ∧
    o.is_parallel_next = slopes_differ_less tol i.next_p i.curr_p i.source_p i.target_p := by
  unfold compute_future_points_and_directions at h
  split at h
  · cases h
  dsimp only at h
  split at h
  · cases h
  split at h
  · cases h
  cases h
  unfold slopes_differ_less
  exact ⟨rfl, rfl⟩

theorem C31_parallel_from_current_edge_witness :
    ∃ o, compute_future_points_and_directions (1 / 100000) sample_future_turning = some o ∧
      o.is_parallel_prev = slopes_differ_less (1 / 100000) sample_future_turning.prev_p
        sample_future_turning.curr_p sample_future_turning.source_p
        sample_future_turning.target_p ∧
      o.is_parallel_next = slopes_differ_less (1 / 100000) sample_future_turning.next_p
        sample_future_turning.curr_p sample_future_turning.source_p
        sample_future_turning.target_p := by
  obtain ⟨o, ho⟩ := Option.isSome_iff_exists.mp
    (show (compute_future_points_and_directions (1 / 100000) sample_future_turning).isSome =
      true by with_unfolding_all decide)
  exact ⟨o, ho, C31_parallel_from_current_edge _ _ o ho⟩

/-- C32 (code bug): when the previous vertex is not parallel and the line through the
points at the time `m_current_time + 1` has no intersection with the iedge line, the
routine prints a warning and goes on: whenever it returns, the direction
`future_direction_a` that it returns is the vector from `pinit` to the value that
`future_point_a` held when the routine was called, a value that the routine has not
set. -/
theorem C32_missing_intersection_uses_unset_point (tol : FT) (i : Future_input)
    (o : Future_output)
    (h : compute_future_points_and_directions tol i = some o)
    (hp : o.is_parallel_prev = false)
    (hx : line_intersection ⟨i.prev_future, i.curr_future⟩ ⟨i.source_p, i.target_p⟩ = none) :
    o.future_direction_a =
      vector_2 ((⟨i.source_p, i.target_p⟩ : Line_2).projection i.curr_p) i.future_point_a := by
  have hpar := (compute_future_flags tol i o h).1
  rw [hp] at hpar
  unfold slopes_differ_less at hpar
  unfold compute_future_points_and_directions at h
  split at h
  · cases h
  dsimp only at h
  rw [← hpar] at h
  simp only [Bool.false_eq_true, if_false, hx] at h
  split at h
  · cases h
  rename_i fa da hfa
  split at h
  · cases h
  cases h
  dsimp only
  exact (finish_future_point_some _ _ _ fa da hfa).1

theorem C32_missing_intersection_uses_unset_point_witness :
    (∃ o, compute_future_points_and_directions (1 / 100000) (sample_future_missing (7, 3)) =
        some o ∧ o.is_parallel_prev = false ∧
      o.future_direction_a =
        vector_2 ((⟨(sample_future_missing (7, 3)).source_p,
          (sample_future_missing (7, 3)).target_p⟩ : Line_2).projection
            (sample_future_missing (7, 3)).curr_p) (sample_future_missing (7, 3)).future_point_a) ∧
    (compute_future_points_and_directions (1 / 100000) (sample_future_missing (7, 3))).map
      (fun o => o.future_direction_a) = some (6, 3) ∧
    (compute_future_points_and_directions (1 / 100000) (sample_future_missing (0, 5))).map
      (fun o => o.future_direction_a) = some (-1, 5) := by
  refine ⟨?_, by with_unfolding_all decide, by with_unfolding_all decide⟩
  obtain ⟨o, ho⟩ := Option.isSome_iff_exists.mp
    (show (compute_future_points_and_directions (1 / 100000)
      (sample_future_missing (7, 3))).isSome = true by with_unfolding_all decide)
  have hp : o.is_parallel_prev = false := by
    have h2 : (compute_future_points_and_directions (1 / 100000)
        (sample_future_missing (7, 3))).map (fun o => o.is_parallel_prev) = some false := by
      with_unfolding_all decide
    rw [ho] at h2
    exact Option.some.inj h2
  exact ⟨o, ho, hp, C32_missing_intersection_uses_unset_point _ _ o ho hp
    (by with_unfolding_all decide)⟩

/-! ### The entries that `set_limit_lines` records -/

theorem iedges_of_line_eq (d : Data_structure) (i : Nat) :
    ∀ (l iedges : List IEdge), d.iedges_of_line i l = some iedges →
      iedges = l.filter (fun e => d.line_idx e = some i) := by
  intro l
  induction l with
  | nil =>
    intro iedges h
    rw [Data_structure.iedges_of_line] at h
    cases h; rfl
  | cons iedge rest ih =>
    intro iedges h
    rw [Data_structure.iedges_of_line] at h
    cases hl : d.line_idx iedge with
    | none => rw [hl] at h; cases h
    | some line_idx =>
      rw [hl] at h
      dsimp only at h
      split at h
      · cases h
      split at h
      · cases h
      cases hr : d.iedges_of_line i rest with
      | none => rw [hr] at h; cases h
      | some r =>
        rw [hr] at h
        dsimp only at h
        have h2 := ih r hr
        by_cases hi : line_idx = i
        · rw [if_pos hi] at h
          cases h
          rw [List.filter_cons_of_pos (by simp [hl, hi]), h2]
        · rw [if_neg hi] at h
          cases h
          rw [List.filter_cons_of_neg (by simp [hl, hi]), h2]

theorem mem_pedge_insert (x pe : PEdge) (acc : List PEdge) :
    pe ∈ pedge_insert x acc ↔ pe ∈ acc ∨ pe = x := by
  unfold pedge_insert
  split
  · rename_i hx
    constructor
    · exact fun h => Or.inl h
    · rintro (h | h)
      · exact h
      · rw [h]; exact hx
  · simp

theorem occupied_pedges_of_plane_mem (q : IEdge) (pe : PEdge) :
    ∀ (es : List (PEdge × Mesh_edge)) (acc : List PEdge),
      pe ∈ occupied_pedges_of_plane q es acc ↔
        pe ∈ acc ∨ ∃ pm ∈ es, pm.1 = pe ∧ pm.2.iedge = some q := by
  intro es
  induction es with
  | nil => intro acc; simp [occupied_pedges_of_plane]
  | cons x rest ih =>
    intro acc
    rw [occupied_pedges_of_plane]
    split
    · rename_i hx
      rw [ih, mem_pedge_insert]
      constructor
      · rintro ((h | h) | ⟨pm, hpm, h⟩)
        · exact Or.inl h
        · exact Or.inr ⟨x, List.mem_cons_self _ _, h.symm, hx⟩
        · exact Or.inr ⟨pm, List.mem_cons_of_mem _ hpm, h⟩
      · rintro (h | ⟨pm, hpm, h1, h2⟩)
        · exact Or.inl (Or.inl h)
        · rcases List.mem_cons.mp hpm with he | hin
          · rw [he] at h1; exact Or.inl (Or.inr h1.symm)
          · exact Or.inr ⟨pm, hin, h1, h2⟩
    · rename_i hx
      rw [ih]
      constructor
      · rintro (h | ⟨pm, hpm, h⟩)
        · exact Or.inl h
        · exact Or.inr ⟨pm, List.mem_cons_of_mem _ hpm, h⟩
      · rintro (h | ⟨pm, hpm, h1, h2⟩)
        · exact Or.inl h
        · rcases List.mem_cons.mp hpm with he | hin
          · rw [he] at h2; exact absurd h2 hx
          · exact Or.inr ⟨pm, hin, h1, h2⟩

theorem get_occupied_pedges_loop_mem (d : Data_structure) (pvertex : PVertex) (q : IEdge)
    (pe : PEdge) :
    ∀ (planes : List Nat) (acc r : List PEdge),
      d.get_occupied_pedges_loop pvertex q planes acc = some r →
      (pe ∈ r ↔ pe ∈ acc ∨ ∃ s ∈ planes, s ≠ pvertex.1 ∧ 6 ≤ s ∧
        ∃ es, d.pedges s = some es ∧ ∃ pm ∈ es, pm.1 = pe ∧ pm.2.iedge = some q) := by
  intro planes
  induction planes with
  | nil =>
    intro acc r h
    rw [Data_structure.get_occupied_pedges_loop] at h
    cases h; simp
  | cons s rest ih =>
    intro acc r h
    rw [Data_structure.get_occupied_pedges_loop] at h
    split at h
    · rename_i hs
      rw [ih acc r h]
      constructor
      · rintro (h1 | ⟨s2, hs2, h2⟩)
        · exact Or.inl h1
        · exact Or.inr ⟨s2, List.mem_cons_of_mem _ hs2, h2⟩
      · rintro (h1 | ⟨s2, hs2, h2⟩)
        · exact Or.inl h1
        · rcases List.mem_cons.mp hs2 with he | hin
          · rw [he] at h2; exact absurd hs h2.1
          · exact Or.inr ⟨s2, hin, h2⟩
    split at h
    · rename_i hs hlt
      rw [ih acc r h]
      constructor
      · rintro (h1 | ⟨s2, hs2, h2⟩)
        · exact Or.inl h1
        · exact Or.inr ⟨s2, List.mem_cons_of_mem _ hs2, h2⟩
      · rintro (h1 | ⟨s2, hs2, h2⟩)
        · exact Or.inl h1
        · rcases List.mem_cons.mp hs2 with he | hin
          · rw [he] at h2; exact absurd h2.2.1 (Nat.not_le.mpr hlt)
          · exact Or.inr ⟨s2, hin, h2⟩
    rename_i hs hlt
    cases hes : d.pedges s with
    | none => rw [hes] at h; cases h
    | some es =>
      rw [hes] at h
      dsimp only at h
      rw [ih _ r h, occupied_pedges_of_plane_mem]
      constructor
      · rintro ((h1 | h1) | ⟨s2, hs2, h2⟩)
        · exact Or.inl h1
        · exact Or.inr ⟨s, List.mem_cons_self _ _, hs, Nat.not_lt.mp hlt, es, hes, h1⟩
        · exact Or.inr ⟨s2, List.mem_cons_of_mem _ hs2, h2⟩
      · rintro (h1 | ⟨s2, hs2, h2⟩)
        · exact Or.inl (Or.inl h1)
        · rcases List.mem_cons.mp hs2 with he | hin
          · rw [he] at h2
            obtain ⟨-, -, es2, hes2, h3⟩ := h2
            rw [hes] at hes2
            cases hes2
            exact Or.inl (Or.inr h3)
          · exact Or.inr ⟨s2, hin, h2⟩

theorem occupied_pedges_of_line_mem (d : Data_structure) (pe : PEdge) :
    ∀ (iedges : List IEdge) (acc r : List PEdge),
      d.occupied_pedges_of_line iedges acc = some r →
      (pe ∈ r ↔ pe ∈ acc ∨ ∃ iedge ∈ iedges, ∃ planes,
        d.intersected_planes iedge = some planes ∧ ∃ s ∈ planes, s ≠ null_pvertex.1 ∧ 6 ≤ s ∧
          ∃ es, d.pedges s = some es ∧ ∃ pm ∈ es, pm.1 = pe ∧ pm.2.iedge = some iedge) := by
  intro iedges
  induction iedges with
  | nil =>
    intro acc r h
    rw [Data_structure.occupied_pedges_of_line] at h
    cases h; simp
  | cons iedge rest ih =>
    intro acc r h
    rw [Data_structure.occupied_pedges_of_line] at h
    cases hg : d.get_occupied_pedges null_pvertex iedge acc with
    | none => rw [hg] at h; cases h
    | some pedges =>
      rw [hg] at h
      dsimp only at h
      unfold Data_structure.get_occupied_pedges at hg
      cases hp : d.intersected_planes iedge with
      | none => rw [hp] at hg; cases hg
      | some planes =>
        rw [hp] at hg
        dsimp only at hg
        rw [ih pedges r h, get_occupied_pedges_loop_mem d null_pvertex iedge pe planes acc pedges hg]
        constructor
        · rintro ((h1 | h1) | ⟨e2, he2, h2⟩)
          · exact Or.inl h1
          · exact Or.inr ⟨iedge, List.mem_cons_self _ _, planes, hp, h1⟩
          · exact Or.inr ⟨e2, List.mem_cons_of_mem _ he2, h2⟩
        · rintro (h1 | ⟨e2, he2, h2⟩)
          · exact Or.inl (Or.inl h1)
          · rcases List.mem_cons.mp he2 with he | hin
            · rw [he] at h2
              obtain ⟨planes2, hp2, h3⟩ := h2
              rw [hp] at hp2
              cases hp2
              exact Or.inl (Or.inr h3)
            · exact Or.inr ⟨e2, hin, h2⟩

theorem pedges_fst (d : Data_structure) (s : Nat) (es : List (PEdge × Mesh_edge))
    (h : d.pedges s = some es) : ∀ pm ∈ es, pm.1.1 = s := by
  unfold Data_structure.pedges at h
  cases hsp : d.support_plane s with
  | none => rw [hsp] at h; cases h
  | some sp =>
    rw [hsp] at h
    cases h
    intro pm hpm
    obtain ⟨x, -, hx⟩ := List.mem_map.mp hpm
    rw [← hx]

theorem unique_planes_fold (s : Nat) :
    ∀ (ps : List PEdge) (acc : List Nat), acc.Pairwise (fun a b => a < b) →
      ((ps.foldl (fun unique_sps pedge => set_insert pedge.1 unique_sps) acc).Pairwise
          (fun a b => a < b)) ∧
      (s ∈ ps.foldl (fun unique_sps pedge => set_insert pedge.1 unique_sps) acc ↔
        s ∈ acc ∨ ∃ pe ∈ ps, pe.1 = s) := by
  intro ps
  induction ps with
  | nil => intro acc hacc; simpa using hacc
  | cons p rest ih =>
    intro acc hacc
    rw [List.foldl_cons]
    obtain ⟨h1, h2⟩ := ih (set_insert p.1 acc) (set_insert_pairwise p.1 acc hacc)
    refine ⟨h1, ?_⟩
    rw [h2, mem_set_insert]
    constructor
    · rintro ((h | h) | ⟨pe, hpe, h⟩)
      · exact Or.inr ⟨p, List.mem_cons_self _ _, h.symm⟩
      · exact Or.inl h
      · exact Or.inr ⟨pe, List.mem_cons_of_mem _ hpe, h⟩
    · rintro (h | ⟨pe, hpe, h⟩)
      · exact Or.inl (Or.inr h)
      · rcases List.mem_cons.mp hpe with he | hin
        · rw [he] at h; exact Or.inl (Or.inl h.symm)
        · exact Or.inr ⟨pe, hin, h⟩

theorem unique_planes_of_bound (d : Data_structure) (i : Nat) (iedges : List IEdge)
    (unique_pedges : List PEdge)
    (h1 : d.iedges_of_line i d.iedges = some iedges)
    (h2 : d.occupied_pedges_of_line iedges [] = some unique_pedges) :
    (unique_planes_of unique_pedges).Pairwise (fun a b => a < b) ∧
    ∀ s, s ∈ unique_planes_of unique_pedges ↔ d.has_bound_pedge i s := by
  unfold unique_planes_of
  refine ⟨(unique_planes_fold 0 unique_pedges [] List.Pairwise.nil).1, ?_⟩
  intro s
  rw [(unique_planes_fold s unique_pedges [] List.Pairwise.nil).2]
  have hi := iedges_of_line_eq d i _ _ h1
  unfold Data_structure.has_bound_pedge
  constructor
  · rintro (h | ⟨pe, hpe, hs⟩)
    · cases h
    · rcases (occupied_pedges_of_line_mem d pe iedges [] unique_pedges h2).mp hpe with h | h
      · cases h
      · obtain ⟨iedge, hie, planes, hp, s2, hs2, hne, h6, es, hes, pm, hpm, hpe2, hbound⟩ := h
        rw [hi, List.mem_filter] at hie
        have hs3 : s2 = s := by
          rw [← hs, ← hpe2]; exact (pedges_fst d s2 es hes pm hpm).symm
        rw [hs3] at hs2 hne h6 hes
        exact ⟨iedge, hie.1, by simpa using hie.2, planes, hp, hs2, hne, h6, es, hes, pm, hpm,
          hbound⟩
  · rintro ⟨iedge, hie, hline, planes, hp, hs2, hne, h6, es, hes, pm, hpm, hbound⟩
    refine Or.inr ⟨pm.1, ?_, pedges_fst d s es hes pm hpm⟩
    refine (occupied_pedges_of_line_mem d pm.1 iedges [] unique_pedges h2).mpr (Or.inr ?_)
    refine ⟨iedge, ?_, planes, hp, s, hs2, hne, h6, es, hes, pm, hpm, rfl, hbound⟩
    rw [hi, List.mem_filter]
    exact ⟨hie, by simpa using hline⟩

theorem potential_planes_eq (sp_idx_1 : Nat) :
    ∀ (planes ps : List Nat), potential_planes sp_idx_1 planes = some ps →
      ps = planes.filter (fun s => s ≠ sp_idx_1) := by
  intro planes
  induction planes with
  | nil =>
    intro ps h
    rw [potential_planes] at h
    cases h; rfl
  | cons s rest ih =>
    intro ps h
    rw [potential_planes] at h
    split at h
    · rename_i hs
      rw [ih ps h, List.filter_cons_of_neg (by simp [hs])]
    split at h
    · cases h
    rename_i hs _
    cases hr : potential_planes sp_idx_1 rest with
    | none => rw [hr] at h; cases h
    | some r =>
      rw [hr] at h
      cases h
      rw [ih r hr, List.filter_cons_of_pos (by simp [hs])]

theorem new_limit_pairs_entry (planes : Option (List Nat)) (sps : List Nat)
    (items : Limit_line) (h : new_limit_pairs planes sps = some items) :
    (sps = [] → items = []) ∧
    (∀ s1, sps = [s1] → ∃ pl s2, planes = some pl ∧
      pl.filter (fun s => s ≠ s1) = [s2] ∧ s2 ≠ s1 ∧ items = [((s1, s2), false)]) ∧
    (∀ s1 s2, sps = [s1, s2] → items = [((s1, s2), false), ((s2, s1), false)]) := by
  match sps, h with
  | [], h =>
    rw [new_limit_pairs] at h
    cases h
    exact ⟨fun _ => rfl, fun s1 hs => (by cases hs), fun s1 s2 hs => (by cases hs)⟩
  | [sp1], h =>
    rw [new_limit_pairs] at h
    refine ⟨fun hs => (by cases hs), ?_, fun s1 s2 hs => (by cases hs)⟩
    intro s1 hs
    cases hs
    cases hpl : planes with
    | none => rw [hpl] at h; cases h
    | some pl =>
      rw [hpl, Option.some_bind] at h
      cases hpp : potential_planes sp1 pl with
      | none => rw [hpp] at h; cases h
      | some ps =>
        rw [hpp] at h
        dsimp only at h
        split at h
        · cases h
        rename_i hlen
        split at h
        · cases h
        split at h
        · cases h
        split at h
        · cases h
        rename_i hne _ _
        cases h
        have hlen2 : ps.length = 1 := not_not.mp hlen
        have hps := potential_planes_eq sp1 pl ps hpp
        match ps, hlen2, hps with
        | [s2], _, hps =>
          exact ⟨pl, s2, rfl, hps.symm, not_not.mp hne, rfl⟩
  | [sp1, sp2], h =>
    rw [new_limit_pairs] at h
    split at h
    · cases h
    split at h
    · cases h
    split at h
    · cases h
    cases h
    refine ⟨fun hs => (by cases hs), fun s1 hs => (by cases hs), ?_⟩
    intro s1 s2 hs
    cases hs
    rfl
  | _ :: _ :: _ :: _, h =>
    rw [new_limit_pairs] at h
    cases h

theorem push_limit_fields (d : Data_structure) (i : Nat) (item : (Nat × Nat) × Bool)
    (hi : i < d.m_limit_lines.length) :
    (d.push_limit i item).m_support_planes = d.m_support_planes ∧
    (d.push_limit i item).m_intersection_graph = d.m_intersection_graph ∧
    (d.push_limit i item).m_limit_lines.length = d.m_limit_lines.length ∧
    (∀ j, j ≠ i → (d.push_limit i item).m_limit_lines[j]? = d.m_limit_lines[j]?) ∧
    (d.push_limit i item).m_limit_lines[i]? = some (d.m_limit_lines.getD i [] ++ [item]) := by
  unfold Data_structure.push_limit
  refine ⟨rfl, rfl, by simp, ?_, ?_⟩
  · intro j hj
    exact List.getElem?_set_ne (Ne.symm hj)
  · exact List.getElem?_set_self hi

theorem push_limits_fields (items : Limit_line) :
    ∀ (d : Data_structure) (i : Nat) (entry : Limit_line), i < d.m_limit_lines.length →
      d.m_limit_lines[i]? = some entry →
      (d.push_limits i items).m_support_planes = d.m_support_planes ∧
      (d.push_limits i items).m_intersection_graph = d.m_intersection_graph ∧
      (d.push_limits i items).m_limit_lines.length = d.m_limit_lines.length ∧
      (∀ j, j ≠ i → (d.push_limits i items).m_limit_lines[j]? = d.m_limit_lines[j]?) ∧
      (d.push_limits i items).m_limit_lines[i]? = some (entry ++ items) := by
  induction items with
  | nil =>
    intro d i entry _ he
    rw [Data_structure.push_limits]
    exact ⟨rfl, rfl, rfl, fun _ _ => rfl, by simpa using he⟩
  | cons item rest ih =>
    intro d i entry hi he
    rw [Data_structure.push_limits]
    obtain ⟨a1, a2, a3, a4, a5⟩ := push_limit_fields d i item hi
    have hg : d.m_limit_lines.getD i [] = entry := by
      rw [List.getD_eq_getElem?_getD, he]; rfl
    rw [hg] at a5
    obtain ⟨b1, b2, b3, b4, b5⟩ := ih (d.push_limit i item) i (entry ++ [item])
      (by rw [a3]; exact hi) a5
    refine ⟨b1.trans a1, b2.trans a2, b3.trans a3, fun j hj => (b4 j hj).trans (a4 j hj), ?_⟩
    rw [b5, List.append_assoc]; rfl

theorem limit_entry_ok_congr (d d2 : Data_structure) (i : Nat) (entry : Limit_line)
    (hp : d2.m_support_planes = d.m_support_planes)
    (hg : d2.m_intersection_graph = d.m_intersection_graph) :
    d2.limit_entry_ok i entry ↔ d.limit_entry_ok i entry := by
  simp only [Data_structure.limit_entry_ok, Data_structure.has_bound_pedge,
    Data_structure.entry_of_planes, Data_structure.iedges, Data_structure.line_idx,
    Data_structure.intersected_planes, Data_structure.pedges, Data_structure.support_plane,
    hp, hg]

theorem set_limit_line_entry (d d2 : Data_structure) (i : Nat)
    (h : d.set_limit_line i = some d2) (hi : i < d.m_limit_lines.length)
    (he : d.m_limit_lines[i]? = some []) :
    d2.m_support_planes = d.m_support_planes ∧
    d2.m_intersection_graph = d.m_intersection_graph ∧
    d2.m_limit_lines.length = d.m_limit_lines.length ∧
    (∀ j, j ≠ i → d2.m_limit_lines[j]? = d.m_limit_lines[j]?) ∧
    ∃ entry, d2.m_limit_lines[i]? = some entry ∧ d.limit_entry_ok i entry := by
  unfold Data_structure.set_limit_line at h
  cases h1 : d.iedges_of_line i d.iedges with
  | none => rw [h1] at h; cases h
  | some iedges =>
    rw [h1] at h
    dsimp only at h
    split at h
    · cases h
    rename_i hpos
    cases h2 : d.occupied_pedges_of_line iedges [] with
    | none => rw [h2] at h; cases h
    | some unique_pedges =>
      rw [h2] at h
      dsimp only at h
      obtain ⟨hpw, hmem⟩ := unique_planes_of_bound d i iedges unique_pedges h1 h2
      split at h
      · rename_i hzero
        cases h
        refine ⟨rfl, rfl, rfl, fun _ _ => rfl, [], he, unique_planes_of unique_pedges, hpw, ?_,
          hmem, ?_⟩
        · rw [List.length_eq_zero.mp hzero]; exact Nat.zero_le _
        · rw [List.length_eq_zero.mp hzero]
          exact ⟨fun _ => rfl, fun s1 hs => (by cases hs), fun s1 s2 hs => (by cases hs)⟩
      split at h
      · cases h
      split at h
      · cases h
      rename_i hle
      split at h
      · cases h
      cases hn : new_limit_pairs (d.intersected_planes (iedges.getD 0 null_iedge))
          (unique_planes_of unique_pedges) with
      | none => rw [hn] at h; cases h
      | some items =>
        rw [hn] at h
        cases h
        obtain ⟨b1, b2, b3, b4, b5⟩ := push_limits_fields items d i [] hi he
        refine ⟨b1, b2, b3, b4, items, by simpa using b5, unique_planes_of unique_pedges, hpw,
          not_not.mp hle, hmem, ?_⟩
        obtain ⟨c1, c2, c3⟩ := new_limit_pairs_entry _ _ items hn
        refine ⟨c1, ?_, c3⟩
        intro s1 hs
        obtain ⟨pl, s2, hpl, hf, hne, hit⟩ := c2 s1 hs
        have hi0 := iedges_of_line_eq d i _ _ h1
        refine ⟨iedges.getD 0 null_iedge, pl, s2, ?_, hpl, hf, hne, hit⟩
        rw [← hi0]
        match iedges, hpos with
        | e :: _, _ => rfl
        | [], hpos => simp at hpos

theorem set_limit_lines_loop_entries (is : List Nat) :
    ∀ (d d2 : Data_structure), d.set_limit_lines_loop is = some d2 → is.Nodup →
      (∀ i ∈ is, i < d.m_limit_lines.length ∧ d.m_limit_lines[i]? = some []) →
      d2.m_support_planes = d.m_support_planes ∧
      d2.m_intersection_graph = d.m_intersection_graph ∧
      d2.m_limit_lines.length = d.m_limit_lines.length ∧
      (∀ j, j ∉ is → d2.m_limit_lines[j]? = d.m_limit_lines[j]?) ∧
      ∀ i ∈ is, ∃ entry, d2.m_limit_lines[i]? = some entry ∧ d.limit_entry_ok i entry := by
  induction is with
  | nil =>
    intro d d2 h _ _
    rw [Data_structure.set_limit_lines_loop] at h
    cases h
    exact ⟨rfl, rfl, rfl, fun _ _ => rfl, fun i hi => by cases hi⟩
  | cons i rest ih =>
    intro d d2 h hnd hall
    rw [Data_structure.set_limit_lines_loop] at h
    cases h1 : d.set_limit_line i with
    | none => rw [h1] at h; cases h
    | some d1 =>
      rw [h1] at h
      dsimp only at h
      obtain ⟨hi, he⟩ := hall i (List.mem_cons_self _ _)
      obtain ⟨a1, a2, a3, a4, entry, a5, a6⟩ := set_limit_line_entry d d1 i h1 hi he
      have hnd2 := List.nodup_cons.mp hnd
      obtain ⟨b1, b2, b3, b4, b5⟩ := ih d1 d2 h hnd2.2 (by
        intro j hj
        have hji : j ≠ i := fun hc => hnd2.1 (hc ▸ hj)
        obtain ⟨c1, c2⟩ := hall j (List.mem_cons_of_mem _ hj)
        exact ⟨by rw [a3]; exact c1, by rw [a4 j hji]; exact c2⟩)
      refine ⟨b1.trans a1, b2.trans a2, b3.trans a3, ?_, ?_⟩
      · intro j hj
        rw [List.mem_cons, not_or] at hj
        rw [b4 j hj.2, a4 j hj.1]
      · intro j hj
        rcases List.mem_cons.mp hj with hji | hin
        · rw [hji, b4 i hnd2.1]
          exact ⟨entry, a5, a6⟩
        · obtain ⟨e2, c1, c2⟩ := b5 j hin
          exact ⟨e2, c1, (limit_entry_ok_congr d d1 j e2 a1 a2).mp c2⟩

/-- C33: whenever `set_limit_lines` returns (no assertion fails), the memo has one entry
list for every intersection line, and for every line `i` the planes that have pedges bound
to the iedges of the line (as `get_occupied_pedges` collects them: the planes of an iedge
of the line that are not bbox planes and have a mesh edge bound to that iedge) are at most
two, and the entry list is: empty when there is no such plane; the single pair
`((s1, s2), false)` when `s1` is the only such plane, where `s2` is the only other plane of
the first iedge of the line, and not the swapped pair; the two pairs `((s1, s2), false)`,
`((s2, s1), false)` when the planes are `s1 < s2`. -/
theorem C33_set_limit_lines_entries (d d2 : Data_structure)
    (h : d.set_limit_lines = some d2) :
    d2.m_limit_lines.length = d.nb_intersection_lines ∧
    ∀ i, i < d.nb_intersection_lines →
      ∃ entry, d2.m_limit_lines[i]? = some entry ∧ d.limit_entry_ok i entry := by
  unfold Data_structure.set_limit_lines at h
  dsimp only at h
  obtain ⟨a1, a2, a3, -, a5⟩ := set_limit_lines_loop_entries _ _ d2 h (List.nodup_range _) (by
    intro i hi
    rw [List.mem_range, List.length_replicate] at hi
    refine ⟨by rw [List.length_replicate]; exact hi, ?_⟩
    rw [List.getElem?_replicate, if_pos hi])
  rw [List.length_replicate] at a3
  refine ⟨a3, ?_⟩
  intro i hi
  obtain ⟨entry, b1, b2⟩ := a5 i (by rw [List.mem_range, List.length_replicate]; exact hi)
  exact ⟨entry, b1, (limit_entry_ok_congr d _ i entry rfl rfl).mp b2⟩

theorem C33_set_limit_lines_entries_witness :
    (sample_data_meshes []).set_limit_lines =
      some { sample_data_meshes [] with m_limit_lines := [[((7, 6), false)], []] } ∧
    (sample_data_meshes [⟨some 0, some 0, none⟩]).set_limit_lines =
      some { sample_data_meshes [⟨some 0, some 0, none⟩] with
        m_limit_lines := [[((6, 7), false), ((7, 6), false)], []] } ∧
    ∀ i, i < (sample_data_meshes []).nb_intersection_lines →
      ∃ entry, ({ sample_data_meshes [] with
          m_limit_lines := [[((7, 6), false)], []] } : Data_structure).m_limit_lines[i]? =
            some entry ∧
        (sample_data_meshes []).limit_entry_ok i entry :=
  have h : (sample_data_meshes []).set_limit_lines =
      some { sample_data_meshes [] with m_limit_lines := [[((7, 6), false)], []] } := by
    decide
  ⟨h, by decide, (C33_set_limit_lines_entries (sample_data_meshes []) _ h).2⟩

/-! ### The reference rule of `update_limit_lines_and_k`, for every budget -/

end KSR_3
